import Mathlib

/-!
# erhe: frame-synchronised GPU streams

A shallow embedding of the per-frame streaming code of the erhe editor:
`Material_buffer::update` (src/editor/renderers/material_buffer.cpp),
`Line_renderer::next_frame` (src/erhe/application/renderers/line_renderer.cpp),
`Forward_renderer::next_frame` / `Forward_renderer::render` /
`Forward_renderer::render_fullscreen` (src/editor/renderers/forward_renderer.cpp) and
`Editor_rendering_impl::end_frame`, the tool passes of
`Editor_rendering_impl::setup_renderpasses`, `Editor_rendering_impl::render_tool_meshes`,
`Editor_rendering_impl::apply_filter` and `Editor_rendering_impl::render_content`
(src/editor/editor_rendering.cpp); and of the code around it:
`Line_renderer::begin` / `Line_renderer::add_lines`
(src/erhe/application/renderers/line_renderer.cpp), `Buffer_transfer_queue`
(src/erhe/graphics/buffer_transfer_queue.cpp), `Vertex_format::add_attribute`
(src/erhe/graphics/vertex_format.cpp), `Component::set_state`
(src/erhe/components/component.cpp) and `Remapper` (src/erhe/geometry/remapper.hpp).

Conventions.
* `std::size_t` byte offsets and byte counts are natural numbers: they address
  a region inside one mapped buffer and never come near `2^64`.
* `uint32_t` and `uint64_t` values that the code computes with (the material
  index counter, the packed texture word) are reduced modulo `2^32` / `2^64`.
* A `float` is represented by its IEEE-754 bit pattern, so that `as_span` of a
  value is a list of bytes.
* Objects reached through pointers live in a heap indexed by address.
* A process abort (`ERHE_FATAL`, failed `ERHE_VERIFY`) is an `Except.error`
  carrying the state in which the process stopped.
* The renderers are modelled by the trace of the calls they make (`Gl_call`), a
  stream update being recorded with its arguments and the range it returned.
* A `std::vector` indexed by ids is the function from index to element; threads
  are program counters that a schedule advances one step at a time.
-/

namespace erhe.toolkit

/-- Why the process stopped: an `ERHE_FATAL`, or an `ERHE_VERIFY` whose condition is false.
Both macros come from a header that is not among the sources; following the spec ("fatal -
log at critical severity and abort the process") they end the run. An index outside a
`gsl::span` ends the run as well (the span checks its index and terminates). -/
inductive Fault where
  | fatal_material_buffer_capacity_exceeded
  | verify_failed
  | fatal_invalid_state_transition
  | span_index_out_of_range
deriving DecidableEq, Repr

end erhe.toolkit

namespace erhe.graphics

/-- Little-endian image of the low `count` bytes of `value`. -/
def le_bytes : Nat → Nat → List Nat
  | 0, _ => []
  | count + 1, value => value % 256 :: le_bytes count (value / 256)

/-- Byte image of one `float` / `uint32_t` (4 bytes). -/
def as_span_float (bits : Nat) : List Nat := le_bytes 4 bits

/-- Byte image of a `glm::vec2`. -/
def as_span_vec2 (v : Nat × Nat) : List Nat := le_bytes 4 v.1 ++ le_bytes 4 v.2

/-- Byte image of a `glm::vec4`. -/
def as_span_vec4 (v : Nat × Nat × Nat × Nat) : List Nat :=
  le_bytes 4 v.1 ++ le_bytes 4 v.2.1 ++ le_bytes 4 v.2.2.1 ++ le_bytes 4 v.2.2.2

/-- Byte image of a `uint64_t`. -/
def as_span_uint64 (v : Nat) : List Nat := le_bytes 8 v

/-- Contents of a mapped byte span, by byte offset from the start of the span. -/
abbrev Gpu_data := Nat → Nat

/-- The C library `memset(dst + offset, value, count)`. -/
def memset (dst : Gpu_data) (offset value count : Nat) : Gpu_data :=
  fun a => if offset ≤ a ∧ a < offset + count then value else dst a

/-- Modelled from the spec: `erhe::graphics::write(dst, offset, source)` is declared in a
header that is not among the sources; it "write[s] each field at `write_offset + field_offset`
using the field's native binary representation", i.e. copies the bytes of `source` to
`dst[offset ..]`. -/
def write (dst : Gpu_data) (write_byte_offset : Nat) (source : List Nat) : Gpu_data :=
  fun a =>
    if write_byte_offset ≤ a ∧ a < write_byte_offset + source.length then
      source.getD (a - write_byte_offset) 0
    else dst a

/-- The part of `erhe::graphics` that `Material_buffer::update` calls into: the
`Instance::info.use_bindless_texture` flag, `get_handle(texture, sampler)` and the texture unit
cache `s_texture_unit_cache` with state type `σ`. None of them is defined in the sources, so
they are parameters. -/
structure Instance (σ : Type) where
  use_bindless_texture : Bool
  get_handle : Nat → Nat → Nat
  allocate_texture_unit : σ → Nat → Option Nat × σ

end erhe.graphics

namespace erhe.primitive

/-- The fields of `erhe::primitive::Material` that `Material_buffer::update` reads and writes.
Field types follow the interface block declared by `Material_interface`: `vec2`, `float`,
`vec4`; `texture` and `sampler` are nullable shared pointers, given by the address of the
object they point to. -/
structure Material where
  roughness : Nat × Nat
  metallic : Nat
  reflectance : Nat
  base_color : Nat × Nat × Nat × Nat
  emissive : Nat × Nat × Nat × Nat
  opacity : Nat
  texture : Option Nat
  sampler : Option Nat
  material_buffer_index : Nat
deriving DecidableEq, Repr

end erhe.primitive

namespace erhe.application

/-- A `Buffer_range`. -/
structure Buffer_range where
  first_byte_offset : Nat
  byte_count : Nat
deriving DecidableEq, Repr

/-- A `Buffer_writer`: the produced range and the write cursor. -/
structure Buffer_writer where
  range : Buffer_range
  write_offset : Nat
  write_end : Nat
deriving DecidableEq, Repr

/-- Modelled from the spec: `Buffer_writer::begin` is not among the sources. "`begin()` maps
(or acquires a pointer into) the current slot and resets the writer cursor"; the cursor is
"reset to `{0, capacity}` at the start of each use". -/
def Buffer_writer.begin (_w : Buffer_writer) (capacity_byte_count _byte_count : Nat) :
    Buffer_writer :=
  { range := { first_byte_offset := 0, byte_count := 0 }
    write_offset := 0
    write_end := capacity_byte_count }

/-- Modelled from the spec: `Buffer_writer::end` is not among the sources. "`end()` unmaps
... and finalizes the produced `Range`", the region "that was written this frame": it starts
where `begin` put the cursor and extends to the cursor. -/
def Buffer_writer.end_ (w : Buffer_writer) : Buffer_writer :=
  { w with range :=
      { first_byte_offset := w.range.first_byte_offset
        byte_count := w.write_offset - w.range.first_byte_offset } }

/-- The members of `Line_renderer` that `next_frame` reads and writes. -/
structure Line_renderer where
  m_current_frame_resource_slot : Nat
  m_inside_begin_end : Bool
  m_view_writer : Buffer_writer
  m_vertex_writer : Buffer_writer
  m_line_count : Nat
deriving DecidableEq, Repr

/-- The method `Line_renderer::current_frame_resources` (lines 398-401):
`m_frame_resources[m_current_frame_resource_slot]`. -/
def Line_renderer.current_frame_resources {α : Type} (m_frame_resources : List α)
    (r : Line_renderer) : Option α :=
  m_frame_resources.get? r.m_current_frame_resource_slot

/-- The method `Line_renderer::next_frame` (lines 403-410). The slot count
`s_frame_resources_count` and `Buffer_writer::reset` are declared in headers that are not
among the sources and are parameters. -/
def Line_renderer.next_frame (s_frame_resources_count : Nat)
    (reset : Buffer_writer → Buffer_writer) (r : Line_renderer) :
    Except erhe.toolkit.Fault Line_renderer :=
  if r.m_inside_begin_end then
    .error erhe.toolkit.Fault.verify_failed
  else
    .ok { r with
      m_current_frame_resource_slot :=
        (r.m_current_frame_resource_slot + 1) % s_frame_resources_count
      m_view_writer := reset r.m_view_writer
      m_vertex_writer := reset r.m_vertex_writer
      m_line_count := 0 }

/-- The renderer after `t` consecutive calls of `next_frame`. -/
def Line_renderer.next_frames (s_frame_resources_count : Nat)
    (reset : Buffer_writer → Buffer_writer) :
    Nat → Line_renderer → Except erhe.toolkit.Fault Line_renderer
  | 0, r => .ok r
  | t + 1, r =>
    match Line_renderer.next_frame s_frame_resources_count reset r with
    | .ok r1 => Line_renderer.next_frames s_frame_resources_count reset t r1
    | .error e => .error e

end erhe.application

namespace editor

open erhe.toolkit erhe.graphics erhe.primitive erhe.application

/-- The offset table `Material_interface::offsets`. -/
structure Material_struct where
  roughness : Nat
  metallic : Nat
  reflectance : Nat
  base_color : Nat
  emissive : Nat
  base_texture : Nat
  opacity : Nat
  reserved : Nat
deriving DecidableEq, Repr

/-- The fields of `Material_interface` used by `update`. `entry_size` is
`material_struct.size_bytes()`; it and the offsets are computed by `Shader_resource`, which is
not among the sources, so they are parameters. -/
structure Material_interface where
  entry_size : Nat
  offsets : Material_struct
  max_material_count : Nat
deriving DecidableEq, Repr

/-- The members of the global `g_programs` (`IPrograms`, programs.hpp) that the renderers
read: the two texture unit numbers, the nearest and linear samplers, and the nullable `tool`
shader program. Objects are given by their addresses. -/
structure Programs where
  linear_sampler : Nat
  nearest_sampler : Nat := 0
  shadow_texture_unit : Nat := 15
  base_texture_unit : Nat := 0
  tool : Option Nat := none
deriving DecidableEq, Repr

/-- Log records written by `update`. -/
inductive Log_entry where
  | critical_material_buffer_capacity_exceeded (capacity_byte_count : Nat)
deriving DecidableEq, Repr

/-- Everything `Material_buffer::update` reads or writes: the `Material_buffer` members
(`m_writer`, `m_used_handles`, the current buffer with its capacity and its mapped bytes), the
local counter `material_index`, the heap of `Material` objects, the texture unit cache and the
log. -/
structure Material_buffer (σ : Type) where
  m_writer : Buffer_writer
  capacity_byte_count : Nat
  gpu_data : Gpu_data
  m_used_handles : List Nat
  material_index : Nat
  materials : Nat → Material
  s_texture_unit_cache : σ
  log : List Log_entry

/-- The `std::set<uint64_t>::insert`: the set is kept as a strictly increasing list. -/
def set_insert (handle : Nat) : List Nat → List Nat
  | [] => [handle]
  | x :: xs =>
    if handle < x then handle :: x :: xs
    else if handle = x then x :: xs
    else x :: set_insert handle xs

/-- Lines 81-89: the handle of a material, `0` without texture. -/
def material_handle {σ : Type} (info : Instance σ) (g_programs : Programs) (material : Material) :
    Nat :=
  match material.texture with
  | some texture =>
    info.get_handle texture
      (match material.sampler with
       | some sampler => sampler
       | none => g_programs.linear_sampler) % 2 ^ 64
  | none => 0

/-- The sampler with which the handle of a material's texture is made (lines 84-86): the
sampler of the material, or `g_programs->linear_sampler` when the material has none. -/
def material_sampler (g_programs : Programs) (material : Material) : Nat :=
  match material.sampler with
  | some sampler => sampler
  | none => g_programs.linear_sampler

/-- Lines 104-112: the 64-bit word written at `base_texture`, and the texture unit cache
afterwards. -/
def base_texture_value {σ : Type} (info : Instance σ) (cache : σ) (handle : Nat) : Nat × σ :=
  if info.use_bindless_texture then
    (handle, cache)
  else
    let opt_texture_unit := info.allocate_texture_unit cache handle
    let texture_unit : Nat := (match opt_texture_unit.1 with
      | some unit => unit
      | none => 0) % 2 ^ 64
    let magic : Nat := 0x7fffffff
    let value : Nat := texture_unit ||| ((magic <<< 32) % 2 ^ 64)
    (value, opt_texture_unit.2)

/-- Lines 77-116: the loop body after the capacity check, up to and including
`++material_index`, without the `ERHE_VERIFY`. -/
def update_entry {σ : Type} (info : Instance σ) (g_programs : Programs)
    (interface : Material_interface) (b : Material_buffer σ) (address : Nat) :
    Material_buffer σ :=
  let entry_size := interface.entry_size
  let offsets := interface.offsets
  let w := b.m_writer.write_offset
  let d0 := memset b.gpu_data w 0 entry_size
  let material := b.materials address
  let handle := material_handle info g_programs material
  let used := if handle ≠ 0 then set_insert handle b.m_used_handles else b.m_used_handles
  let material1 := { material with material_buffer_index := b.material_index }
  let d1 := write d0 (w + offsets.metallic) (as_span_float material1.metallic)
  let d2 := write d1 (w + offsets.roughness) (as_span_vec2 material1.roughness)
  let d3 := write d2 (w + offsets.reflectance) (as_span_float material1.reflectance)
  let d4 := write d3 (w + offsets.base_color) (as_span_vec4 material1.base_color)
  let d5 := write d4 (w + offsets.emissive) (as_span_vec4 material1.emissive)
  let d6 := write d5 (w + offsets.opacity) (as_span_float material1.opacity)
  let tv := base_texture_value info b.s_texture_unit_cache handle
  let d7 := write d6 (w + offsets.base_texture) (as_span_uint64 tv.1)
  { b with
    m_writer := { b.m_writer with write_offset := w + entry_size }
    gpu_data := d7
    m_used_handles := used
    material_index := (b.material_index + 1) % 2 ^ 32
    materials := Function.update b.materials address material1
    s_texture_unit_cache := tv.2 }

/-- Lines 71-117: the loop over `materials` (a span of shared pointers, given by the addresses
they hold). `ERHE_FATAL` and a failed `ERHE_VERIFY` stop the process. -/
def update_loop {σ : Type} (info : Instance σ) (g_programs : Programs)
    (interface : Material_interface) :
    List Nat → Material_buffer σ → Except (Fault × Material_buffer σ) (Material_buffer σ)
  | [], b => .ok b
  | address :: rest, b =>
    if b.m_writer.write_offset + interface.entry_size > b.m_writer.write_end then
      .error (Fault.fatal_material_buffer_capacity_exceeded,
        { b with log := b.log ++
            [Log_entry.critical_material_buffer_capacity_exceeded b.capacity_byte_count] })
    else
      let b1 := update_entry info g_programs interface b address
      if b1.m_writer.write_offset ≤ b1.m_writer.write_end then
        update_loop info g_programs interface rest b1
      else
        .error (Fault.verify_failed, b1)

/-- Lines 63-70: the state in which the loop starts, after `m_writer.begin`,
`m_used_handles.clear()` and `material_index = 0`. -/
def update_begin {σ : Type} (interface : Material_interface) (b : Material_buffer σ)
    (materials : List Nat) : Material_buffer σ :=
  let entry_size := interface.entry_size
  let max_byte_count := materials.length * entry_size
  { b with
    m_writer := b.m_writer.begin b.capacity_byte_count max_byte_count
    m_used_handles := []
    material_index := 0 }

/-- The method `Material_buffer::update` (lines 50-123). -/
def Material_buffer.update {σ : Type} (info : Instance σ) (g_programs : Programs)
    (interface : Material_interface) (b : Material_buffer σ) (materials : List Nat) :
    Except (Fault × Material_buffer σ) (Buffer_range × Material_buffer σ) :=
  let b0 := update_begin interface b materials
  match update_loop info g_programs interface materials b0 with
  | .error e => .error e
  | .ok b1 =>
    let b2 := { b1 with m_writer := b1.m_writer.end_ }
    .ok (b2.m_writer.range, b2)

/-- The method `Material_buffer::used_handles` (lines 125-128). -/
def Material_buffer.used_handles {σ : Type} (b : Material_buffer σ) : List Nat :=
  b.m_used_handles

/-- The state after the loop body has run once for each element of `materials`, in order. -/
def update_entries {σ : Type} (info : Instance σ) (g_programs : Programs)
    (interface : Material_interface) (b : Material_buffer σ) (materials : List Nat) :
    Material_buffer σ :=
  materials.foldl (update_entry info g_programs interface) b

/-- The state in which `update` returns when the loop has run for every element. -/
def update_end {σ : Type} (b : Material_buffer σ) : Material_buffer σ :=
  { b with m_writer := b.m_writer.end_ }

/-- The state in which the process stops at the `ERHE_FATAL` of line 74. -/
def log_capacity_exceeded {σ : Type} (b : Material_buffer σ) : Material_buffer σ :=
  { b with log := b.log ++
      [Log_entry.critical_material_buffer_capacity_exceeded b.capacity_byte_count] }

/-! ### Entry contents -/

/-- A material without its `material_buffer_index`, the one member `update` assigns. -/
def material_data (m : Material) : Material := { m with material_buffer_index := 0 }

/-- The fields of one entry, as (offset, byte size), in declaration order: `vec2 roughness`,
`float metallic`, `float reflectance`, `vec4 base_color`, `vec4 emissive`,
`uvec2 base_texture`, `float opacity`, `float reserved`. -/
def Material_interface.fields (i : Material_interface) : List (Nat × Nat) :=
  [(i.offsets.roughness, 8), (i.offsets.metallic, 4), (i.offsets.reflectance, 4),
   (i.offsets.base_color, 16), (i.offsets.emissive, 16), (i.offsets.base_texture, 8),
   (i.offsets.opacity, 4), (i.offsets.reserved, 4)]

/-- The offset table assigns non-overlapping field ranges inside one entry. -/
def Material_interface.layout_ok (i : Material_interface) : Prop :=
  (∀ f ∈ i.fields, f.1 + f.2 ≤ i.entry_size) ∧
    i.fields.Pairwise (fun f g => f.1 + f.2 ≤ g.1 ∨ g.1 + g.2 ≤ f.1)

instance (i : Material_interface) : Decidable i.layout_ok := by
  unfold Material_interface.layout_ok
  infer_instance

/-- The entry `[base, base + entry_size)` of `data` holds `material` with the 64-bit word
`texture_word`: at each interface offset the bytes are the binary image of the corresponding
value, the `reserved` field is zero, and so is every byte of the entry outside the seven
written fields. -/
def entry_holds (interface : Material_interface) (data : Gpu_data) (base : Nat)
    (material : Material) (texture_word : Nat) : Prop :=
  (∀ j, j < 8 → data (base + interface.offsets.roughness + j) =
      (as_span_vec2 material.roughness).getD j 0) ∧
  (∀ j, j < 4 → data (base + interface.offsets.metallic + j) =
      (as_span_float material.metallic).getD j 0) ∧
  (∀ j, j < 4 → data (base + interface.offsets.reflectance + j) =
      (as_span_float material.reflectance).getD j 0) ∧
  (∀ j, j < 16 → data (base + interface.offsets.base_color + j) =
      (as_span_vec4 material.base_color).getD j 0) ∧
  (∀ j, j < 16 → data (base + interface.offsets.emissive + j) =
      (as_span_vec4 material.emissive).getD j 0) ∧
  (∀ j, j < 4 → data (base + interface.offsets.opacity + j) =
      (as_span_float material.opacity).getD j 0) ∧
  (∀ j, j < 8 → data (base + interface.offsets.base_texture + j) =
      (as_span_uint64 texture_word).getD j 0) ∧
  (∀ j, j < 4 → data (base + interface.offsets.reserved + j) = 0) ∧
  (∀ k, k < interface.entry_size →
    ¬ (interface.offsets.roughness ≤ k ∧ k < interface.offsets.roughness + 8) →
    ¬ (interface.offsets.metallic ≤ k ∧ k < interface.offsets.metallic + 4) →
    ¬ (interface.offsets.reflectance ≤ k ∧ k < interface.offsets.reflectance + 4) →
    ¬ (interface.offsets.base_color ≤ k ∧ k < interface.offsets.base_color + 16) →
    ¬ (interface.offsets.emissive ≤ k ∧ k < interface.offsets.emissive + 16) →
    ¬ (interface.offsets.opacity ≤ k ∧ k < interface.offsets.opacity + 4) →
    ¬ (interface.offsets.base_texture ≤ k ∧ k < interface.offsets.base_texture + 8) →
    data (base + k) = 0)

/-! ### Frame rotation -/

/-- The five stream buffers of the forward renderer. -/
inductive Stream where
  | material
  | light
  | camera
  | draw_indirect
  | primitive
deriving DecidableEq, Repr

/-- The method `Forward_renderer::next_frame` (lines 102-109): the `next_frame()` calls it makes, in
order. -/
def Forward_renderer.next_frame : List Stream :=
  [Stream.material, Stream.light, Stream.camera, Stream.draw_indirect, Stream.primitive]

/-- The objects `Editor_rendering_impl::end_frame` calls into. -/
inductive Frame_object where
  | headset_view
  | post_processing
  | line_renderer_set
  | text_renderer
  | forward_renderer
  | id_renderer
  | shadow_renderer
  | window
deriving DecidableEq, Repr

/-- The calls made by `end_frame`. -/
inductive Frame_call where
  | end_frame (target : Frame_object)
  | next_frame (target : Frame_object)
  | end_renderdoc_capture
deriving DecidableEq, Repr

/-- What `end_frame` reads: which global pointers are non-null, whether the build has
`ERHE_XR_LIBRARY_OPENXR`, and `m_trigger_capture`. -/
structure Editor_rendering_impl where
  erhe_xr_library_openxr : Bool
  g_headset_view : Bool
  g_post_processing : Bool
  g_line_renderer_set : Bool
  g_text_renderer : Bool
  g_forward_renderer : Bool
  g_id_renderer : Bool
  g_shadow_renderer : Bool
  m_trigger_capture : Bool
deriving DecidableEq, Repr

/-- The method `Editor_rendering_impl::end_frame` (lines 651-675): the calls it makes, in
order, and the object afterwards. -/
def Editor_rendering_impl.end_frame (e : Editor_rendering_impl) :
    List Frame_call × Editor_rendering_impl :=
  let c0 := if e.erhe_xr_library_openxr && e.g_headset_view then
      [Frame_call.end_frame Frame_object.headset_view] else []
  let c1 := if e.g_post_processing then
      c0 ++ [Frame_call.next_frame Frame_object.post_processing] else c0
  let c2 := if e.g_line_renderer_set then
      c1 ++ [Frame_call.next_frame Frame_object.line_renderer_set] else c1
  let c3 := if e.g_text_renderer then
      c2 ++ [Frame_call.next_frame Frame_object.text_renderer] else c2
  let c4 := if e.g_forward_renderer then
      c3 ++ [Frame_call.next_frame Frame_object.forward_renderer] else c3
  let c5 := if e.g_id_renderer then
      c4 ++ [Frame_call.next_frame Frame_object.id_renderer] else c4
  let c6 := if e.g_post_processing then
      c5 ++ [Frame_call.next_frame Frame_object.post_processing] else c5
  let c7 := if e.g_shadow_renderer then
      c6 ++ [Frame_call.next_frame Frame_object.shadow_renderer] else c6
  if e.m_trigger_capture then
    (c7 ++ [Frame_call.end_renderdoc_capture], { e with m_trigger_capture := false })
  else
    (c7, e)

/-! ### The pass loop of `Forward_renderer::render` -/

/-- The `erhe::scene::Item_filter` members that the sources name. A member that a designated
initializer leaves out is zero. -/
structure Item_filter where
  require_all_bits_set : Nat := 0
  require_at_least_one_bit_set : Nat := 0
  require_all_bits_clear : Nat := 0
deriving DecidableEq, Repr

/-- The enumeration `gl::Stencil_op`. -/
inductive Stencil_op where
  | keep
  | zero
  | replace
  | incr
  | incr_wrap
  | decr
  | decr_wrap
  | invert
deriving DecidableEq, Repr

/-- The enumeration `gl::Stencil_function`. -/
inductive Stencil_function where
  | never
  | less
  | equal
  | lequal
  | greater
  | notequal
  | gequal
  | always
deriving DecidableEq, Repr

/-- The enumeration `gl::Depth_function`. -/
inductive Depth_function where
  | never
  | less
  | equal
  | lequal
  | greater
  | notequal
  | gequal
  | always
deriving DecidableEq, Repr

/-- The stencil state of one face, with the members that `setup_renderpasses` sets. -/
structure Stencil_op_state where
  stencil_fail_op : Stencil_op
  z_fail_op : Stencil_op
  z_pass_op : Stencil_op
  function : Stencil_function
  reference : Nat
  test_mask : Nat
  write_mask : Nat
deriving DecidableEq, Repr

/-- The depth and stencil state of a pipeline (`erhe::graphics::Depth_stencil_state`), with
the members that `setup_renderpasses` sets. -/
structure Depth_stencil_state where
  depth_test_enable : Bool
  depth_write_enable : Bool
  depth_compare_op : Depth_function
  stencil_test_enable : Bool
  stencil_front : Stencil_op_state
  stencil_back : Stencil_op_state
deriving DecidableEq, Repr

/-- The enumeration `gl::Blending_factor`, as far as `setup_renderpasses` uses it. -/
inductive Blending_factor where
  | constant_alpha
  | one_minus_constant_alpha
deriving DecidableEq, Repr

/-- The enumeration `gl::Blend_equation_mode`, as far as `setup_renderpasses` uses it. -/
inductive Blend_equation_mode where
  | func_add
deriving DecidableEq, Repr

/-- One component (`rgb` or `alpha`) of a blend state. -/
structure Blend_state_component where
  equation_mode : Blend_equation_mode
  source_factor : Blending_factor
  destination_factor : Blending_factor
deriving DecidableEq, Repr

/-- The colour blend state of a pipeline (`erhe::graphics::Color_blend_state`): one of the
presets that the class declares (they are named, their members are not among the sources),
or a state written out in place; `constant` holds the bit patterns of four floats. -/
inductive Color_blend_state where
  | color_blend_disabled
  | color_blend_premultiplied
  | color_writes_disabled
  | blend (enabled : Bool) (rgb alpha : Blend_state_component)
      (constant : Nat × Nat × Nat × Nat)
deriving DecidableEq, Repr

/-- The rasterization state of a pipeline (`erhe::graphics::Rasterization_state`): one of the
presets that `setup_renderpasses` names. The class is declared in a header that is not among
the sources, so the presets are known by name only. -/
inductive Rasterization_state where
  | cull_mode_none
  | cull_mode_back_ccw (reverse_depth : Bool)
  | cull_mode_front_ccw (reverse_depth : Bool)
deriving DecidableEq, Repr

/-- The members of `erhe::graphics::Pipeline::data` that the renderers and the claims are
about: `name`, the nullable `shader_stages` pointer, `input_assembly.primitive_topology`,
`rasterization`, `depth_stencil` and `color_blend`. -/
structure Pipeline_data where
  name : String
  shader_stages : Option Nat
  primitive_topology : Nat
  rasterization : Rasterization_state := Rasterization_state.cull_mode_none
  depth_stencil : Depth_stencil_state
  color_blend : Color_blend_state
deriving DecidableEq, Repr

/-- A `Renderpass`: the pipeline, the primitive mode, and the `begin` / `end` hooks. A hook is
a `std::function<void()>`; `none` is the empty function, `some h` holds the closure `h`. -/
structure Renderpass where
  pipeline : Pipeline_data
  primitive_mode : Nat
  begin : Option Nat
  end_ : Option Nat
deriving DecidableEq, Repr

/-- The result of `Draw_indirect_buffer::update`. -/
structure Draw_indirect_buffer_range where
  range : Buffer_range
  draw_indirect_count : Nat
deriving DecidableEq, Repr

/-- A viewport rectangle, `erhe::scene::Viewport`. -/
structure Viewport where
  x : Int
  y : Int
  width : Int
  height : Int
deriving DecidableEq, Repr

/-- The members of `Forward_renderer::Render_parameters`. Cameras, lights, materials, meshes
and textures are given by their addresses, a null pointer is `none`, `ambient_light` holds
the bit patterns of its floats. -/
structure Render_parameters where
  ambient_light : Nat × Nat × Nat × Nat := (0, 0, 0, 0)
  camera : Option Nat := none
  light_projections : Option Nat := none
  lights : List Nat := []
  materials : List Nat := []
  mesh_spans : List (List Nat)
  passes : List Renderpass
  shadow_texture : Option Nat := none
  viewport : Viewport := { x := 0, y := 0, width := 0, height := 0 }
  filter : Item_filter
deriving DecidableEq, Repr

/-- What the pass loop calls outside `forward_renderer.cpp`: `Primitive_buffer::update`,
`Draw_indirect_buffer::update` (state types `π`, `δ`), `g_mesh_memory->gl_index_type()` and
`sizeof(gl::Draw_elements_indirect_command)`. None of them is among the sources, so they are
parameters. -/
structure Mesh_streams (π δ : Type) where
  primitive_update : π → List Nat → Item_filter → Buffer_range × π
  draw_indirect_update : δ → List Nat → Nat → Item_filter → Draw_indirect_buffer_range × δ
  gl_index_type : Nat
  sizeof_draw_elements_indirect_command : Nat

/-- The conversion `static_cast<GLsizei>(value)` of a `std::size_t` value. `GLsizei` is a
32-bit signed integer: the result is the integer from `-2^31` to `2^31 - 1` that is congruent
to the value modulo `2^32`, which is the value itself when it is below `2^31`. -/
def to_GLsizei (value : Nat) : Int :=
  if value % 2 ^ 32 < 2 ^ 31 then ((value % 2 ^ 32 : Nat) : Int)
  else ((value % 2 ^ 32 : Nat) : Int) - 2 ^ 32

/-- The calls the forward renderer makes, in the order in which it makes them. The stream
`update` calls are recorded with what they returned. `multi_draw_elements_indirect` is
recorded with the arguments it is given: `drawcount` and `stride` are `GLsizei` values,
`indirect` is the byte offset that `reinterpret_cast<const void*>` turns into a pointer of the
same width. The profiling macros are not calls. -/
inductive Gl_call where
  | pass_begin (hook : Nat)
  | pass_end (hook : Nat)
  | scoped_debug_group_enter (name : String)
  | scoped_debug_group_leave
  | execute (pipeline : Pipeline_data)
  | primitive_update (meshes : List Nat) (filter : Item_filter) (result : Buffer_range)
  | draw_indirect_update (meshes : List Nat) (primitive_mode : Nat) (filter : Item_filter)
      (result : Draw_indirect_buffer_range)
  | primitive_bind (range : Buffer_range)
  | draw_indirect_bind (range : Buffer_range)
  | multi_draw_elements_indirect (mode : Nat) (type : Nat) (indirect : Nat) (drawcount : Int)
      (stride : Int)
  | viewport (x y width height : Int)
  | camera_update (camera : Nat) (viewport : Viewport) (result : Buffer_range)
  | camera_bind (range : Buffer_range)
  | texture_unit_cache_reset (base_texture_unit : Nat)
  | material_update (materials : List Nat) (result : Buffer_range)
  | material_bind (range : Buffer_range)
  | light_update_control (light_index : Nat) (result : Buffer_range)
  | light_bind_control_buffer (range : Buffer_range)
  | light_update (lights : List Nat) (light_projections : Option Nat)
      (ambient_light : Nat × Nat × Nat × Nat) (result : Buffer_range)
  | light_bind_light_buffer (range : Buffer_range)
  | make_texture_handle_resident_arb (handle : Nat)
  | make_texture_handle_non_resident_arb (handle : Nat)
  | bind_texture_unit (unit : Nat) (texture : Nat)
  | bind_sampler (unit : Nat) (sampler : Nat)
  | texture_unit_cache_bind (fallback_handle : Nat)
  | draw_arrays (mode : Nat) (first : Nat) (count : Nat)
deriving DecidableEq, Repr

/-- The state of the pass loop: the primitive and draw-indirect stream buffers and the calls
made so far. -/
structure Forward_renderer (π δ : Type) where
  m_primitive_buffers : π
  m_draw_indirect_buffers : δ
  gl : List Gl_call

/-- Lines 213-238: the body of the loop over `mesh_spans`, for one span. -/
def render_mesh_span {π δ : Type} (streams : Mesh_streams π δ) (pass : Renderpass)
    (filter : Item_filter) (r : Forward_renderer π δ) (meshes : List Nat) :
    Forward_renderer π δ :=
  if meshes.isEmpty then
    r
  else
    let primitive_range := streams.primitive_update r.m_primitive_buffers meshes filter
    let draw_indirect_buffer_range :=
      streams.draw_indirect_update r.m_draw_indirect_buffers meshes pass.primitive_mode filter
    let r1 : Forward_renderer π δ :=
      { m_primitive_buffers := primitive_range.2
        m_draw_indirect_buffers := draw_indirect_buffer_range.2
        gl := r.gl ++
          [Gl_call.primitive_update meshes filter primitive_range.1,
           Gl_call.draw_indirect_update meshes pass.primitive_mode filter
             draw_indirect_buffer_range.1] }
    if draw_indirect_buffer_range.1.draw_indirect_count = 0 then
      r1
    else
      { r1 with gl := r1.gl ++
          [Gl_call.primitive_bind primitive_range.1,
           Gl_call.draw_indirect_bind draw_indirect_buffer_range.1.range,
           Gl_call.multi_draw_elements_indirect pass.pipeline.primitive_topology
             streams.gl_index_type draw_indirect_buffer_range.1.range.first_byte_offset
             (to_GLsizei draw_indirect_buffer_range.1.draw_indirect_count)
             (to_GLsizei streams.sizeof_draw_elements_indirect_command)] }

/-- Lines 196-244: the body of the loop over `passes`, for one pass. The
`Scoped_debug_group pass_scope` is entered after the begin hook and left at the end of the
body. -/
def render_pass {π δ : Type} (streams : Mesh_streams π δ) (parameters : Render_parameters)
    (r : Forward_renderer π δ) (pass : Renderpass) : Forward_renderer π δ :=
  match pass.pipeline.shader_stages with
  | none => r
  | some _ =>
    let r1 := match pass.begin with
      | some hook => { r with gl := r.gl ++ [Gl_call.pass_begin hook] }
      | none => r
    let r2 := { r1 with gl := r1.gl ++
      [Gl_call.scoped_debug_group_enter pass.pipeline.name, Gl_call.execute pass.pipeline] }
    let r3 := parameters.mesh_spans.foldl (render_mesh_span streams pass parameters.filter) r2
    let r4 := match pass.end_ with
      | some hook => { r3 with gl := r3.gl ++ [Gl_call.pass_end hook] }
      | none => r3
    { r4 with gl := r4.gl ++ [Gl_call.scoped_debug_group_leave] }

/-- Lines 196-244: the loop over `passes`. -/
def render_passes {π δ : Type} (streams : Mesh_streams π δ) (parameters : Render_parameters)
    (r : Forward_renderer π δ) : Forward_renderer π δ :=
  parameters.passes.foldl (render_pass streams parameters) r

/-- The calls of the span processing: stream updates, stream binds and the indirect draw. -/
def Gl_call.is_span_call : Gl_call → Bool
  | .primitive_update _ _ _ => true
  | .draw_indirect_update _ _ _ _ => true
  | .primitive_bind _ => true
  | .draw_indirect_bind _ => true
  | .multi_draw_elements_indirect _ _ _ _ _ => true
  | _ => false

/-- The indirect multi-draw calls. -/
def Gl_call.is_draw : Gl_call → Bool
  | .multi_draw_elements_indirect _ _ _ _ _ => true
  | _ => false

/-- The `Draw_indirect_buffer::update` calls among `calls`: their arguments `(primitive_mode,
meshes)` and the `draw_indirect_count` they returned. -/
def draw_indirect_updates : List Gl_call → List ((Nat × List Nat) × Nat)
  | [] => []
  | .draw_indirect_update meshes primitive_mode _ result :: rest =>
    ((primitive_mode, meshes), result.draw_indirect_count) :: draw_indirect_updates rest
  | _ :: rest => draw_indirect_updates rest

/-- The `Primitive_buffer::update` calls among `calls`, by their `meshes` argument. -/
def primitive_updates : List Gl_call → List (List Nat)
  | [] => []
  | .primitive_update meshes _ _ :: rest => meshes :: primitive_updates rest
  | _ :: rest => primitive_updates rest

/-- The pairs (pass with a shader program, non-empty mesh span), pass by pass in list order
and span by span within a pass, as (primitive mode of the pass, span). -/
def drawn_pairs (parameters : Render_parameters) : List (Nat × List Nat) :=
  (parameters.passes.filter (fun pass => pass.pipeline.shader_stages.isSome)).flatMap
    (fun pass => (parameters.mesh_spans.filter (fun meshes => !meshes.isEmpty)).map
      (fun meshes => (pass.primitive_mode, meshes)))

/-- Every indirect multi-draw in `calls` comes right after the update of the primitive and
draw-indirect streams for one non-empty span and the binding of the two ranges these updates
returned, and draws exactly the returned draw-indirect range: its `indirect` argument is the
range's `first_byte_offset` and its `drawcount` the non-zero `draw_indirect_count`, converted
to `GLsizei`. -/
def draws_bound (calls : List Gl_call) : Prop :=
  ∀ before after mode type indirect drawcount stride,
    calls = before ++
      Gl_call.multi_draw_elements_indirect mode type indirect drawcount stride :: after →
    ∃ earlier meshes primitive_mode filter primitive_range draw_indirect_buffer_range,
      before = earlier ++
        [Gl_call.primitive_update meshes filter primitive_range,
         Gl_call.draw_indirect_update meshes primitive_mode filter draw_indirect_buffer_range,
         Gl_call.primitive_bind primitive_range,
         Gl_call.draw_indirect_bind draw_indirect_buffer_range.range] ∧
      meshes ≠ [] ∧
      indirect = draw_indirect_buffer_range.range.first_byte_offset ∧
      drawcount = to_GLsizei draw_indirect_buffer_range.draw_indirect_count ∧
      draw_indirect_buffer_range.draw_indirect_count ≠ 0

/-- What the calls `calls` do with the streams: the `Draw_indirect_buffer::update` calls are
made for exactly the pairs `pairs`, in order, the `Primitive_buffer::update` calls for the
spans of these pairs, there are as many indirect multi-draws as draw-indirect updates that
returned a non-zero count, and every draw is bound to the ranges of its span. -/
def stream_calls_ok (calls : List Gl_call) (pairs : List (Nat × List Nat)) : Prop :=
  (draw_indirect_updates calls).map Prod.fst = pairs ∧
  primitive_updates calls = pairs.map Prod.snd ∧
  calls.countP Gl_call.is_draw = (draw_indirect_updates calls).countP (fun u => u.2 != 0) ∧
  draws_bound calls

/-- The call of a hook, if the `std::function` holds one. -/
def hook_calls (call : Nat → Gl_call) : Option Nat → List Gl_call
  | some hook => [call hook]
  | none => []

/-- The calls one pass contributes, as the spec describes them: nothing for a pass without
shader program; otherwise the begin hook if present, the pipeline state, calls of the span
processing, and the end hook if present (with the debug group entered after the begin hook
and left last). -/
def is_pass_block (pass : Renderpass) (block : List Gl_call) : Prop :=
  match pass.pipeline.shader_stages with
  | none => block = []
  | some _ =>
    ∃ span_calls : List Gl_call,
      block = hook_calls Gl_call.pass_begin pass.begin ++
        [Gl_call.scoped_debug_group_enter pass.pipeline.name, Gl_call.execute pass.pipeline] ++
        span_calls ++ hook_calls Gl_call.pass_end pass.end_ ++
        [Gl_call.scoped_debug_group_leave] ∧
      ∀ c ∈ span_calls, c.is_span_call = true

/-! ### `Forward_renderer::render` and `Forward_renderer::render_fullscreen` -/

/-- What `render` and `render_fullscreen` call outside `forward_renderer.cpp` besides the
material buffer and the mesh streams: `Camera_buffer::update` (state type `κ`; the projection,
node and exposure it is given all come from the camera object), `Light_buffer::update`,
`Light_buffer::update_control` (state type `ι`),
`Light_projections::get_light_projection_transforms_for_light` (it yields the `index` of the
transforms it finds), `Texture_unit_cache::reset` and `gl_name()` of a texture or sampler. None
of them is among the sources, so they are parameters. -/
structure Frame_streams (σ κ ι : Type) where
  camera_update : κ → Nat → Viewport → Buffer_range × κ
  light_update : ι → List Nat → Option Nat → Nat × Nat × Nat × Nat → Buffer_range × ι
  light_update_control : ι → Nat → Buffer_range × ι
  get_light_projection_transforms_for_light : Option Nat → Nat → Option Nat
  texture_unit_cache_reset : σ → Nat → σ
  gl_name : Nat → Nat

/-- The globals and interfaces a call of `render` reads: `erhe::graphics::Instance::info` with
the texture unit cache operations, `g_programs`, the material interface, the stream
operations, and whether `g_shadow_renderer` is non-null. -/
structure Render_env (σ π δ κ ι : Type) where
  info : Instance σ
  g_programs : Programs
  interface : Material_interface
  mesh_streams : Mesh_streams π δ
  frame_streams : Frame_streams σ κ ι
  g_shadow_renderer : Bool

/-- The members of `Forward_renderer` and the state they point to: the material, light and
camera buffers, the dummy texture, and (`draw`) the primitive and draw-indirect buffers
together with the calls made so far. The texture unit cache `s_texture_unit_cache` is the one
that the material buffer state carries. -/
structure Render_state (σ π δ κ ι : Type) where
  m_material_buffers : Material_buffer σ
  m_light_buffers : ι
  m_camera_buffers : κ
  m_dummy_texture : Nat
  draw : Forward_renderer π δ

/-- The state after the calls `calls` have been made. -/
def Render_state.call {σ π δ κ ι : Type} (s : Render_state σ π δ κ ι) (calls : List Gl_call) :
    Render_state σ π δ κ ι :=
  { s with draw := { s.draw with gl := s.draw.gl ++ calls } }

/-- Lines 132-135 and 270-273: `enable_shadows`. -/
def enable_shadows {σ π δ κ ι : Type} (env : Render_env σ π δ κ ι)
    (parameters : Render_parameters) : Bool :=
  env.g_shadow_renderer && !parameters.lights.isEmpty && parameters.shadow_texture.isSome

/-- Lines 137-143 and 275-281: `shadow_texture_handle`. -/
def shadow_texture_handle {σ π δ κ ι : Type} (env : Render_env σ π δ κ ι)
    (parameters : Render_parameters) : Nat :=
  if enable_shadows env parameters then
    match parameters.shadow_texture with
    | some shadow_texture =>
      env.info.get_handle shadow_texture env.g_programs.nearest_sampler % 2 ^ 64
    | none => 0
  else 0

/-- Lines 144-147: `fallback_texture_handle`. -/
def fallback_texture_handle {σ π δ κ ι : Type} (env : Render_env σ π δ κ ι)
    (s : Render_state σ π δ κ ι) : Nat :=
  env.info.get_handle s.m_dummy_texture env.g_programs.nearest_sampler % 2 ^ 64

/-- Lines 150-158 and 290-298: update and bind the camera buffer if a camera is given. -/
def render_camera {σ π δ κ ι : Type} (env : Render_env σ π δ κ ι)
    (parameters : Render_parameters) (s : Render_state σ π δ κ ι) : Render_state σ π δ κ ι :=
  match parameters.camera with
  | some camera =>
    let range := env.frame_streams.camera_update s.m_camera_buffers camera parameters.viewport
    ({ s with m_camera_buffers := range.2 }).call
      [Gl_call.camera_update camera parameters.viewport range.1, Gl_call.camera_bind range.1]
  | none => s

/-- Lines 160-162: reset the texture unit cache when textures are not bindless. -/
def render_cache_reset {σ π δ κ ι : Type} (env : Render_env σ π δ κ ι)
    (s : Render_state σ π δ κ ι) : Render_state σ π δ κ ι :=
  if !env.info.use_bindless_texture then
    let cache := env.frame_streams.texture_unit_cache_reset
      s.m_material_buffers.s_texture_unit_cache env.g_programs.base_texture_unit
    let b := { s.m_material_buffers with s_texture_unit_cache := cache }
    ({ s with m_material_buffers := b }).call
      [Gl_call.texture_unit_cache_reset env.g_programs.base_texture_unit]
  else s

/-- Lines 164-165 and 287-288: update and bind the material buffer. The update is
`Material_buffer::update`; when it stops the process, so does this step. -/
def render_materials {σ π δ κ ι : Type} (env : Render_env σ π δ κ ι)
    (parameters : Render_parameters) (s : Render_state σ π δ κ ι) :
    Except (Fault × Material_buffer σ) (Render_state σ π δ κ ι) :=
  match Material_buffer.update env.info env.g_programs env.interface s.m_material_buffers
      parameters.materials with
  | .error e => .error e
  | .ok (range, b) =>
    .ok (({ s with m_material_buffers := b }).call
      [Gl_call.material_update parameters.materials range, Gl_call.material_bind range])

/-- Lines 167-174 and 310-313: update and bind the light buffer. -/
def render_lights {σ π δ κ ι : Type} (env : Render_env σ π δ κ ι)
    (parameters : Render_parameters) (s : Render_state σ π δ κ ι) : Render_state σ π δ κ ι :=
  let range := env.frame_streams.light_update s.m_light_buffers parameters.lights
    parameters.light_projections parameters.ambient_light
  ({ s with m_light_buffers := range.2 }).call
    [Gl_call.light_update parameters.lights parameters.light_projections
       parameters.ambient_light range.1,
     Gl_call.light_bind_light_buffer range.1]

/-- The calls of lines 188-191 and 319-320: bind the shadow texture and the nearest sampler to
the shadow texture unit. -/
def bind_shadow_texture_calls {σ π δ κ ι : Type} (env : Render_env σ π δ κ ι)
    (parameters : Render_parameters) : List Gl_call :=
  match parameters.shadow_texture with
  | some shadow_texture =>
    [Gl_call.bind_texture_unit env.g_programs.shadow_texture_unit
       (env.frame_streams.gl_name shadow_texture),
     Gl_call.bind_sampler env.g_programs.shadow_texture_unit
       (env.frame_streams.gl_name env.g_programs.nearest_sampler)]
  | none => []

/-- Lines 176-194: make the textures resident (bindless) or bind the texture units. -/
def render_textures_begin {σ π δ κ ι : Type} (env : Render_env σ π δ κ ι)
    (parameters : Render_parameters) (s : Render_state σ π δ κ ι) : Render_state σ π δ κ ι :=
  if env.info.use_bindless_texture then
    let s1 := if enable_shadows env parameters then
        s.call [Gl_call.make_texture_handle_resident_arb (shadow_texture_handle env parameters)]
      else s
    s1.call (s1.m_material_buffers.used_handles.map Gl_call.make_texture_handle_resident_arb)
  else
    let s1 := if enable_shadows env parameters then
        s.call (bind_shadow_texture_calls env parameters)
      else s
    s1.call [Gl_call.texture_unit_cache_bind (fallback_texture_handle env s)]

/-- Lines 246-256: make the textures non-resident (bindless). -/
def render_textures_end {σ π δ κ ι : Type} (env : Render_env σ π δ κ ι)
    (parameters : Render_parameters) (s : Render_state σ π δ κ ι) : Render_state σ π δ κ ι :=
  if env.info.use_bindless_texture then
    let s1 := if enable_shadows env parameters then
        s.call
          [Gl_call.make_texture_handle_non_resident_arb (shadow_texture_handle env parameters)]
      else s
    s1.call (s1.m_material_buffers.used_handles.map Gl_call.make_texture_handle_non_resident_arb)
  else s

/-- The method `Forward_renderer::render` (lines 121-257). -/
def Forward_renderer.render {σ π δ κ ι : Type} (env : Render_env σ π δ κ ι)
    (parameters : Render_parameters) (s : Render_state σ π δ κ ι) :
    Except (Fault × Material_buffer σ) (Render_state σ π δ κ ι) :=
  let s0 := s.call [Gl_call.viewport parameters.viewport.x parameters.viewport.y
    parameters.viewport.width parameters.viewport.height]
  let s1 := render_camera env parameters s0
  let s2 := render_cache_reset env s1
  match render_materials env parameters s2 with
  | .error e => .error e
  | .ok s3 =>
    let s4 := render_lights env parameters s3
    let s5 := render_textures_begin env parameters s4
    let s6 := { s5 with draw := render_passes env.mesh_streams parameters s5.draw }
    .ok (render_textures_end env parameters s6)

/-- Lines 300-308: update and bind the light control buffer for `light`, if it is given and has
light projection transforms. -/
def render_light_control {σ π δ κ ι : Type} (env : Render_env σ π δ κ ι)
    (parameters : Render_parameters) (light : Option Nat) (s : Render_state σ π δ κ ι) :
    Render_state σ π δ κ ι :=
  match light with
  | some l =>
    match env.frame_streams.get_light_projection_transforms_for_light
        parameters.light_projections l with
    | some index =>
      let range := env.frame_streams.light_update_control s.m_light_buffers index
      ({ s with m_light_buffers := range.2 }).call
        [Gl_call.light_update_control index range.1,
         Gl_call.light_bind_control_buffer range.1]
    | none => s
  | none => s

/-- Lines 324-342: the body of the pass loop of `render_fullscreen`, for one pass. -/
def render_fullscreen_pass {σ π δ κ ι : Type} (s : Render_state σ π δ κ ι) (pass : Renderpass) :
    Render_state σ π δ κ ι :=
  match pass.pipeline.shader_stages with
  | none => s
  | some _ =>
    let s1 := match pass.begin with
      | some hook => s.call [Gl_call.pass_begin hook]
      | none => s
    let s2 := s1.call
      [Gl_call.scoped_debug_group_enter pass.pipeline.name, Gl_call.execute pass.pipeline,
       Gl_call.draw_arrays pass.pipeline.primitive_topology 0 3]
    let s3 := match pass.end_ with
      | some hook => s2.call [Gl_call.pass_end hook]
      | none => s2
    s3.call [Gl_call.scoped_debug_group_leave]

/-- The string `c_forward_renderer_render` (line 100). -/
def c_forward_renderer_render : String := "Forward_renderer::render()"

/-- The method `Forward_renderer::render_fullscreen` (lines 259-349). The debug group
`forward_renderer_render` is entered at line 283 and left when the function returns. -/
def Forward_renderer.render_fullscreen {σ π δ κ ι : Type} (env : Render_env σ π δ κ ι)
    (parameters : Render_parameters) (light : Option Nat) (s : Render_state σ π δ κ ι) :
    Except (Fault × Material_buffer σ) (Render_state σ π δ κ ι) :=
  let s0 := s.call [Gl_call.scoped_debug_group_enter c_forward_renderer_render,
    Gl_call.viewport parameters.viewport.x parameters.viewport.y
      parameters.viewport.width parameters.viewport.height]
  match render_materials env parameters s0 with
  | .error e => .error e
  | .ok s1 =>
    let s2 := render_camera env parameters s1
    let s3 := render_light_control env parameters light s2
    let s4 := render_lights env parameters s3
    let s5 := if enable_shadows env parameters then
        if env.info.use_bindless_texture then
          s4.call
            [Gl_call.make_texture_handle_resident_arb (shadow_texture_handle env parameters)]
        else s4.call (bind_shadow_texture_calls env parameters)
      else s4
    let s6 := parameters.passes.foldl render_fullscreen_pass s5
    let s7 := if enable_shadows env parameters then
        if env.info.use_bindless_texture then
          s6.call
            [Gl_call.make_texture_handle_non_resident_arb
              (shadow_texture_handle env parameters)]
        else s6
      else s6
    .ok (s7.call [Gl_call.scoped_debug_group_leave])

/-! ### The calls of `render`, step by step -/

/-- What a call is about. -/
inductive Call_kind where
  | hook
  | debug_group
  | pipeline
  | mesh_stream
  | draw
  | viewport
  | camera
  | texture_unit_cache_reset
  | material
  | light_control
  | light
  | resident
  | non_resident
  | texture_unit
deriving DecidableEq, Repr

/-- The kind of a call. -/
def Gl_call.kind : Gl_call → Call_kind
  | .pass_begin _ => Call_kind.hook
  | .pass_end _ => Call_kind.hook
  | .scoped_debug_group_enter _ => Call_kind.debug_group
  | .scoped_debug_group_leave => Call_kind.debug_group
  | .execute _ => Call_kind.pipeline
  | .primitive_update _ _ _ => Call_kind.mesh_stream
  | .draw_indirect_update _ _ _ _ => Call_kind.mesh_stream
  | .primitive_bind _ => Call_kind.mesh_stream
  | .draw_indirect_bind _ => Call_kind.mesh_stream
  | .multi_draw_elements_indirect _ _ _ _ _ => Call_kind.draw
  | .viewport _ _ _ _ => Call_kind.viewport
  | .camera_update _ _ _ => Call_kind.camera
  | .camera_bind _ => Call_kind.camera
  | .texture_unit_cache_reset _ => Call_kind.texture_unit_cache_reset
  | .material_update _ _ => Call_kind.material
  | .material_bind _ => Call_kind.material
  | .light_update_control _ _ => Call_kind.light_control
  | .light_bind_control_buffer _ => Call_kind.light_control
  | .light_update _ _ _ _ => Call_kind.light
  | .light_bind_light_buffer _ => Call_kind.light
  | .make_texture_handle_resident_arb _ => Call_kind.resident
  | .make_texture_handle_non_resident_arb _ => Call_kind.non_resident
  | .bind_texture_unit _ _ => Call_kind.texture_unit
  | .bind_sampler _ _ => Call_kind.texture_unit
  | .texture_unit_cache_bind _ => Call_kind.texture_unit
  | .draw_arrays _ _ _ => Call_kind.draw

/-- The kinds of the calls of a pass loop. -/
def pass_loop_kinds : List Call_kind :=
  [Call_kind.hook, Call_kind.debug_group, Call_kind.pipeline, Call_kind.mesh_stream,
   Call_kind.draw]

/-- The material buffer on which `render` runs the material update: in bound mode its texture
unit cache has been reset. -/
def render_material_buffer {σ π δ κ ι : Type} (env : Render_env σ π δ κ ι)
    (s : Render_state σ π δ κ ι) : Material_buffer σ :=
  (render_cache_reset env s).m_material_buffers

/-- The material buffer as the material update of `render` leaves it when it returns. -/
def render_materials_done {σ π δ κ ι : Type} (env : Render_env σ π δ κ ι)
    (parameters : Render_parameters) (s : Render_state σ π δ κ ι) : Material_buffer σ :=
  update_end (update_entries env.info env.g_programs env.interface
    (update_begin env.interface (render_material_buffer env s) parameters.materials)
    parameters.materials)

/-- Step 1: set the viewport from `parameters.viewport`. -/
def viewport_calls (parameters : Render_parameters) : List Gl_call :=
  [Gl_call.viewport parameters.viewport.x parameters.viewport.y parameters.viewport.width
    parameters.viewport.height]

/-- Step 2: if a camera is present, update and bind the camera stream. -/
def camera_calls {σ π δ κ ι : Type} (env : Render_env σ π δ κ ι)
    (parameters : Render_parameters) (s : Render_state σ π δ κ ι) : List Gl_call :=
  match parameters.camera with
  | some camera =>
    [Gl_call.camera_update camera parameters.viewport
       (env.frame_streams.camera_update s.m_camera_buffers camera parameters.viewport).1,
     Gl_call.camera_bind
       (env.frame_streams.camera_update s.m_camera_buffers camera parameters.viewport).1]
  | none => []

/-- Step 3: reset the texture unit cache, in bound mode only. -/
def cache_reset_calls {σ π δ κ ι : Type} (env : Render_env σ π δ κ ι) : List Gl_call :=
  if env.info.use_bindless_texture then []
  else [Gl_call.texture_unit_cache_reset env.g_programs.base_texture_unit]

/-- Step 4 as `render` does it: update and bind the material stream, the update running on the
material buffer that step 3 left. -/
def material_calls {σ π δ κ ι : Type} (env : Render_env σ π δ κ ι)
    (parameters : Render_parameters) (s : Render_state σ π δ κ ι) : List Gl_call :=
  [Gl_call.material_update parameters.materials
     (render_materials_done env parameters s).m_writer.range,
   Gl_call.material_bind (render_materials_done env parameters s).m_writer.range]

/-- Step 5: update and bind the light stream. -/
def light_calls {σ π δ κ ι : Type} (env : Render_env σ π δ κ ι)
    (parameters : Render_parameters) (s : Render_state σ π δ κ ι) : List Gl_call :=
  [Gl_call.light_update parameters.lights parameters.light_projections
     parameters.ambient_light
     (env.frame_streams.light_update s.m_light_buffers parameters.lights
       parameters.light_projections parameters.ambient_light).1,
   Gl_call.light_bind_light_buffer
     (env.frame_streams.light_update s.m_light_buffers parameters.lights
       parameters.light_projections parameters.ambient_light).1]

/-- The handles of the residency scope of `render`: the shadow map handle if shadows are
enabled, then the handles of `used_handles()` after the material update. -/
def resident_handles {σ π δ κ ι : Type} (env : Render_env σ π δ κ ι)
    (parameters : Render_parameters) (s : Render_state σ π δ κ ι) : List Nat :=
  (if enable_shadows env parameters then [shadow_texture_handle env parameters] else []) ++
    (render_materials_done env parameters s).used_handles

/-- Step 6: enter the residency scope (bindless), or bind the shadow texture unit if shadows
are enabled and the texture units of the cache with the fallback texture (bound). -/
def textures_begin_calls {σ π δ κ ι : Type} (env : Render_env σ π δ κ ι)
    (parameters : Render_parameters) (s : Render_state σ π δ κ ι) : List Gl_call :=
  if env.info.use_bindless_texture then
    (resident_handles env parameters s).map Gl_call.make_texture_handle_resident_arb
  else
    (if enable_shadows env parameters then bind_shadow_texture_calls env parameters else []) ++
      [Gl_call.texture_unit_cache_bind (fallback_texture_handle env s)]

/-- Step 8: leave the residency scope (bindless). -/
def textures_end_calls {σ π δ κ ι : Type} (env : Render_env σ π δ κ ι)
    (parameters : Render_parameters) (s : Render_state σ π δ κ ι) : List Gl_call :=
  if env.info.use_bindless_texture then
    (resident_handles env parameters s).map Gl_call.make_texture_handle_non_resident_arb
  else []

/-- Steps 1-6, in this order: what `render` does before its first pass. -/
def render_prologue {σ π δ κ ι : Type} (env : Render_env σ π δ κ ι)
    (parameters : Render_parameters) (s : Render_state σ π δ κ ι) : List Gl_call :=
  viewport_calls parameters ++ camera_calls env parameters s ++ cache_reset_calls env ++
    material_calls env parameters s ++ light_calls env parameters s ++
    textures_begin_calls env parameters s

/-- The state in which `render` enters its pass loop when the material update returns. -/
def render_prepared {σ π δ κ ι : Type} (env : Render_env σ π δ κ ι)
    (parameters : Render_parameters) (s : Render_state σ π δ κ ι) : Render_state σ π δ κ ι :=
  let s2 := render_cache_reset env (render_camera env parameters
    (s.call (viewport_calls parameters)))
  let s3 := ({ s2 with m_material_buffers := render_materials_done env parameters s }).call
    (material_calls env parameters s)
  render_textures_begin env parameters (render_lights env parameters s3)

/-- The material list fits into the material buffer. -/
def materials_fit {σ π δ κ ι : Type} (env : Render_env σ π δ κ ι)
    (parameters : Render_parameters) (s : Render_state σ π δ κ ι) : Prop :=
  parameters.materials.length * env.interface.entry_size ≤
    s.m_material_buffers.capacity_byte_count

instance {σ π δ κ ι : Type} (env : Render_env σ π δ κ ι) (parameters : Render_parameters)
    (s : Render_state σ π δ κ ι) : Decidable (materials_fit env parameters s) := by
  unfold materials_fit
  infer_instance

/-- The set of resident texture handles after the calls `calls`, starting from the set
`resident`: `make_texture_handle_resident_arb` adds its handle,
`make_texture_handle_non_resident_arb` removes it. -/
def resident_after : List Nat → List Gl_call → List Nat
  | resident, [] => resident
  | resident, .make_texture_handle_resident_arb handle :: rest =>
    resident_after (if handle ∈ resident then resident else handle :: resident) rest
  | resident, .make_texture_handle_non_resident_arb handle :: rest =>
    resident_after (resident.filter (fun h => h != handle)) rest
  | resident, _ :: rest => resident_after resident rest

/-- The handles passed to `make_texture_handle_resident_arb` by `calls`, in order. -/
def made_resident : List Gl_call → List Nat
  | [] => []
  | .make_texture_handle_resident_arb handle :: rest => handle :: made_resident rest
  | _ :: rest => made_resident rest

/-- The handles passed to `make_texture_handle_non_resident_arb` by `calls`, in order. -/
def made_non_resident : List Gl_call → List Nat
  | [] => []
  | .make_texture_handle_non_resident_arb handle :: rest => handle :: made_non_resident rest
  | _ :: rest => made_non_resident rest

/-! ### The calls of `render_fullscreen`, step by step -/

/-- The material buffer as the material update of `render_fullscreen` leaves it when it
returns: the update runs on the buffer, and so on the texture unit cache, as the caller left
them. -/
def fullscreen_materials_done {σ π δ κ ι : Type} (env : Render_env σ π δ κ ι)
    (parameters : Render_parameters) (s : Render_state σ π δ κ ι) : Material_buffer σ :=
  update_end (update_entries env.info env.g_programs env.interface
    (update_begin env.interface s.m_material_buffers parameters.materials)
    parameters.materials)

/-- The material update and bind of `render_fullscreen` (lines 287-288). -/
def fullscreen_material_calls {σ π δ κ ι : Type} (env : Render_env σ π δ κ ι)
    (parameters : Render_parameters) (s : Render_state σ π δ κ ι) : List Gl_call :=
  [Gl_call.material_update parameters.materials
     (fullscreen_materials_done env parameters s).m_writer.range,
   Gl_call.material_bind (fullscreen_materials_done env parameters s).m_writer.range]

/-- The light control update and bind of `render_fullscreen` (lines 300-308). -/
def light_control_calls {σ π δ κ ι : Type} (env : Render_env σ π δ κ ι)
    (parameters : Render_parameters) (light : Option Nat) (s : Render_state σ π δ κ ι) :
    List Gl_call :=
  match light with
  | some l =>
    match env.frame_streams.get_light_projection_transforms_for_light
        parameters.light_projections l with
    | some index =>
      [Gl_call.light_update_control index
         (env.frame_streams.light_update_control s.m_light_buffers index).1,
       Gl_call.light_bind_control_buffer
         (env.frame_streams.light_update_control s.m_light_buffers index).1]
    | none => []
  | none => []

/-- The shadow map calls that `render_fullscreen` makes before its passes (lines 315-322). -/
def shadow_begin_calls {σ π δ κ ι : Type} (env : Render_env σ π δ κ ι)
    (parameters : Render_parameters) : List Gl_call :=
  if enable_shadows env parameters then
    if env.info.use_bindless_texture then
      [Gl_call.make_texture_handle_resident_arb (shadow_texture_handle env parameters)]
    else bind_shadow_texture_calls env parameters
  else []

/-- The shadow map call that `render_fullscreen` makes after its passes (lines 344-348). -/
def shadow_end_calls {σ π δ κ ι : Type} (env : Render_env σ π δ κ ι)
    (parameters : Render_parameters) : List Gl_call :=
  if enable_shadows env parameters then
    if env.info.use_bindless_texture then
      [Gl_call.make_texture_handle_non_resident_arb (shadow_texture_handle env parameters)]
    else []
  else []

/-- What `render_fullscreen` does before its first pass, in this order: enter the debug
group, set the viewport, update and bind the material stream, then the camera stream, the
light control stream, the light stream, and the shadow map calls. -/
def fullscreen_prologue {σ π δ κ ι : Type} (env : Render_env σ π δ κ ι)
    (parameters : Render_parameters) (light : Option Nat) (s : Render_state σ π δ κ ι) :
    List Gl_call :=
  [Gl_call.scoped_debug_group_enter c_forward_renderer_render] ++ viewport_calls parameters ++
    fullscreen_material_calls env parameters s ++ camera_calls env parameters s ++
    light_control_calls env parameters light s ++
    light_calls env parameters (render_light_control env parameters light s) ++
    shadow_begin_calls env parameters

/-- The calls one pass of `render_fullscreen` contributes: nothing for a pass without shader
program; otherwise the begin hook if present, the debug group, the pipeline state, one
`draw_arrays` of three vertices from vertex 0 with the primitive topology of the pass, the end
hook if present, and the end of the debug group. -/
def fullscreen_block (pass : Renderpass) : List Gl_call :=
  match pass.pipeline.shader_stages with
  | none => []
  | some _ =>
    hook_calls Gl_call.pass_begin pass.begin ++
      [Gl_call.scoped_debug_group_enter pass.pipeline.name, Gl_call.execute pass.pipeline,
       Gl_call.draw_arrays pass.pipeline.primitive_topology 0 3] ++
      hook_calls Gl_call.pass_end pass.end_ ++ [Gl_call.scoped_debug_group_leave]

/-- The camera, material and light stream operations among `calls`, in order. -/
def stream_operations (calls : List Gl_call) : List Gl_call :=
  calls.filter (fun c => c.kind == Call_kind.camera || c.kind == Call_kind.material ||
    c.kind == Call_kind.light)

/-- The texture operations among `calls`, in order: the reset of the texture unit cache, the
residency calls, and the binding of texture units. -/
def texture_operations (calls : List Gl_call) : List Gl_call :=
  calls.filter (fun c => c.kind == Call_kind.texture_unit_cache_reset ||
    c.kind == Call_kind.resident || c.kind == Call_kind.non_resident ||
    c.kind == Call_kind.texture_unit)

/-! ### The tool passes of `Editor_rendering_impl` -/

/-- The stencil value `s_stencil_edge_lines` (editor_rendering.hpp line 81). -/
def s_stencil_edge_lines : Nat := 1

/-- The stencil value `s_stencil_tool_mesh_hidden` (editor_rendering.hpp line 82). -/
def s_stencil_tool_mesh_hidden : Nat := 2

/-- The stencil value `s_stencil_tool_mesh_visible` (editor_rendering.hpp line 83). -/
def s_stencil_tool_mesh_visible : Nat := 3

/-- The closure `[](){ gl::depth_range(0.0f, 0.0f); }` of lines 241 and 325, by a number. -/
def depth_range_0_0 : Nat := 0

/-- The closure `[](){ gl::depth_range(0.0f, 1.0f); }` of lines 242 and 326, by a number. -/
def depth_range_0_1 : Nat := 1

/-- What `setup_renderpasses` reads for the tool passes outside editor_rendering.cpp:
`reverse_depth` and `depth_function` of the configuration, the primitive topology of
`Input_assembly_state::triangles`, the two `Depth_stencil_state` presets, and the
`primitive_mode` with which a `Renderpass` is constructed. None of them is among the sources,
so they are parameters. -/
structure Setup_renderpasses_env where
  reverse_depth : Bool
  depth_function : Depth_function → Depth_function
  triangles : Nat
  depth_test_always_stencil_test_disabled : Depth_stencil_state
  depth_test_enabled_stencil_test_disabled : Bool → Depth_stencil_state
  primitive_mode : Nat

/-- Lines 244-277: tool pass one after `setup_renderpasses`. -/
def m_rp_tool1_hidden_stencil (c : Setup_renderpasses_env) (g_programs : Programs) :
    Renderpass :=
  { pipeline :=
      { name := "Tool pass 1: Tag depth hidden with stencil = 1"
        shader_stages := g_programs.tool
        primitive_topology := c.triangles
        rasterization := Rasterization_state.cull_mode_back_ccw c.reverse_depth
        depth_stencil :=
          { depth_test_enable := true
            depth_write_enable := false
            depth_compare_op := c.depth_function Depth_function.greater
            stencil_test_enable := true
            stencil_front :=
              { stencil_fail_op := Stencil_op.keep
                z_fail_op := Stencil_op.keep
                z_pass_op := Stencil_op.replace
                function := Stencil_function.always
                reference := s_stencil_tool_mesh_hidden
                test_mask := 0xff
                write_mask := 0xff }
            stencil_back :=
              { stencil_fail_op := Stencil_op.keep
                z_fail_op := Stencil_op.keep
                z_pass_op := Stencil_op.replace
                function := Stencil_function.always
                reference := s_stencil_tool_mesh_hidden
                test_mask := 0xff
                write_mask := 0xff } }
        color_blend := Color_blend_state.color_writes_disabled }
    primitive_mode := c.primitive_mode
    begin := none
    end_ := none }

/-- Lines 279-312: tool pass two after `setup_renderpasses`. -/
def m_rp_tool2_visible_stencil (c : Setup_renderpasses_env) (g_programs : Programs) :
    Renderpass :=
  { pipeline :=
      { name := "Tool pass 2: Tag visible tool parts with stencil = 2"
        shader_stages := g_programs.tool
        primitive_topology := c.triangles
        rasterization := Rasterization_state.cull_mode_back_ccw c.reverse_depth
        depth_stencil :=
          { depth_test_enable := true
            depth_write_enable := false
            depth_compare_op := c.depth_function Depth_function.lequal
            stencil_test_enable := true
            stencil_front :=
              { stencil_fail_op := Stencil_op.keep
                z_fail_op := Stencil_op.keep
                z_pass_op := Stencil_op.replace
                function := Stencil_function.always
                reference := s_stencil_tool_mesh_visible
                test_mask := 0xff
                write_mask := 0xff }
            stencil_back :=
              { stencil_fail_op := Stencil_op.keep
                z_fail_op := Stencil_op.keep
                z_pass_op := Stencil_op.replace
                function := Stencil_function.always
                reference := s_stencil_tool_mesh_visible
                test_mask := 0xff
                write_mask := 0xff } }
        color_blend := Color_blend_state.color_writes_disabled }
    primitive_mode := c.primitive_mode
    begin := none
    end_ := none }

/-- Lines 314-326: tool pass three after `setup_renderpasses`, with its two hooks. -/
def m_rp_tool3_depth_clear (c : Setup_renderpasses_env) (g_programs : Programs) :
    Renderpass :=
  { pipeline :=
      { name := "Tool pass 3: Set depth to fixed value"
        shader_stages := g_programs.tool
        primitive_topology := c.triangles
        rasterization := Rasterization_state.cull_mode_back_ccw c.reverse_depth
        depth_stencil := c.depth_test_always_stencil_test_disabled
        color_blend := Color_blend_state.color_writes_disabled }
    primitive_mode := c.primitive_mode
    begin := some depth_range_0_0
    end_ := some depth_range_0_1 }

/-- Lines 328-338: tool pass four after `setup_renderpasses`. -/
def m_rp_tool4_depth (c : Setup_renderpasses_env) (g_programs : Programs) : Renderpass :=
  { pipeline :=
      { name := "Tool pass 4: Set depth to proper tool depth"
        shader_stages := g_programs.tool
        primitive_topology := c.triangles
        rasterization := Rasterization_state.cull_mode_back_ccw c.reverse_depth
        depth_stencil := c.depth_test_enabled_stencil_test_disabled c.reverse_depth
        color_blend := Color_blend_state.color_writes_disabled }
    primitive_mode := c.primitive_mode
    begin := none
    end_ := none }

/-- Lines 340-373: tool pass five after `setup_renderpasses`. -/
def m_rp_tool5_visible_color (c : Setup_renderpasses_env) (g_programs : Programs) :
    Renderpass :=
  { pipeline :=
      { name := "Tool pass 5: Render visible tool parts"
        shader_stages := g_programs.tool
        primitive_topology := c.triangles
        rasterization := Rasterization_state.cull_mode_back_ccw c.reverse_depth
        depth_stencil :=
          { depth_test_enable := true
            depth_write_enable := true
            depth_compare_op := c.depth_function Depth_function.lequal
            stencil_test_enable := true
            stencil_front :=
              { stencil_fail_op := Stencil_op.keep
                z_fail_op := Stencil_op.keep
                z_pass_op := Stencil_op.keep
                function := Stencil_function.equal
                reference := s_stencil_tool_mesh_visible
                test_mask := 0xff
                write_mask := 0xff }
            stencil_back :=
              { stencil_fail_op := Stencil_op.keep
                z_fail_op := Stencil_op.keep
                z_pass_op := Stencil_op.keep
                function := Stencil_function.equal
                reference := s_stencil_tool_mesh_visible
                test_mask := 0xff
                write_mask := 0xff } }
        color_blend := Color_blend_state.color_blend_disabled }
    primitive_mode := c.primitive_mode
    begin := none
    end_ := none }

/-- Lines 375-421: tool pass six after `setup_renderpasses`. The blend constant is
`{ 0.0f, 0.0f, 0.0f, 0.6f }`, by the bit patterns of the floats. -/
def m_rp_tool6_hidden_color (c : Setup_renderpasses_env) (g_programs : Programs) :
    Renderpass :=
  { pipeline :=
      { name := "Tool pass 6: Render hidden tool parts"
        shader_stages := g_programs.tool
        primitive_topology := c.triangles
        rasterization := Rasterization_state.cull_mode_back_ccw c.reverse_depth
        depth_stencil :=
          { depth_test_enable := true
            depth_write_enable := true
            depth_compare_op := c.depth_function Depth_function.lequal
            stencil_test_enable := true
            stencil_front :=
              { stencil_fail_op := Stencil_op.keep
                z_fail_op := Stencil_op.keep
                z_pass_op := Stencil_op.keep
                function := Stencil_function.equal
                reference := s_stencil_tool_mesh_hidden
                test_mask := 0xff
                write_mask := 0xff }
            stencil_back :=
              { stencil_fail_op := Stencil_op.keep
                z_fail_op := Stencil_op.keep
                z_pass_op := Stencil_op.replace
                function := Stencil_function.always
                reference := s_stencil_tool_mesh_hidden
                test_mask := 0xff
                write_mask := 0xff } }
        color_blend :=
          Color_blend_state.blend true
            { equation_mode := Blend_equation_mode.func_add
              source_factor := Blending_factor.constant_alpha
              destination_factor := Blending_factor.one_minus_constant_alpha }
            { equation_mode := Blend_equation_mode.func_add
              source_factor := Blending_factor.constant_alpha
              destination_factor := Blending_factor.one_minus_constant_alpha }
            (0, 0, 0, 0x3f19999a) }
    primitive_mode := c.primitive_mode
    begin := none
    end_ := none }

/-- The members of a `Render_style` that `render_content` reads. A color is given by the bit
patterns of its four floats, a size by the bit pattern of its float, a color source by its
number. -/
structure Render_style where
  polygon_fill : Bool
  edge_lines : Bool
  polygon_centroids : Bool
  corner_points : Bool
  edge_lines_color_source : Nat
  polygon_centroids_color_source : Nat
  corner_points_color_source : Nat
  line_color : Nat × Nat × Nat × Nat
  centroid_color : Nat × Nat × Nat × Nat
  corner_color : Nat × Nat × Nat × Nat
  line_width : Nat
  point_size : Nat
deriving DecidableEq, Repr

/-- The members of a `Viewport_config` that `render_content` reads. -/
structure Viewport_config where
  render_style_not_selected : Render_style
  render_style_selected : Render_style
deriving DecidableEq, Repr

/-- The members of `Render_context` that `render_tool_meshes` and `render_content` read; a
null pointer is `none`. -/
structure Render_context where
  camera : Option Nat
  scene_view : Option Nat
  viewport : Viewport
  viewport_config : Option Viewport_config := none
  override_shader_stages : Option Nat := none
deriving DecidableEq, Repr

/-- What `render_tool_meshes` and `render_content` read of a scene root: the entries of the
material library of its content library, the meshes of its tool, content and controller
layers, and the lights and the ambient light of its light layer. -/
structure Scene_root where
  materials : List Nat
  tool_meshes : List Nat
  content_meshes : List Nat := []
  controller_meshes : List Nat := []
  lights : List Nat := []
  ambient_light : Nat × Nat × Nat × Nat := (0, 0, 0, 0)
deriving DecidableEq, Repr

/-- The `erhe::scene::Item_flags` bits that the filters of `render_content`,
`render_tool_meshes` and `apply_filter` name (`opaque_` is `Item_flags::opaque`). Their values
are declared in a header that is not among the sources, so they are parameters. -/
structure Item_flags where
  visible : Nat
  content : Nat
  controller : Nat
  tool : Nat
  opaque_ : Nat
  translucent : Nat
  selected : Nat
deriving DecidableEq, Repr

/-- Lines 1010-1057: the `Render_parameters` with which `render_tool_meshes` calls
`g_forward_renderer->render`, `none` when it returns without rendering;
`get_tool_scene_root` is what `g_tools->get_tool_scene_root()` returned. -/
def render_tool_meshes_parameters (c : Setup_renderpasses_env) (g_programs : Programs)
    (item_flags : Item_flags) (get_tool_scene_root : Option Scene_root)
    (context : Render_context) : Option Render_parameters :=
  match context.camera, context.scene_view with
  | some camera, some _ =>
    match get_tool_scene_root with
    | none => none
    | some scene_root =>
      if scene_root.tool_meshes.isEmpty then none
      else
        some
          { camera := some camera
            lights := []
            materials := scene_root.materials
            mesh_spans := [scene_root.tool_meshes]
            passes :=
              [m_rp_tool1_hidden_stencil c g_programs, m_rp_tool2_visible_stencil c g_programs,
               m_rp_tool3_depth_clear c g_programs, m_rp_tool4_depth c g_programs,
               m_rp_tool5_visible_color c g_programs, m_rp_tool6_hidden_color c g_programs]
            viewport := context.viewport
            filter := { require_all_bits_set := item_flags.visible ||| item_flags.tool } }
  | _, _ => none

/-- The method `Editor_rendering_impl::render_tool_meshes` (lines 1010-1058). -/
def render_tool_meshes {σ π δ κ ι : Type} (c : Setup_renderpasses_env)
    (env : Render_env σ π δ κ ι) (item_flags : Item_flags)
    (get_tool_scene_root : Option Scene_root) (context : Render_context)
    (s : Render_state σ π δ κ ι) :
    Except (Fault × Material_buffer σ) (Render_state σ π δ κ ι) :=
  match render_tool_meshes_parameters c env.g_programs item_flags get_tool_scene_root
      context with
  | none => .ok s
  | some parameters => Forward_renderer.render env parameters s

/-- Lines 849-853: the filter that `render_content` builds before `apply_filter`. -/
def render_content_filter (item_flags : Item_flags) : Item_filter :=
  { require_all_bits_set := item_flags.visible
    require_at_least_one_bit_set := item_flags.content ||| item_flags.controller
    require_all_bits_clear := 0 }

/-- Lines 1050-1055: the filter that `render_tool_meshes` builds. -/
def render_tool_meshes_filter (item_flags : Item_flags) : Item_filter :=
  { require_all_bits_set := item_flags.visible ||| item_flags.tool }

/-- The pipelines whose state the calls `calls` apply, in order. -/
def executed_pipelines : List Gl_call → List Pipeline_data
  | [] => []
  | .execute pipeline :: rest => pipeline :: executed_pipelines rest
  | _ :: rest => executed_pipelines rest

/-- Modelled from the spec: `Item_filter::operator()` is not among the sources. "a mesh passes
iff `(flags & require_all_set) == require_all_set && (flags & require_any_set) != 0 &&
(flags & require_all_clear) == 0`". -/
def Item_filter.passes (filter : Item_filter) (flags : Nat) : Bool :=
  (flags &&& filter.require_all_bits_set == filter.require_all_bits_set) &&
    (flags &&& filter.require_at_least_one_bit_set != 0) &&
    (flags &&& filter.require_all_bits_clear == 0)

/-! ### The stencil test of a pipeline -/

/-- The comparison that the OpenGL stencil test makes with a `gl::Stencil_function`: the
function is applied to the masked reference value and the masked stencil value. -/
def Stencil_function.passes (function : Stencil_function) (reference stencil : Nat) : Bool :=
  match function with
  | Stencil_function.never => false
  | Stencil_function.less => decide (reference < stencil)
  | Stencil_function.equal => decide (reference = stencil)
  | Stencil_function.lequal => decide (reference ≤ stencil)
  | Stencil_function.greater => decide (reference > stencil)
  | Stencil_function.notequal => decide (reference ≠ stencil)
  | Stencil_function.gequal => decide (reference ≥ stencil)
  | Stencil_function.always => true

/-- The enumeration `Fill_mode` (editor_rendering.hpp lines 18-22). -/
inductive Fill_mode where
  | fill
  | outline
deriving DecidableEq, Repr

/-- The enumeration `Blend_mode` (editor_rendering.hpp lines 23-27). Its underlying type is
`int`; `other` stands for a value that is none of the enumerators. -/
inductive Blend_mode where
  | opaque_
  | translucent
  | other (value : Int)
deriving DecidableEq, Repr

/-- The enumeration `Selection_mode` (editor_rendering.hpp lines 28-33). Its underlying type
is `int`; `other` stands for a value that is none of the enumerators. -/
inductive Selection_mode where
  | not_selected
  | selected
  | any
  | other (value : Int)
deriving DecidableEq, Repr

/-- The overload `apply_filter(filter, blend_mode)` (lines 570-592). -/
def apply_filter_blend_mode (item_flags : Item_flags) (filter : Item_filter)
    (blend_mode : Blend_mode) : Item_filter :=
  match blend_mode with
  | Blend_mode.opaque_ =>
    { filter with
      require_all_bits_set := filter.require_all_bits_set ||| item_flags.opaque_
      require_all_bits_clear := filter.require_all_bits_clear ||| item_flags.translucent }
  | Blend_mode.translucent =>
    { filter with
      require_all_bits_set := filter.require_all_bits_set ||| item_flags.translucent
      require_all_bits_clear := filter.require_all_bits_clear ||| item_flags.opaque_ }
  | Blend_mode.other _ => filter

/-- The overload `apply_filter(filter, selection_mode)` (lines 594-615). -/
def apply_filter_selection_mode (item_flags : Item_flags) (filter : Item_filter)
    (selection_mode : Selection_mode) : Item_filter :=
  match selection_mode with
  | Selection_mode.not_selected =>
    { filter with
      require_all_bits_clear := filter.require_all_bits_clear ||| item_flags.selected }
  | Selection_mode.selected =>
    { filter with
      require_all_bits_set := filter.require_all_bits_set ||| item_flags.selected }
  | Selection_mode.any => filter
  | Selection_mode.other _ => filter

/-- Lines 849-855: the filter with which `render_content` renders. -/
def render_content_applied_filter (item_flags : Item_flags) (blend_mode : Blend_mode)
    (selection_mode : Selection_mode) : Item_filter :=
  apply_filter_selection_mode item_flags
    (apply_filter_blend_mode item_flags (render_content_filter item_flags) blend_mode)
    selection_mode

/-- The enumeration `Primitive_size_source`, of which `render_content` names `constant_size`;
`other` stands for any other value. -/
inductive Primitive_size_source where
  | constant_size
  | other (value : Nat)
deriving DecidableEq, Repr

/-- The members of `Primitive_interface_settings` that `render_content` writes. A color is
given by the bit patterns of its four floats, a size by the bit pattern of its float, a color
source by its number. -/
structure Primitive_interface_settings where
  color_source : Nat
  constant_color : Nat × Nat × Nat × Nat
  size_source : Primitive_size_source
  constant_size : Nat
deriving DecidableEq, Repr

/-- The capability `gl::Enable_cap::sample_alpha_to_coverage`, the one that `render_content`
names. -/
inductive Enable_cap where
  | sample_alpha_to_coverage
deriving DecidableEq, Repr

/-- What `render_content` does, in order: an error it logs with `log_render->error`, the debug
group it enters and leaves, `gl::enable` and `gl::disable`, and a call of
`g_forward_renderer->render` with its parameters (the calls that `render` makes in turn are
recorded in the state of the renderer). -/
inductive Content_call where
  | log_error (message : String)
  | scoped_debug_group_enter (name : String)
  | scoped_debug_group_leave
  | enable (cap : Enable_cap)
  | disable (cap : Enable_cap)
  | render (parameters : Render_parameters)
deriving DecidableEq, Repr

/-- The `Renderpass` members of `Editor_rendering_impl` that `render_content` reads (lines
122-135), and the value of the expression `Renderpass{}` (line 869); the class `Renderpass` is
declared in a header that is not among the sources. -/
structure Content_renderpasses where
  m_rp_polygon_fill_standard_opaque : Renderpass
  m_rp_polygon_fill_standard_translucent : Renderpass
  m_rp_edge_lines : Renderpass
  m_rp_polygon_centroids : Renderpass
  m_rp_corner_points : Renderpass
  value_initialized : Renderpass
deriving DecidableEq, Repr

/-- What `render_content` calls on the scene view, as functions of the address of the scene
view: `get_scene_root()`, `get_light_projections()`, `get_shadow_texture()`. The class is
declared in a header whose member functions are not defined among the sources, so they are
parameters. -/
structure Scene_view_interface where
  get_scene_root : Nat → Option Scene_root
  get_light_projections : Nat → Option Nat
  get_shadow_texture : Nat → Option Nat

/-- The state that `render_content` works on: the forward renderer behind
`g_forward_renderer`, the settings that `g_forward_renderer->primitive_settings()` refers to,
and what `render_content` has done so far. -/
structure Content_state (σ π δ κ ι : Type) where
  renderer : Render_state σ π δ κ ι
  primitive_settings : Primitive_interface_settings
  calls : List Content_call

/-- The state after `render_content` has done `calls`. -/
def Content_state.record {σ π δ κ ι : Type} (s : Content_state σ π δ κ ι)
    (calls : List Content_call) : Content_state σ π δ κ ι :=
  { s with calls := s.calls ++ calls }

/-- A call `g_forward_renderer->render(parameters)` made by `render_content`. -/
def Content_state.render {σ π δ κ ι : Type} (env : Render_env σ π δ κ ι)
    (parameters : Render_parameters) (s : Content_state σ π δ κ ι) :
    Except (Fault × Material_buffer σ) (Content_state σ π δ κ ι) :=
  match Forward_renderer.render env parameters s.renderer with
  | .error e => .error e
  | .ok renderer =>
    .ok (({ s with renderer := renderer }).record [Content_call.render parameters])

/-- Lines 865-871: the pass that the blend mode selects. -/
def render_content_renderpass (m : Content_renderpasses) (blend_mode : Blend_mode) :
    Renderpass :=
  match blend_mode with
  | Blend_mode.opaque_ => m.m_rp_polygon_fill_standard_opaque
  | Blend_mode.translucent => m.m_rp_polygon_fill_standard_translucent
  | Blend_mode.other _ => m.value_initialized

/-- Lines 872-874: the shader program of the pass is replaced when the context has override
shader stages. -/
def override_shader_stages (context : Render_context) (renderpass : Renderpass) : Renderpass :=
  match context.override_shader_stages with
  | some shader_stages =>
    { renderpass with
      pipeline := { renderpass.pipeline with shader_stages := some shader_stages } }
  | none => renderpass

/-- Lines 875-888: the parameters of the `render` call of the fill branch. -/
def render_content_fill_parameters (view : Scene_view_interface) (m : Content_renderpasses)
    (item_flags : Item_flags) (context : Render_context) (scene_view camera : Nat)
    (scene_root : Scene_root) (blend_mode : Blend_mode) (selection_mode : Selection_mode) :
    Render_parameters :=
  { ambient_light := scene_root.ambient_light
    camera := some camera
    light_projections := view.get_light_projections scene_view
    lights := scene_root.lights
    materials := scene_root.materials
    mesh_spans := [scene_root.content_meshes, scene_root.controller_meshes]
    passes := [override_shader_stages context (render_content_renderpass m blend_mode)]
    shadow_texture := view.get_shadow_texture scene_view
    viewport := context.viewport
    filter := render_content_applied_filter item_flags blend_mode selection_mode }

/-- The parameters of a `render` call of the outline branch (lines 901-910, 919-928 and
936-945), for the pass `pass`. -/
def render_content_outline_parameters (context : Render_context) (camera : Nat)
    (scene_root : Scene_root) (filter : Item_filter) (pass : Renderpass) : Render_parameters :=
  { camera := some camera
    materials := scene_root.materials
    mesh_spans := [scene_root.content_meshes]
    passes := [pass]
    viewport := context.viewport
    filter := filter }

/-- Lines 895-912: the edge lines. -/
def render_content_edge_lines {σ π δ κ ι : Type} (env : Render_env σ π δ κ ι)
    (m : Content_renderpasses) (context : Render_context) (camera : Nat)
    (scene_root : Scene_root) (filter : Item_filter) (render_style : Render_style)
    (s : Content_state σ π δ κ ι) :
    Except (Fault × Material_buffer σ) (Content_state σ π δ κ ι) :=
  if render_style.edge_lines then
    let s1 := s.record [Content_call.enable Enable_cap.sample_alpha_to_coverage]
    let s2 := { s1 with
      primitive_settings :=
        { color_source := render_style.edge_lines_color_source
          constant_color := render_style.line_color
          size_source := Primitive_size_source.constant_size
          constant_size := render_style.line_width } }
    match s2.render env
        (render_content_outline_parameters context camera scene_root filter
          m.m_rp_edge_lines) with
    | .error e => .error e
    | .ok s3 => .ok (s3.record [Content_call.disable Enable_cap.sample_alpha_to_coverage])
  else .ok s

/-- Lines 914-929: the polygon centroids. -/
def render_content_polygon_centroids {σ π δ κ ι : Type} (env : Render_env σ π δ κ ι)
    (m : Content_renderpasses) (context : Render_context) (camera : Nat)
    (scene_root : Scene_root) (filter : Item_filter) (render_style : Render_style)
    (s : Content_state σ π δ κ ι) :
    Except (Fault × Material_buffer σ) (Content_state σ π δ κ ι) :=
  if render_style.polygon_centroids then
    let s1 := { s with
      primitive_settings :=
        { color_source := render_style.polygon_centroids_color_source
          constant_color := render_style.centroid_color
          size_source := Primitive_size_source.constant_size
          constant_size := render_style.point_size } }
    s1.render env
      (render_content_outline_parameters context camera scene_root filter
        m.m_rp_polygon_centroids)
  else .ok s

/-- Lines 931-946: the corner points. -/
def render_content_corner_points {σ π δ κ ι : Type} (env : Render_env σ π δ κ ι)
    (m : Content_renderpasses) (context : Render_context) (camera : Nat)
    (scene_root : Scene_root) (filter : Item_filter) (render_style : Render_style)
    (s : Content_state σ π δ κ ι) :
    Except (Fault × Material_buffer σ) (Content_state σ π δ κ ι) :=
  if render_style.corner_points then
    let s1 := { s with
      primitive_settings :=
        { color_source := render_style.corner_points_color_source
          constant_color := render_style.corner_color
          size_source := Primitive_size_source.constant_size
          constant_size := render_style.point_size } }
    s1.render env
      (render_content_outline_parameters context camera scene_root filter
        m.m_rp_corner_points)
  else .ok s

/-- The string of the first error of `render_content` (line 827). -/
def c_missing_input : String :=
  "Missing forward renderer / scene viewport / camera / viewport config - cannot render"

/-- The string of the second error of `render_content` (line 833). -/
def c_missing_scene_root : String := "Missing scene root - cannot render"

/-- The method `Editor_rendering_impl::render_content` (lines 812-947). `g_forward_renderer`
tells whether the global pointer of that name is non-null. The debug group
`outer_debug_scope` is entered at line 837 and left when the function returns. -/
def render_content {σ π δ κ ι : Type} (env : Render_env σ π δ κ ι)
    (g_forward_renderer : Bool) (view : Scene_view_interface) (m : Content_renderpasses)
    (item_flags : Item_flags) (context : Render_context) (fill_mode : Fill_mode)
    (blend_mode : Blend_mode) (selection_mode : Selection_mode)
    (s : Content_state σ π δ κ ι) :
    Except (Fault × Material_buffer σ) (Content_state σ π δ κ ι) :=
  match g_forward_renderer, context.scene_view, context.camera, context.viewport_config with
  | true, some scene_view, some camera, some viewport_config =>
    match view.get_scene_root scene_view with
    | none => .ok (s.record [Content_call.log_error c_missing_scene_root])
    | some scene_root =>
      let s0 := s.record [Content_call.scoped_debug_group_enter "Viewport content"]
      let render_style :=
        if selection_mode = Selection_mode.selected then viewport_config.render_style_selected
        else viewport_config.render_style_not_selected
      let filter := render_content_applied_filter item_flags blend_mode selection_mode
      if fill_mode = Fill_mode.fill && render_style.polygon_fill then
        match s0.render env
            (render_content_fill_parameters view m item_flags context scene_view camera
              scene_root blend_mode selection_mode) with
        | .error e => .error e
        | .ok s1 => .ok (s1.record [Content_call.scoped_debug_group_leave])
      else
        match render_content_edge_lines env m context camera scene_root filter render_style
            s0 with
        | .error e => .error e
        | .ok s1 =>
          match render_content_polygon_centroids env m context camera scene_root filter
              render_style s1 with
          | .error e => .error e
          | .ok s2 =>
            match render_content_corner_points env m context camera scene_root filter
                render_style s2 with
            | .error e => .error e
            | .ok s3 => .ok (s3.record [Content_call.scoped_debug_group_leave])
  | _, _, _, _ => .ok (s.record [Content_call.log_error c_missing_input])

end editor

namespace erhe.components

open erhe.toolkit

/-- The enumeration `Component_state`, with the values that `c_str` names (lines 9-24), in the
order in which it names them. -/
inductive Component_state where
  | Constructed
  | Declaring_initialization_requirements
  | Initialization_requirements_declared
  | Initializing
  | Initialized
  | Post_initializing
  | Ready
  | Deinitializing
  | Deinitialized
deriving DecidableEq, Repr

/-- The members of `Component` that `set_state` reads and writes; the dependencies are given
by their addresses. -/
structure Component where
  m_state : Component_state
  m_initialized_dependencies : List Nat
deriving DecidableEq, Repr

/-- The method `Component::set_state` (lines 94-143). A failed `ERHE_VERIFY` and the
`ERHE_FATAL` of the default branch stop the process, in the state the component has then. -/
def Component.set_state (c : Component) (state : Component_state) :
    Except (Fault × Component) Component :=
  match c.m_state with
  | .Constructed =>
    if state = .Declaring_initialization_requirements then .ok { c with m_state := state }
    else .error (Fault.verify_failed, c)
  | .Declaring_initialization_requirements =>
    if state = .Initialization_requirements_declared then .ok { c with m_state := state }
    else .error (Fault.verify_failed, c)
  | .Initialization_requirements_declared =>
    if state = .Initializing then .ok { c with m_state := state }
    else .error (Fault.verify_failed, c)
  | .Initializing =>
    if state = .Initialized then .ok { c with m_state := state }
    else .error (Fault.verify_failed, c)
  | .Initialized =>
    if state = .Post_initializing then .ok { c with m_state := state }
    else .error (Fault.verify_failed, c)
  | .Post_initializing =>
    if state = .Ready then .ok { c with m_state := state }
    else .error (Fault.verify_failed, c)
  | .Ready =>
    if state = .Deinitializing then .ok { c with m_state := state }
    else .error (Fault.verify_failed, c)
  | .Deinitializing =>
    if state = .Deinitialized then
      .ok { c with m_state := state, m_initialized_dependencies := [] }
    else .error (Fault.verify_failed, c)
  | _ => .error (Fault.fatal_invalid_state_transition, c)

/-- The states a component goes through when `set_state` is called with `requests`, one after
the other; the process stops at the first call that ends in a fault. -/
def Component.states (c : Component) : List Component_state → List Component_state
  | [] => []
  | state :: rest =>
    match c.set_state state with
    | .ok c1 => c1.m_state :: Component.states c1 rest
    | .error _ => []

/-- The immediate successor of a state in the chain `Constructed`, ..., `Deinitialized`. -/
def Component_state.successor : Component_state → Option Component_state
  | .Constructed => some .Declaring_initialization_requirements
  | .Declaring_initialization_requirements => some .Initialization_requirements_declared
  | .Initialization_requirements_declared => some .Initializing
  | .Initializing => some .Initialized
  | .Initialized => some .Post_initializing
  | .Post_initializing => some .Ready
  | .Ready => some .Deinitializing
  | .Deinitializing => some .Deinitialized
  | .Deinitialized => none

/-- The position of a state in the chain. -/
def Component_state.stage : Component_state → Nat
  | .Constructed => 0
  | .Declaring_initialization_requirements => 1
  | .Initialization_requirements_declared => 2
  | .Initializing => 3
  | .Initialized => 4
  | .Post_initializing => 5
  | .Ready => 6
  | .Deinitializing => 7
  | .Deinitialized => 8

end erhe.components

namespace erhe.graphics

open erhe.toolkit

/-- The members of `Vertex_attribute` that `Vertex_format` reads and writes: the usage, the
`data_type.type` (a `gl::Vertex_attrib_type`, by its number), the `data_type.dimension` and
the `offset`. -/
structure Vertex_attribute where
  usage_type : Nat
  usage_index : Nat
  data_type_type : Nat
  dimension : Nat
  offset : Nat
deriving DecidableEq, Repr

/-- The members of `Vertex_format`. -/
structure Vertex_format where
  m_attributes : List Vertex_attribute
  m_stride : Nat
deriving DecidableEq, Repr

/-- The size in bytes that `add_attribute` computes for an attribute (line 42);
`gl_helpers::size_of_type` is not among the sources and is a parameter. -/
def Vertex_attribute.attribute_stride (size_of_type : Nat → Nat) (attr : Vertex_attribute) :
    Nat :=
  attr.dimension * size_of_type attr.data_type_type

/-- The method `Vertex_format::add_attribute` (lines 33-47). -/
def Vertex_format.add_attribute (size_of_type : Nat → Nat) (f : Vertex_format)
    (attr : Vertex_attribute) : Except Fault Vertex_format :=
  if 1 ≤ attr.dimension ∧ attr.dimension ≤ 4 then
    let attribute_stride := attr.attribute_stride size_of_type
    .ok { m_attributes := f.m_attributes ++ [{ attr with offset := f.m_stride }]
          m_stride := f.m_stride + attribute_stride }
  else .error Fault.verify_failed

/-- The constructor `Vertex_format::Vertex_format()` (lines 13-15): no attributes; `m_stride`
starts at `0` (its initializer is in the class declaration, which is not among the
sources). -/
def Vertex_format.empty : Vertex_format := { m_attributes := [], m_stride := 0 }

/-- The loop of the constructor from an initializer list (lines 19-21), from the format `f`
on. -/
def Vertex_format.add_attributes (size_of_type : Nat → Nat) :
    Vertex_format → List Vertex_attribute → Except Fault Vertex_format
  | f, [] => .ok f
  | f, attr :: rest =>
    match f.add_attribute size_of_type attr with
    | .ok f1 => Vertex_format.add_attributes size_of_type f1 rest
    | .error e => .error e

/-- The constructor `Vertex_format::Vertex_format(std::initializer_list<Vertex_attribute>)`
(lines 17-22). -/
def Vertex_format.make (size_of_type : Nat → Nat) (attributes : List Vertex_attribute) :
    Except Fault Vertex_format :=
  Vertex_format.add_attributes size_of_type Vertex_format.empty attributes

/-- The sum of the byte sizes of `attributes`. -/
def byte_size_sum (size_of_type : Nat → Nat) (attributes : List Vertex_attribute) : Nat :=
  (attributes.map (Vertex_attribute.attribute_stride size_of_type)).sum

end erhe.graphics

namespace erhe.graphics

open erhe.toolkit

/-- The C library `memcpy(dst + offset, source, count)` into a mapped span. -/
def memcpy (dst : Gpu_data) (offset : Nat) (source : List Nat) : Gpu_data :=
  fun a =>
    if offset ≤ a ∧ a < offset + source.length then source.getD (a - offset) 0 else dst a

/-- One element of `Buffer_transfer_queue::m_queued`: the target buffer (by its address), the
target offset and the bytes. -/
structure Transfer_entry where
  target : Nat
  target_offset : Nat
  data : List Nat
deriving DecidableEq, Repr

/-- The member `m_queued` of `Buffer_transfer_queue`. -/
structure Buffer_transfer_queue where
  m_queued : List Transfer_entry
deriving DecidableEq, Repr

/-- The contents of the buffers, by buffer address and byte offset. -/
abbrev Buffers := Nat → Gpu_data

/-- The method `Buffer_transfer_queue::enqueue` (lines 23-38), run by one thread alone. -/
def Buffer_transfer_queue.enqueue (q : Buffer_transfer_queue) (buffer offset : Nat)
    (data : List Nat) : Buffer_transfer_queue :=
  { m_queued := q.m_queued ++ [{ target := buffer, target_offset := offset, data := data }] }

/-- Lines 53-61: one iteration of the loop of `flush`. The `Scoped_buffer_mapping` (not among
the sources) maps the bytes `[target_offset, target_offset + data.size())` of the target, and
`memcpy` fills them. -/
def upload (buffers : Buffers) (entry : Transfer_entry) : Buffers :=
  Function.update buffers entry.target
    (memcpy (buffers entry.target) entry.target_offset entry.data)

/-- The method `Buffer_transfer_queue::flush` (lines 40-64), run by one thread alone: the
buffers and the queue afterwards, and the entries copied, in the order of the copies. -/
def Buffer_transfer_queue.flush (q : Buffer_transfer_queue) (buffers : Buffers) :
    Buffers × Buffer_transfer_queue × List Transfer_entry :=
  let done := q.m_queued.foldl
    (fun (state : Buffers × List Transfer_entry) entry =>
      (upload state.1 entry, state.2 ++ [entry])) (buffers, [])
  (done.1, { m_queued := [] }, done.2)

/-- The queue after the `enqueue` calls `calls`, each given by buffer, offset and data. -/
def Buffer_transfer_queue.enqueue_all (q : Buffer_transfer_queue)
    (calls : List (Nat × Nat × List Nat)) : Buffer_transfer_queue :=
  calls.foldl (fun q call => q.enqueue call.1 call.2.1 call.2.2) q

/-- Byte `a` of buffer `buffer` lies in the range that `entry` is copied to. -/
def Transfer_entry.covers (buffer a : Nat) (entry : Transfer_entry) : Bool :=
  entry.target == buffer && decide (entry.target_offset ≤ a) &&
    decide (a < entry.target_offset + entry.data.length)

/-- A call that a thread makes on the queue. -/
inductive Queue_call where
  | enqueue (entry : Transfer_entry)
  | flush
deriving DecidableEq, Repr

/-- Where a thread stands: outside the two methods; in `enqueue` with the lock of line 29
taken, before and after the `emplace_back` of line 37; in `flush` with the lock of line 44
taken, about to read element `index` of `m_queued` in the loop of line 46, or after the
`clear()` of line 63. -/
inductive Thread_pc where
  | outside
  | enqueue_locked (entry : Transfer_entry)
  | enqueue_inserted
  | flush_locked (index : Nat)
  | flush_cleared
deriving DecidableEq, Repr

/-- A thread: where it stands, and the calls it still has to make. -/
structure Thread where
  pc : Thread_pc
  calls : List Queue_call
deriving DecidableEq, Repr

/-- The queue shared by the threads: the owner of `m_mutex` if it is locked, `m_queued`, the
buffers and the threads; `enqueued` and `copied` record the entries that `emplace_back` has
inserted and that `memcpy` has copied so far, in order. -/
structure Queue_system where
  m_mutex : Option Nat
  m_queued : List Transfer_entry
  buffers : Buffers
  threads : Nat → Thread
  enqueued : List Transfer_entry
  copied : List Transfer_entry

/-- One step of thread `t`. A thread that is outside takes the lock for its next call if the
mutex is free, and otherwise waits (the `std::lock_guard` constructor blocks); inside
`enqueue` it inserts the entry and then releases the lock; inside `flush` it copies the next
entry, or clears the queue after the last one, and then releases the lock. -/
def Queue_system.step (t : Nat) (s : Queue_system) : Queue_system :=
  match (s.threads t).pc with
  | .outside =>
    match (s.threads t).calls with
    | [] => s
    | call :: rest =>
      match s.m_mutex with
      | some _ => s
      | none =>
        { s with
          m_mutex := some t
          threads := Function.update s.threads t
            { pc := (match call with
                | .enqueue entry => Thread_pc.enqueue_locked entry
                | .flush => Thread_pc.flush_locked 0)
              calls := rest } }
  | .enqueue_locked entry =>
    { s with
      m_queued := s.m_queued ++ [entry]
      enqueued := s.enqueued ++ [entry]
      threads := Function.update s.threads t
        { s.threads t with pc := Thread_pc.enqueue_inserted } }
  | .enqueue_inserted =>
    { s with
      m_mutex := none
      threads := Function.update s.threads t { s.threads t with pc := Thread_pc.outside } }
  | .flush_locked index =>
    match s.m_queued.get? index with
    | some entry =>
      { s with
        buffers := upload s.buffers entry
        copied := s.copied ++ [entry]
        threads := Function.update s.threads t
          { s.threads t with pc := Thread_pc.flush_locked (index + 1) } }
    | none =>
      { s with
        m_queued := []
        threads := Function.update s.threads t
          { s.threads t with pc := Thread_pc.flush_cleared } }
  | .flush_cleared =>
    { s with
      m_mutex := none
      threads := Function.update s.threads t { s.threads t with pc := Thread_pc.outside } }

/-- The system after the threads have taken steps in the order `schedule`. -/
def Queue_system.run (schedule : List Nat) (s : Queue_system) : Queue_system :=
  schedule.foldl (fun s t => s.step t) s

/-- The system before any thread has made a call: thread `t` has the calls `programs t` to
make, the queue holds `queued`. -/
def Queue_system.init (programs : Nat → List Queue_call) (queued : List Transfer_entry)
    (buffers : Buffers) : Queue_system :=
  { m_mutex := none
    m_queued := queued
    buffers := buffers
    threads := fun t => { pc := Thread_pc.outside, calls := programs t }
    enqueued := queued
    copied := [] }

/-- The entries of the queue that no `memcpy` has copied yet: all of them, except that during
a `flush` the loop has already copied those before its index. -/
def Queue_system.pending (s : Queue_system) : List Transfer_entry :=
  match s.m_mutex with
  | some owner =>
    match (s.threads owner).pc with
    | .flush_locked index => s.m_queued.drop index
    | .flush_cleared => []
    | _ => s.m_queued
  | none => s.m_queued

/-- The thread is inside `enqueue`. -/
def Thread_pc.in_enqueue : Thread_pc → Bool
  | .enqueue_locked _ => true
  | .enqueue_inserted => true
  | _ => false

/-- The thread is inside `flush`. -/
def Thread_pc.in_flush : Thread_pc → Bool
  | .flush_locked _ => true
  | .flush_cleared => true
  | _ => false

/-- What holds in every state that the threads can reach: a thread inside one of the two
methods owns the mutex; the owner of the mutex is inside one of them; the entries inserted so
far are those copied so far followed by the pending ones, in insertion order; and after the
`clear()` of `flush` the queue is empty. -/
def Queue_system.consistent (s : Queue_system) : Prop :=
  (∀ u, (s.threads u).pc ≠ Thread_pc.outside → s.m_mutex = some u) ∧
  (∀ owner, s.m_mutex = some owner → (s.threads owner).pc ≠ Thread_pc.outside) ∧
  s.copied ++ s.pending = s.enqueued ∧
  (∀ u, (s.threads u).pc = Thread_pc.flush_cleared → s.m_queued = [])

/-- The next call of thread `t` run as a whole, with no other thread in between: the method
as one thread alone runs it (`Buffer_transfer_queue.enqueue`, `Buffer_transfer_queue.flush`)
on the queue and the buffers of the system, the entries it inserted and copied recorded. -/
def Queue_system.atomic (t : Nat) (s : Queue_system) : Queue_system :=
  match (s.threads t).calls with
  | [] => s
  | .enqueue entry :: rest =>
    { s with
      m_queued :=
        (Buffer_transfer_queue.enqueue { m_queued := s.m_queued } entry.target
          entry.target_offset entry.data).m_queued
      enqueued := s.enqueued ++ [entry]
      threads := Function.update s.threads t { pc := Thread_pc.outside, calls := rest } }
  | .flush :: rest =>
    { s with
      buffers := (Buffer_transfer_queue.flush { m_queued := s.m_queued } s.buffers).1
      m_queued := (Buffer_transfer_queue.flush { m_queued := s.m_queued } s.buffers).2.1.m_queued
      copied :=
        s.copied ++ (Buffer_transfer_queue.flush { m_queued := s.m_queued } s.buffers).2.2
      threads := Function.update s.threads t { pc := Thread_pc.outside, calls := rest } }

/-- The system while thread `t` is inside a `flush` that it began in the state `s` and that
has copied the first `index` entries of the queue; `rest` are the calls it has left. -/
def Queue_system.flushing (t : Nat) (rest : List Queue_call) (index : Nat)
    (s : Queue_system) : Queue_system :=
  { s with
    m_mutex := some t
    buffers := (s.m_queued.take index).foldl upload s.buffers
    copied := s.copied ++ s.m_queued.take index
    threads := Function.update s.threads t
      { pc := Thread_pc.flush_locked index, calls := rest } }

end erhe.graphics

namespace erhe.application

open erhe.toolkit

/-- A `glm::vec3` of floats, each given by its bit pattern. -/
structure Vec3 where
  x : Nat
  y : Nat
  z : Nat
deriving DecidableEq, Repr

/-- A `glm::vec4` of floats, each given by its bit pattern. -/
structure Vec4 where
  r : Nat
  g : Nat
  b : Nat
  a : Nat
deriving DecidableEq, Repr

/-- A `Line`: the end points `p0` and `p1`. -/
structure Line where
  p0 : Vec3
  p1 : Vec3
deriving DecidableEq, Repr

/-- The constant `vertex_count` of the constructor of `Line_renderer` (line 378). -/
def vertex_count : Nat := 512 * 1024

/-- The byte size of the vertex buffer of a frame resource (lines 341-346):
`vertex_format.stride() * vertex_count`. -/
def vertex_buffer_capacity (stride : Nat) : Nat := stride * vertex_count

/-- A store `gpu_float_data[index] = value` through a `gsl::span<float>` of `word_count`
elements: the span checks the index and terminates the program when it is out of range. -/
def span_store (word_count : Nat) (gpu_float_data : Nat → Nat) (index value : Nat) :
    Except Fault (Nat → Nat) :=
  if index < word_count then .ok (Function.update gpu_float_data index value)
  else .error Fault.span_index_out_of_range

/-- The stores `gpu_float_data[word_offset++] = value` for the values of a list, in order:
the span afterwards and the new `word_offset`. -/
def span_store_all (word_count : Nat) :
    List Nat → (Nat → Nat) × Nat → Except Fault ((Nat → Nat) × Nat)
  | [], s => .ok s
  | value :: values, (gpu_float_data, word_offset) =>
    match span_store word_count gpu_float_data word_offset value with
    | .error e => .error e
    | .ok gpu_float_data1 =>
      span_store_all word_count values (gpu_float_data1, word_offset + 1)

/-- The method `Line_renderer::put` (lines 430-446): eight stores. -/
def Line_renderer.put (point : Vec3) (thickness : Nat) (color : Vec4) (word_count : Nat)
    (s : (Nat → Nat) × Nat) : Except Fault ((Nat → Nat) × Nat) :=
  span_store_all word_count
    [point.x, point.y, point.z, thickness, color.r, color.g, color.b, color.a] s

/-- The method `Line_renderer::begin` (lines 412-419). The vertex writer begins on the vertex
buffer of the current frame resource, whose size is `capacity_byte_count`. -/
def Line_renderer.begin (capacity_byte_count : Nat) (r : Line_renderer) :
    Except Fault Line_renderer :=
  if r.m_inside_begin_end then .error Fault.verify_failed
  else
    .ok { r with
      m_vertex_writer := r.m_vertex_writer.begin capacity_byte_count 0
      m_line_count := 0
      m_inside_begin_end := true }

/-- The loop of `add_lines` (lines 462-467): two `put` calls for each line. -/
def Line_renderer.put_lines (m_line_thickness : Nat) (m_line_color : Vec4)
    (project : Vec3 → Vec3) (word_count : Nat) :
    List Line → (Nat → Nat) × Nat → Except Fault ((Nat → Nat) × Nat)
  | [], s => .ok s
  | line :: lines, s =>
    match Line_renderer.put (project line.p0) m_line_thickness m_line_color word_count s with
    | .error e => .error e
    | .ok s1 =>
      match Line_renderer.put (project line.p1) m_line_thickness m_line_color word_count
        s1 with
      | .error e => .error e
      | .ok s2 =>
        Line_renderer.put_lines m_line_thickness m_line_color project word_count lines s2

/-- The method `Line_renderer::add_lines(transform, lines)` (lines 448-471), on the renderer
and the floats of the mapped vertex buffer. `stride` is `m_pipeline->vertex_format.stride()`,
`byte_count` the size of the mapped span, `m_line_thickness` and `m_line_color` the members of
those names, and `project` the function `p ↦ vec3(q) / q.w` with `q = transform * vec4(p, 1)`
of float arithmetic. -/
def Line_renderer.add_lines (stride byte_count m_line_thickness : Nat) (m_line_color : Vec4)
    (project : Vec3 → Vec3) (lines : List Line) (s : Line_renderer × (Nat → Nat)) :
    Except Fault (Line_renderer × (Nat → Nat)) :=
  if !s.1.m_inside_begin_end then .error Fault.verify_failed
  else
    let word_count := byte_count / 4
    match Line_renderer.put_lines m_line_thickness m_line_color project word_count lines
      (s.2, 0) with
    | .error e => .error e
    | .ok (gpu_float_data, _) =>
      .ok
        ({ s.1 with
            m_vertex_writer :=
              { s.1.m_vertex_writer with
                write_offset := s.1.m_vertex_writer.write_offset + lines.length * 2 * stride }
            m_line_count := s.1.m_line_count + lines.length },
          gpu_float_data)

/-- A sequence of `add_lines` calls, one for each list of lines. -/
def Line_renderer.add_lines_calls (stride byte_count m_line_thickness : Nat)
    (m_line_color : Vec4) (project : Vec3 → Vec3) :
    List (List Line) → Line_renderer × (Nat → Nat) → Except Fault (Line_renderer × (Nat → Nat))
  | [], s => .ok s
  | lines :: calls, s =>
    match Line_renderer.add_lines stride byte_count m_line_thickness m_line_color project
      lines s with
    | .error e => .error e
    | .ok s1 =>
      Line_renderer.add_lines_calls stride byte_count m_line_thickness m_line_color project
        calls s1

end erhe.application

namespace erhe.geometry

open erhe.toolkit

/-- The class `Pair_entries<T>::Entry` (lines 18-42). -/
structure Entry where
  primary : Nat
  secondary : Nat
deriving DecidableEq, Repr

/-- The method `Pair_entries<T>::Entry::swap` (lines 26-38). -/
def Entry.swap (entry : Entry) (lhs rhs : Nat) : Entry :=
  { primary :=
      if entry.primary = lhs then rhs
      else if entry.primary = rhs then lhs
      else entry.primary
    secondary :=
      if entry.secondary = lhs then rhs
      else if entry.secondary = rhs then lhs
      else entry.secondary }

/-- The members of `Remapper<T>` (lines 475-483). A `std::vector` is given by the function
from index to element (an index outside the vector is not a defined access in C++ and reads
as the value the function happens to have there); `merge` is `merge.entries`. The id type `T`
is an unsigned integer type; the code only increments an id below a size and decrements
`new_end` after checking that it is positive, so ids are natural numbers. -/
structure Remapper where
  old_size : Nat
  new_size : Nat
  new_end : Nat
  is_bijection : Bool
  old_used : Nat → Bool
  old_from_new : Nat → Nat
  new_from_old : Nat → Nat
  merge : List Entry
  eliminate : List Nat

/-- The constructor `Remapper(size)` (lines 86-100): `resize` fills the vectors with zeros,
the loop makes `old_from_new` the identity, `old_used` is all false. -/
def Remapper.make (size : Nat) : Remapper :=
  { old_size := size
    new_size := size
    new_end := size
    is_bijection := true
    old_used := fun _ => false
    old_from_new := fun new_id => if new_id < size then new_id else 0
    new_from_old := fun _ => 0
    merge := []
    eliminate := [] }

/-- The method `create_new_from_old_mapping` (lines 102-108). -/
def Remapper.create_new_from_old_mapping (r : Remapper) : Remapper :=
  { r with
    new_from_old := (List.range r.new_size).foldl
      (fun new_from_old new_id => Function.update new_from_old (r.old_from_new new_id) new_id)
      r.new_from_old }

/-- The method `use_old` (lines 470-473). -/
def Remapper.use_old (r : Remapper) (old_id : Nat) : Remapper :=
  { r with old_used := Function.update r.old_used old_id true }

/-- The method `Remapper::swap` (lines 184-214). `std::swap(v[i], v[j])` stores the old `v[j]`
at `i` and the old `v[i]` at `j`. -/
def Remapper.swap (r : Remapper) (secondary_new_id keep_new_id : Nat) :
    Except Fault Remapper :=
  if secondary_new_id = keep_new_id then .error Fault.verify_failed
  else
    let secondary_old_id := r.old_from_new secondary_new_id
    let keep_old_id := r.old_from_new keep_new_id
    .ok { r with
      old_from_new :=
        Function.update (Function.update r.old_from_new secondary_new_id keep_old_id)
          keep_new_id secondary_old_id
      new_from_old :=
        Function.update
          (Function.update r.new_from_old secondary_old_id (r.new_from_old keep_old_id))
          keep_old_id (r.new_from_old secondary_old_id)
      merge := r.merge.map (fun entry => entry.swap keep_new_id secondary_new_id)
      eliminate := r.eliminate.map (fun id =>
        if id = keep_new_id then secondary_new_id
        else if id = secondary_new_id then keep_new_id
        else id) }

/-- The loop of `get_next_end` (lines 218-225), entered with `new_end` at the given value. -/
def Remapper.get_next_end_from (check_used : Bool) (r : Remapper) :
    Nat → Except Fault (Nat × Remapper)
  | 0 => .error Fault.verify_failed
  | new_end + 1 =>
    if check_used && !r.old_used (r.old_from_new new_end) then
      Remapper.get_next_end_from check_used r new_end
    else .ok (new_end, { r with new_end := new_end })

/-- The method `get_next_end` (lines 216-226): the returned id and the remapper afterwards. -/
def Remapper.get_next_end (check_used : Bool) (r : Remapper) : Except Fault (Nat × Remapper) :=
  r.get_next_end_from check_used r.new_end

/-- Lines 247-263, 274-290 and 326-344, which are the same statements: move
`secondary_new_id` behind `new_end`, unless it is there already. -/
def Remapper.drop_new_id (check_used : Bool) (r : Remapper) (secondary_new_id : Nat) :
    Except Fault Remapper :=
  if secondary_new_id ≥ r.new_end then .ok r
  else
    match r.get_next_end check_used with
    | .error e => .error e
    | .ok (keep_new_id, r1) =>
      if secondary_new_id = keep_new_id then .ok r1
      else r1.swap secondary_new_id keep_new_id

/-- A loop `for (i = first; ...; ++i)` that runs `body` for `count` consecutive indices. -/
def for_each_index (body : Nat → Remapper → Except Fault Remapper) :
    Nat → Nat → Remapper → Except Fault Remapper
  | _, 0, r => .ok r
  | i, count + 1, r =>
    match body i r with
    | .ok r1 => for_each_index body (i + 1) count r1
    | .error e => .error e

/-- The method `reorder_to_drop_merge_duplicates_and_elimitated` (lines 228-294). -/
def Remapper.reorder_to_drop_merge_duplicates_and_elimitated (r : Remapper) :
    Except Fault Remapper :=
  match for_each_index
      (fun i r => r.drop_new_id false (r.merge.getD i { primary := 0, secondary := 0 }).secondary)
      0 r.merge.length r with
  | .error e => .error e
  | .ok r1 =>
    for_each_index (fun i r => r.drop_new_id false (r.eliminate.getD i 0)) 0
      r1.eliminate.length r1

/-- The method `reorder_to_drop_unused` (lines 296-348). -/
def Remapper.reorder_to_drop_unused (r : Remapper) : Except Fault Remapper :=
  let new_end := (List.range r.new_size).foldl
    (fun new_end new_id => if r.old_used (r.old_from_new new_id) then new_id + 1 else new_end) 0
  for_each_index
    (fun new_id r =>
      if !r.old_used (r.old_from_new new_id) then r.drop_new_id true new_id else .ok r)
    0 r.new_size { r with new_end := new_end }

/-- The maps `old_from_new` and `new_from_old` are mutually inverse permutations of
`[0, n)`. -/
def Remapper.bijective (r : Remapper) (n : Nat) : Prop :=
  (∀ x, x < n → r.old_from_new x < n ∧ r.new_from_old (r.old_from_new x) = x) ∧
  (∀ y, y < n → r.new_from_old y < n ∧ r.old_from_new (r.new_from_old y) = y)

/-- The id `x` with `a` and `b` exchanged. -/
def exchange (a b x : Nat) : Nat := if x = a then b else if x = b then a else x

/-- The state of a remapper made for `n` elements with the merge entries `merge` and the
eliminate list `eliminate`, after the elements with the old ids `dropped` have been moved
behind `new_end`: for a permutation `p` of `[0, n)`, the new id `x` holds the old element
`p x`, the entries and the eliminate list name the new ids of the elements they named at the
start, and the new ids from `new_end` on hold exactly the elements `dropped`. -/
def Remapper.reordered (n : Nat) (merge : List Entry) (eliminate : List Nat)
    (dropped : List Nat) (r : Remapper) : Prop :=
  ∃ p : Equiv.Perm Nat,
    (∀ x, n ≤ x → p x = x) ∧
    (∀ x, x < n → r.old_from_new x = p x) ∧
    r.merge = merge.map
      (fun entry => { primary := p.symm entry.primary, secondary := p.symm entry.secondary }) ∧
    r.eliminate = eliminate.map p.symm ∧
    r.new_end + dropped.length = n ∧
    (∀ x, r.new_end ≤ x → x < n → p x ∈ dropped) ∧
    (∀ d, d ∈ dropped → r.new_end ≤ p.symm d)

end erhe.geometry

/-! ## Sample data -/

namespace sample

open erhe.graphics erhe.primitive erhe.application editor

/-- A texture unit cache with `limit` units: the state is the list of handles that hold units
`0, 1, ...`; a handle that is already present gets its unit again, a new handle gets the next
free unit, and none is left when all `limit` units are taken. -/
def allocate_texture_unit (limit : Nat) (cache : List Nat) (handle : Nat) :
    Option Nat × List Nat :=
  if handle ∈ cache then (some (cache.indexOf handle), cache)
  else if cache.length < limit then (some cache.length, cache ++ [handle])
  else (none, cache)

/-- A backend: handles are `texture + 2^32 * sampler`, two texture units. -/
def info (use_bindless_texture : Bool) : Instance (List Nat) :=
  { use_bindless_texture := use_bindless_texture
    get_handle := fun texture sampler => texture + 2 ^ 32 * sampler
    allocate_texture_unit := allocate_texture_unit 2 }

/-- Sampler object `9` is the linear sampler, `8` the nearest sampler; the tool program is
object `40`. -/
def g_programs : Programs := { linear_sampler := 9, nearest_sampler := 8, tool := some 40 }

/-- An offset table for the declaration order of `Material_interface`: `vec2 roughness`,
`float metallic`, `float reflectance`, `vec4 base_color`, `vec4 emissive`,
`uvec2 base_texture`, `float opacity`, `float reserved`; 64 bytes per entry. -/
def interface : Material_interface :=
  { entry_size := 64
    offsets :=
      { roughness := 0, metallic := 8, reflectance := 12, base_color := 16, emissive := 32,
        base_texture := 48, opacity := 56, reserved := 60 }
    max_material_count := 3 }

/-- Material objects at addresses `100`, `101`, `102`, ...: the one at `101` has no texture,
all others use texture `7`; the one at `103` uses it with sampler `8`, the others with the
default sampler. -/
def heap (address : Nat) : Material :=
  { roughness := (0x3f000000, 0x3f000000)
    metallic := 0x3f800000
    reflectance := 0x3f000000
    base_color := (address, 0, 0, 0x3f800000)
    emissive := (0, 0, 0, 0)
    opacity := 0x3f800000
    texture := if address = 101 then none else some 7
    sampler := if address = 103 then some 8 else none
    material_buffer_index := 0xffffffff }

/-- A material buffer of `capacity_byte_count` bytes whose current slot is filled with `0xcd`
and whose residency set still holds a handle of an earlier frame. -/
def buffer (capacity_byte_count : Nat) : Material_buffer (List Nat) :=
  { m_writer := { range := { first_byte_offset := 0, byte_count := 128 },
                  write_offset := 128, write_end := capacity_byte_count }
    capacity_byte_count := capacity_byte_count
    gpu_data := fun _ => 0xcd
    m_used_handles := [5]
    material_index := 0
    materials := heap
    s_texture_unit_cache := []
    log := [] }

/-- Stream buffers whose state is the write offset: a primitive entry takes 16 bytes per mesh;
the draw-indirect update admits the meshes whose address has all bits of
`require_all_bits_set` and writes 20 bytes for each. -/
def streams : Mesh_streams Nat Nat :=
  { primitive_update := fun offset meshes _ =>
      ({ first_byte_offset := offset, byte_count := 16 * meshes.length },
        offset + 16 * meshes.length)
    draw_indirect_update := fun offset meshes _ filter =>
      let admitted := meshes.filter
        (fun mesh => mesh &&& filter.require_all_bits_set = filter.require_all_bits_set)
      ({ range := { first_byte_offset := offset, byte_count := 20 * admitted.length }
         draw_indirect_count := admitted.length },
        offset + 20 * admitted.length)
    gl_index_type := 0x1405
    sizeof_draw_elements_indirect_command := 20 }

/-- A depth and stencil state with the depth test on and the stencil test off. -/
def depth_test_enabled : Depth_stencil_state :=
  { depth_test_enable := true
    depth_write_enable := true
    depth_compare_op := Depth_function.lequal
    stencil_test_enable := false
    stencil_front :=
      { stencil_fail_op := Stencil_op.keep, z_fail_op := Stencil_op.keep,
        z_pass_op := Stencil_op.keep, function := Stencil_function.always, reference := 0,
        test_mask := 0xff, write_mask := 0xff }
    stencil_back :=
      { stencil_fail_op := Stencil_op.keep, z_fail_op := Stencil_op.keep,
        z_pass_op := Stencil_op.keep, function := Stencil_function.always, reference := 0,
        test_mask := 0xff, write_mask := 0xff } }

/-- A pass with a shader program and both hooks, and a pass without shader program. -/
def passes : List Renderpass :=
  [{ pipeline := { name := "fill", shader_stages := some 1, primitive_topology := 4,
                   depth_stencil := depth_test_enabled,
                   color_blend := Color_blend_state.color_blend_disabled }
     primitive_mode := 1, begin := some 10, end_ := some 11 },
   { pipeline := { name := "none", shader_stages := none, primitive_topology := 4,
                   depth_stencil := depth_test_enabled,
                   color_blend := Color_blend_state.color_blend_disabled }
     primitive_mode := 1, begin := some 20, end_ := some 21 }]

/-- Three spans: an empty one, one whose meshes are all filtered out, one with two admitted
meshes. -/
def parameters : Render_parameters :=
  { mesh_spans := [[], [2, 4], [1, 3, 6]]
    passes := passes
    filter := { require_all_bits_set := 1, require_at_least_one_bit_set := 0,
                require_all_bits_clear := 0 } }

/-- A forward renderer that has made no call yet. -/
def renderer : Forward_renderer Nat Nat :=
  { m_primitive_buffers := 0, m_draw_indirect_buffers := 0, gl := [] }

/-- Camera, light and light control buffers whose state is the write offset; the texture unit
cache is emptied by a reset; an object's GL name is its address. -/
def frame_streams : Frame_streams (List Nat) Nat Nat :=
  { camera_update := fun offset _ _ =>
      ({ first_byte_offset := offset, byte_count := 256 }, offset + 256)
    light_update := fun offset lights _ _ =>
      ({ first_byte_offset := offset, byte_count := 32 + 64 * lights.length },
        offset + 32 + 64 * lights.length)
    light_update_control := fun offset _ =>
      ({ first_byte_offset := offset, byte_count := 16 }, offset + 16)
    get_light_projection_transforms_for_light := fun _ light => some light
    texture_unit_cache_reset := fun _ _ => []
    gl_name := fun object => object }

/-- The environment of a call of `render`, bindless or bound, with a shadow renderer. -/
def env (use_bindless_texture : Bool) : Render_env (List Nat) Nat Nat Nat Nat :=
  { info := info use_bindless_texture
    g_programs := g_programs
    interface := interface
    mesh_streams := streams
    frame_streams := frame_streams
    g_shadow_renderer := true }

/-- A forward renderer with a material buffer of 192 bytes that has made no call yet. -/
def state : Render_state (List Nat) Nat Nat Nat Nat :=
  { m_material_buffers := buffer 192
    m_light_buffers := 0
    m_camera_buffers := 0
    m_dummy_texture := 1
    draw := renderer }

/-- Parameters with a camera, one light, a shadow texture (texture `7`), the given materials,
and the sample passes and spans. -/
def frame_parameters (materials : List Nat) : Render_parameters :=
  { parameters with
    camera := some 50
    lights := [60]
    materials := materials
    shadow_texture := some 7
    viewport := { x := 0, y := 0, width := 640, height := 480 } }

/-- A configuration with reverse depth: `depth_function` mirrors the comparison, the
triangle topology is `GL_TRIANGLES`. -/
def setup : Setup_renderpasses_env :=
  { reverse_depth := true
    depth_function := fun f =>
      match f with
      | Depth_function.less => Depth_function.greater
      | Depth_function.lequal => Depth_function.gequal
      | Depth_function.greater => Depth_function.less
      | Depth_function.gequal => Depth_function.lequal
      | other => other
    triangles := 4
    depth_test_always_stencil_test_disabled :=
      { depth_test_enabled with depth_compare_op := Depth_function.always }
    depth_test_enabled_stencil_test_disabled := fun reverse_depth =>
      { depth_test_enabled with
        depth_compare_op :=
          if reverse_depth then Depth_function.gequal else Depth_function.lequal }
    primitive_mode := 1 }

/-- Flag bits. -/
def item_flags : Item_flags :=
  { visible := 1, content := 2, controller := 4, tool := 8, opaque_ := 16, translucent := 32
    selected := 64 }

/-- A tool scene root with three materials and two tool meshes, both visible tools. -/
def tool_scene_root : Scene_root := { materials := [100, 101, 102], tool_meshes := [9, 11] }

/-- A context with a camera and a scene view. -/
def context : Render_context :=
  { camera := some 50, scene_view := some 51
    viewport := { x := 0, y := 0, width := 640, height := 480 } }

/-- A render style that fills polygons and draws no edge lines, centroids or corner points. -/
def render_style : Render_style :=
  { polygon_fill := true
    edge_lines := false
    polygon_centroids := false
    corner_points := false
    edge_lines_color_source := 0
    polygon_centroids_color_source := 0
    corner_points_color_source := 0
    line_color := (0, 0, 0, 0x3f800000)
    centroid_color := (0, 0, 0, 0x3f800000)
    corner_color := (0, 0, 0, 0x3f800000)
    line_width := 0x3f800000
    point_size := 0x3f800000 }

/-- A viewport configuration with this render style for selected and not selected meshes. -/
def viewport_config : Viewport_config :=
  { render_style_not_selected := render_style, render_style_selected := render_style }

/-- A scene root with three materials, one light and two visible content meshes. -/
def content_scene_root : Scene_root :=
  { materials := [100, 101, 102], tool_meshes := [], content_meshes := [9, 11]
    lights := [60] }

/-- A scene view that has this scene root, no light projections and the shadow texture
`7`. -/
def scene_view : Scene_view_interface :=
  { get_scene_root := fun _ => some content_scene_root
    get_light_projections := fun _ => none
    get_shadow_texture := fun _ => some 7 }

/-- A pass with the shader program `program` and no hooks. -/
def content_pass (name : String) (program : Option Nat) : Renderpass :=
  { pipeline := { name := name, shader_stages := program, primitive_topology := 4,
                  depth_stencil := depth_test_enabled,
                  color_blend := Color_blend_state.color_blend_disabled }
    primitive_mode := 1, begin := none, end_ := none }

/-- The passes of `render_content`, each with a shader program, and a value-initialised pass
without one. -/
def content_renderpasses : Content_renderpasses :=
  { m_rp_polygon_fill_standard_opaque := content_pass "opaque" (some 1)
    m_rp_polygon_fill_standard_translucent := content_pass "translucent" (some 2)
    m_rp_edge_lines := content_pass "edge lines" (some 3)
    m_rp_polygon_centroids := content_pass "centroids" (some 4)
    m_rp_corner_points := content_pass "corner points" (some 5)
    value_initialized := content_pass "" none }

/-- A context with a camera, a scene view and a viewport configuration, and with the given
override shader stages. -/
def content_context (override_shader_stages : Option Nat) : Render_context :=
  { context with
    viewport_config := some viewport_config
    override_shader_stages := override_shader_stages }

/-- A state in which `render_content` has done nothing yet. -/
def content_state : Content_state (List Nat) Nat Nat Nat Nat :=
  { renderer := state
    primitive_settings :=
      { color_source := 0, constant_color := (0, 0, 0, 0)
        size_source := Primitive_size_source.other 0, constant_size := 0 }
    calls := [] }

/-- A line renderer outside `begin()` ... `end()`. -/
def line_renderer : erhe.application.Line_renderer :=
  { m_current_frame_resource_slot := 0
    m_inside_begin_end := false
    m_view_writer := ⟨⟨0, 0⟩, 0, 0⟩
    m_vertex_writer := ⟨⟨0, 0⟩, 0, 0⟩
    m_line_count := 0 }

/-- A line from the origin to the point `(1.0, 0.0, 0.0)`. -/
def line : erhe.application.Line :=
  { p0 := { x := 0, y := 0, z := 0 }, p1 := { x := 0x3f800000, y := 0, z := 0 } }

/-- The color white. -/
def white : erhe.application.Vec4 :=
  { r := 0x3f800000, g := 0x3f800000, b := 0x3f800000, a := 0x3f800000 }

/-- A remapper for three elements with both maps the identity, in which only the old element
`2` is marked as used. -/
def remapper : erhe.geometry.Remapper :=
  ((erhe.geometry.Remapper.make 3).create_new_from_old_mapping).use_old 2

/-- The calls of the threads on the transfer queue: a worker thread `0` with two `enqueue`
calls, the render thread `1` with one `flush`. -/
def queue_programs (t : Nat) : List erhe.graphics.Queue_call :=
  if t = 0 then
    [erhe.graphics.Queue_call.enqueue { target := 5, target_offset := 2, data := [7, 8] },
      erhe.graphics.Queue_call.enqueue { target := 6, target_offset := 0, data := [9] }]
  else if t = 1 then [erhe.graphics.Queue_call.flush] else []

end sample

/-! ## `Material_buffer::update`: the writer cursor -/

namespace editor

open erhe.toolkit erhe.graphics erhe.primitive erhe.application

section cursor

variable {σ : Type} (info : Instance σ) (g_programs : Programs) (interface : Material_interface)

theorem update_entries_nil (b : Material_buffer σ) :
    update_entries info g_programs interface b [] = b := rfl

theorem update_entries_cons (b : Material_buffer σ) (address : Nat) (rest : List Nat) :
    update_entries info g_programs interface b (address :: rest) =
      update_entries info g_programs interface
        (update_entry info g_programs interface b address) rest := rfl

theorem update_entries_append (b : Material_buffer σ) (xs ys : List Nat) :
    update_entries info g_programs interface b (xs ++ ys) =
      update_entries info g_programs interface
        (update_entries info g_programs interface b xs) ys := by
  simp [update_entries, List.foldl_append]

theorem update_entries_write_offset (materials : List Nat) (b : Material_buffer σ) :
    (update_entries info g_programs interface b materials).m_writer.write_offset =
      b.m_writer.write_offset + materials.length * interface.entry_size := by
  induction materials generalizing b with
  | nil => simp [update_entries_nil]
  | cons address rest ih =>
    rw [update_entries_cons, ih]
    simp only [update_entry, List.length_cons]
    ring

theorem update_entries_write_end (materials : List Nat) (b : Material_buffer σ) :
    (update_entries info g_programs interface b materials).m_writer.write_end =
      b.m_writer.write_end := by
  induction materials generalizing b with
  | nil => rfl
  | cons address rest ih => rw [update_entries_cons, ih]; rfl

theorem update_entries_log (materials : List Nat) (b : Material_buffer σ) :
    (update_entries info g_programs interface b materials).log = b.log := by
  induction materials generalizing b with
  | nil => rfl
  | cons address rest ih => rw [update_entries_cons, ih]; rfl

theorem update_entries_capacity (materials : List Nat) (b : Material_buffer σ) :
    (update_entries info g_programs interface b materials).capacity_byte_count =
      b.capacity_byte_count := by
  induction materials generalizing b with
  | nil => rfl
  | cons address rest ih => rw [update_entries_cons, ih]; rfl

theorem update_entries_first_byte_offset (materials : List Nat) (b : Material_buffer σ) :
    (update_entries info g_programs interface b materials).m_writer.range =
      b.m_writer.range := by
  induction materials generalizing b with
  | nil => rfl
  | cons address rest ih => rw [update_entries_cons, ih]; rfl

/-- When all entries fit between the cursor and `write_end`, the loop runs to its end. -/
theorem update_loop_fits (materials : List Nat) (b : Material_buffer σ)
    (h : b.m_writer.write_offset + materials.length * interface.entry_size ≤
      b.m_writer.write_end) :
    update_loop info g_programs interface materials b =
      .ok (update_entries info g_programs interface b materials) := by
  induction materials generalizing b with
  | nil => rfl
  | cons address rest ih =>
    have hlen : b.m_writer.write_offset + interface.entry_size +
        rest.length * interface.entry_size ≤ b.m_writer.write_end := by
      simp only [List.length_cons] at h
      nlinarith
    have h1 : ¬ (b.m_writer.write_offset + interface.entry_size > b.m_writer.write_end) := by
      have := Nat.zero_le (rest.length * interface.entry_size)
      omega
    have h2 : (update_entry info g_programs interface b address).m_writer.write_offset ≤
        (update_entry info g_programs interface b address).m_writer.write_end := by
      show b.m_writer.write_offset + interface.entry_size ≤ b.m_writer.write_end
      omega
    rw [update_loop, if_neg h1]
    simp only [h2, if_true]
    rw [update_entries_cons]
    exact ih _ hlen

/-- When the entries do not fit, the loop stops at the capacity check of the first element
that does not fit, after the loop body has run for exactly the elements before it. -/
theorem update_loop_overrun (materials : List Nat) (b : Material_buffer σ)
    (hs : 0 < interface.entry_size)
    (hle : b.m_writer.write_offset ≤ b.m_writer.write_end)
    (h : b.m_writer.write_end <
      b.m_writer.write_offset + materials.length * interface.entry_size) :
    update_loop info g_programs interface materials b =
      .error (Fault.fatal_material_buffer_capacity_exceeded,
        log_capacity_exceeded (update_entries info g_programs interface b
          (materials.take
            ((b.m_writer.write_end - b.m_writer.write_offset) / interface.entry_size)))) := by
  induction materials generalizing b with
  | nil => simp at h; omega
  | cons address rest ih =>
    by_cases h1 : b.m_writer.write_offset + interface.entry_size > b.m_writer.write_end
    · have hk : (b.m_writer.write_end - b.m_writer.write_offset) / interface.entry_size = 0 :=
        Nat.div_eq_of_lt (by omega)
      rw [update_loop, if_pos h1, hk]
      rfl
    · have h2 : (update_entry info g_programs interface b address).m_writer.write_offset ≤
          (update_entry info g_programs interface b address).m_writer.write_end := by
        show b.m_writer.write_offset + interface.entry_size ≤ b.m_writer.write_end
        omega
      have h3 : (update_entry info g_programs interface b address).m_writer.write_end <
          (update_entry info g_programs interface b address).m_writer.write_offset +
            rest.length * interface.entry_size := by
        show b.m_writer.write_end <
          b.m_writer.write_offset + interface.entry_size + rest.length * interface.entry_size
        simp only [List.length_cons] at h
        nlinarith
      have hk : (b.m_writer.write_end - b.m_writer.write_offset) / interface.entry_size =
          (b.m_writer.write_end - (b.m_writer.write_offset + interface.entry_size)) /
            interface.entry_size + 1 := by
        have e : b.m_writer.write_end - b.m_writer.write_offset =
            (b.m_writer.write_end - (b.m_writer.write_offset + interface.entry_size)) +
              interface.entry_size := by omega
        rw [e, Nat.add_div_right _ hs]
      rw [update_loop, if_neg h1]
      simp only [h2, if_true]
      rw [ih _ h2 h3, hk, List.take_succ_cons, update_entries_cons]
      rfl

/-- When the materials fit into the buffer, `update` returns the finalized range and the state
in which the loop body has run for every material. -/
theorem update_fits (b : Material_buffer σ) (materials : List Nat)
    (h : materials.length * interface.entry_size ≤
      (update_begin interface b materials).m_writer.write_end -
        (update_begin interface b materials).m_writer.write_offset) :
    Material_buffer.update info g_programs interface b materials =
      .ok ((update_end (update_entries info g_programs interface
              (update_begin interface b materials) materials)).m_writer.range,
           update_end (update_entries info g_programs interface
              (update_begin interface b materials) materials)) := by
  have hfit : (update_begin interface b materials).m_writer.write_offset +
      materials.length * interface.entry_size ≤
        (update_begin interface b materials).m_writer.write_end := by
    have h0 : (update_begin interface b materials).m_writer.write_offset = 0 := rfl
    rw [h0] at h ⊢
    omega
  unfold Material_buffer.update
  dsimp only
  rw [update_loop_fits info g_programs interface materials _ hfit]
  rfl

end cursor

/-- C1. When `n` materials of entry size `s` fit into the bytes available after `begin`
(`n * s <= write_end - write_offset`), `update` returns (it takes neither the
capacity-exceeded branch nor fails the `ERHE_VERIFY`): the loop body has run exactly once for
each of the `n` materials, nothing was logged, the cursor stands `n * s` bytes behind its
start, after each entry the cursor is at most `write_end`, and the returned range has
`byte_count = n * s`. -/
theorem material_buffer_update_no_overrun {σ : Type} (info : Instance σ)
    (g_programs : Programs) (interface : Material_interface) (b : Material_buffer σ)
    (materials : List Nat)
    (h : materials.length * interface.entry_size ≤
      (update_begin interface b materials).m_writer.write_end -
        (update_begin interface b materials).m_writer.write_offset) :
    Material_buffer.update info g_programs interface b materials =
        .ok ((update_end (update_entries info g_programs interface
                (update_begin interface b materials) materials)).m_writer.range,
             update_end (update_entries info g_programs interface
                (update_begin interface b materials) materials)) ∧
      (update_end (update_entries info g_programs interface
          (update_begin interface b materials) materials)).m_writer.range.byte_count =
        materials.length * interface.entry_size ∧
      (update_entries info g_programs interface
          (update_begin interface b materials) materials).m_writer.write_offset =
        (update_begin interface b materials).m_writer.write_offset +
          materials.length * interface.entry_size ∧
      (update_entries info g_programs interface
          (update_begin interface b materials) materials).log = b.log ∧
      ∀ k, k ≤ materials.length →
        (update_entries info g_programs interface (update_begin interface b materials)
            (materials.take k)).m_writer.write_offset ≤
          (update_entries info g_programs interface (update_begin interface b materials)
            (materials.take k)).m_writer.write_end := by
  have h0 : (update_begin interface b materials).m_writer.write_offset = 0 := rfl
  have he : (update_begin interface b materials).m_writer.write_end = b.capacity_byte_count :=
    rfl
  refine ⟨update_fits info g_programs interface b materials h, ?_, ?_, ?_, ?_⟩
  · show (update_entries info g_programs interface
        (update_begin interface b materials) materials).m_writer.write_offset -
      (update_entries info g_programs interface
        (update_begin interface b materials) materials).m_writer.range.first_byte_offset = _
    rw [update_entries_write_offset, update_entries_first_byte_offset, h0]
    show 0 + _ - 0 = _
    omega
  · rw [update_entries_write_offset]
  · rw [update_entries_log]; rfl
  · intro k hk
    rw [update_entries_write_offset, update_entries_write_end, h0, he, List.length_take,
      Nat.min_eq_left hk]
    have : k * interface.entry_size ≤ materials.length * interface.entry_size :=
      Nat.mul_le_mul_right _ hk
    omega

/-- Witness for C1: three materials of 64 bytes in a buffer of 192 bytes. -/
theorem material_buffer_update_no_overrun_witness :
    [100, 101, 102].length * sample.interface.entry_size ≤
        (update_begin sample.interface (sample.buffer 192) [100, 101, 102]).m_writer.write_end -
          (update_begin sample.interface (sample.buffer 192)
            [100, 101, 102]).m_writer.write_offset ∧
      (update_end (update_entries (sample.info true) sample.g_programs sample.interface
          (update_begin sample.interface (sample.buffer 192) [100, 101, 102])
          [100, 101, 102])).m_writer.range.byte_count = 3 * 64 :=
  ⟨by decide,
   (material_buffer_update_no_overrun (sample.info true) sample.g_programs sample.interface
      (sample.buffer 192) [100, 101, 102] (by decide)).2.1⟩

/-- C2. When `n` materials of entry size `s > 0` do not fit into the `c` bytes available after
`begin` (`n * s > c`), `update` does not return: the process stops at the `ERHE_FATAL` of the
capacity check, with the critical record logged, in the state reached after the loop body ran
for exactly the first `c / s` materials (`c / s < n`), so element `c / s` is the one at which
the fault is raised, the cursor stands `(c / s) * s` bytes behind its start and no later entry
was begun. -/
theorem material_buffer_update_overrun {σ : Type} (info : Instance σ)
    (g_programs : Programs) (interface : Material_interface) (b : Material_buffer σ)
    (materials : List Nat) (hs : 0 < interface.entry_size)
    (h : (update_begin interface b materials).m_writer.write_end -
        (update_begin interface b materials).m_writer.write_offset <
      materials.length * interface.entry_size) :
    Material_buffer.update info g_programs interface b materials =
        .error (Fault.fatal_material_buffer_capacity_exceeded,
          log_capacity_exceeded (update_entries info g_programs interface
            (update_begin interface b materials)
            (materials.take
              (((update_begin interface b materials).m_writer.write_end -
                (update_begin interface b materials).m_writer.write_offset) /
                  interface.entry_size)))) ∧
      ((update_begin interface b materials).m_writer.write_end -
          (update_begin interface b materials).m_writer.write_offset) /
            interface.entry_size < materials.length ∧
      (update_entries info g_programs interface (update_begin interface b materials)
          (materials.take
            (((update_begin interface b materials).m_writer.write_end -
              (update_begin interface b materials).m_writer.write_offset) /
                interface.entry_size))).m_writer.write_offset =
        (update_begin interface b materials).m_writer.write_offset +
          (((update_begin interface b materials).m_writer.write_end -
            (update_begin interface b materials).m_writer.write_offset) /
              interface.entry_size) * interface.entry_size ∧
      (log_capacity_exceeded (update_entries info g_programs interface
          (update_begin interface b materials)
          (materials.take
            (((update_begin interface b materials).m_writer.write_end -
              (update_begin interface b materials).m_writer.write_offset) /
                interface.entry_size)))).log =
        b.log ++ [Log_entry.critical_material_buffer_capacity_exceeded
          b.capacity_byte_count] := by
  have h0 : (update_begin interface b materials).m_writer.write_offset = 0 := rfl
  have he : (update_begin interface b materials).m_writer.write_end = b.capacity_byte_count :=
    rfl
  have hlt : ((update_begin interface b materials).m_writer.write_end -
      (update_begin interface b materials).m_writer.write_offset) / interface.entry_size <
        materials.length := by
    rw [Nat.div_lt_iff_lt_mul hs]
    exact h
  refine ⟨?_, hlt, ?_, ?_⟩
  · unfold Material_buffer.update
    dsimp only
    rw [update_loop_overrun info g_programs interface materials _ hs (by rw [h0]; omega)
      (by rw [h0, he] at h; rw [h0, he]; omega)]
  · rw [update_entries_write_offset, List.length_take, Nat.min_eq_left (Nat.le_of_lt hlt)]
  · show (update_entries info g_programs interface _ _).log ++
      [Log_entry.critical_material_buffer_capacity_exceeded
        (update_entries info g_programs interface _ _).capacity_byte_count] = _
    rw [update_entries_log, update_entries_capacity]
    rfl

/-- Witness for C2: three materials of 64 bytes and a buffer of 150 bytes; the fault is raised
at element `150 / 64 = 2`. -/
theorem material_buffer_update_overrun_witness :
    (0 < sample.interface.entry_size ∧
      (update_begin sample.interface (sample.buffer 150) [100, 101, 102]).m_writer.write_end -
          (update_begin sample.interface (sample.buffer 150)
            [100, 101, 102]).m_writer.write_offset <
        [100, 101, 102].length * sample.interface.entry_size) ∧
      ((update_begin sample.interface (sample.buffer 150) [100, 101, 102]).m_writer.write_end -
          (update_begin sample.interface (sample.buffer 150)
            [100, 101, 102]).m_writer.write_offset) / sample.interface.entry_size <
        [100, 101, 102].length :=
  ⟨⟨by decide, by decide⟩,
   (material_buffer_update_overrun (sample.info false) sample.g_programs sample.interface
      (sample.buffer 150) [100, 101, 102] (by decide) (by decide)).2.1⟩

end editor

/-! ## Frame rotation -/

namespace erhe.application

open erhe.toolkit

theorem Line_renderer.next_frame_outside (N : Nat) (reset : Buffer_writer → Buffer_writer)
    (r : Line_renderer) (h : r.m_inside_begin_end = false) :
    Line_renderer.next_frame N reset r =
      .ok { r with
        m_current_frame_resource_slot := (r.m_current_frame_resource_slot + 1) % N
        m_view_writer := reset r.m_view_writer
        m_vertex_writer := reset r.m_vertex_writer
        m_line_count := 0 } := by
  simp [Line_renderer.next_frame, h]

theorem Line_renderer.next_frames_outside (N : Nat) (reset : Buffer_writer → Buffer_writer)
    (hN : 0 < N) (t : Nat) (r : Line_renderer) (h : r.m_inside_begin_end = false)
    (hslot : r.m_current_frame_resource_slot < N) :
    ∃ r1, Line_renderer.next_frames N reset t r = .ok r1 ∧
      r1.m_inside_begin_end = false ∧
      r1.m_current_frame_resource_slot = (r.m_current_frame_resource_slot + t) % N := by
  induction t generalizing r with
  | zero => exact ⟨r, rfl, h, (Nat.mod_eq_of_lt hslot).symm⟩
  | succ t ih =>
    obtain ⟨r1, h1, h2, h3⟩ := ih
      { r with
        m_current_frame_resource_slot := (r.m_current_frame_resource_slot + 1) % N
        m_view_writer := reset r.m_view_writer
        m_vertex_writer := reset r.m_vertex_writer
        m_line_count := 0 } h (Nat.mod_lt _ hN)
    refine ⟨r1, ?_, h2, ?_⟩
    · rw [Line_renderer.next_frames, Line_renderer.next_frame_outside N reset r h]
      exact h1
    · rw [h3]
      show ((r.m_current_frame_resource_slot + 1) % N + t) % N = _
      rw [Nat.mod_add_mod]
      congr 1
      omega

/-- C3. With `N = s_frame_resources_count > 0` slots, starting outside a `begin()`/`end()`
pair at a slot below `N`: `t` calls of `next_frame()` all succeed and leave the renderer at
slot `(initial + t) mod N`; `N` calls bring the slot, and with it
`current_frame_resources()`, back to where it was; one call moves the slot to
`(slot + 1) mod N`. -/
theorem line_renderer_next_frame_rotation (N : Nat) (reset : Buffer_writer → Buffer_writer)
    (t : Nat) (r : Line_renderer) (hN : 0 < N) (h : r.m_inside_begin_end = false)
    (hslot : r.m_current_frame_resource_slot < N) :
    (∃ r1, Line_renderer.next_frames N reset t r = .ok r1 ∧
      r1.m_current_frame_resource_slot = (r.m_current_frame_resource_slot + t) % N) ∧
    (∃ r1, Line_renderer.next_frames N reset N r = .ok r1 ∧
      r1.m_current_frame_resource_slot = r.m_current_frame_resource_slot ∧
      ∀ (α : Type) (m_frame_resources : List α),
        r1.current_frame_resources m_frame_resources =
          r.current_frame_resources m_frame_resources) ∧
    (∃ r1, Line_renderer.next_frame N reset r = .ok r1 ∧
      r1.m_current_frame_resource_slot = (r.m_current_frame_resource_slot + 1) % N) := by
  refine ⟨?_, ?_, ?_⟩
  · obtain ⟨r1, h1, _, h3⟩ := Line_renderer.next_frames_outside N reset hN t r h hslot
    exact ⟨r1, h1, h3⟩
  · obtain ⟨r1, h1, _, h3⟩ := Line_renderer.next_frames_outside N reset hN N r h hslot
    have h4 : r1.m_current_frame_resource_slot = r.m_current_frame_resource_slot := by
      rw [h3, Nat.add_mod_right, Nat.mod_eq_of_lt hslot]
    refine ⟨r1, h1, h4, ?_⟩
    intro α frames
    simp [Line_renderer.current_frame_resources, h4]
  · exact ⟨_, Line_renderer.next_frame_outside N reset r h, rfl⟩

/-- Witness for C3: four slots, starting at slot 1, six calls. -/
theorem line_renderer_next_frame_rotation_witness :
    ∃ r1, Line_renderer.next_frames 4 id 6
        { m_current_frame_resource_slot := 1, m_inside_begin_end := false,
          m_view_writer := ⟨⟨0, 0⟩, 0, 0⟩, m_vertex_writer := ⟨⟨0, 0⟩, 16, 64⟩,
          m_line_count := 2 } = .ok r1 ∧
      r1.m_current_frame_resource_slot = (1 + 6) % 4 :=
  (line_renderer_next_frame_rotation 4 id 6
    { m_current_frame_resource_slot := 1, m_inside_begin_end := false,
      m_view_writer := ⟨⟨0, 0⟩, 0, 0⟩, m_vertex_writer := ⟨⟨0, 0⟩, 16, 64⟩,
      m_line_count := 2 } (by decide) rfl (by decide)).1

end erhe.application

namespace editor

/-- The forward renderer forwards one call to each stream: `Forward_renderer::next_frame`
makes exactly one `next_frame()` call on each of its five stream buffers. -/
theorem forward_renderer_next_frame_once (s : Stream) :
    Forward_renderer.next_frame.count s = 1 := by
  cases s <;> decide

/-- Calls made by `end_frame` for every combination of present renderers: it calls
`next_frame()` exactly once on each present line renderer set, text renderer, forward
renderer, id renderer and shadow renderer and never on an absent one, but twice on a present post-processing object;
and `Forward_renderer::next_frame` calls `next_frame()` once on each of its five streams. -/
theorem editor_rendering_end_frame_calls (e : Editor_rendering_impl) :
    (∀ s : Stream, Forward_renderer.next_frame.count s = 1) ∧
    (e.end_frame).1.count (Frame_call.next_frame Frame_object.line_renderer_set) =
      (if e.g_line_renderer_set then 1 else 0) ∧
    (e.end_frame).1.count (Frame_call.next_frame Frame_object.text_renderer) =
      (if e.g_text_renderer then 1 else 0) ∧
    (e.end_frame).1.count (Frame_call.next_frame Frame_object.forward_renderer) =
      (if e.g_forward_renderer then 1 else 0) ∧
    (e.end_frame).1.count (Frame_call.next_frame Frame_object.id_renderer) =
      (if e.g_id_renderer then 1 else 0) ∧
    (e.end_frame).1.count (Frame_call.next_frame Frame_object.shadow_renderer) =
      (if e.g_shadow_renderer then 1 else 0) ∧
    (e.end_frame).1.count (Frame_call.next_frame Frame_object.post_processing) =
      (if e.g_post_processing then 2 else 0) := by
  refine ⟨forward_renderer_next_frame_once, ?_⟩
  obtain ⟨x, hv, pp, lr, tr, fr, ir, sr, tc⟩ := e
  cases x <;> cases hv <;> cases pp <;> cases lr <;> cases tr <;> cases fr <;> cases ir <;>
    cases sr <;> cases tc <;> decide

/-- C4. Evaluated with every renderer present: `end_frame` calls `next_frame()` on
the post-processing object twice (lines 660 and 668) and once on each other renderer. -/
theorem editor_rendering_end_frame_post_processing_twice :
    let e : Editor_rendering_impl :=
      { erhe_xr_library_openxr := false, g_headset_view := false, g_post_processing := true,
        g_line_renderer_set := true, g_text_renderer := true, g_forward_renderer := true,
        g_id_renderer := true, g_shadow_renderer := true, m_trigger_capture := false }
    (e.end_frame).1 =
        [Frame_call.next_frame Frame_object.post_processing,
         Frame_call.next_frame Frame_object.line_renderer_set,
         Frame_call.next_frame Frame_object.text_renderer,
         Frame_call.next_frame Frame_object.forward_renderer,
         Frame_call.next_frame Frame_object.id_renderer,
         Frame_call.next_frame Frame_object.post_processing,
         Frame_call.next_frame Frame_object.shadow_renderer] ∧
      (e.end_frame).1.count (Frame_call.next_frame Frame_object.post_processing) = 2 := by
  decide

end editor

namespace editor

open erhe.toolkit erhe.graphics erhe.primitive erhe.application

/-! ## The residency set -/

theorem mem_set_insert (h x : Nat) (l : List Nat) : x ∈ set_insert h l ↔ x = h ∨ x ∈ l := by
  induction l with
  | nil => simp [set_insert]
  | cons y ys ih =>
    unfold set_insert
    split_ifs with h1 h2
    · simp
    · subst h2; simp
    · simp only [List.mem_cons, ih]
      tauto

theorem set_insert_sorted (h : Nat) (l : List Nat) (hl : l.Pairwise (· < ·)) :
    (set_insert h l).Pairwise (· < ·) := by
  induction l with
  | nil => simp [set_insert]
  | cons y ys ih =>
    unfold set_insert
    rw [List.pairwise_cons] at hl
    split_ifs with h1 h2
    · refine List.pairwise_cons.2 ⟨?_, List.pairwise_cons.2 hl⟩
      intro a ha
      rcases List.mem_cons.1 ha with rfl | ha
      · exact h1
      · exact lt_trans h1 (hl.1 a ha)
    · exact List.pairwise_cons.2 hl
    · refine List.pairwise_cons.2 ⟨?_, ih hl.2⟩
      intro a ha
      rcases (mem_set_insert h a ys).1 ha with rfl | ha
      · omega
      · exact hl.1 a ha

theorem length_set_insert_le (h : Nat) (l : List Nat) :
    (set_insert h l).length ≤ l.length + 1 := by
  induction l with
  | nil => simp [set_insert]
  | cons y ys ih =>
    unfold set_insert
    split_ifs
    · simp
    · simp
    · simp only [List.length_cons]; omega

section residency

variable {σ : Type} (info : Instance σ) (g_programs : Programs) (interface : Material_interface)

theorem material_handle_data (m : Material) :
    material_handle info g_programs (material_data m) = material_handle info g_programs m := rfl

theorem update_entry_data (b : Material_buffer σ) (address x : Nat) :
    material_data ((update_entry info g_programs interface b address).materials x) =
      material_data (b.materials x) := by
  show material_data (Function.update b.materials address _ x) = _
  by_cases hx : x = address
  · subst hx; rw [Function.update_same]; rfl
  · rw [Function.update_noteq hx]

theorem update_entries_data (materials : List Nat) (b : Material_buffer σ) (x : Nat) :
    material_data ((update_entries info g_programs interface b materials).materials x) =
      material_data (b.materials x) := by
  induction materials generalizing b with
  | nil => rfl
  | cons address rest ih => rw [update_entries_cons, ih, update_entry_data]

theorem update_entries_handle (materials : List Nat) (b : Material_buffer σ) (x : Nat) :
    material_handle info g_programs
        ((update_entries info g_programs interface b materials).materials x) =
      material_handle info g_programs (b.materials x) := by
  rw [← material_handle_data, update_entries_data, material_handle_data]

theorem update_entry_used (b : Material_buffer σ) (address : Nat) :
    (update_entry info g_programs interface b address).m_used_handles =
      if material_handle info g_programs (b.materials address) ≠ 0 then
        set_insert (material_handle info g_programs (b.materials address)) b.m_used_handles
      else b.m_used_handles := rfl

theorem mem_update_entries_used (materials : List Nat) (b : Material_buffer σ) (h : Nat) :
    h ∈ (update_entries info g_programs interface b materials).m_used_handles ↔
      h ∈ b.m_used_handles ∨
        (h ≠ 0 ∧ ∃ a ∈ materials, material_handle info g_programs (b.materials a) = h) := by
  induction materials generalizing b with
  | nil => simp [update_entries_nil]
  | cons address rest ih =>
    rw [update_entries_cons, ih, update_entry_used]
    have hd : ∀ a, material_handle info g_programs
        ((update_entry info g_programs interface b address).materials a) =
          material_handle info g_programs (b.materials a) := fun a =>
      update_entries_handle info g_programs interface [address] b a
    simp only [hd, List.mem_cons, exists_eq_or_imp]
    split_ifs with h0
    · rw [mem_set_insert]
      constructor
      · rintro ((h1 | h1) | h1)
        · exact Or.inr ⟨h1 ▸ h0, Or.inl h1.symm⟩
        · exact Or.inl h1
        · exact Or.inr ⟨h1.1, Or.inr h1.2⟩
      · rintro (h1 | ⟨h1, h2 | h2⟩)
        · exact Or.inl (Or.inr h1)
        · exact Or.inl (Or.inl h2.symm)
        · exact Or.inr ⟨h1, h2⟩
    · constructor
      · rintro (h1 | h1)
        · exact Or.inl h1
        · exact Or.inr ⟨h1.1, Or.inr h1.2⟩
      · rintro (h1 | ⟨h1, h2 | h2⟩)
        · exact Or.inl h1
        · exact absurd (h2 ▸ (not_not.1 h0)) h1
        · exact Or.inr ⟨h1, h2⟩

theorem update_entries_used_sorted (materials : List Nat) (b : Material_buffer σ)
    (hb : b.m_used_handles.Pairwise (· < ·)) :
    (update_entries info g_programs interface b materials).m_used_handles.Pairwise
      (· < ·) := by
  induction materials generalizing b with
  | nil => exact hb
  | cons address rest ih =>
    rw [update_entries_cons]
    apply ih
    rw [update_entry_used]
    split_ifs
    · exact set_insert_sorted _ _ hb
    · exact hb

theorem material_handle_ne_zero (m : Material)
    (h : material_handle info g_programs m ≠ 0) : m.texture.isSome = true := by
  unfold material_handle at h
  cases ht : m.texture with
  | none => rw [ht] at h; exact absurd rfl h
  | some t => rfl

theorem update_entries_used_length (materials : List Nat) (b : Material_buffer σ) :
    (update_entries info g_programs interface b materials).m_used_handles.length ≤
      b.m_used_handles.length +
        materials.countP (fun a => (b.materials a).texture.isSome) := by
  induction materials generalizing b with
  | nil => simp [update_entries_nil]
  | cons address rest ih =>
    rw [update_entries_cons]
    refine le_trans (ih _) ?_
    have hd : ∀ a, ((update_entry info g_programs interface b address).materials a).texture =
        (b.materials a).texture := by
      intro a
      have := congrArg Material.texture (update_entry_data info g_programs interface b address a)
      exact this
    simp only [hd, update_entry_used, List.countP_cons]
    split_ifs with h0 h1 h1
    · have := length_set_insert_le (material_handle info g_programs (b.materials address))
        b.m_used_handles
      omega
    · exact absurd (material_handle_ne_zero info g_programs _ h0) h1
    · omega
    · omega

end residency

/-- C5. After `update` on a material list that fits, `used_handles()` is exactly the set of
the non-zero handles of the listed materials, whatever it held before: a handle is in it if
and only if it is non-zero and is the handle of a listed material; it has no duplicates (it is
strictly increasing), does not contain zero, is empty for an empty list, and has at most as
many elements as there are listed materials with a texture, hence at most `n`. -/
theorem material_buffer_update_used_handles {σ : Type} (info : Instance σ)
    (g_programs : Programs) (interface : Material_interface) (b : Material_buffer σ)
    (materials : List Nat)
    (h : materials.length * interface.entry_size ≤
      (update_begin interface b materials).m_writer.write_end -
        (update_begin interface b materials).m_writer.write_offset) :
    ∃ range b1, Material_buffer.update info g_programs interface b materials =
        .ok (range, b1) ∧
      (∀ handle, handle ∈ b1.used_handles ↔
        handle ≠ 0 ∧
          ∃ a ∈ materials, material_handle info g_programs (b.materials a) = handle) ∧
      b1.used_handles.Nodup ∧
      b1.used_handles.Pairwise (· < ·) ∧
      0 ∉ b1.used_handles ∧
      (materials = [] → b1.used_handles = []) ∧
      b1.used_handles.length ≤
        materials.countP (fun a => (b.materials a).texture.isSome) ∧
      b1.used_handles.length ≤ materials.length := by
  have hmem : ∀ handle, handle ∈ (update_end (update_entries info g_programs interface
      (update_begin interface b materials) materials)).used_handles ↔
        handle ≠ 0 ∧
          ∃ a ∈ materials, material_handle info g_programs (b.materials a) = handle := by
    intro handle
    show handle ∈ (update_entries info g_programs interface
      (update_begin interface b materials) materials).m_used_handles ↔ _
    rw [mem_update_entries_used]
    show handle ∈ ([] : List Nat) ∨ (handle ≠ 0 ∧
      ∃ a ∈ materials, material_handle info g_programs (b.materials a) = handle) ↔ _
    simp
  have hsorted : (update_end (update_entries info g_programs interface
      (update_begin interface b materials) materials)).used_handles.Pairwise (· < ·) :=
    update_entries_used_sorted info g_programs interface materials _ List.Pairwise.nil
  have hlen : (update_end (update_entries info g_programs interface
      (update_begin interface b materials) materials)).used_handles.length ≤
        materials.countP (fun a => (b.materials a).texture.isSome) := by
    have := update_entries_used_length info g_programs interface materials
      (update_begin interface b materials)
    simpa [Material_buffer.used_handles, update_end, update_begin] using this
  refine ⟨_, _, update_fits info g_programs interface b materials h, hmem, ?_, hsorted, ?_, ?_,
    hlen, le_trans hlen (List.countP_le_length _)⟩
  · exact hsorted.imp (fun hlt => Nat.ne_of_lt hlt)
  · intro h0
    exact ((hmem 0).1 h0).1 rfl
  · rintro rfl
    rfl

/-- Witness for C5: three materials, the second without texture, the other two sharing one
texture; the residency set has the single handle of that texture. -/
theorem material_buffer_update_used_handles_witness :
    ∃ range b1, Material_buffer.update (sample.info true) sample.g_programs sample.interface
        (sample.buffer 192) [100, 101, 102] = .ok (range, b1) ∧
      5 ∉ b1.used_handles ∧
      b1.used_handles.length ≤ 2 ∧
      b1.used_handles.length ≤ [100, 101, 102].length := by
  obtain ⟨range, b1, h1, hmem, _, _, _, _, hc, h2⟩ :=
    material_buffer_update_used_handles (sample.info true) sample.g_programs sample.interface
      (sample.buffer 192) [100, 101, 102] (by decide)
  refine ⟨range, b1, h1, ?_, le_trans hc (by decide), h2⟩
  intro h5
  obtain ⟨_, a, ha, hh⟩ := (hmem 5).1 h5
  revert hh
  simp only [List.mem_cons, List.mem_singleton, List.not_mem_nil, or_false] at ha
  rcases ha with rfl | rfl | rfl <;> decide

end editor

/-! ## Entry contents -/

namespace erhe.graphics

@[simp] theorem length_le_bytes (count value : Nat) : (le_bytes count value).length = count := by
  induction count generalizing value with
  | zero => rfl
  | succ n ih => simp [le_bytes, ih]

@[simp] theorem length_as_span_float (v : Nat) : (as_span_float v).length = 4 := by
  simp [as_span_float]

@[simp] theorem length_as_span_vec2 (v : Nat × Nat) : (as_span_vec2 v).length = 8 := by
  simp [as_span_vec2]

@[simp] theorem length_as_span_vec4 (v : Nat × Nat × Nat × Nat) :
    (as_span_vec4 v).length = 16 := by
  simp [as_span_vec4]

@[simp] theorem length_as_span_uint64 (v : Nat) : (as_span_uint64 v).length = 8 := by
  simp [as_span_uint64]

theorem write_inside (dst : Gpu_data) (offset : Nat) (source : List Nat) (j : Nat)
    (h : j < source.length) : write dst offset source (offset + j) = source.getD j 0 := by
  unfold write
  rw [if_pos ⟨Nat.le_add_right _ _, by omega⟩, Nat.add_sub_cancel_left]

theorem write_outside (dst : Gpu_data) (offset : Nat) (source : List Nat) (a : Nat)
    (h : a < offset ∨ offset + source.length ≤ a) : write dst offset source a = dst a := by
  unfold write
  rw [if_neg (by omega)]

theorem memset_inside (dst : Gpu_data) (offset value count a : Nat)
    (h : offset ≤ a ∧ a < offset + count) : memset dst offset value count a = value := by
  unfold memset
  rw [if_pos h]

theorem memset_outside (dst : Gpu_data) (offset value count a : Nat)
    (h : a < offset ∨ offset + count ≤ a) : memset dst offset value count a = dst a := by
  unfold memset
  rw [if_neg (by omega)]

end erhe.graphics

namespace editor

open erhe.toolkit erhe.graphics erhe.primitive erhe.application

section contents

variable {σ : Type} (info : Instance σ) (g_programs : Programs) (interface : Material_interface)

theorem layout_ok_iff :
    interface.layout_ok ↔
      ((interface.offsets.roughness + 8 ≤ interface.entry_size ∧
        interface.offsets.metallic + 4 ≤ interface.entry_size ∧
        interface.offsets.reflectance + 4 ≤ interface.entry_size ∧
        interface.offsets.base_color + 16 ≤ interface.entry_size ∧
        interface.offsets.emissive + 16 ≤ interface.entry_size ∧
        interface.offsets.base_texture + 8 ≤ interface.entry_size ∧
        interface.offsets.opacity + 4 ≤ interface.entry_size ∧
        interface.offsets.reserved + 4 ≤ interface.entry_size) ∧
       interface.fields.Pairwise (fun f g => f.1 + f.2 ≤ g.1 ∨ g.1 + g.2 ≤ f.1)) := by
  unfold Material_interface.layout_ok
  simp [Material_interface.fields]

/-- The bytes of the mapped span after one run of the loop body. -/
theorem update_entry_gpu_data (b : Material_buffer σ) (address : Nat) :
    (update_entry info g_programs interface b address).gpu_data =
      write (write (write (write (write (write (write
        (memset b.gpu_data b.m_writer.write_offset 0 interface.entry_size)
        (b.m_writer.write_offset + interface.offsets.metallic)
          (as_span_float (b.materials address).metallic))
        (b.m_writer.write_offset + interface.offsets.roughness)
          (as_span_vec2 (b.materials address).roughness))
        (b.m_writer.write_offset + interface.offsets.reflectance)
          (as_span_float (b.materials address).reflectance))
        (b.m_writer.write_offset + interface.offsets.base_color)
          (as_span_vec4 (b.materials address).base_color))
        (b.m_writer.write_offset + interface.offsets.emissive)
          (as_span_vec4 (b.materials address).emissive))
        (b.m_writer.write_offset + interface.offsets.opacity)
          (as_span_float (b.materials address).opacity))
        (b.m_writer.write_offset + interface.offsets.base_texture)
          (as_span_uint64 (base_texture_value info b.s_texture_unit_cache
            (material_handle info g_programs (b.materials address))).1) := rfl

/-- One run of the loop body leaves every byte outside its entry as it was. -/
theorem update_entry_frame (hl : interface.layout_ok) (b : Material_buffer σ) (address a : Nat)
    (ha : a < b.m_writer.write_offset ∨
      b.m_writer.write_offset + interface.entry_size ≤ a) :
    (update_entry info g_programs interface b address).gpu_data a = b.gpu_data a := by
  obtain ⟨⟨h1, h2, h3, h4, h5, h6, h7, h8⟩, _⟩ := (layout_ok_iff interface).1 hl
  rw [update_entry_gpu_data]
  rw [write_outside _ _ _ _ (by simp only [length_as_span_uint64]; omega),
    write_outside _ _ _ _ (by simp only [length_as_span_float]; omega),
    write_outside _ _ _ _ (by simp only [length_as_span_vec4]; omega),
    write_outside _ _ _ _ (by simp only [length_as_span_vec4]; omega),
    write_outside _ _ _ _ (by simp only [length_as_span_float]; omega),
    write_outside _ _ _ _ (by simp only [length_as_span_vec2]; omega),
    write_outside _ _ _ _ (by simp only [length_as_span_float]; omega),
    memset_outside _ _ _ _ _ (by omega)]


/-- Two different fields of a well laid out entry do not overlap. -/
theorem layout_pair (hl : interface.layout_ok) (i j : Nat) (hi : i < 8) (hj : j < 8)
    (hij : i < j) :
    (interface.fields.getD i (0, 0)).1 + (interface.fields.getD i (0, 0)).2 ≤
        (interface.fields.getD j (0, 0)).1 ∨
      (interface.fields.getD j (0, 0)).1 + (interface.fields.getD j (0, 0)).2 ≤
        (interface.fields.getD i (0, 0)).1 := by
  have h := List.pairwise_iff_getElem.1 hl.2 i j hi hj hij
  rw [List.getD_eq_getElem interface.fields _ hi, List.getD_eq_getElem interface.fields _ hj]
  exact h

/-- One run of the loop body writes the entry of its material at the cursor. -/
theorem update_entry_holds (hl : interface.layout_ok) (b : Material_buffer σ) (address : Nat) :
    entry_holds interface (update_entry info g_programs interface b address).gpu_data
      b.m_writer.write_offset (b.materials address)
      (base_texture_value info b.s_texture_unit_cache
        (material_handle info g_programs (b.materials address))).1 := by
  obtain ⟨⟨h1, h2, h3, h4, h5, h6, h7, h8⟩, _⟩ := (layout_ok_iff interface).1 hl
  rw [update_entry_gpu_data]
  refine ⟨?_, ?_, ?_, ?_, ?_, ?_, ?_, ?_, ?_⟩
  · intro j hj
    rw [
      write_outside _ _ _ _ (by
        have hd := layout_pair interface hl 0 5 (by decide) (by decide) (by decide)
        simp only [Material_interface.fields, List.getD_cons_zero, List.getD_cons_succ] at hd
        simp only [length_as_span_uint64]
        omega),
      write_outside _ _ _ _ (by
        have hd := layout_pair interface hl 0 6 (by decide) (by decide) (by decide)
        simp only [Material_interface.fields, List.getD_cons_zero, List.getD_cons_succ] at hd
        simp only [length_as_span_float]
        omega),
      write_outside _ _ _ _ (by
        have hd := layout_pair interface hl 0 4 (by decide) (by decide) (by decide)
        simp only [Material_interface.fields, List.getD_cons_zero, List.getD_cons_succ] at hd
        simp only [length_as_span_vec4]
        omega),
      write_outside _ _ _ _ (by
        have hd := layout_pair interface hl 0 3 (by decide) (by decide) (by decide)
        simp only [Material_interface.fields, List.getD_cons_zero, List.getD_cons_succ] at hd
        simp only [length_as_span_vec4]
        omega),
      write_outside _ _ _ _ (by
        have hd := layout_pair interface hl 0 2 (by decide) (by decide) (by decide)
        simp only [Material_interface.fields, List.getD_cons_zero, List.getD_cons_succ] at hd
        simp only [length_as_span_float]
        omega),
      write_inside _ _ _ _ (by simp only [length_as_span_vec2]; exact hj)]
  · intro j hj
    rw [
      write_outside _ _ _ _ (by
        have hd := layout_pair interface hl 1 5 (by decide) (by decide) (by decide)
        simp only [Material_interface.fields, List.getD_cons_zero, List.getD_cons_succ] at hd
        simp only [length_as_span_uint64]
        omega),
      write_outside _ _ _ _ (by
        have hd := layout_pair interface hl 1 6 (by decide) (by decide) (by decide)
        simp only [Material_interface.fields, List.getD_cons_zero, List.getD_cons_succ] at hd
        simp only [length_as_span_float]
        omega),
      write_outside _ _ _ _ (by
        have hd := layout_pair interface hl 1 4 (by decide) (by decide) (by decide)
        simp only [Material_interface.fields, List.getD_cons_zero, List.getD_cons_succ] at hd
        simp only [length_as_span_vec4]
        omega),
      write_outside _ _ _ _ (by
        have hd := layout_pair interface hl 1 3 (by decide) (by decide) (by decide)
        simp only [Material_interface.fields, List.getD_cons_zero, List.getD_cons_succ] at hd
        simp only [length_as_span_vec4]
        omega),
      write_outside _ _ _ _ (by
        have hd := layout_pair interface hl 1 2 (by decide) (by decide) (by decide)
        simp only [Material_interface.fields, List.getD_cons_zero, List.getD_cons_succ] at hd
        simp only [length_as_span_float]
        omega),
      write_outside _ _ _ _ (by
        have hd := layout_pair interface hl 0 1 (by decide) (by decide) (by decide)
        simp only [Material_interface.fields, List.getD_cons_zero, List.getD_cons_succ] at hd
        simp only [length_as_span_vec2]
        omega),
      write_inside _ _ _ _ (by simp only [length_as_span_float]; exact hj)]
  · intro j hj
    rw [
      write_outside _ _ _ _ (by
        have hd := layout_pair interface hl 2 5 (by decide) (by decide) (by decide)
        simp only [Material_interface.fields, List.getD_cons_zero, List.getD_cons_succ] at hd
        simp only [length_as_span_uint64]
        omega),
      write_outside _ _ _ _ (by
        have hd := layout_pair interface hl 2 6 (by decide) (by decide) (by decide)
        simp only [Material_interface.fields, List.getD_cons_zero, List.getD_cons_succ] at hd
        simp only [length_as_span_float]
        omega),
      write_outside _ _ _ _ (by
        have hd := layout_pair interface hl 2 4 (by decide) (by decide) (by decide)
        simp only [Material_interface.fields, List.getD_cons_zero, List.getD_cons_succ] at hd
        simp only [length_as_span_vec4]
        omega),
      write_outside _ _ _ _ (by
        have hd := layout_pair interface hl 2 3 (by decide) (by decide) (by decide)
        simp only [Material_interface.fields, List.getD_cons_zero, List.getD_cons_succ] at hd
        simp only [length_as_span_vec4]
        omega),
      write_inside _ _ _ _ (by simp only [length_as_span_float]; exact hj)]
  · intro j hj
    rw [
      write_outside _ _ _ _ (by
        have hd := layout_pair interface hl 3 5 (by decide) (by decide) (by decide)
        simp only [Material_interface.fields, List.getD_cons_zero, List.getD_cons_succ] at hd
        simp only [length_as_span_uint64]
        omega),
      write_outside _ _ _ _ (by
        have hd := layout_pair interface hl 3 6 (by decide) (by decide) (by decide)
        simp only [Material_interface.fields, List.getD_cons_zero, List.getD_cons_succ] at hd
        simp only [length_as_span_float]
        omega),
      write_outside _ _ _ _ (by
        have hd := layout_pair interface hl 3 4 (by decide) (by decide) (by decide)
        simp only [Material_interface.fields, List.getD_cons_zero, List.getD_cons_succ] at hd
        simp only [length_as_span_vec4]
        omega),
      write_inside _ _ _ _ (by simp only [length_as_span_vec4]; exact hj)]
  · intro j hj
    rw [
      write_outside _ _ _ _ (by
        have hd := layout_pair interface hl 4 5 (by decide) (by decide) (by decide)
        simp only [Material_interface.fields, List.getD_cons_zero, List.getD_cons_succ] at hd
        simp only [length_as_span_uint64]
        omega),
      write_outside _ _ _ _ (by
        have hd := layout_pair interface hl 4 6 (by decide) (by decide) (by decide)
        simp only [Material_interface.fields, List.getD_cons_zero, List.getD_cons_succ] at hd
        simp only [length_as_span_float]
        omega),
      write_inside _ _ _ _ (by simp only [length_as_span_vec4]; exact hj)]
  · intro j hj
    rw [
      write_outside _ _ _ _ (by
        have hd := layout_pair interface hl 5 6 (by decide) (by decide) (by decide)
        simp only [Material_interface.fields, List.getD_cons_zero, List.getD_cons_succ] at hd
        simp only [length_as_span_uint64]
        omega),
      write_inside _ _ _ _ (by simp only [length_as_span_float]; exact hj)]
  · intro j hj
    rw [
      write_inside _ _ _ _ (by simp only [length_as_span_uint64]; exact hj)]
  · intro j hj
    rw [
      write_outside _ _ _ _ (by
        have hd := layout_pair interface hl 5 7 (by decide) (by decide) (by decide)
        simp only [Material_interface.fields, List.getD_cons_zero, List.getD_cons_succ] at hd
        simp only [length_as_span_uint64]
        omega),
      write_outside _ _ _ _ (by
        have hd := layout_pair interface hl 6 7 (by decide) (by decide) (by decide)
        simp only [Material_interface.fields, List.getD_cons_zero, List.getD_cons_succ] at hd
        simp only [length_as_span_float]
        omega),
      write_outside _ _ _ _ (by
        have hd := layout_pair interface hl 4 7 (by decide) (by decide) (by decide)
        simp only [Material_interface.fields, List.getD_cons_zero, List.getD_cons_succ] at hd
        simp only [length_as_span_vec4]
        omega),
      write_outside _ _ _ _ (by
        have hd := layout_pair interface hl 3 7 (by decide) (by decide) (by decide)
        simp only [Material_interface.fields, List.getD_cons_zero, List.getD_cons_succ] at hd
        simp only [length_as_span_vec4]
        omega),
      write_outside _ _ _ _ (by
        have hd := layout_pair interface hl 2 7 (by decide) (by decide) (by decide)
        simp only [Material_interface.fields, List.getD_cons_zero, List.getD_cons_succ] at hd
        simp only [length_as_span_float]
        omega),
      write_outside _ _ _ _ (by
        have hd := layout_pair interface hl 0 7 (by decide) (by decide) (by decide)
        simp only [Material_interface.fields, List.getD_cons_zero, List.getD_cons_succ] at hd
        simp only [length_as_span_vec2]
        omega),
      write_outside _ _ _ _ (by
        have hd := layout_pair interface hl 1 7 (by decide) (by decide) (by decide)
        simp only [Material_interface.fields, List.getD_cons_zero, List.getD_cons_succ] at hd
        simp only [length_as_span_float]
        omega),
      memset_inside _ _ _ _ _ (by omega)]
  · intro k hk n1 n2 n3 n4 n5 n6 n7
    rw [
      write_outside _ _ _ _ (by simp only [length_as_span_uint64]; omega),
      write_outside _ _ _ _ (by simp only [length_as_span_float]; omega),
      write_outside _ _ _ _ (by simp only [length_as_span_vec4]; omega),
      write_outside _ _ _ _ (by simp only [length_as_span_vec4]; omega),
      write_outside _ _ _ _ (by simp only [length_as_span_float]; omega),
      write_outside _ _ _ _ (by simp only [length_as_span_vec2]; omega),
      write_outside _ _ _ _ (by simp only [length_as_span_float]; omega),
      memset_inside _ _ _ _ _ (by omega)]

theorem entry_holds_congr (hl : interface.layout_ok) (data1 data2 : Gpu_data) (base : Nat)
    (material : Material) (texture_word : Nat)
    (h : ∀ a, base ≤ a → a < base + interface.entry_size → data2 a = data1 a)
    (h1 : entry_holds interface data1 base material texture_word) :
    entry_holds interface data2 base material texture_word := by
  obtain ⟨⟨b1, b2, b3, b4, b5, b6, b7, b8⟩, _⟩ := (layout_ok_iff interface).1 hl
  obtain ⟨e1, e2, e3, e4, e5, e6, e7, e8, e9⟩ := h1
  refine ⟨?_, ?_, ?_, ?_, ?_, ?_, ?_, ?_, ?_⟩
  · intro j hj; rw [h _ (by omega) (by omega)]; exact e1 j hj
  · intro j hj; rw [h _ (by omega) (by omega)]; exact e2 j hj
  · intro j hj; rw [h _ (by omega) (by omega)]; exact e3 j hj
  · intro j hj; rw [h _ (by omega) (by omega)]; exact e4 j hj
  · intro j hj; rw [h _ (by omega) (by omega)]; exact e5 j hj
  · intro j hj; rw [h _ (by omega) (by omega)]; exact e6 j hj
  · intro j hj; rw [h _ (by omega) (by omega)]; exact e7 j hj
  · intro j hj; rw [h _ (by omega) (by omega)]; exact e8 j hj
  · intro k hk n1 n2 n3 n4 n5 n6 n7
    rw [h _ (by omega) (by omega)]
    exact e9 k hk n1 n2 n3 n4 n5 n6 n7

theorem entry_holds_data (data : Gpu_data) (base : Nat) (material : Material)
    (texture_word : Nat) :
    entry_holds interface data base (material_data material) texture_word =
      entry_holds interface data base material texture_word := rfl

/-- The loop leaves every byte outside the entries it writes as it was. -/
theorem update_entries_frame (hl : interface.layout_ok) (materials : List Nat)
    (b : Material_buffer σ) (a : Nat)
    (ha : a < b.m_writer.write_offset ∨
      b.m_writer.write_offset + materials.length * interface.entry_size ≤ a) :
    (update_entries info g_programs interface b materials).gpu_data a = b.gpu_data a := by
  induction materials generalizing b with
  | nil => rfl
  | cons address rest ih =>
    have hw : (update_entry info g_programs interface b address).m_writer.write_offset =
        b.m_writer.write_offset + interface.entry_size := rfl
    have hlen : (address :: rest).length * interface.entry_size =
        interface.entry_size + rest.length * interface.entry_size := by
      rw [List.length_cons]; ring
    rw [hlen] at ha
    have hz := Nat.zero_le (rest.length * interface.entry_size)
    rw [update_entries_cons, ih _ (by rw [hw]; omega),
      update_entry_frame info g_programs interface hl b address a (by omega)]

/-- After the loop, entry `i` holds material `i`, with the texture word computed from the
texture unit cache as the first `i` loop bodies left it. -/
theorem update_entries_holds (hl : interface.layout_ok) (materials : List Nat)
    (b : Material_buffer σ) (i : Nat) (hi : i < materials.length) :
    entry_holds interface (update_entries info g_programs interface b materials).gpu_data
      (b.m_writer.write_offset + i * interface.entry_size) (b.materials materials[i])
      (base_texture_value info
        (update_entries info g_programs interface b (materials.take i)).s_texture_unit_cache
        (material_handle info g_programs (b.materials materials[i]))).1 := by
  have hsplit : materials = materials.take i ++ materials[i] :: materials.drop (i + 1) := by
    rw [← List.drop_eq_getElem_cons hi, List.take_append_drop]
  have hwi : (update_entries info g_programs interface b
      (materials.take i)).m_writer.write_offset =
        b.m_writer.write_offset + i * interface.entry_size := by
    rw [update_entries_write_offset, List.length_take, Nat.min_eq_left (Nat.le_of_lt hi)]
  have hstep := update_entry_holds info g_programs interface hl
    (update_entries info g_programs interface b (materials.take i)) materials[i]
  rw [hwi, update_entries_handle, ← entry_holds_data, update_entries_data,
    entry_holds_data] at hstep
  refine entry_holds_congr interface hl _ _ _ _ _ ?_ hstep
  intro a ha1 ha2
  conv_lhs => rw [hsplit]
  rw [update_entries_append, update_entries_cons]
  apply update_entries_frame info g_programs interface hl
  left
  show a < (update_entries info g_programs interface b
    (materials.take i)).m_writer.write_offset + interface.entry_size
  rw [hwi]
  exact ha2

end contents

end editor

namespace editor

open erhe.toolkit erhe.graphics erhe.primitive erhe.application

/-- C6. After `update` on `n` materials that fit, with an offset table whose field ranges lie
inside one entry and do not overlap: the returned range starts at the slot start, and for
every `i < n` the entry `[start + i*s, start + (i+1)*s)` holds at the offsets `roughness`,
`metallic`, `reflectance`, `base_color`, `emissive`, `opacity` and `base_texture` the byte
images of material `i` (at `base_texture` the 64-bit word computed for it), and zero in the
`reserved` field and in every other byte, whatever the slot held before; no byte outside the
`n` entries is modified. -/
theorem material_buffer_update_entries {σ : Type} (info : Instance σ)
    (g_programs : Programs) (interface : Material_interface) (b : Material_buffer σ)
    (materials : List Nat)
    (h : materials.length * interface.entry_size ≤
      (update_begin interface b materials).m_writer.write_end -
        (update_begin interface b materials).m_writer.write_offset)
    (hl : interface.layout_ok) :
    ∃ range b1, Material_buffer.update info g_programs interface b materials =
        .ok (range, b1) ∧
      range.first_byte_offset = (update_begin interface b materials).m_writer.write_offset ∧
      (∀ i (hi : i < materials.length),
        entry_holds interface b1.gpu_data
          (range.first_byte_offset + i * interface.entry_size) (b.materials materials[i])
          (base_texture_value info
            (update_entries info g_programs interface (update_begin interface b materials)
              (materials.take i)).s_texture_unit_cache
            (material_handle info g_programs (b.materials materials[i]))).1) ∧
      (∀ a, a < range.first_byte_offset ∨
          range.first_byte_offset + materials.length * interface.entry_size ≤ a →
        b1.gpu_data a = b.gpu_data a) := by
  refine ⟨_, _, update_fits info g_programs interface b materials h, ?_, ?_, ?_⟩
  · show (update_entries info g_programs interface (update_begin interface b materials)
      materials).m_writer.range.first_byte_offset = _
    rw [update_entries_first_byte_offset]
    rfl
  · intro i hi
    have hr : (update_end (update_entries info g_programs interface
        (update_begin interface b materials) materials)).m_writer.range.first_byte_offset =
          (update_begin interface b materials).m_writer.write_offset := by
      show (update_entries info g_programs interface (update_begin interface b materials)
        materials).m_writer.range.first_byte_offset = _
      rw [update_entries_first_byte_offset]
      rfl
    rw [hr]
    exact update_entries_holds info g_programs interface hl materials
      (update_begin interface b materials) i hi
  · intro a ha
    have hr : (update_end (update_entries info g_programs interface
        (update_begin interface b materials) materials)).m_writer.range.first_byte_offset =
          (update_begin interface b materials).m_writer.write_offset := by
      show (update_entries info g_programs interface (update_begin interface b materials)
        materials).m_writer.range.first_byte_offset = _
      rw [update_entries_first_byte_offset]
      rfl
    rw [hr] at ha
    exact update_entries_frame info g_programs interface hl materials
      (update_begin interface b materials) a ha

/-- Witness for C6: three materials in a slot of 192 bytes that was filled with `0xcd`. -/
theorem material_buffer_update_entries_witness :
    ∃ range b1, Material_buffer.update (sample.info true) sample.g_programs sample.interface
        (sample.buffer 192) [100, 101, 102] = .ok (range, b1) ∧
      range.first_byte_offset = 0 ∧
      ∀ a, a < range.first_byte_offset ∨
          range.first_byte_offset + [100, 101, 102].length * sample.interface.entry_size ≤ a →
        b1.gpu_data a = 0xcd := by
  obtain ⟨range, b1, h1, h2, _, h4⟩ :=
    material_buffer_update_entries (sample.info true) sample.g_programs sample.interface
      (sample.buffer 192) [100, 101, 102] (by decide) (by decide)
  exact ⟨range, b1, h1, h2, h4⟩

/-! ## The texture word -/

theorem packed_unit (unit : Nat) (h : unit < 2 ^ 32) :
    (unit ||| (0x7fffffff <<< 32)) % 2 ^ 32 = unit ∧
      (unit ||| (0x7fffffff <<< 32)) / 2 ^ 32 = 0x7fffffff := by
  have e : unit ||| (0x7fffffff <<< 32) = 2 ^ 32 * 0x7fffffff + unit := by
    rw [Nat.mul_add_lt_is_or h, Nat.or_comm, Nat.shiftLeft_eq, Nat.mul_comm]
  rw [e]
  constructor <;> omega

/-- C7. The 64-bit word that one loop body writes at `base_texture` (its eight bytes are the
little-endian image of the word): in non-bindless mode it is `unit | (0x7fffffff << 32)` for
the unit the allocator returns, with low half `unit` and high half `0x7fffffff` when
`unit < 2^32`; when the allocator returns no unit it is `0x7fffffff00000000`, and the loop body
is run all the same (the update goes on whenever the entry fits); in bindless mode it is the
handle, `0` for a material without texture. -/
theorem material_buffer_update_base_texture {σ : Type} (info : Instance σ)
    (g_programs : Programs) (interface : Material_interface) (b : Material_buffer σ)
    (address : Nat) :
    (∀ j, j < 8 →
      (update_entry info g_programs interface b address).gpu_data
          (b.m_writer.write_offset + interface.offsets.base_texture + j) =
        (as_span_uint64 (base_texture_value info b.s_texture_unit_cache
          (material_handle info g_programs (b.materials address))).1).getD j 0) ∧
    (info.use_bindless_texture = false →
      (∀ unit, (info.allocate_texture_unit b.s_texture_unit_cache
            (material_handle info g_programs (b.materials address))).1 = some unit →
        (base_texture_value info b.s_texture_unit_cache
            (material_handle info g_programs (b.materials address))).1 =
          unit % 2 ^ 64 ||| (0x7fffffff <<< 32) ∧
        (unit < 2 ^ 32 →
          (base_texture_value info b.s_texture_unit_cache
            (material_handle info g_programs (b.materials address))).1 % 2 ^ 32 = unit ∧
          (base_texture_value info b.s_texture_unit_cache
            (material_handle info g_programs (b.materials address))).1 / 2 ^ 32 =
              0x7fffffff)) ∧
      ((info.allocate_texture_unit b.s_texture_unit_cache
            (material_handle info g_programs (b.materials address))).1 = none →
        (base_texture_value info b.s_texture_unit_cache
            (material_handle info g_programs (b.materials address))).1 =
          0x7fffffff00000000)) ∧
    (info.use_bindless_texture = true →
      (base_texture_value info b.s_texture_unit_cache
          (material_handle info g_programs (b.materials address))).1 =
        material_handle info g_programs (b.materials address) ∧
      ((b.materials address).texture = none →
        (base_texture_value info b.s_texture_unit_cache
          (material_handle info g_programs (b.materials address))).1 = 0)) ∧
    (b.m_writer.write_offset + interface.entry_size ≤ b.m_writer.write_end →
      update_loop info g_programs interface [address] b =
        .ok (update_entry info g_programs interface b address)) := by
  refine ⟨?_, ?_, ?_, ?_⟩
  · intro j hj
    rw [update_entry_gpu_data,
      write_inside _ _ _ _ (by simp only [length_as_span_uint64]; exact hj)]
  · intro hb
    have hv : ∀ handle, (base_texture_value info b.s_texture_unit_cache handle).1 =
        (match (info.allocate_texture_unit b.s_texture_unit_cache handle).1 with
          | some unit => unit
          | none => 0) % 2 ^ 64 ||| ((0x7fffffff <<< 32) % 2 ^ 64) := by
      intro handle
      simp [base_texture_value, hb]
    have hm : ((0x7fffffff : Nat) <<< 32) % 2 ^ 64 = 0x7fffffff <<< 32 := by decide
    refine ⟨?_, ?_⟩
    · intro unit hu
      have hw := hv (material_handle info g_programs (b.materials address))
      rw [hu, hm] at hw
      refine ⟨hw, ?_⟩
      intro hlt
      rw [hw, Nat.mod_eq_of_lt (by omega : unit < 2 ^ 64)]
      exact packed_unit unit hlt
    · intro hn
      have hw := hv (material_handle info g_programs (b.materials address))
      rw [hn] at hw
      rw [hw]
      decide
  · intro hb
    have hv : ∀ handle, (base_texture_value info b.s_texture_unit_cache handle).1 = handle := by
      intro handle
      simp [base_texture_value, hb]
    refine ⟨hv _, ?_⟩
    intro ht
    rw [hv]
    simp [material_handle, ht]
  · intro hfit
    have := update_loop_fits info g_programs interface [address] b (by simpa using hfit)
    rw [this]
    rfl

/-- Witness for C7: bound mode with two texture units that are both taken; the material at
address `100` uses a third handle and gets the fixed word `0x7fffffff00000000`. -/
theorem material_buffer_update_base_texture_witness :
    (base_texture_value (sample.info false) [11, 12]
        (material_handle (sample.info false) sample.g_programs (sample.heap 100))).1 =
      0x7fffffff00000000 :=
  ((material_buffer_update_base_texture (sample.info false) sample.g_programs
    sample.interface { sample.buffer 192 with s_texture_unit_cache := [11, 12] } 100).2.1
      rfl).2 (by decide)

end editor

/-! ## The material index -/

namespace editor

open erhe.toolkit erhe.graphics erhe.primitive erhe.application

section index

variable {σ : Type} (info : Instance σ) (g_programs : Programs) (interface : Material_interface)

theorem update_entry_materials_self (b : Material_buffer σ) (address : Nat) :
    ((update_entry info g_programs interface b address).materials address).material_buffer_index =
      b.material_index := by
  show (Function.update b.materials address _ address).material_buffer_index = _
  rw [Function.update_same]

theorem update_entry_materials_other (b : Material_buffer σ) (address x : Nat)
    (hx : x ≠ address) :
    (update_entry info g_programs interface b address).materials x = b.materials x := by
  show Function.update b.materials address _ x = _
  rw [Function.update_noteq hx]

theorem update_entries_materials_other (materials : List Nat) (b : Material_buffer σ) (x : Nat)
    (hx : x ∉ materials) :
    (update_entries info g_programs interface b materials).materials x = b.materials x := by
  induction materials generalizing b with
  | nil => rfl
  | cons address rest ih =>
    rw [List.mem_cons, not_or] at hx
    rw [update_entries_cons, ih _ hx.2, update_entry_materials_other _ _ _ _ _ _ hx.1]

theorem update_end_materials (b : Material_buffer σ) :
    (update_end b).materials = b.materials := rfl

/-- After the loop, a material carries the value the counter had at its last occurrence. -/
theorem update_entries_index (materials : List Nat) (b : Material_buffer σ) (i : Nat)
    (hi : i < materials.length) (hb : b.material_index < 2 ^ 32)
    (hlast : ∀ j (hj : j < materials.length), i < j → materials[j] ≠ materials[i]) :
    ((update_entries info g_programs interface b materials).materials
        materials[i]).material_buffer_index = (b.material_index + i) % 2 ^ 32 := by
  induction materials generalizing b i with
  | nil => exact absurd hi (Nat.not_lt_zero _)
  | cons address rest ih =>
    rw [update_entries_cons]
    cases i with
    | zero =>
      have hnot : address ∉ rest := by
        intro hmem
        obtain ⟨j, hj, hje⟩ := List.getElem_of_mem hmem
        exact hlast (j + 1) (by simp only [List.length_cons]; omega) (Nat.succ_pos j)
          (by simpa using hje)
      simp only [List.getElem_cons_zero]
      rw [update_entries_materials_other _ _ _ _ _ _ hnot, update_entry_materials_self,
        Nat.add_zero, Nat.mod_eq_of_lt hb]
    | succ k =>
      simp only [List.getElem_cons_succ]
      have hk : k < rest.length := by simpa using hi
      rw [ih (update_entry info g_programs interface b address) k hk
        (Nat.mod_lt _ (by decide))
        (fun j hj hkj => by
          have := hlast (j + 1) (by simp only [List.length_cons]; omega) (by omega)
          simpa using this)]
      show ((b.material_index + 1) % 2 ^ 32 + k) % 2 ^ 32 = _
      omega

end index

/-- C8, amended. After `update` on a list that fits, every material that does not occur again
later in the list carries `material_buffer_index = i mod 2^32`, where `i` is its position
(the counter is a `uint32_t`); so a material that occurs several times carries the position of
its last occurrence, and in a list of pairwise distinct materials that has at most `2^32`
elements `m_i.material_buffer_index = i` for every `i`. With a well laid out offset table,
entry `i` of the written range holds the data of `m_i`. -/
theorem material_buffer_update_index {σ : Type} (info : Instance σ)
    (g_programs : Programs) (interface : Material_interface) (b : Material_buffer σ)
    (materials : List Nat)
    (h : materials.length * interface.entry_size ≤
      (update_begin interface b materials).m_writer.write_end -
        (update_begin interface b materials).m_writer.write_offset) :
    ∃ range b1, Material_buffer.update info g_programs interface b materials =
        .ok (range, b1) ∧
      (∀ i (hi : i < materials.length),
        (∀ j (hj : j < materials.length), i < j → materials[j] ≠ materials[i]) →
        (b1.materials materials[i]).material_buffer_index = i % 2 ^ 32) ∧
      (materials.Nodup → materials.length ≤ 2 ^ 32 → ∀ i (hi : i < materials.length),
        (b1.materials materials[i]).material_buffer_index = i) ∧
      (interface.layout_ok → ∀ i (hi : i < materials.length),
        entry_holds interface b1.gpu_data
          (range.first_byte_offset + i * interface.entry_size) (b.materials materials[i])
          (base_texture_value info
            (update_entries info g_programs interface (update_begin interface b materials)
              (materials.take i)).s_texture_unit_cache
            (material_handle info g_programs (b.materials materials[i]))).1) := by
  have hidx : ∀ i (hi : i < materials.length),
      (∀ j (hj : j < materials.length), i < j → materials[j] ≠ materials[i]) →
      ((update_end (update_entries info g_programs interface
        (update_begin interface b materials) materials)).materials
          materials[i]).material_buffer_index = i % 2 ^ 32 := by
    intro i hi hlast
    have := update_entries_index info g_programs interface materials
      (update_begin interface b materials) i hi (show (0 : Nat) < 2 ^ 32 by decide) hlast
    rw [show (update_begin interface b materials).material_index = 0 from rfl,
      Nat.zero_add] at this
    exact this
  refine ⟨_, _, update_fits info g_programs interface b materials h, hidx, ?_, ?_⟩
  · intro hnd hlen i hi
    rw [hidx i hi (fun j hj hij heq => by
      have := (List.Nodup.getElem_inj_iff hnd).1 heq
      omega)]
    exact Nat.mod_eq_of_lt (by omega)
  · intro hl i hi
    have hr : (update_end (update_entries info g_programs interface
        (update_begin interface b materials) materials)).m_writer.range.first_byte_offset =
          (update_begin interface b materials).m_writer.write_offset := by
      show (update_entries info g_programs interface (update_begin interface b materials)
        materials).m_writer.range.first_byte_offset = _
      rw [update_entries_first_byte_offset]
      rfl
    rw [hr]
    exact update_entries_holds info g_programs interface hl materials
      (update_begin interface b materials) i hi

/-- Witness for C8: the list `[100, 101, 100]`; the material at `101` gets index 1 and the
material at `100`, listed twice, gets index 2. -/
theorem material_buffer_update_index_witness :
    ∃ range b1, Material_buffer.update (sample.info true) sample.g_programs sample.interface
        (sample.buffer 192) [100, 101, 100] = .ok (range, b1) ∧
      (b1.materials 101).material_buffer_index = 1 ∧
      (b1.materials 100).material_buffer_index = 2 := by
  obtain ⟨range, b1, h1, h2, _, _⟩ :=
    material_buffer_update_index (sample.info true) sample.g_programs sample.interface
      (sample.buffer 192) [100, 101, 100] (by decide)
  exact ⟨range, b1, h1, h2 1 (by decide) (by decide), h2 2 (by decide) (by decide)⟩

/-- C8, counterexample. A list of `2^32 + 1` pairwise distinct materials (the objects at
addresses `0 .. 2^32`) that fits into the buffer: the material at position `2^32` is left with
`material_buffer_index = 0`, not `2^32`. -/
theorem material_buffer_update_index_wraps :
    (List.range (2 ^ 32 + 1)).Nodup ∧
    (List.range (2 ^ 32 + 1)).length * sample.interface.entry_size ≤
      (update_begin sample.interface (sample.buffer (64 * (2 ^ 32 + 1)))
          (List.range (2 ^ 32 + 1))).m_writer.write_end -
        (update_begin sample.interface (sample.buffer (64 * (2 ^ 32 + 1)))
          (List.range (2 ^ 32 + 1))).m_writer.write_offset ∧
    (List.range (2 ^ 32 + 1)).get? (2 ^ 32) = some (2 ^ 32) ∧
    ∃ range b1, Material_buffer.update (sample.info true) sample.g_programs sample.interface
        (sample.buffer (64 * (2 ^ 32 + 1))) (List.range (2 ^ 32 + 1)) = .ok (range, b1) ∧
      (b1.materials (2 ^ 32)).material_buffer_index = 0 ∧
      (b1.materials (2 ^ 32)).material_buffer_index ≠ 2 ^ 32 := by
  have hfit : (List.range (2 ^ 32 + 1)).length * sample.interface.entry_size ≤
      (update_begin sample.interface (sample.buffer (64 * (2 ^ 32 + 1)))
          (List.range (2 ^ 32 + 1))).m_writer.write_end -
        (update_begin sample.interface (sample.buffer (64 * (2 ^ 32 + 1)))
          (List.range (2 ^ 32 + 1))).m_writer.write_offset := by
    rw [List.length_range]
    show (2 ^ 32 + 1) * 64 ≤ 64 * (2 ^ 32 + 1) - 0
    omega
  have hi : 2 ^ 32 < (List.range (2 ^ 32 + 1)).length := by
    rw [List.length_range]; omega
  have hidx := update_entries_index (sample.info true) sample.g_programs sample.interface
    (List.range (2 ^ 32 + 1))
    (update_begin sample.interface (sample.buffer (64 * (2 ^ 32 + 1)))
      (List.range (2 ^ 32 + 1))) (2 ^ 32) hi (show (0 : Nat) < 2 ^ 32 by decide)
    (fun j hj hij => by rw [List.length_range] at hj; omega)
  rw [List.getElem_range,
    show (update_begin sample.interface (sample.buffer (64 * (2 ^ 32 + 1)))
      (List.range (2 ^ 32 + 1))).material_index = 0 from rfl,
    Nat.zero_add, Nat.mod_self] at hidx
  have h0 : ((update_end (update_entries (sample.info true) sample.g_programs sample.interface
      (update_begin sample.interface (sample.buffer (64 * (2 ^ 32 + 1)))
        (List.range (2 ^ 32 + 1))) (List.range (2 ^ 32 + 1)))).materials
          (2 ^ 32)).material_buffer_index = 0 := by
    rw [update_end_materials]
    exact hidx
  refine ⟨List.nodup_range _, hfit, ?_, _, _,
    update_fits (sample.info true) sample.g_programs sample.interface _ _ hfit, h0, ?_⟩
  · rw [List.get?_eq_getElem?, List.getElem?_range (by omega)]
  · rw [h0]; decide

end editor

/-! ## The pass loop -/

namespace editor

open erhe.toolkit erhe.graphics erhe.primitive erhe.application

theorem draw_indirect_updates_append (xs ys : List Gl_call) :
    draw_indirect_updates (xs ++ ys) = draw_indirect_updates xs ++ draw_indirect_updates ys := by
  induction xs with
  | nil => rfl
  | cons x rest ih => cases x <;> simp [draw_indirect_updates, ih]

theorem primitive_updates_append (xs ys : List Gl_call) :
    primitive_updates (xs ++ ys) = primitive_updates xs ++ primitive_updates ys := by
  induction xs with
  | nil => rfl
  | cons x rest ih => cases x <;> simp [primitive_updates, ih]

theorem draws_bound_nil : draws_bound [] := by
  intro before after mode type indirect drawcount stride h
  simp at h

theorem draws_bound_append (t u : List Gl_call) (ht : draws_bound t) (hu : draws_bound u) :
    draws_bound (t ++ u) := by
  intro before after mode type indirect drawcount stride h
  rcases List.append_eq_append_iff.1 h with ⟨a1, h1, h2⟩ | ⟨c1, h1, h2⟩
  · obtain ⟨earlier, meshes, pm, filter, pr, dr, e1, e2, e3, e4, e5⟩ :=
      hu a1 after mode type indirect drawcount stride h2
    refine ⟨t ++ earlier, meshes, pm, filter, pr, dr, ?_, e2, e3, e4, e5⟩
    rw [h1, e1, List.append_assoc]
  · cases c1 with
    | nil =>
      obtain ⟨earlier, meshes, pm, filter, pr, dr, e1, _⟩ :=
        hu [] after mode type indirect drawcount stride (by simpa using h2.symm)
      simp at e1
    | cons x c2 =>
      rw [List.cons_append, List.cons.injEq] at h2
      obtain ⟨hx, _⟩ := h2
      subst hx
      exact ht before c2 mode type indirect drawcount stride h1

theorem draws_bound_of_no_draw (t : List Gl_call) (h : ∀ c ∈ t, c.is_draw = false) :
    draws_bound t := by
  intro before after mode type indirect drawcount stride ht
  have := h (Gl_call.multi_draw_elements_indirect mode type indirect drawcount stride)
    (by rw [ht]; simp)
  simp [Gl_call.is_draw] at this

theorem stream_calls_ok_nil : stream_calls_ok [] [] :=
  ⟨rfl, rfl, rfl, draws_bound_nil⟩

theorem stream_calls_ok_append (t u : List Gl_call) (p q : List (Nat × List Nat))
    (ht : stream_calls_ok t p) (hu : stream_calls_ok u q) :
    stream_calls_ok (t ++ u) (p ++ q) := by
  obtain ⟨t1, t2, t3, t4⟩ := ht
  obtain ⟨u1, u2, u3, u4⟩ := hu
  refine ⟨?_, ?_, ?_, draws_bound_append t u t4 u4⟩
  · rw [draw_indirect_updates_append, List.map_append, t1, u1]
  · rw [primitive_updates_append, List.map_append, t2, u2]
  · rw [List.countP_append, draw_indirect_updates_append, List.countP_append, t3, u3]

theorem stream_calls_ok_single (x : Gl_call) (hx : x.is_span_call = false) :
    stream_calls_ok [x] [] := by
  have hd : ∀ c : Gl_call, c.is_span_call = false → c.is_draw = false := by
    intro c hc
    cases c <;> first | rfl | exact hc
  have hb : draws_bound [x] := draws_bound_of_no_draw _ (by
    intro c hc
    rw [List.mem_singleton] at hc
    rw [hc]
    exact hd x hx)
  cases x <;> first | exact Bool.noConfusion hx | exact ⟨rfl, rfl, rfl, hb⟩

/-- Calls that are neither stream updates nor draws do nothing with the streams. -/
theorem stream_calls_ok_other (t : List Gl_call) (h : ∀ c ∈ t, c.is_span_call = false) :
    stream_calls_ok t [] := by
  induction t with
  | nil => exact stream_calls_ok_nil
  | cons x rest ih =>
    have hx := h x (List.mem_cons_self _ _)
    have hrest := ih (fun c hc => h c (List.mem_cons_of_mem _ hc))
    exact stream_calls_ok_append [x] rest [] [] (stream_calls_ok_single x hx) hrest

section pass_loop

variable {π δ : Type} (streams : Mesh_streams π δ)

/-- The calls made for one span. -/
theorem render_mesh_span_calls (pass : Renderpass) (filter : Item_filter)
    (r : Forward_renderer π δ) (meshes : List Nat) :
    ∃ calls, (render_mesh_span streams pass filter r meshes).gl = r.gl ++ calls ∧
      (∀ c ∈ calls, c.is_span_call = true) ∧
      stream_calls_ok calls
        (if meshes.isEmpty then [] else [(pass.primitive_mode, meshes)]) := by
  unfold render_mesh_span
  by_cases hm : meshes.isEmpty = true
  · rw [if_pos hm, if_pos hm]
    exact ⟨[], by simp, by simp, stream_calls_ok_nil⟩
  · rw [if_neg hm, if_neg hm]
    have hne : meshes ≠ [] := by
      intro h0; rw [h0] at hm; exact hm rfl
    dsimp only
    split_ifs with hc
    · refine ⟨_, rfl, ?_, ?_, ?_, ?_, ?_⟩
      · intro c hc1
        simp only [List.mem_cons, List.mem_singleton, List.not_mem_nil, or_false] at hc1
        rcases hc1 with rfl | rfl <;> rfl
      · rfl
      · rfl
      · simp [draw_indirect_updates, Gl_call.is_draw, hc]
      · exact draws_bound_of_no_draw _ (by
          intro c hc1
          simp only [List.mem_cons, List.mem_singleton, List.not_mem_nil, or_false] at hc1
          rcases hc1 with rfl | rfl <;> rfl)
    · refine ⟨_ ++ _, (List.append_assoc _ _ _), ?_, ?_, ?_, ?_, ?_⟩
      · intro c hc1
        simp only [List.cons_append, List.nil_append, List.mem_cons, List.mem_singleton,
          List.not_mem_nil, or_false] at hc1
        rcases hc1 with rfl | rfl | rfl | rfl | rfl <;> rfl
      · rfl
      · rfl
      · simp [draw_indirect_updates, Gl_call.is_draw, hc]
      · intro before after mode type indirect drawcount stride h
        simp only [List.cons_append, List.nil_append] at h
        have hlen := congrArg List.length h
        simp only [List.length_cons, List.length_append, List.length_nil] at hlen
        match before, h with
        | [], h => simp at h
        | [_], h => simp at h
        | [_, _], h => simp at h
        | [_, _, _], h => simp at h
        | [a1, a2, a3, a4], h =>
          simp only [List.cons_append, List.nil_append, List.cons.injEq] at h
          obtain ⟨rfl, rfl, rfl, rfl, h5, _⟩ := h
          injection h5 with e1 e2 e3 e4 e5
          exact ⟨[], meshes, pass.primitive_mode, filter, _, _, rfl, hne, e3.symm, e4.symm,
            hc⟩
        | _ :: _ :: _ :: _ :: _ :: rest, h =>
          simp only [List.length_cons] at hlen
          omega

/-- The calls made for all spans of one pass. -/
theorem render_mesh_spans_calls (pass : Renderpass) (filter : Item_filter)
    (mesh_spans : List (List Nat)) (r : Forward_renderer π δ) :
    ∃ calls, (mesh_spans.foldl (render_mesh_span streams pass filter) r).gl = r.gl ++ calls ∧
      (∀ c ∈ calls, c.is_span_call = true) ∧
      stream_calls_ok calls
        ((mesh_spans.filter (fun meshes => !meshes.isEmpty)).map
          (fun meshes => (pass.primitive_mode, meshes))) := by
  induction mesh_spans generalizing r with
  | nil => exact ⟨[], by simp, by simp, stream_calls_ok_nil⟩
  | cons meshes rest ih =>
    obtain ⟨c1, h1, h2, h3⟩ := render_mesh_span_calls streams pass filter r meshes
    obtain ⟨c2, k1, k2, k3⟩ := ih (render_mesh_span streams pass filter r meshes)
    refine ⟨c1 ++ c2, ?_, ?_, ?_⟩
    · rw [List.foldl_cons, k1, h1, List.append_assoc]
    · intro c hc
      rcases List.mem_append.1 hc with hc | hc
      · exact h2 c hc
      · exact k2 c hc
    · have := stream_calls_ok_append c1 c2 _ _ h3 k3
      by_cases hm : meshes.isEmpty = true
      · rw [if_pos hm] at this
        simpa [List.filter_cons, hm] using this
      · rw [if_neg hm] at this
        simpa [List.filter_cons, hm] using this

/-- Spans that are all empty leave the stream buffers untouched. -/
theorem render_mesh_spans_empty (pass : Renderpass) (filter : Item_filter)
    (mesh_spans : List (List Nat)) (r : Forward_renderer π δ)
    (h : ∀ meshes ∈ mesh_spans, meshes = []) :
    mesh_spans.foldl (render_mesh_span streams pass filter) r = r := by
  induction mesh_spans generalizing r with
  | nil => rfl
  | cons meshes rest ih =>
    have hm : meshes = [] := h meshes (List.mem_cons_self _ _)
    subst hm
    rw [List.foldl_cons]
    have : render_mesh_span streams pass filter r [] = r := rfl
    rw [this]
    exact ih r (fun m hmem => h m (List.mem_cons_of_mem _ hmem))

theorem hook_calls_other (call : Nat → Gl_call) (hcall : ∀ hook, (call hook).is_span_call = false)
    (hook : Option Nat) : ∀ c ∈ hook_calls call hook, c.is_span_call = false := by
  intro c hc
  cases hook with
  | none => simp [hook_calls] at hc
  | some x =>
    simp only [hook_calls, List.mem_singleton] at hc
    rw [hc]
    exact hcall x

/-- The calls of one run of the body of the pass loop. -/
theorem render_pass_gl (parameters : Render_parameters) (r : Forward_renderer π δ)
    (pass : Renderpass) :
    (render_pass streams parameters r pass).gl =
      match pass.pipeline.shader_stages with
      | none => r.gl
      | some _ =>
        (parameters.mesh_spans.foldl (render_mesh_span streams pass parameters.filter)
          { r with gl := r.gl ++ hook_calls Gl_call.pass_begin pass.begin ++
            [Gl_call.scoped_debug_group_enter pass.pipeline.name,
             Gl_call.execute pass.pipeline] }).gl ++
          hook_calls Gl_call.pass_end pass.end_ ++ [Gl_call.scoped_debug_group_leave] := by
  unfold render_pass
  cases pass.pipeline.shader_stages with
  | none => rfl
  | some shader =>
    cases hb : pass.begin <;> cases he : pass.end_ <;> simp [hook_calls]

/-- The block of calls one pass contributes. -/
theorem render_pass_calls (parameters : Render_parameters) (r : Forward_renderer π δ)
    (pass : Renderpass) :
    ∃ block, (render_pass streams parameters r pass).gl = r.gl ++ block ∧
      is_pass_block pass block ∧
      stream_calls_ok block
        (if pass.pipeline.shader_stages.isSome then
          (parameters.mesh_spans.filter (fun meshes => !meshes.isEmpty)).map
            (fun meshes => (pass.primitive_mode, meshes))
         else []) := by
  rw [render_pass_gl]
  unfold is_pass_block
  cases pass.pipeline.shader_stages with
  | none => exact ⟨[], by simp, rfl, stream_calls_ok_nil⟩
  | some shader =>
    obtain ⟨calls, h1, h2, h3⟩ := render_mesh_spans_calls streams pass parameters.filter
      parameters.mesh_spans
      { r with gl := r.gl ++ hook_calls Gl_call.pass_begin pass.begin ++
        [Gl_call.scoped_debug_group_enter pass.pipeline.name, Gl_call.execute pass.pipeline] }
    refine ⟨hook_calls Gl_call.pass_begin pass.begin ++
        [Gl_call.scoped_debug_group_enter pass.pipeline.name, Gl_call.execute pass.pipeline] ++
        calls ++ hook_calls Gl_call.pass_end pass.end_ ++
        [Gl_call.scoped_debug_group_leave], ?_, ⟨calls, rfl, h2⟩, ?_⟩
    · dsimp only
      rw [h1]
      simp only [List.append_assoc]
    · have hb := stream_calls_ok_other _
        (hook_calls_other Gl_call.pass_begin (fun _ => rfl) pass.begin)
      have he := stream_calls_ok_other _
        (hook_calls_other Gl_call.pass_end (fun _ => rfl) pass.end_)
      have hx : stream_calls_ok
          [Gl_call.scoped_debug_group_enter pass.pipeline.name, Gl_call.execute pass.pipeline]
          [] := stream_calls_ok_other _ (by
        intro c hc
        simp only [List.mem_cons, List.mem_singleton, List.not_mem_nil, or_false] at hc
        rcases hc with rfl | rfl <;> rfl)
      have hl : stream_calls_ok [Gl_call.scoped_debug_group_leave] [] :=
        stream_calls_ok_other _ (by
          intro c hc
          rw [List.mem_singleton] at hc
          rw [hc]; rfl)
      have := stream_calls_ok_append _ _ _ _
        (stream_calls_ok_append _ _ _ _
          (stream_calls_ok_append _ _ _ _ (stream_calls_ok_append _ _ _ _ hb hx) h3) he) hl
      simpa using this

/-- The blocks of calls of a run of the pass loop over the passes `passes`. -/
theorem render_passes_calls (parameters : Render_parameters) (passes : List Renderpass)
    (r : Forward_renderer π δ) :
    ∃ blocks : List (List Gl_call),
      (passes.foldl (render_pass streams parameters) r).gl = r.gl ++ blocks.flatten ∧
      List.Forall₂ is_pass_block passes blocks ∧
      stream_calls_ok blocks.flatten
        ((passes.filter (fun pass => pass.pipeline.shader_stages.isSome)).flatMap
          (fun pass => (parameters.mesh_spans.filter (fun meshes => !meshes.isEmpty)).map
            (fun meshes => (pass.primitive_mode, meshes)))) := by
  induction passes generalizing r with
  | nil => exact ⟨[], by simp, List.Forall₂.nil, stream_calls_ok_nil⟩
  | cons pass rest ih =>
    obtain ⟨block, h1, h2, h3⟩ := render_pass_calls streams parameters r pass
    obtain ⟨blocks, k1, k2, k3⟩ := ih (render_pass streams parameters r pass)
    refine ⟨block :: blocks, ?_, List.Forall₂.cons h2 k2, ?_⟩
    · rw [List.foldl_cons, k1, h1, List.flatten_cons, List.append_assoc]
    · have := stream_calls_ok_append _ _ _ _ h3 k3
      rw [List.flatten_cons]
      cases hs : pass.pipeline.shader_stages with
      | none => simpa [List.filter_cons, hs] using this
      | some shader => simpa [List.filter_cons, hs] using this

/-- A pass without shader program changes nothing. -/
theorem render_pass_no_shader (parameters : Render_parameters) (r : Forward_renderer π δ)
    (pass : Renderpass) (h : pass.pipeline.shader_stages = none) :
    render_pass streams parameters r pass = r := by
  unfold render_pass
  rw [h]

end pass_loop

end editor

namespace editor

/-- C9. The calls of the pass loop of `Forward_renderer::render` are the concatenation, in
list order, of one block per pass: the block of a pass without shader program is empty (such a
pass changes nothing at all); the block of a pass with a shader program is the begin hook once
if present, the pipeline state, the calls of the span processing (stream updates, binds and
draws only), and the end hook once if present, whatever the spans are; so the hooks of one pass
are balanced and the blocks of different passes do not interleave. -/
theorem forward_renderer_render_pass_blocks {π δ : Type} (streams : Mesh_streams π δ)
    (parameters : Render_parameters) (r : Forward_renderer π δ) :
    (∃ blocks : List (List Gl_call),
      (render_passes streams parameters r).gl = r.gl ++ blocks.flatten ∧
      List.Forall₂ is_pass_block parameters.passes blocks) ∧
    (∀ (r0 : Forward_renderer π δ) (pass : Renderpass),
      pass.pipeline.shader_stages = none → render_pass streams parameters r0 pass = r0) ∧
    (∀ (r0 : Forward_renderer π δ) (pass : Renderpass),
      pass.pipeline.shader_stages ≠ none →
      (∀ meshes ∈ parameters.mesh_spans, meshes = []) →
      (render_pass streams parameters r0 pass).gl =
        r0.gl ++ hook_calls Gl_call.pass_begin pass.begin ++
          [Gl_call.scoped_debug_group_enter pass.pipeline.name,
           Gl_call.execute pass.pipeline] ++
          hook_calls Gl_call.pass_end pass.end_ ++ [Gl_call.scoped_debug_group_leave]) := by
  refine ⟨?_, render_pass_no_shader streams parameters, ?_⟩
  · obtain ⟨blocks, h1, h2, _⟩ := render_passes_calls streams parameters parameters.passes r
    exact ⟨blocks, h1, h2⟩
  · intro r0 pass hs hempty
    rw [render_pass_gl]
    cases hsh : pass.pipeline.shader_stages with
    | none => exact absurd hsh hs
    | some shader =>
      dsimp only
      rw [render_mesh_spans_empty streams pass parameters.filter parameters.mesh_spans _
        hempty]

/-- Witness for C9: the sample pass list, a pass with shader program and both hooks followed
by a pass without shader program. -/
theorem forward_renderer_render_pass_blocks_witness :
    ∃ blocks : List (List Gl_call),
      (render_passes sample.streams sample.parameters sample.renderer).gl =
        sample.renderer.gl ++ blocks.flatten ∧
      List.Forall₂ is_pass_block sample.parameters.passes blocks :=
  (forward_renderer_render_pass_blocks sample.streams sample.parameters sample.renderer).1

section span_calls

variable {π δ : Type} (streams : Mesh_streams π δ)

end span_calls

end editor

/-! ## `Forward_renderer::render`: the calls of one invocation -/

namespace editor

open erhe.toolkit erhe.graphics erhe.primitive erhe.application

section render

variable {σ π δ κ ι : Type} (env : Render_env σ π δ κ ι) (parameters : Render_parameters)

theorem call_gl (s : Render_state σ π δ κ ι) (calls : List Gl_call) :
    (s.call calls).draw.gl = s.draw.gl ++ calls := rfl

theorem call_call (s : Render_state σ π δ κ ι) (xs ys : List Gl_call) :
    (s.call xs).call ys = s.call (xs ++ ys) := by
  simp [Render_state.call, List.append_assoc]

theorem call_nil (s : Render_state σ π δ κ ι) : s.call [] = s := by
  simp [Render_state.call]

/-- The camera step appends the camera calls and touches only the camera buffer. -/
theorem render_camera_eq (s : Render_state σ π δ κ ι) :
    render_camera env parameters s =
      ({ s with m_camera_buffers := (render_camera env parameters s).m_camera_buffers }).call
        (camera_calls env parameters s) := by
  unfold render_camera camera_calls
  cases parameters.camera with
  | none => simp [Render_state.call]
  | some camera => rfl

/-- The cache reset step appends the reset call and touches only the texture unit cache. -/
theorem render_cache_reset_eq (s : Render_state σ π δ κ ι) :
    render_cache_reset env s =
      ({ s with m_material_buffers := render_material_buffer env s }).call
        (cache_reset_calls env) := by
  unfold render_material_buffer render_cache_reset cache_reset_calls
  cases env.info.use_bindless_texture with
  | false => rfl
  | true => simp [Render_state.call]

theorem render_material_buffer_call (s : Render_state σ π δ κ ι) (calls : List Gl_call) :
    render_material_buffer env (s.call calls) = render_material_buffer env s := by
  unfold render_material_buffer render_cache_reset
  cases env.info.use_bindless_texture <;> rfl

theorem render_material_buffer_capacity (s : Render_state σ π δ κ ι) :
    (render_material_buffer env s).capacity_byte_count =
      s.m_material_buffers.capacity_byte_count := by
  unfold render_material_buffer render_cache_reset
  cases env.info.use_bindless_texture <;> rfl

/-- When the materials fit, the material step returns. -/
theorem render_materials_fits (t : Render_state σ π δ κ ι)
    (h : parameters.materials.length * env.interface.entry_size ≤
      t.m_material_buffers.capacity_byte_count) :
    render_materials env parameters t =
      .ok (({ t with
          m_material_buffers := update_end (update_entries env.info env.g_programs env.interface
            (update_begin env.interface t.m_material_buffers parameters.materials)
            parameters.materials) }).call
        [Gl_call.material_update parameters.materials
           (update_end (update_entries env.info env.g_programs env.interface
             (update_begin env.interface t.m_material_buffers parameters.materials)
             parameters.materials)).m_writer.range,
         Gl_call.material_bind
           (update_end (update_entries env.info env.g_programs env.interface
             (update_begin env.interface t.m_material_buffers parameters.materials)
             parameters.materials)).m_writer.range]) := by
  unfold render_materials
  rw [update_fits env.info env.g_programs env.interface t.m_material_buffers
    parameters.materials (by
      show _ ≤ t.m_material_buffers.capacity_byte_count - 0
      omega)]

/-- When the materials do not fit, the material step ends in the capacity fault. -/
theorem render_materials_overrun (t : Render_state σ π δ κ ι)
    (h : ¬ parameters.materials.length * env.interface.entry_size ≤
      t.m_material_buffers.capacity_byte_count) :
    ∃ b, render_materials env parameters t =
      .error (Fault.fatal_material_buffer_capacity_exceeded, b) := by
  have hs : 0 < env.interface.entry_size := by
    rcases Nat.eq_zero_or_pos env.interface.entry_size with h0 | h0
    · rw [h0] at h; simp at h
    · exact h0
  unfold render_materials Material_buffer.update
  dsimp only
  rw [update_loop_overrun env.info env.g_programs env.interface parameters.materials _ hs
    (Nat.zero_le _) (by
      show t.m_material_buffers.capacity_byte_count < 0 + _
      omega)]
  exact ⟨_, rfl⟩

theorem render_steps_material_buffer (s : Render_state σ π δ κ ι) :
    (render_cache_reset env (render_camera env parameters
      (s.call (viewport_calls parameters)))).m_material_buffers =
        render_material_buffer env s := by
  unfold render_material_buffer render_cache_reset render_camera
  cases parameters.camera <;> cases env.info.use_bindless_texture <;> rfl

/-- When the materials fit, `render` returns: it prepares, runs the pass loop and leaves the
residency scope. -/
theorem render_fits (s : Render_state σ π δ κ ι) (h : materials_fit env parameters s) :
    Forward_renderer.render env parameters s =
      .ok (render_textures_end env parameters
        { render_prepared env parameters s with
          draw := render_passes env.mesh_streams parameters
            (render_prepared env parameters s).draw }) := by
  have hm := render_steps_material_buffer env parameters s
  unfold viewport_calls at hm
  unfold Forward_renderer.render
  dsimp only
  rw [render_materials_fits env parameters _ (by
    rw [hm, render_material_buffer_capacity]
    exact h)]
  dsimp only
  rw [hm]
  rfl

/-- When the materials do not fit, `render` ends in the capacity fault of the material
update. -/
theorem render_overrun (s : Render_state σ π δ κ ι) (h : ¬ materials_fit env parameters s) :
    ∃ b, Forward_renderer.render env parameters s =
      .error (Fault.fatal_material_buffer_capacity_exceeded, b) := by
  unfold Forward_renderer.render
  dsimp only
  obtain ⟨b, hb⟩ := render_materials_overrun env parameters
    (render_cache_reset env (render_camera env parameters
      (s.call [Gl_call.viewport parameters.viewport.x parameters.viewport.y
        parameters.viewport.width parameters.viewport.height]))) (by
    have := render_steps_material_buffer env parameters s
    unfold viewport_calls at this
    rw [this, render_material_buffer_capacity]
    exact h)
  rw [hb]
  exact ⟨b, rfl⟩

/-- A call of `render` returns exactly when the materials fit. -/
theorem render_ok_iff (s : Render_state σ π δ κ ι) :
    (∃ s1, Forward_renderer.render env parameters s = .ok s1) ↔
      materials_fit env parameters s := by
  constructor
  · rintro ⟨s1, h1⟩
    by_contra hn
    obtain ⟨b, hb⟩ := render_overrun env parameters s hn
    rw [hb] at h1
    cases h1
  · intro h
    exact ⟨_, render_fits env parameters s h⟩

/-- The calls made before the pass loop are the six steps in order. -/
theorem render_prepared_gl (s : Render_state σ π δ κ ι) :
    (render_prepared env parameters s).draw.gl =
      s.draw.gl ++ render_prologue env parameters s := by
  unfold render_prepared render_prologue render_textures_begin render_lights
    render_cache_reset render_camera textures_begin_calls light_calls material_calls
    cache_reset_calls camera_calls viewport_calls resident_handles
  cases parameters.camera <;> cases env.info.use_bindless_texture <;>
    cases enable_shadows env parameters <;>
    simp [Render_state.call, List.append_assoc, fallback_texture_handle]

theorem render_prepared_buffers (s : Render_state σ π δ κ ι) :
    (render_prepared env parameters s).m_material_buffers =
        render_materials_done env parameters s ∧
      (render_prepared env parameters s).draw.m_primitive_buffers =
        s.draw.m_primitive_buffers ∧
      (render_prepared env parameters s).draw.m_draw_indirect_buffers =
        s.draw.m_draw_indirect_buffers := by
  unfold render_prepared render_textures_begin render_lights
    render_cache_reset render_camera
  cases parameters.camera <;> cases env.info.use_bindless_texture <;>
    cases enable_shadows env parameters <;> exact ⟨rfl, rfl, rfl⟩

/-- The calls made after the pass loop. -/
theorem render_textures_end_gl (s t : Render_state σ π δ κ ι)
    (ht : t.m_material_buffers = render_materials_done env parameters s) :
    (render_textures_end env parameters t).draw.gl =
      t.draw.gl ++ textures_end_calls env parameters s := by
  unfold render_textures_end textures_end_calls resident_handles
  cases env.info.use_bindless_texture <;> cases enable_shadows env parameters <;>
    simp [Render_state.call, ht, List.append_assoc]

theorem render_textures_end_buffers (t : Render_state σ π δ κ ι) :
    (render_textures_end env parameters t).m_material_buffers = t.m_material_buffers ∧
      (render_textures_end env parameters t).draw.m_primitive_buffers =
        t.draw.m_primitive_buffers ∧
      (render_textures_end env parameters t).draw.m_draw_indirect_buffers =
        t.draw.m_draw_indirect_buffers := by
  unfold render_textures_end
  cases env.info.use_bindless_texture <;> cases enable_shadows env parameters <;>
    exact ⟨rfl, rfl, rfl⟩

/-- The calls of a returning `render`: the prologue, one block per pass, the epilogue. -/
theorem render_calls (s s1 : Render_state σ π δ κ ι)
    (h : Forward_renderer.render env parameters s = .ok s1) :
    materials_fit env parameters s ∧
    s1.m_material_buffers = render_materials_done env parameters s ∧
    ∃ blocks : List (List Gl_call),
      s1.draw.gl = s.draw.gl ++ render_prologue env parameters s ++ blocks.flatten ++
        textures_end_calls env parameters s ∧
      List.Forall₂ is_pass_block parameters.passes blocks ∧
      stream_calls_ok blocks.flatten (drawn_pairs parameters) := by
  have hfit : materials_fit env parameters s := (render_ok_iff env parameters s).1 ⟨s1, h⟩
  rw [render_fits env parameters s hfit] at h
  injection h with h
  subst h
  obtain ⟨blocks, k1, k2, k3⟩ := render_passes_calls env.mesh_streams parameters
    parameters.passes (render_prepared env parameters s).draw
  refine ⟨hfit, ?_, blocks, ?_, k2, k3⟩
  · rw [(render_textures_end_buffers env parameters _).1]
    exact (render_prepared_buffers env parameters s).1
  · refine (render_textures_end_gl env parameters s _ ?_).trans ?_
    · exact (render_prepared_buffers env parameters s).1
    · show (render_passes env.mesh_streams parameters
        (render_prepared env parameters s).draw).gl ++ _ = _
      unfold render_passes
      rw [k1, render_prepared_gl]

end render

end editor

namespace editor

open erhe.toolkit erhe.graphics erhe.primitive erhe.application

theorem kind_of_span_call (c : Gl_call) (h : c.is_span_call = true) :
    c.kind = Call_kind.mesh_stream ∨ c.kind = Call_kind.draw := by
  cases c <;> first | exact Bool.noConfusion h | exact Or.inl rfl | exact Or.inr rfl

theorem kind_hook_calls_begin (hook : Option Nat) :
    ∀ c ∈ hook_calls Gl_call.pass_begin hook, c.kind = Call_kind.hook := by
  intro c hc
  cases hook with
  | none => simp [hook_calls] at hc
  | some x =>
    simp only [hook_calls, List.mem_singleton] at hc
    rw [hc]; rfl

theorem kind_hook_calls_end (hook : Option Nat) :
    ∀ c ∈ hook_calls Gl_call.pass_end hook, c.kind = Call_kind.hook := by
  intro c hc
  cases hook with
  | none => simp [hook_calls] at hc
  | some x =>
    simp only [hook_calls, List.mem_singleton] at hc
    rw [hc]; rfl

/-- The calls of a pass block are hooks, debug groups, the pipeline state, stream calls and
draws. -/
theorem kind_pass_block (pass : Renderpass) (block : List Gl_call)
    (h : is_pass_block pass block) : ∀ c ∈ block, c.kind ∈ pass_loop_kinds := by
  unfold is_pass_block at h
  cases hs : pass.pipeline.shader_stages with
  | none =>
    rw [hs] at h
    dsimp only at h
    rw [h]
    intro c hc
    simp at hc
  | some shader =>
    rw [hs] at h
    obtain ⟨span_calls, h1, h2⟩ := h
    rw [h1]
    intro c hc
    simp only [List.mem_append, List.mem_cons, List.mem_singleton, List.not_mem_nil,
      or_false] at hc
    rcases hc with (((hc | hc | hc) | hc) | hc) | hc
    · rw [kind_hook_calls_begin _ c hc]; decide
    · rw [hc]; simp [pass_loop_kinds, Gl_call.kind]
    · rw [hc]; simp [pass_loop_kinds, Gl_call.kind]
    · rcases kind_of_span_call c (h2 c hc) with hk | hk <;> rw [hk] <;> decide
    · rw [kind_hook_calls_end _ c hc]; decide
    · rw [hc]; simp [pass_loop_kinds, Gl_call.kind]

theorem kind_pass_blocks (passes : List Renderpass) (blocks : List (List Gl_call))
    (h : List.Forall₂ is_pass_block passes blocks) :
    ∀ c ∈ blocks.flatten, c.kind ∈ pass_loop_kinds := by
  induction h with
  | nil => intro c hc; simp at hc
  | cons h1 _ ih =>
    intro c hc
    rw [List.flatten_cons, List.mem_append] at hc
    rcases hc with hc | hc
    · exact kind_pass_block _ _ h1 c hc
    · exact ih c hc

section render_kinds

variable {σ π δ κ ι : Type} (env : Render_env σ π δ κ ι) (parameters : Render_parameters)

theorem kind_viewport_calls : ∀ c ∈ viewport_calls parameters, c.kind = Call_kind.viewport := by
  intro c hc
  simp only [viewport_calls, List.mem_singleton] at hc
  rw [hc]; rfl

theorem kind_camera_calls (s : Render_state σ π δ κ ι) :
    ∀ c ∈ camera_calls env parameters s, c.kind = Call_kind.camera := by
  intro c hc
  unfold camera_calls at hc
  cases hcam : parameters.camera with
  | none => rw [hcam] at hc; simp at hc
  | some camera =>
    rw [hcam] at hc
    simp only [List.mem_cons, List.mem_singleton, List.not_mem_nil, or_false] at hc
    rcases hc with rfl | rfl <;> rfl

theorem kind_cache_reset_calls :
    ∀ c ∈ cache_reset_calls env, c.kind = Call_kind.texture_unit_cache_reset := by
  intro c hc
  unfold cache_reset_calls at hc
  cases hb : env.info.use_bindless_texture with
  | true => rw [hb] at hc; simp at hc
  | false =>
    rw [hb] at hc
    simp only [Bool.false_eq_true, if_false, List.mem_singleton] at hc
    rw [hc]; rfl

theorem kind_bind_shadow_texture_calls :
    ∀ c ∈ bind_shadow_texture_calls env parameters, c.kind = Call_kind.texture_unit := by
  intro c hc
  unfold bind_shadow_texture_calls at hc
  cases ht : parameters.shadow_texture with
  | none => rw [ht] at hc; simp at hc
  | some t =>
    rw [ht] at hc
    simp only [List.mem_cons, List.mem_singleton, List.not_mem_nil, or_false] at hc
    rcases hc with rfl | rfl <;> rfl

theorem kind_textures_begin_calls (s : Render_state σ π δ κ ι) :
    ∀ c ∈ textures_begin_calls env parameters s,
      c.kind = Call_kind.resident ∨ c.kind = Call_kind.texture_unit := by
  intro c hc
  unfold textures_begin_calls at hc
  cases hb : env.info.use_bindless_texture with
  | true =>
    rw [hb] at hc
    simp only [if_true, List.mem_map] at hc
    obtain ⟨h, _, rfl⟩ := hc
    exact Or.inl rfl
  | false =>
    rw [hb] at hc
    simp only [Bool.false_eq_true, if_false, List.mem_append, List.mem_singleton] at hc
    rcases hc with hc | hc
    · split_ifs at hc
      · exact Or.inr (kind_bind_shadow_texture_calls env parameters c hc)
      · simp at hc
    · rw [hc]; exact Or.inr rfl

theorem kind_textures_end_calls (s : Render_state σ π δ κ ι) :
    ∀ c ∈ textures_end_calls env parameters s, c.kind = Call_kind.non_resident := by
  intro c hc
  unfold textures_end_calls at hc
  cases hb : env.info.use_bindless_texture with
  | true =>
    rw [hb] at hc
    simp only [if_true, List.mem_map] at hc
    obtain ⟨h, _, rfl⟩ := hc
    rfl
  | false => rw [hb] at hc; simp at hc

end render_kinds

/-- C11. A call of `Forward_renderer::render` returns exactly when the material list fits
into the material buffer; otherwise the process stops in the capacity fault of the material
update. Every call that returns - whatever the light list, pass list, span list and camera
are - has made exactly one material stream update, directly followed by the bind of the range
it returned, directly followed by exactly one light stream update, which is given
`parameters.lights` as it is, directly followed by `bind_light_buffer` of the range it
returned; no other call of it is a material or light stream call. -/
theorem forward_renderer_render_material_and_light {σ π δ κ ι : Type}
    (env : Render_env σ π δ κ ι) (parameters : Render_parameters)
    (s : Render_state σ π δ κ ι) :
    (materials_fit env parameters s ∧
      ∃ s1 before after material_range light_range,
        Forward_renderer.render env parameters s = .ok s1 ∧
        s1.draw.gl = s.draw.gl ++ before ++
          [Gl_call.material_update parameters.materials material_range,
           Gl_call.material_bind material_range,
           Gl_call.light_update parameters.lights parameters.light_projections
             parameters.ambient_light light_range,
           Gl_call.light_bind_light_buffer light_range] ++ after ∧
        ∀ c ∈ before ++ after, c.kind ≠ Call_kind.material ∧ c.kind ≠ Call_kind.light) ∨
    (¬ materials_fit env parameters s ∧
      ∃ b, Forward_renderer.render env parameters s =
        .error (Fault.fatal_material_buffer_capacity_exceeded, b)) := by
  by_cases hfit : materials_fit env parameters s
  · left
    obtain ⟨s1, h1⟩ := (render_ok_iff env parameters s).2 hfit
    obtain ⟨_, _, blocks, k1, k2, _⟩ := render_calls env parameters s s1 h1
    refine ⟨hfit, s1,
      viewport_calls parameters ++ camera_calls env parameters s ++ cache_reset_calls env,
      textures_begin_calls env parameters s ++ blocks.flatten ++
        textures_end_calls env parameters s,
      (render_materials_done env parameters s).m_writer.range,
      (env.frame_streams.light_update s.m_light_buffers parameters.lights
        parameters.light_projections parameters.ambient_light).1, h1, ?_, ?_⟩
    · rw [k1]
      unfold render_prologue material_calls light_calls
      simp only [List.append_assoc, List.cons_append, List.nil_append]
    · intro c hc
      simp only [List.mem_append] at hc
      rcases hc with ((hc | hc) | hc) | ((hc | hc) | hc)
      · rw [kind_viewport_calls parameters c hc]; decide
      · rw [kind_camera_calls env parameters s c hc]; decide
      · rw [kind_cache_reset_calls env c hc]; decide
      · rcases kind_textures_begin_calls env parameters s c hc with hk | hk <;>
          rw [hk] <;> decide
      · have hk := kind_pass_blocks _ _ k2 c hc
        simp only [pass_loop_kinds, List.mem_cons, List.mem_singleton, List.not_mem_nil,
          or_false] at hk
        rcases hk with hk | hk | hk | hk | hk <;> rw [hk] <;> decide
      · rw [kind_textures_end_calls env parameters s c hc]; decide
  · right
    exact ⟨hfit, render_overrun env parameters s hfit⟩

end editor

namespace editor

open erhe.toolkit erhe.graphics erhe.primitive erhe.application

/-- C12. A call of `Forward_renderer::render` that returns (it returns exactly when the
material list fits into the material buffer, and otherwise stops in the capacity fault of the
material update) has made, before the calls of its first pass, exactly these calls in this
order: the viewport set from `parameters.viewport`; the camera stream update and bind, two
calls if a camera is present and none otherwise; the texture unit cache reset, one call in
bound mode and none in bindless mode; the material stream update and bind; the light stream
update and bind; then the residency calls (bindless) or the texture unit binds with the
fallback texture (bound). The material update ran on the material buffer as the reset left
it: in bound mode its texture unit cache is the reset cache, so every texture unit allocation
of the update comes after the reset. -/
theorem forward_renderer_render_prologue {σ π δ κ ι : Type}
    (env : Render_env σ π δ κ ι) (parameters : Render_parameters)
    (s : Render_state σ π δ κ ι) :
    (materials_fit env parameters s ∧
      ∃ s1 blocks,
        Forward_renderer.render env parameters s = .ok s1 ∧
        s1.draw.gl = s.draw.gl ++
          (viewport_calls parameters ++ camera_calls env parameters s ++
            cache_reset_calls env ++ material_calls env parameters s ++
            light_calls env parameters s ++ textures_begin_calls env parameters s) ++
          blocks.flatten ++ textures_end_calls env parameters s ∧
        List.Forall₂ is_pass_block parameters.passes blocks ∧
        (camera_calls env parameters s).length = (if parameters.camera.isSome then 2 else 0) ∧
        (cache_reset_calls env).length = (if env.info.use_bindless_texture then 0 else 1) ∧
        Material_buffer.update env.info env.g_programs env.interface
            (render_material_buffer env s) parameters.materials =
          .ok (s1.m_material_buffers.m_writer.range, s1.m_material_buffers) ∧
        (env.info.use_bindless_texture = false →
          (render_material_buffer env s).s_texture_unit_cache =
            env.frame_streams.texture_unit_cache_reset
              s.m_material_buffers.s_texture_unit_cache env.g_programs.base_texture_unit) ∧
        (env.info.use_bindless_texture = true →
          render_material_buffer env s = s.m_material_buffers)) ∨
    (¬ materials_fit env parameters s ∧
      ∃ b, Forward_renderer.render env parameters s =
        .error (Fault.fatal_material_buffer_capacity_exceeded, b)) := by
  by_cases hfit : materials_fit env parameters s
  · left
    obtain ⟨s1, h1⟩ := (render_ok_iff env parameters s).2 hfit
    obtain ⟨_, hm, blocks, k1, k2, _⟩ := render_calls env parameters s s1 h1
    refine ⟨hfit, s1, blocks, h1, k1, k2, ?_, ?_, ?_, ?_, ?_⟩
    · unfold camera_calls
      cases parameters.camera <;> rfl
    · unfold cache_reset_calls
      cases env.info.use_bindless_texture <;> rfl
    · rw [hm]
      exact update_fits env.info env.g_programs env.interface _ _ (by
        show _ ≤ (render_material_buffer env s).capacity_byte_count - 0
        rw [render_material_buffer_capacity]
        exact hfit)
    · intro hb
      unfold render_material_buffer render_cache_reset
      rw [hb]
      rfl
    · intro hb
      unfold render_material_buffer render_cache_reset
      rw [hb]
      rfl
  · right
    exact ⟨hfit, render_overrun env parameters s hfit⟩

/-! ## Residency -/

theorem made_resident_append (xs ys : List Gl_call) :
    made_resident (xs ++ ys) = made_resident xs ++ made_resident ys := by
  induction xs with
  | nil => rfl
  | cons x rest ih => cases x <;> simp [made_resident, ih]

theorem made_non_resident_append (xs ys : List Gl_call) :
    made_non_resident (xs ++ ys) = made_non_resident xs ++ made_non_resident ys := by
  induction xs with
  | nil => rfl
  | cons x rest ih => cases x <;> simp [made_non_resident, ih]

theorem made_resident_other (xs : List Gl_call)
    (h : ∀ c ∈ xs, c.kind ≠ Call_kind.resident) : made_resident xs = [] := by
  induction xs with
  | nil => rfl
  | cons x rest ih =>
    have hx := h x (List.mem_cons_self _ _)
    have hr := ih (fun c hc => h c (List.mem_cons_of_mem _ hc))
    cases x <;> first | exact absurd rfl hx | exact hr

theorem made_non_resident_other (xs : List Gl_call)
    (h : ∀ c ∈ xs, c.kind ≠ Call_kind.non_resident) : made_non_resident xs = [] := by
  induction xs with
  | nil => rfl
  | cons x rest ih =>
    have hx := h x (List.mem_cons_self _ _)
    have hr := ih (fun c hc => h c (List.mem_cons_of_mem _ hc))
    cases x <;> first | exact absurd rfl hx | exact hr

theorem made_resident_map (hs : List Nat) :
    made_resident (hs.map Gl_call.make_texture_handle_resident_arb) = hs := by
  induction hs with
  | nil => rfl
  | cons h rest ih => simp [made_resident, ih]

theorem made_non_resident_map (hs : List Nat) :
    made_non_resident (hs.map Gl_call.make_texture_handle_non_resident_arb) = hs := by
  induction hs with
  | nil => rfl
  | cons h rest ih => simp [made_non_resident, ih]

theorem resident_after_append (xs ys : List Gl_call) (resident : List Nat) :
    resident_after resident (xs ++ ys) = resident_after (resident_after resident xs) ys := by
  induction xs generalizing resident with
  | nil => rfl
  | cons x rest ih => cases x <;> simp [resident_after, ih]

theorem resident_after_other (xs : List Gl_call) (resident : List Nat)
    (h : ∀ c ∈ xs, c.kind ≠ Call_kind.resident ∧ c.kind ≠ Call_kind.non_resident) :
    resident_after resident xs = resident := by
  induction xs generalizing resident with
  | nil => rfl
  | cons x rest ih =>
    have hx := h x (List.mem_cons_self _ _)
    have hr := ih resident (fun c hc => h c (List.mem_cons_of_mem _ hc))
    cases x <;> first | exact absurd rfl hx.1 | exact absurd rfl hx.2 | exact hr

/-- Making handles non-resident adds no resident handle. -/
theorem resident_after_non_resident_subset (hs : List Nat) (resident : List Nat) (x : Nat)
    (hx : x ∈ resident_after resident
      (hs.map Gl_call.make_texture_handle_non_resident_arb)) : x ∈ resident := by
  induction hs generalizing resident with
  | nil => exact hx
  | cons h rest ih =>
    simp only [List.map_cons, resident_after] at hx
    exact (List.mem_filter.1 (ih _ hx)).1

/-- After the handles `hs` have been made non-resident, none of them is resident. -/
theorem not_resident_after_non_resident (hs : List Nat) (resident : List Nat) (x : Nat)
    (hx : x ∈ hs) :
    x ∉ resident_after resident (hs.map Gl_call.make_texture_handle_non_resident_arb) := by
  induction hs generalizing resident with
  | nil => simp at hx
  | cons h rest ih =>
    simp only [List.map_cons, resident_after]
    rcases List.mem_cons.1 hx with rfl | hx
    · intro hmem
      have := resident_after_non_resident_subset rest _ x hmem
      simp at this
    · exact ih _ hx

end editor

namespace editor

open erhe.toolkit erhe.graphics erhe.primitive erhe.application

/-- C13. In bindless mode, a call of `Forward_renderer::render` that returns (it returns
exactly when the material list fits into the material buffer, and otherwise stops in the
capacity fault of the material update, before any handle is made resident) makes resident, in
this order, the shadow map handle if shadows are enabled and then every handle of
`used_handles()`, and makes non-resident the same handles in the same order; the calls before
the make-resident calls contain no draw, the calls between the two groups are the pass loop
and contain no residency call, and nothing follows the make-non-resident calls; so every draw
lies between the two groups, and whatever was resident before the call, none of the handles
the call made resident is resident when it returns. -/
theorem forward_renderer_render_residency {σ π δ κ ι : Type}
    (env : Render_env σ π δ κ ι) (parameters : Render_parameters)
    (s : Render_state σ π δ κ ι) (hb : env.info.use_bindless_texture = true) :
    (materials_fit env parameters s ∧
      ∃ s1 before loop,
        Forward_renderer.render env parameters s = .ok s1 ∧
        s1.draw.gl = s.draw.gl ++
          (before ++
            (resident_handles env parameters s).map Gl_call.make_texture_handle_resident_arb ++
            loop ++
            (resident_handles env parameters s).map
              Gl_call.make_texture_handle_non_resident_arb) ∧
        (∀ c ∈ before, c.kind ≠ Call_kind.resident ∧ c.kind ≠ Call_kind.non_resident ∧
          c.kind ≠ Call_kind.draw) ∧
        (∀ c ∈ loop, c.kind ≠ Call_kind.resident ∧ c.kind ≠ Call_kind.non_resident) ∧
        resident_handles env parameters s =
          (if enable_shadows env parameters then [shadow_texture_handle env parameters]
            else []) ++ s1.m_material_buffers.used_handles ∧
        made_resident
          (before ++
            (resident_handles env parameters s).map Gl_call.make_texture_handle_resident_arb ++
            loop ++
            (resident_handles env parameters s).map
              Gl_call.make_texture_handle_non_resident_arb) =
          resident_handles env parameters s ∧
        made_non_resident
          (before ++
            (resident_handles env parameters s).map Gl_call.make_texture_handle_resident_arb ++
            loop ++
            (resident_handles env parameters s).map
              Gl_call.make_texture_handle_non_resident_arb) =
          resident_handles env parameters s ∧
        ∀ (resident : List Nat) (handle : Nat), handle ∈ resident_handles env parameters s →
          handle ∉ resident_after resident
            (before ++
              (resident_handles env parameters s).map
                Gl_call.make_texture_handle_resident_arb ++
              loop ++
              (resident_handles env parameters s).map
                Gl_call.make_texture_handle_non_resident_arb)) ∨
    (¬ materials_fit env parameters s ∧
      ∃ b, Forward_renderer.render env parameters s =
        .error (Fault.fatal_material_buffer_capacity_exceeded, b)) := by
  by_cases hfit : materials_fit env parameters s
  · left
    obtain ⟨s1, h1⟩ := (render_ok_iff env parameters s).2 hfit
    obtain ⟨_, hm, blocks, k1, k2, _⟩ := render_calls env parameters s s1 h1
    have hbefore : ∀ c ∈ viewport_calls parameters ++ camera_calls env parameters s ++
        cache_reset_calls env ++ material_calls env parameters s ++
        light_calls env parameters s,
        c.kind ≠ Call_kind.resident ∧ c.kind ≠ Call_kind.non_resident ∧
          c.kind ≠ Call_kind.draw := by
      intro c hc
      simp only [List.mem_append] at hc
      rcases hc with (((hc | hc) | hc) | hc) | hc
      · rw [kind_viewport_calls parameters c hc]; decide
      · rw [kind_camera_calls env parameters s c hc]; decide
      · rw [kind_cache_reset_calls env c hc]; decide
      · simp only [material_calls, List.mem_cons, List.mem_singleton, List.not_mem_nil,
          or_false] at hc
        rcases hc with rfl | rfl <;> simp [Gl_call.kind]
      · simp only [light_calls, List.mem_cons, List.mem_singleton, List.not_mem_nil,
          or_false] at hc
        rcases hc with rfl | rfl <;> simp [Gl_call.kind]
    have hloop : ∀ c ∈ blocks.flatten,
        c.kind ≠ Call_kind.resident ∧ c.kind ≠ Call_kind.non_resident := by
      intro c hc
      have hk := kind_pass_blocks _ _ k2 c hc
      simp only [pass_loop_kinds, List.mem_cons, List.mem_singleton, List.not_mem_nil,
        or_false] at hk
      rcases hk with hk | hk | hk | hk | hk <;> rw [hk] <;> decide
    have hres : ∀ c ∈ (resident_handles env parameters s).map
        Gl_call.make_texture_handle_non_resident_arb, c.kind ≠ Call_kind.resident := by
      intro c hc
      obtain ⟨h, _, rfl⟩ := List.mem_map.1 hc
      simp [Gl_call.kind]
    have hnon : ∀ c ∈ (resident_handles env parameters s).map
        Gl_call.make_texture_handle_resident_arb, c.kind ≠ Call_kind.non_resident := by
      intro c hc
      obtain ⟨h, _, rfl⟩ := List.mem_map.1 hc
      simp [Gl_call.kind]
    refine ⟨hfit, s1, _, blocks.flatten, h1, ?_, hbefore, hloop, ?_, ?_, ?_, ?_⟩
    · rw [k1]
      unfold render_prologue textures_begin_calls textures_end_calls
      rw [hb]
      simp only [if_true, List.append_assoc]
    · unfold resident_handles
      rw [hm]
    · rw [made_resident_append, made_resident_append, made_resident_append,
        made_resident_other _ (fun c hc => (hbefore c hc).1),
        made_resident_other _ (fun c hc => (hloop c hc).1), made_resident_other _ hres,
        made_resident_map]
      simp
    · rw [made_non_resident_append, made_non_resident_append, made_non_resident_append,
        made_non_resident_other _ (fun c hc => (hbefore c hc).2.1),
        made_non_resident_other _ (fun c hc => (hloop c hc).2), made_non_resident_other _ hnon,
        made_non_resident_map]
      simp
    · intro resident handle hh
      rw [resident_after_append]
      exact not_resident_after_non_resident _ _ handle hh
  · right
    exact ⟨hfit, render_overrun env parameters s hfit⟩

/-- Witness for C13: the sample call in bindless mode with three materials, shadows enabled;
the shadow map handle and the handle of the materials' texture are made resident and
non-resident again. -/
theorem forward_renderer_render_residency_witness :
    (sample.env true).info.use_bindless_texture = true ∧
    materials_fit (sample.env true) (sample.frame_parameters [100, 101, 102]) sample.state ∧
    ∃ s1, Forward_renderer.render (sample.env true)
      (sample.frame_parameters [100, 101, 102]) sample.state = .ok s1 := by
  refine ⟨rfl, by decide, ?_⟩
  rcases forward_renderer_render_residency (sample.env true)
    (sample.frame_parameters [100, 101, 102]) sample.state rfl with h | h
  · obtain ⟨_, s1, _, _, h1, _⟩ := h
    exact ⟨s1, h1⟩
  · exact absurd (by decide) h.1

theorem material_handle_sampler {σ : Type} (info : Instance σ) (g_programs : Programs)
    (material : Material) :
    material_handle info g_programs material =
      match material.texture with
      | some texture =>
        info.get_handle texture (material_sampler g_programs material) % 2 ^ 64
      | none => 0 := by
  unfold material_handle material_sampler
  cases material.texture <;> rfl

/-- The handles that a returning `render` makes resident in bindless mode, in order. -/
theorem render_made_resident {σ π δ κ ι : Type} (env : Render_env σ π δ κ ι)
    (parameters : Render_parameters) (s s1 : Render_state σ π δ κ ι)
    (hb : env.info.use_bindless_texture = true)
    (h : Forward_renderer.render env parameters s = .ok s1) :
    ∃ calls, s1.draw.gl = s.draw.gl ++ calls ∧
      made_resident calls = resident_handles env parameters s ∧
      s1.m_material_buffers = render_materials_done env parameters s := by
  obtain ⟨_, hm, blocks, k1, k2, _⟩ := render_calls env parameters s s1 h
  have hbefore : ∀ c ∈ viewport_calls parameters ++ camera_calls env parameters s ++
      cache_reset_calls env ++ material_calls env parameters s ++
      light_calls env parameters s, c.kind ≠ Call_kind.resident := by
    intro c hc
    simp only [List.mem_append] at hc
    rcases hc with (((hc | hc) | hc) | hc) | hc
    · rw [kind_viewport_calls parameters c hc]; decide
    · rw [kind_camera_calls env parameters s c hc]; decide
    · rw [kind_cache_reset_calls env c hc]; decide
    · simp only [material_calls, List.mem_cons, List.mem_singleton, List.not_mem_nil,
        or_false] at hc
      rcases hc with rfl | rfl <;> simp [Gl_call.kind]
    · simp only [light_calls, List.mem_cons, List.mem_singleton, List.not_mem_nil,
        or_false] at hc
      rcases hc with rfl | rfl <;> simp [Gl_call.kind]
  have hloop : ∀ c ∈ blocks.flatten, c.kind ≠ Call_kind.resident := by
    intro c hc
    have hk := kind_pass_blocks _ _ k2 c hc
    simp only [pass_loop_kinds, List.mem_cons, List.mem_singleton, List.not_mem_nil,
      or_false] at hk
    rcases hk with hk | hk | hk | hk | hk <;> rw [hk] <;> decide
  have hend : ∀ c ∈ (resident_handles env parameters s).map
      Gl_call.make_texture_handle_non_resident_arb, c.kind ≠ Call_kind.resident := by
    intro c hc
    obtain ⟨handle, _, rfl⟩ := List.mem_map.1 hc
    simp [Gl_call.kind]
  refine ⟨render_prologue env parameters s ++ blocks.flatten ++
    textures_end_calls env parameters s, ?_, ?_, hm⟩
  · rw [k1]
    simp only [List.append_assoc]
  unfold render_prologue textures_begin_calls textures_end_calls
  rw [hb]
  simp only [if_true]
  rw [made_resident_append, made_resident_append, made_resident_append,
    made_resident_other _ hbefore, made_resident_other _ hloop, made_resident_other _ hend,
    made_resident_map]
  simp

/-- C14. In bindless mode, take a call of `Forward_renderer::render` in which no listed
material holds the nearest sampler of `g_programs` (that sampler is owned by `g_programs`
alone, and a material without sampler uses the linear sampler, a different object) and in
which a handle made with another sampler than the nearest one differs from the handle of the
shadow texture with the nearest sampler. The call returns exactly when the materials fit into
the material buffer (otherwise it stops in the capacity fault of the material update, before
any handle is made resident); when it returns, the handles it has passed to
`make_texture_handle_resident_arb` are the shadow map handle, if shadows are enabled, followed
by the handles of `used_handles()`, and no handle occurs twice among them: each handle is made
resident at most once in the call, with shadows enabled or not. -/
theorem forward_renderer_render_resident_once {σ π δ κ ι : Type}
    (env : Render_env σ π δ κ ι) (parameters : Render_parameters)
    (s : Render_state σ π δ κ ι) (hb : env.info.use_bindless_texture = true)
    (hlinear : env.g_programs.linear_sampler ≠ env.g_programs.nearest_sampler)
    (hsampler : ∀ a ∈ parameters.materials,
      (s.m_material_buffers.materials a).sampler ≠ some env.g_programs.nearest_sampler)
    (hhandle : ∀ a ∈ parameters.materials, ∀ texture shadow_texture,
      (s.m_material_buffers.materials a).texture = some texture →
      parameters.shadow_texture = some shadow_texture →
      material_sampler env.g_programs (s.m_material_buffers.materials a) ≠
        env.g_programs.nearest_sampler →
      env.info.get_handle texture
          (material_sampler env.g_programs (s.m_material_buffers.materials a)) % 2 ^ 64 ≠
        env.info.get_handle shadow_texture env.g_programs.nearest_sampler % 2 ^ 64) :
    (materials_fit env parameters s ∧
      ∃ s1 calls,
        Forward_renderer.render env parameters s = .ok s1 ∧
        s1.draw.gl = s.draw.gl ++ calls ∧
        made_resident calls =
          (if enable_shadows env parameters then [shadow_texture_handle env parameters]
            else []) ++ s1.m_material_buffers.used_handles ∧
        (made_resident calls).Nodup ∧
        ∀ handle, (made_resident calls).count handle ≤ 1) ∨
    (¬ materials_fit env parameters s ∧
      ∃ b, Forward_renderer.render env parameters s =
        .error (Fault.fatal_material_buffer_capacity_exceeded, b)) := by
  by_cases hfit : materials_fit env parameters s
  · left
    obtain ⟨s1, h1⟩ := (render_ok_iff env parameters s).2 hfit
    obtain ⟨calls, k1, k2, k3⟩ := render_made_resident env parameters s s1 hb h1
    have hheap : (render_material_buffer env s).materials = s.m_material_buffers.materials := by
      unfold render_material_buffer render_cache_reset
      rw [hb]
      rfl
    have hmem : ∀ handle, handle ∈ (render_materials_done env parameters s).used_handles →
        handle ≠ 0 ∧ ∃ a ∈ parameters.materials,
          material_handle env.info env.g_programs (s.m_material_buffers.materials a) =
            handle := by
      intro handle hh
      have hh : handle ∈ (update_entries env.info env.g_programs env.interface
          (update_begin env.interface (render_material_buffer env s) parameters.materials)
          parameters.materials).m_used_handles := hh
      rw [mem_update_entries_used] at hh
      rcases hh with hh | hh
      · exact absurd hh (List.not_mem_nil _)
      · rw [← hheap]
        exact hh
    have hsorted : (render_materials_done env parameters s).used_handles.Pairwise (· < ·) :=
      update_entries_used_sorted env.info env.g_programs env.interface parameters.materials _
        List.Pairwise.nil
    have hused : (render_materials_done env parameters s).used_handles.Nodup :=
      hsorted.imp (fun hlt => Nat.ne_of_lt hlt)
    have hshadow : enable_shadows env parameters = true →
        shadow_texture_handle env parameters ∉
          (render_materials_done env parameters s).used_handles := by
      intro hen hin
      obtain ⟨h0, a, ha, heq⟩ := hmem _ hin
      have hsome : parameters.shadow_texture.isSome = true := by
        unfold enable_shadows at hen
        simp only [Bool.and_eq_true] at hen
        exact hen.2
      obtain ⟨shadow_texture, hst⟩ := Option.isSome_iff_exists.1 hsome
      have hsh : shadow_texture_handle env parameters =
          env.info.get_handle shadow_texture env.g_programs.nearest_sampler % 2 ^ 64 := by
        unfold shadow_texture_handle
        rw [if_pos hen, hst]
      rw [material_handle_sampler] at heq
      cases ht : (s.m_material_buffers.materials a).texture with
      | none =>
        rw [ht] at heq
        exact h0 heq.symm
      | some texture =>
        rw [ht] at heq
        have hne : material_sampler env.g_programs (s.m_material_buffers.materials a) ≠
            env.g_programs.nearest_sampler := by
          unfold material_sampler
          cases hs : (s.m_material_buffers.materials a).sampler with
          | none => exact hlinear
          | some sampler =>
            intro h2
            exact hsampler a ha (by rw [hs]; exact congrArg some h2)
        exact hhandle a ha texture shadow_texture ht hst hne (heq.trans hsh)
    have hnodup : (resident_handles env parameters s).Nodup := by
      unfold resident_handles
      by_cases hen : enable_shadows env parameters = true
      · rw [if_pos hen]
        exact List.nodup_cons.2 ⟨hshadow hen, hused⟩
      · rw [if_neg hen]
        exact hused
    refine ⟨hfit, s1, calls, h1, k1, ?_, ?_, ?_⟩
    · rw [k2, k3]
      rfl
    · rw [k2]
      exact hnodup
    · intro handle
      rw [k2]
      exact List.nodup_iff_count_le_one.1 hnodup handle
  · right
    exact ⟨hfit, render_overrun env parameters s hfit⟩

/-- Witness for C14: the sample call in bindless mode with shadows enabled and three
materials, two of which share the texture of the shadow map and use the linear sampler: the
shadow map handle and the one material handle are made resident once each. -/
theorem forward_renderer_render_resident_once_witness :
    ∃ s1 calls,
      Forward_renderer.render (sample.env true) (sample.frame_parameters [100, 101, 102])
        sample.state = .ok s1 ∧
      s1.draw.gl = sample.state.draw.gl ++ calls ∧
      made_resident calls = [7 + 2 ^ 32 * 8, 7 + 2 ^ 32 * 9] ∧
      (made_resident calls).Nodup := by
  rcases forward_renderer_render_resident_once (sample.env true)
    (sample.frame_parameters [100, 101, 102]) sample.state rfl (by decide) (by decide)
    (by
      intro a ha texture shadow_texture ht hst _
      have hshadow : shadow_texture = 7 := by
        have : (sample.frame_parameters [100, 101, 102]).shadow_texture = some 7 := rfl
        rw [this] at hst
        exact (Option.some.inj hst).symm
      subst hshadow
      simp only [sample.frame_parameters, List.mem_cons, List.mem_singleton,
        List.not_mem_nil, or_false] at ha
      rcases ha with rfl | rfl | rfl
      · have : texture = 7 := (Option.some.inj ht).symm
        subst this
        decide
      · cases ht
      · have : texture = 7 := (Option.some.inj ht).symm
        subst this
        decide) with h | h
  · obtain ⟨_, s1, calls, h1, h2, h3, h4, _⟩ := h
    refine ⟨s1, calls, h1, h2, ?_, h4⟩
    rw [h3]
    have hs1 : s1.m_material_buffers =
        render_materials_done (sample.env true) (sample.frame_parameters [100, 101, 102])
          sample.state := by
      have := render_fits (sample.env true) (sample.frame_parameters [100, 101, 102])
        sample.state (by decide)
      rw [h1] at this
      injection this with this
      rw [this]
      exact (render_textures_end_buffers (sample.env true)
        (sample.frame_parameters [100, 101, 102]) _).1.trans
        (render_prepared_buffers (sample.env true)
          (sample.frame_parameters [100, 101, 102]) sample.state).1
    rw [hs1]
    decide
  · exact absurd (by decide) h.1

/-- The hypothesis on the samplers is needed: if a listed material (the object at address
`103` here) had the shadow texture as its texture and the nearest sampler as its sampler, its
handle would be the shadow map handle, and the call would pass that handle to
`make_texture_handle_resident_arb` twice, once as the shadow map handle and once as a handle
of `used_handles()`. -/
theorem forward_renderer_render_resident_twice :
    enable_shadows (sample.env true) (sample.frame_parameters [103]) = true ∧
    shadow_texture_handle (sample.env true) (sample.frame_parameters [103]) =
      7 + 2 ^ 32 * 8 ∧
    material_handle (sample.env true).info (sample.env true).g_programs (sample.heap 103) =
      7 + 2 ^ 32 * 8 ∧
    ∃ s1, Forward_renderer.render (sample.env true) (sample.frame_parameters [103])
        sample.state = .ok s1 ∧
      made_resident s1.draw.gl = [7 + 2 ^ 32 * 8, 7 + 2 ^ 32 * 8] ∧
      (made_resident s1.draw.gl).count (7 + 2 ^ 32 * 8) = 2 := by
  refine ⟨by decide, by decide, by decide, _,
    render_fits (sample.env true) (sample.frame_parameters [103]) sample.state (by decide),
    ?_, ?_⟩
  · decide
  · decide

end editor

/-! ## `Forward_renderer::render_fullscreen` -/

namespace editor

open erhe.toolkit erhe.graphics erhe.primitive erhe.application

section fullscreen

variable {σ π δ κ ι : Type} (env : Render_env σ π δ κ ι) (parameters : Render_parameters)

theorem render_fullscreen_pass_eq (t : Render_state σ π δ κ ι) (pass : Renderpass) :
    render_fullscreen_pass t pass = t.call (fullscreen_block pass) := by
  unfold render_fullscreen_pass fullscreen_block
  cases pass.pipeline.shader_stages with
  | none => exact (call_nil t).symm
  | some _ =>
    cases pass.begin <;> cases pass.end_ <;> simp [Render_state.call, hook_calls]

theorem render_fullscreen_passes_eq (passes : List Renderpass) (t : Render_state σ π δ κ ι) :
    passes.foldl render_fullscreen_pass t =
      t.call (passes.map fullscreen_block).flatten := by
  induction passes generalizing t with
  | nil => exact (call_nil t).symm
  | cons pass rest ih =>
    rw [List.foldl_cons, render_fullscreen_pass_eq, ih, call_call]
    simp

/-- The range of a material update that returns starts at 0 and has one entry per material,
whatever the buffer held before. -/
theorem update_done_range (info : Instance σ) (g_programs : Programs)
    (interface : Material_interface) (b : Material_buffer σ) (materials : List Nat) :
    (update_end (update_entries info g_programs interface
      (update_begin interface b materials) materials)).m_writer.range =
      { first_byte_offset := 0, byte_count := materials.length * interface.entry_size } := by
  unfold update_end Buffer_writer.end_
  simp only [update_entries_first_byte_offset, update_entries_write_offset]
  simp [update_begin, Buffer_writer.begin]

/-- The material update of `render_fullscreen` is recorded with the same arguments and result
as that of `render`. -/
theorem fullscreen_material_calls_eq (s : Render_state σ π δ κ ι) :
    fullscreen_material_calls env parameters s = material_calls env parameters s := by
  unfold fullscreen_material_calls material_calls fullscreen_materials_done
    render_materials_done
  rw [update_done_range, update_done_range]

/-- The light control step, by the index of the light projection transforms it finds. -/
theorem render_light_control_cases (light : Option Nat) :
    ∃ o : Option Nat,
      (∀ s : Render_state σ π δ κ ι, render_light_control env parameters light s =
        match o with
        | some index =>
          ({ s with m_light_buffers :=
              (env.frame_streams.light_update_control s.m_light_buffers index).2 }).call
            [Gl_call.light_update_control index
               (env.frame_streams.light_update_control s.m_light_buffers index).1,
             Gl_call.light_bind_control_buffer
               (env.frame_streams.light_update_control s.m_light_buffers index).1]
        | none => s) ∧
      (∀ s : Render_state σ π δ κ ι, light_control_calls env parameters light s =
        match o with
        | some index =>
          [Gl_call.light_update_control index
             (env.frame_streams.light_update_control s.m_light_buffers index).1,
           Gl_call.light_bind_control_buffer
             (env.frame_streams.light_update_control s.m_light_buffers index).1]
        | none => []) := by
  cases light with
  | none => exact ⟨none, fun _ => rfl, fun _ => rfl⟩
  | some l =>
    refine ⟨env.frame_streams.get_light_projection_transforms_for_light
      parameters.light_projections l, fun s => ?_, fun s => ?_⟩
    · unfold render_light_control
      dsimp only
    · unfold light_control_calls
      dsimp only

theorem call_buffers (s : Render_state σ π δ κ ι) (calls : List Gl_call) :
    (s.call calls).m_material_buffers = s.m_material_buffers ∧
      (s.call calls).draw.m_primitive_buffers = s.draw.m_primitive_buffers ∧
      (s.call calls).draw.m_draw_indirect_buffers = s.draw.m_draw_indirect_buffers :=
  ⟨rfl, rfl, rfl⟩

theorem render_camera_buffers (s : Render_state σ π δ κ ι) :
    (render_camera env parameters s).m_material_buffers = s.m_material_buffers ∧
      (render_camera env parameters s).draw.m_primitive_buffers =
        s.draw.m_primitive_buffers ∧
      (render_camera env parameters s).draw.m_draw_indirect_buffers =
        s.draw.m_draw_indirect_buffers := by
  unfold render_camera
  cases parameters.camera <;> exact ⟨rfl, rfl, rfl⟩

theorem render_light_control_buffers (light : Option Nat) (s : Render_state σ π δ κ ι) :
    (render_light_control env parameters light s).m_material_buffers =
        s.m_material_buffers ∧
      (render_light_control env parameters light s).draw.m_primitive_buffers =
        s.draw.m_primitive_buffers ∧
      (render_light_control env parameters light s).draw.m_draw_indirect_buffers =
        s.draw.m_draw_indirect_buffers := by
  obtain ⟨o, h1, _⟩ := render_light_control_cases env parameters light
  rw [h1]
  cases o <;> exact ⟨rfl, rfl, rfl⟩

theorem render_lights_buffers (s : Render_state σ π δ κ ι) :
    (render_lights env parameters s).m_material_buffers = s.m_material_buffers ∧
      (render_lights env parameters s).draw.m_primitive_buffers =
        s.draw.m_primitive_buffers ∧
      (render_lights env parameters s).draw.m_draw_indirect_buffers =
        s.draw.m_draw_indirect_buffers :=
  ⟨rfl, rfl, rfl⟩

/-- The calls of the steps of `render_fullscreen` between the material update and the
passes; they depend on the camera and light buffers only. -/
theorem render_fullscreen_steps_gl (light : Option Nat) (t s : Render_state σ π δ κ ι)
    (hc : t.m_camera_buffers = s.m_camera_buffers)
    (hl : t.m_light_buffers = s.m_light_buffers) :
    (render_lights env parameters (render_light_control env parameters light
      (render_camera env parameters t))).draw.gl =
      t.draw.gl ++ (camera_calls env parameters s ++ light_control_calls env parameters light s ++
        light_calls env parameters (render_light_control env parameters light s)) := by
  obtain ⟨o, h1, h2⟩ := render_light_control_cases env parameters light
  unfold render_lights light_calls camera_calls render_camera
  simp only [h1, h2]
  cases o <;> cases parameters.camera <;>
    simp [Render_state.call, List.append_assoc, hc, hl]

/-- When the materials fit, `render_fullscreen` returns; its calls are the prologue, one block
per pass, the shadow map call after the passes, and the end of the debug group. -/
theorem render_fullscreen_fits (light : Option Nat) (s : Render_state σ π δ κ ι)
    (h : materials_fit env parameters s) :
    ∃ s2, Forward_renderer.render_fullscreen env parameters light s = .ok s2 ∧
      s2.draw.gl = s.draw.gl ++ (fullscreen_prologue env parameters light s ++
        (parameters.passes.map fullscreen_block).flatten ++ shadow_end_calls env parameters ++
        [Gl_call.scoped_debug_group_leave]) ∧
      s2.m_material_buffers = fullscreen_materials_done env parameters s ∧
      s2.draw.m_primitive_buffers = s.draw.m_primitive_buffers ∧
      s2.draw.m_draw_indirect_buffers = s.draw.m_draw_indirect_buffers := by
  have hT : ∃ t, render_materials env parameters
      (s.call [Gl_call.scoped_debug_group_enter c_forward_renderer_render,
        Gl_call.viewport parameters.viewport.x parameters.viewport.y
          parameters.viewport.width parameters.viewport.height]) = .ok t ∧
      t.m_camera_buffers = s.m_camera_buffers ∧ t.m_light_buffers = s.m_light_buffers ∧
      t.m_material_buffers = fullscreen_materials_done env parameters s ∧
      t.draw.gl = s.draw.gl ++ ([Gl_call.scoped_debug_group_enter c_forward_renderer_render] ++
        viewport_calls parameters ++ fullscreen_material_calls env parameters s) ∧
      t.draw.m_primitive_buffers = s.draw.m_primitive_buffers ∧
      t.draw.m_draw_indirect_buffers = s.draw.m_draw_indirect_buffers := by
    refine ⟨_, render_materials_fits env parameters _ h, rfl, rfl, rfl, ?_, rfl, rfl⟩
    simp [Render_state.call, viewport_calls, fullscreen_material_calls,
      fullscreen_materials_done]
  obtain ⟨t, hT0, hc, hl, hm, hgl, hp, hd⟩ := hT
  have hg := render_fullscreen_steps_gl env parameters light t s hc hl
  unfold Forward_renderer.render_fullscreen
  dsimp only
  rw [hT0]
  dsimp only
  rw [render_fullscreen_passes_eq]
  refine ⟨_, rfl, ?_, ?_, ?_, ?_⟩
  · unfold fullscreen_prologue shadow_begin_calls shadow_end_calls
    cases enable_shadows env parameters <;> cases env.info.use_bindless_texture <;>
      simp only [if_true, if_false, Bool.false_eq_true, call_gl, hg, hgl] <;>
      simp [List.append_assoc]
  · cases enable_shadows env parameters <;> cases env.info.use_bindless_texture <;>
      simp only [if_true, if_false, Bool.false_eq_true, (call_buffers _ _).1,
        (render_lights_buffers env parameters _).1,
        (render_light_control_buffers env parameters light _).1,
        (render_camera_buffers env parameters _).1, hm]
  · cases enable_shadows env parameters <;> cases env.info.use_bindless_texture <;>
      simp only [if_true, if_false, Bool.false_eq_true, (call_buffers _ _).2.1,
        (render_lights_buffers env parameters _).2.1,
        (render_light_control_buffers env parameters light _).2.1,
        (render_camera_buffers env parameters _).2.1, hp]
  · cases enable_shadows env parameters <;> cases env.info.use_bindless_texture <;>
      simp only [if_true, if_false, Bool.false_eq_true, (call_buffers _ _).2.2,
        (render_lights_buffers env parameters _).2.2,
        (render_light_control_buffers env parameters light _).2.2,
        (render_camera_buffers env parameters _).2.2, hd]

/-- When the materials do not fit, `render_fullscreen` ends in the capacity fault of the
material update. -/
theorem render_fullscreen_overrun (light : Option Nat) (s : Render_state σ π δ κ ι)
    (h : ¬ materials_fit env parameters s) :
    ∃ b, Forward_renderer.render_fullscreen env parameters light s =
      .error (Fault.fatal_material_buffer_capacity_exceeded, b) := by
  unfold Forward_renderer.render_fullscreen
  dsimp only
  obtain ⟨b, hb⟩ := render_materials_overrun env parameters
    (s.call [Gl_call.scoped_debug_group_enter c_forward_renderer_render,
      Gl_call.viewport parameters.viewport.x parameters.viewport.y
        parameters.viewport.width parameters.viewport.height]) h
  rw [hb]
  exact ⟨b, rfl⟩

end fullscreen

end editor

namespace editor

open erhe.toolkit erhe.graphics erhe.primitive erhe.application

theorem stream_operations_append (xs ys : List Gl_call) :
    stream_operations (xs ++ ys) = stream_operations xs ++ stream_operations ys := by
  simp [stream_operations, List.filter_append]

theorem stream_operations_keep (calls : List Gl_call)
    (h : ∀ c ∈ calls, c.kind = Call_kind.camera ∨ c.kind = Call_kind.material ∨
      c.kind = Call_kind.light) : stream_operations calls = calls := by
  unfold stream_operations
  rw [List.filter_eq_self]
  intro c hc
  rcases h c hc with hk | hk | hk <;> rw [hk] <;> rfl

theorem stream_operations_drop (calls : List Gl_call)
    (h : ∀ c ∈ calls, c.kind ≠ Call_kind.camera ∧ c.kind ≠ Call_kind.material ∧
      c.kind ≠ Call_kind.light) : stream_operations calls = [] := by
  unfold stream_operations
  rw [List.filter_eq_nil_iff]
  intro c hc
  obtain ⟨h1, h2, h3⟩ := h c hc
  simp [h1, h2, h3]

theorem texture_operations_append (xs ys : List Gl_call) :
    texture_operations (xs ++ ys) = texture_operations xs ++ texture_operations ys := by
  simp [texture_operations, List.filter_append]

theorem texture_operations_keep (calls : List Gl_call)
    (h : ∀ c ∈ calls, c.kind = Call_kind.texture_unit_cache_reset ∨
      c.kind = Call_kind.resident ∨ c.kind = Call_kind.non_resident ∨
      c.kind = Call_kind.texture_unit) : texture_operations calls = calls := by
  unfold texture_operations
  rw [List.filter_eq_self]
  intro c hc
  rcases h c hc with hk | hk | hk | hk <;> rw [hk] <;> rfl

theorem texture_operations_drop (calls : List Gl_call)
    (h : ∀ c ∈ calls, c.kind ≠ Call_kind.texture_unit_cache_reset ∧
      c.kind ≠ Call_kind.resident ∧ c.kind ≠ Call_kind.non_resident ∧
      c.kind ≠ Call_kind.texture_unit) : texture_operations calls = [] := by
  unfold texture_operations
  rw [List.filter_eq_nil_iff]
  intro c hc
  obtain ⟨h1, h2, h3, h4⟩ := h c hc
  simp [h1, h2, h3, h4]

/-- The calls of a pass of `render_fullscreen` are hooks, debug groups, the pipeline state and
the `draw_arrays` call. -/
theorem kind_fullscreen_block (pass : Renderpass) :
    ∀ c ∈ fullscreen_block pass, c.kind = Call_kind.hook ∨ c.kind = Call_kind.debug_group ∨
      c.kind = Call_kind.pipeline ∨
      c = Gl_call.draw_arrays pass.pipeline.primitive_topology 0 3 := by
  intro c hc
  unfold fullscreen_block at hc
  cases hs : pass.pipeline.shader_stages with
  | none => rw [hs] at hc; simp at hc
  | some shader =>
    rw [hs] at hc
    simp only [List.mem_append, List.mem_cons, List.mem_singleton, List.not_mem_nil,
      or_false] at hc
    rcases hc with ((hc | hc | hc | hc) | hc) | hc
    · exact Or.inl (kind_hook_calls_begin _ c hc)
    · rw [hc]; exact Or.inr (Or.inl rfl)
    · rw [hc]; exact Or.inr (Or.inr (Or.inl rfl))
    · exact Or.inr (Or.inr (Or.inr hc))
    · exact Or.inl (kind_hook_calls_end _ c hc)
    · rw [hc]; exact Or.inr (Or.inl rfl)

theorem kind_fullscreen_blocks (passes : List Renderpass) :
    ∀ c ∈ (passes.map fullscreen_block).flatten, c.kind = Call_kind.hook ∨
      c.kind = Call_kind.debug_group ∨ c.kind = Call_kind.pipeline ∨
      ∃ mode, c = Gl_call.draw_arrays mode 0 3 := by
  intro c hc
  rw [List.mem_flatten] at hc
  obtain ⟨block, hb, hc⟩ := hc
  obtain ⟨pass, _, rfl⟩ := List.mem_map.1 hb
  rcases kind_fullscreen_block pass c hc with h | h | h | h
  · exact Or.inl h
  · exact Or.inr (Or.inl h)
  · exact Or.inr (Or.inr (Or.inl h))
  · exact Or.inr (Or.inr (Or.inr ⟨_, h⟩))

section fullscreen_kinds

variable {σ π δ κ ι : Type} (env : Render_env σ π δ κ ι) (parameters : Render_parameters)

theorem kind_material_calls (s : Render_state σ π δ κ ι) :
    ∀ c ∈ material_calls env parameters s, c.kind = Call_kind.material := by
  intro c hc
  simp only [material_calls, List.mem_cons, List.mem_singleton, List.not_mem_nil,
    or_false] at hc
  rcases hc with rfl | rfl <;> rfl

theorem kind_light_calls (s : Render_state σ π δ κ ι) :
    ∀ c ∈ light_calls env parameters s, c.kind = Call_kind.light := by
  intro c hc
  simp only [light_calls, List.mem_cons, List.mem_singleton, List.not_mem_nil,
    or_false] at hc
  rcases hc with rfl | rfl <;> rfl

theorem kind_light_control_calls (light : Option Nat) (s : Render_state σ π δ κ ι) :
    ∀ c ∈ light_control_calls env parameters light s, c.kind = Call_kind.light_control := by
  obtain ⟨o, _, h2⟩ := render_light_control_cases env parameters light
  intro c hc
  rw [h2] at hc
  cases o with
  | none => simp at hc
  | some index =>
    simp only [List.mem_cons, List.mem_singleton, List.not_mem_nil, or_false] at hc
    rcases hc with rfl | rfl <;> rfl

theorem kind_shadow_begin_calls :
    ∀ c ∈ shadow_begin_calls env parameters,
      c.kind = Call_kind.resident ∨ c.kind = Call_kind.texture_unit := by
  intro c hc
  unfold shadow_begin_calls at hc
  split_ifs at hc
  · simp only [List.mem_singleton] at hc
    rw [hc]; exact Or.inl rfl
  · exact Or.inr (kind_bind_shadow_texture_calls env parameters c hc)
  · simp at hc

theorem kind_shadow_end_calls :
    ∀ c ∈ shadow_end_calls env parameters, c.kind = Call_kind.non_resident := by
  intro c hc
  unfold shadow_end_calls at hc
  split_ifs at hc
  · simp only [List.mem_singleton] at hc
    rw [hc]; rfl
  · simp at hc
  · simp at hc

end fullscreen_kinds

end editor

namespace editor

open erhe.toolkit erhe.graphics erhe.primitive erhe.application

/-- C15, as the spec states it, fails. Evaluated in bound mode on the sample parameters (a
camera, one light, a shadow texture, three materials) and a null `light`: both functions
return; before its pass loop `render` updates and binds the camera stream, then the material
stream, then the light stream, resets the texture unit cache and binds the texture units of
the cache, while `render_fullscreen` updates and binds the material stream first and the
camera stream second, and neither resets the cache nor binds its texture units. In bindless
mode `render` makes the shadow map handle and the handle of the materials resident,
`render_fullscreen` the shadow map handle only. -/
theorem forward_renderer_render_fullscreen_differs :
    (∃ s2, Forward_renderer.render_fullscreen (sample.env false)
        (sample.frame_parameters [100, 101, 102]) none sample.state = .ok s2 ∧
      (stream_operations s2.draw.gl).map Gl_call.kind =
        [Call_kind.material, Call_kind.material, Call_kind.camera, Call_kind.camera,
         Call_kind.light, Call_kind.light] ∧
      (texture_operations s2.draw.gl).map Gl_call.kind =
        [Call_kind.texture_unit, Call_kind.texture_unit] ∧
      Gl_call.texture_unit_cache_bind (1 + 2 ^ 32 * 8) ∉ s2.draw.gl) ∧
    (stream_operations (render_prologue (sample.env false)
        (sample.frame_parameters [100, 101, 102]) sample.state)).map Gl_call.kind =
      [Call_kind.camera, Call_kind.camera, Call_kind.material, Call_kind.material,
       Call_kind.light, Call_kind.light] ∧
    (texture_operations (render_prologue (sample.env false)
        (sample.frame_parameters [100, 101, 102]) sample.state)).map Gl_call.kind =
      [Call_kind.texture_unit_cache_reset, Call_kind.texture_unit, Call_kind.texture_unit,
       Call_kind.texture_unit] ∧
    Gl_call.texture_unit_cache_bind (1 + 2 ^ 32 * 8) ∈ render_prologue (sample.env false)
      (sample.frame_parameters [100, 101, 102]) sample.state ∧
    (∃ s2, Forward_renderer.render_fullscreen (sample.env true)
        (sample.frame_parameters [100, 101, 102]) none sample.state = .ok s2 ∧
      made_resident s2.draw.gl = [7 + 2 ^ 32 * 8]) ∧
    made_resident (render_prologue (sample.env true)
        (sample.frame_parameters [100, 101, 102]) sample.state) =
      [7 + 2 ^ 32 * 8, 7 + 2 ^ 32 * 9] := by
  refine ⟨⟨_, rfl, ?_, ?_, ?_⟩, ?_, ?_, ?_, ⟨_, rfl, ?_⟩, ?_⟩
  · decide
  · decide
  · decide
  · decide
  · decide
  · decide
  · decide
  · decide

end editor

namespace editor

open erhe.toolkit erhe.graphics erhe.primitive erhe.application

/-- C15, amended. For every `Render_parameters` and a null `light`, a call of
`Forward_renderer::render_fullscreen` that returns (it returns exactly when the material list
fits into the material buffer, and otherwise stops in the capacity fault of the material
update) performs the same camera, material and light stream update and bind operations, with
the same arguments and results, as `render` performs before its pass loop, but in the order
material, camera, light where `render` has camera, material, light; the material update runs
on the material buffer and texture unit cache as the caller left them (no cache reset); no
light control operation is made; and its only texture operations are those of the shadow map
(made resident before the passes and non-resident after them in bindless mode, bound to the
shadow texture unit in bound mode, when shadows are enabled), where `render` also resets the
cache in bound mode and makes the material handles resident or binds the texture units of the
cache. -/
theorem forward_renderer_render_fullscreen_streams {σ π δ κ ι : Type}
    (env : Render_env σ π δ κ ι) (parameters : Render_parameters)
    (s : Render_state σ π δ κ ι) :
    (materials_fit env parameters s ∧
      ∃ s2 calls,
        Forward_renderer.render_fullscreen env parameters none s = .ok s2 ∧
        s2.draw.gl = s.draw.gl ++ calls ∧
        stream_operations calls =
          material_calls env parameters s ++ camera_calls env parameters s ++
            light_calls env parameters s ∧
        stream_operations (render_prologue env parameters s) =
          camera_calls env parameters s ++ material_calls env parameters s ++
            light_calls env parameters s ∧
        Material_buffer.update env.info env.g_programs env.interface s.m_material_buffers
            parameters.materials =
          .ok (s2.m_material_buffers.m_writer.range, s2.m_material_buffers) ∧
        (∀ c ∈ calls, c.kind ≠ Call_kind.light_control) ∧
        texture_operations calls =
          shadow_begin_calls env parameters ++ shadow_end_calls env parameters ∧
        texture_operations (render_prologue env parameters s) =
          cache_reset_calls env ++ textures_begin_calls env parameters s) ∨
    (¬ materials_fit env parameters s ∧
      ∃ b, Forward_renderer.render_fullscreen env parameters none s =
        .error (Fault.fatal_material_buffer_capacity_exceeded, b)) := by
  by_cases hfit : materials_fit env parameters s
  · left
    obtain ⟨s2, h0, hgl, hm, _, _⟩ := render_fullscreen_fits env parameters none s hfit
    have e1 : light_control_calls env parameters none s = [] := rfl
    have e2 : render_light_control env parameters none s = s := rfl
    have so_enter : stream_operations
        [Gl_call.scoped_debug_group_enter c_forward_renderer_render] = [] := rfl
    have so_leave : stream_operations [Gl_call.scoped_debug_group_leave] = [] := rfl
    have to_enter : texture_operations
        [Gl_call.scoped_debug_group_enter c_forward_renderer_render] = [] := rfl
    have to_leave : texture_operations [Gl_call.scoped_debug_group_leave] = [] := rfl
    have so_viewport : stream_operations (viewport_calls parameters) = [] :=
      stream_operations_drop _ (fun c hc => by
        rw [kind_viewport_calls parameters c hc]; decide)
    have to_viewport : texture_operations (viewport_calls parameters) = [] :=
      texture_operations_drop _ (fun c hc => by
        rw [kind_viewport_calls parameters c hc]; decide)
    have so_material : stream_operations (material_calls env parameters s) =
        material_calls env parameters s :=
      stream_operations_keep _ (fun c hc =>
        Or.inr (Or.inl (kind_material_calls env parameters s c hc)))
    have to_material : texture_operations (material_calls env parameters s) = [] :=
      texture_operations_drop _ (fun c hc => by
        rw [kind_material_calls env parameters s c hc]; decide)
    have so_camera : stream_operations (camera_calls env parameters s) =
        camera_calls env parameters s :=
      stream_operations_keep _ (fun c hc => Or.inl (kind_camera_calls env parameters s c hc))
    have to_camera : texture_operations (camera_calls env parameters s) = [] :=
      texture_operations_drop _ (fun c hc => by
        rw [kind_camera_calls env parameters s c hc]; decide)
    have so_light : stream_operations (light_calls env parameters s) =
        light_calls env parameters s :=
      stream_operations_keep _ (fun c hc =>
        Or.inr (Or.inr (kind_light_calls env parameters s c hc)))
    have to_light : texture_operations (light_calls env parameters s) = [] :=
      texture_operations_drop _ (fun c hc => by
        rw [kind_light_calls env parameters s c hc]; decide)
    have so_begin : stream_operations (shadow_begin_calls env parameters) = [] :=
      stream_operations_drop _ (fun c hc => by
        rcases kind_shadow_begin_calls env parameters c hc with hk | hk <;> rw [hk] <;>
          decide)
    have to_begin : texture_operations (shadow_begin_calls env parameters) =
        shadow_begin_calls env parameters :=
      texture_operations_keep _ (fun c hc => by
        rcases kind_shadow_begin_calls env parameters c hc with hk | hk
        · exact Or.inr (Or.inl hk)
        · exact Or.inr (Or.inr (Or.inr hk)))
    have so_end : stream_operations (shadow_end_calls env parameters) = [] :=
      stream_operations_drop _ (fun c hc => by
        rw [kind_shadow_end_calls env parameters c hc]; decide)
    have to_end : texture_operations (shadow_end_calls env parameters) =
        shadow_end_calls env parameters :=
      texture_operations_keep _ (fun c hc =>
        Or.inr (Or.inr (Or.inl (kind_shadow_end_calls env parameters c hc))))
    have hblocks : ∀ c ∈ (parameters.passes.map fullscreen_block).flatten,
        c.kind = Call_kind.hook ∨ c.kind = Call_kind.debug_group ∨
          c.kind = Call_kind.pipeline ∨ c.kind = Call_kind.draw := by
      intro c hc
      rcases kind_fullscreen_blocks parameters.passes c hc with hk | hk | hk | ⟨mode, hk⟩
      · exact Or.inl hk
      · exact Or.inr (Or.inl hk)
      · exact Or.inr (Or.inr (Or.inl hk))
      · rw [hk]; exact Or.inr (Or.inr (Or.inr rfl))
    have so_blocks : stream_operations (parameters.passes.map fullscreen_block).flatten = [] :=
      stream_operations_drop _ (fun c hc => by
        rcases hblocks c hc with hk | hk | hk | hk <;> rw [hk] <;> decide)
    have to_blocks : texture_operations (parameters.passes.map fullscreen_block).flatten = [] :=
      texture_operations_drop _ (fun c hc => by
        rcases hblocks c hc with hk | hk | hk | hk <;> rw [hk] <;> decide)
    have so_reset : stream_operations (cache_reset_calls env) = [] :=
      stream_operations_drop _ (fun c hc => by
        rw [kind_cache_reset_calls env c hc]; decide)
    have to_reset : texture_operations (cache_reset_calls env) = cache_reset_calls env :=
      texture_operations_keep _ (fun c hc => Or.inl (kind_cache_reset_calls env c hc))
    have so_textures : stream_operations (textures_begin_calls env parameters s) = [] :=
      stream_operations_drop _ (fun c hc => by
        rcases kind_textures_begin_calls env parameters s c hc with hk | hk <;> rw [hk] <;>
          decide)
    have to_textures : texture_operations (textures_begin_calls env parameters s) =
        textures_begin_calls env parameters s :=
      texture_operations_keep _ (fun c hc => by
        rcases kind_textures_begin_calls env parameters s c hc with hk | hk
        · exact Or.inr (Or.inl hk)
        · exact Or.inr (Or.inr (Or.inr hk)))
    refine ⟨hfit, s2, _, h0, hgl, ?_, ?_, ?_, ?_, ?_, ?_⟩
    · unfold fullscreen_prologue
      rw [e1, e2, fullscreen_material_calls_eq]
      simp only [stream_operations_append, so_enter, so_leave, so_viewport, so_material,
        so_camera, so_light, so_begin, so_end, so_blocks, List.append_nil, List.nil_append]
    · unfold render_prologue
      simp only [stream_operations_append, so_viewport, so_material, so_camera, so_light,
        so_reset, so_textures, List.append_nil, List.nil_append]
    · rw [hm]
      exact update_fits env.info env.g_programs env.interface _ _ (by
        show _ ≤ s.m_material_buffers.capacity_byte_count - 0
        exact hfit)
    · intro c hc
      unfold fullscreen_prologue at hc
      rw [e1, e2, fullscreen_material_calls_eq] at hc
      simp only [List.mem_append, List.mem_singleton, List.not_mem_nil, or_false] at hc
      rcases hc with (((((((hc | hc) | hc) | hc) | hc) | hc) | hc) | hc) | hc
      · rw [hc]; simp [Gl_call.kind]
      · rw [kind_viewport_calls parameters c hc]; decide
      · rw [kind_material_calls env parameters s c hc]; decide
      · rw [kind_camera_calls env parameters s c hc]; decide
      · rw [kind_light_calls env parameters s c hc]; decide
      · rcases kind_shadow_begin_calls env parameters c hc with hk | hk <;> rw [hk] <;>
          decide
      · rcases hblocks c hc with hk | hk | hk | hk <;> rw [hk] <;> decide
      · rw [kind_shadow_end_calls env parameters c hc]; decide
      · rw [hc]; simp [Gl_call.kind]
    · unfold fullscreen_prologue
      rw [e1, e2, fullscreen_material_calls_eq]
      simp only [texture_operations_append, to_enter, to_leave, to_viewport, to_material,
        to_camera, to_light, to_begin, to_end, to_blocks, List.append_nil, List.nil_append]
    · unfold render_prologue
      simp only [texture_operations_append, to_viewport, to_material, to_camera, to_light,
        to_reset, to_textures, List.append_nil, List.nil_append]
  · right
    exact ⟨hfit, render_fullscreen_overrun env parameters none s hfit⟩

end editor

namespace editor

open erhe.toolkit erhe.graphics erhe.primitive erhe.application

theorem is_draw_kind (c : Gl_call) (h : c.kind ≠ Call_kind.draw) : c.is_draw = false := by
  cases c <;> first | rfl | exact absurd rfl h

/-- C16. For every pass, `Forward_renderer::render_fullscreen` contributes nothing if the
pass has no shader program and otherwise the begin hook if present, the debug group, the
pipeline state, exactly one `draw_arrays` call with the primitive topology of the pass, first
vertex 0 and vertex count 3, the end hook if present, and the end of the debug group. A call
that returns (it returns exactly when the material list fits into the material buffer, and
otherwise stops in the capacity fault of the material update, before any pass) makes these
calls pass by pass in list order; the calls before and after them contain no draw, hook,
pipeline or mesh stream call; no call is an indirect multi-draw or an update or bind of the
primitive or draw-indirect stream, and both stream states are left as they were. The result
does not depend on `parameters.mesh_spans`. -/
theorem forward_renderer_render_fullscreen_draws {σ π δ κ ι : Type}
    (env : Render_env σ π δ κ ι) (parameters : Render_parameters) (light : Option Nat)
    (s : Render_state σ π δ κ ι) :
    (∀ mesh_spans : List (List Nat),
      Forward_renderer.render_fullscreen env { parameters with mesh_spans := mesh_spans }
        light s = Forward_renderer.render_fullscreen env parameters light s) ∧
    (∀ pass : Renderpass, pass.pipeline.shader_stages = none → fullscreen_block pass = []) ∧
    (∀ pass : Renderpass, pass.pipeline.shader_stages ≠ none →
      fullscreen_block pass =
        hook_calls Gl_call.pass_begin pass.begin ++
          [Gl_call.scoped_debug_group_enter pass.pipeline.name,
           Gl_call.execute pass.pipeline,
           Gl_call.draw_arrays pass.pipeline.primitive_topology 0 3] ++
          hook_calls Gl_call.pass_end pass.end_ ++ [Gl_call.scoped_debug_group_leave] ∧
      (fullscreen_block pass).filter (fun c => c.kind == Call_kind.draw) =
        [Gl_call.draw_arrays pass.pipeline.primitive_topology 0 3]) ∧
    ((materials_fit env parameters s ∧
      ∃ s2 before after,
        Forward_renderer.render_fullscreen env parameters light s = .ok s2 ∧
        s2.draw.gl = s.draw.gl ++
          (before ++ (parameters.passes.map fullscreen_block).flatten ++ after) ∧
        (∀ c ∈ before ++ after, c.kind ≠ Call_kind.draw ∧ c.kind ≠ Call_kind.hook ∧
          c.kind ≠ Call_kind.pipeline) ∧
        (∀ c ∈ before ++ (parameters.passes.map fullscreen_block).flatten ++ after,
          c.is_draw = false ∧ c.kind ≠ Call_kind.mesh_stream) ∧
        s2.draw.m_primitive_buffers = s.draw.m_primitive_buffers ∧
        s2.draw.m_draw_indirect_buffers = s.draw.m_draw_indirect_buffers) ∨
    (¬ materials_fit env parameters s ∧
      ∃ b, Forward_renderer.render_fullscreen env parameters light s =
        .error (Fault.fatal_material_buffer_capacity_exceeded, b))) := by
  refine ⟨fun _ => rfl, ?_, ?_, ?_⟩
  · intro pass hs
    unfold fullscreen_block
    rw [hs]
  · intro pass hs
    obtain ⟨shader, hs⟩ := Option.ne_none_iff_exists'.1 hs
    unfold fullscreen_block
    rw [hs]
    refine ⟨rfl, ?_⟩
    cases pass.begin <;> cases pass.end_ <;> simp [hook_calls, Gl_call.kind]
  · by_cases hfit : materials_fit env parameters s
    · left
      obtain ⟨s2, h0, hgl, _, hp, hd⟩ := render_fullscreen_fits env parameters light s hfit
      have hbefore : ∀ c ∈ fullscreen_prologue env parameters light s,
          c.kind ≠ Call_kind.draw ∧ c.kind ≠ Call_kind.hook ∧ c.kind ≠ Call_kind.pipeline ∧
            c.kind ≠ Call_kind.mesh_stream := by
        intro c hc
        unfold fullscreen_prologue at hc
        rw [fullscreen_material_calls_eq] at hc
        simp only [List.mem_append, List.mem_singleton] at hc
        rcases hc with (((((hc | hc) | hc) | hc) | hc) | hc) | hc
        · rw [hc]; simp [Gl_call.kind]
        · rw [kind_viewport_calls parameters c hc]; decide
        · rw [kind_material_calls env parameters s c hc]; decide
        · rw [kind_camera_calls env parameters s c hc]; decide
        · rw [kind_light_control_calls env parameters light s c hc]; decide
        · rw [kind_light_calls env parameters _ c hc]; decide
        · rcases kind_shadow_begin_calls env parameters c hc with hk | hk <;> rw [hk] <;>
            decide
      have hafter : ∀ c ∈ shadow_end_calls env parameters ++ [Gl_call.scoped_debug_group_leave],
          c.kind ≠ Call_kind.draw ∧ c.kind ≠ Call_kind.hook ∧ c.kind ≠ Call_kind.pipeline ∧
            c.kind ≠ Call_kind.mesh_stream := by
        intro c hc
        simp only [List.mem_append, List.mem_singleton] at hc
        rcases hc with hc | hc
        · rw [kind_shadow_end_calls env parameters c hc]; decide
        · rw [hc]; simp [Gl_call.kind]
      refine ⟨hfit, s2, fullscreen_prologue env parameters light s,
        shadow_end_calls env parameters ++ [Gl_call.scoped_debug_group_leave], h0, ?_, ?_, ?_,
        hp, hd⟩
      · rw [hgl]
        simp only [List.append_assoc]
      · intro c hc
        rw [List.mem_append] at hc
        rcases hc with hc | hc
        · exact ⟨(hbefore c hc).1, (hbefore c hc).2.1, (hbefore c hc).2.2.1⟩
        · exact ⟨(hafter c hc).1, (hafter c hc).2.1, (hafter c hc).2.2.1⟩
      · intro c hc
        rw [List.mem_append, List.mem_append] at hc
        rcases hc with (hc | hc) | hc
        · exact ⟨is_draw_kind c (hbefore c hc).1, (hbefore c hc).2.2.2⟩
        · rcases kind_fullscreen_blocks parameters.passes c hc with hk | hk | hk | ⟨mode, hk⟩
          · exact ⟨by cases c <;> first | rfl | exact absurd hk (by simp [Gl_call.kind]),
              by rw [hk]; decide⟩
          · exact ⟨by cases c <;> first | rfl | exact absurd hk (by simp [Gl_call.kind]),
              by rw [hk]; decide⟩
          · exact ⟨by cases c <;> first | rfl | exact absurd hk (by simp [Gl_call.kind]),
              by rw [hk]; decide⟩
          · rw [hk]; exact ⟨rfl, by simp [Gl_call.kind]⟩
        · exact ⟨is_draw_kind c (hafter c hc).1, (hafter c hc).2.2.2⟩
    · right
      exact ⟨hfit, render_fullscreen_overrun env parameters light s hfit⟩

end editor

/-! ## The tool passes -/

namespace editor

open erhe.toolkit erhe.graphics erhe.primitive erhe.application

theorem executed_pipelines_append (xs ys : List Gl_call) :
    executed_pipelines (xs ++ ys) = executed_pipelines xs ++ executed_pipelines ys := by
  induction xs with
  | nil => rfl
  | cons x rest ih => cases x <;> simp [executed_pipelines, ih]

theorem executed_pipelines_other (calls : List Gl_call)
    (h : ∀ c ∈ calls, c.kind ≠ Call_kind.pipeline) : executed_pipelines calls = [] := by
  induction calls with
  | nil => rfl
  | cons x rest ih =>
    have hx := h x (List.mem_cons_self _ _)
    have hr := ih (fun c hc => h c (List.mem_cons_of_mem _ hc))
    cases x <;> first | exact hr | exact absurd rfl hx

/-- A pass block applies the pipeline state of its pass once, or nothing for a pass without
shader program. -/
theorem executed_pipelines_block (pass : Renderpass) (block : List Gl_call)
    (h : is_pass_block pass block) :
    executed_pipelines block =
      if pass.pipeline.shader_stages.isSome then [pass.pipeline] else [] := by
  unfold is_pass_block at h
  cases hs : pass.pipeline.shader_stages with
  | none =>
    rw [hs] at h
    dsimp only at h
    rw [h]
    rfl
  | some shader =>
    rw [hs] at h
    obtain ⟨span_calls, h1, h2⟩ := h
    rw [h1]
    have e1 : executed_pipelines (hook_calls Gl_call.pass_begin pass.begin) = [] :=
      executed_pipelines_other _ (fun c hc => by
        rw [kind_hook_calls_begin _ c hc]; decide)
    have e2 : executed_pipelines (hook_calls Gl_call.pass_end pass.end_) = [] :=
      executed_pipelines_other _ (fun c hc => by
        rw [kind_hook_calls_end _ c hc]; decide)
    have e3 : executed_pipelines span_calls = [] :=
      executed_pipelines_other _ (fun c hc => by
        rcases kind_of_span_call c (h2 c hc) with hk | hk <;> rw [hk] <;> decide)
    simp only [executed_pipelines_append, e1, e2, e3]
    rfl

theorem executed_pipelines_blocks (passes : List Renderpass) (blocks : List (List Gl_call))
    (h : List.Forall₂ is_pass_block passes blocks) :
    executed_pipelines blocks.flatten =
      (passes.filter (fun pass => pass.pipeline.shader_stages.isSome)).map
        (fun pass => pass.pipeline) := by
  induction h with
  | nil => rfl
  | @cons pass block passes blocks h1 _ ih =>
    rw [List.flatten_cons, executed_pipelines_append, ih,
      executed_pipelines_block pass block h1]
    cases hs : pass.pipeline.shader_stages <;> simp [List.filter_cons, hs]

/-- C17. `Editor_rendering_impl::render_tool_meshes` returns without rendering when the
camera, the scene view or the tool scene root is null or the tool layer has no meshes, and
otherwise makes one call of `Forward_renderer::render` whose pass list is the six tool passes,
once each, in the order hidden-stencil tag, visible-stencil tag, depth clear, depth, visible
colour, hidden colour. A call of `render` on any parameters returns exactly when the material
list fits into the material buffer (otherwise it stops in the capacity fault of the material
update, before any pass); when it returns, its calls are the prologue, one block per pass of
the list in list order, and the epilogue, where the block of a pass applies the pipeline state
of that pass once before its span calls (nothing, for a pass without shader program), and no
other call applies a pipeline state: the pipeline states are applied in the order of the list
and the draws of a pass lie in its block, before the block of the next pass. For the tool
overlay the pipeline states applied are those of passes 1 to 6 in this order when the tool
program is present, and none when it is null. -/
theorem editor_rendering_render_tool_meshes_passes {σ π δ κ ι : Type}
    (c : Setup_renderpasses_env) (env : Render_env σ π δ κ ι) (item_flags : Item_flags)
    (get_tool_scene_root : Option Scene_root) (context : Render_context)
    (s : Render_state σ π δ κ ι) :
    ((render_tool_meshes_parameters c env.g_programs item_flags get_tool_scene_root
        context).isSome = true ↔
      context.camera ≠ none ∧ context.scene_view ≠ none ∧
        ∃ scene_root, get_tool_scene_root = some scene_root ∧ scene_root.tool_meshes ≠ []) ∧
    (render_tool_meshes_parameters c env.g_programs item_flags get_tool_scene_root context =
        none →
      render_tool_meshes c env item_flags get_tool_scene_root context s = .ok s) ∧
    (∀ parameters,
      render_tool_meshes_parameters c env.g_programs item_flags get_tool_scene_root context =
        some parameters →
      parameters.passes =
        [m_rp_tool1_hidden_stencil c env.g_programs, m_rp_tool2_visible_stencil c env.g_programs,
         m_rp_tool3_depth_clear c env.g_programs, m_rp_tool4_depth c env.g_programs,
         m_rp_tool5_visible_color c env.g_programs,
         m_rp_tool6_hidden_color c env.g_programs] ∧
      render_tool_meshes c env item_flags get_tool_scene_root context s =
        Forward_renderer.render env parameters s ∧
      (parameters.passes.filter (fun pass => pass.pipeline.shader_stages.isSome)).map
          (fun pass => pass.pipeline) =
        if env.g_programs.tool.isSome then
          [(m_rp_tool1_hidden_stencil c env.g_programs).pipeline,
           (m_rp_tool2_visible_stencil c env.g_programs).pipeline,
           (m_rp_tool3_depth_clear c env.g_programs).pipeline,
           (m_rp_tool4_depth c env.g_programs).pipeline,
           (m_rp_tool5_visible_color c env.g_programs).pipeline,
           (m_rp_tool6_hidden_color c env.g_programs).pipeline]
        else []) ∧
    (∀ parameters : Render_parameters,
      (materials_fit env parameters s ∧
        ∃ s1 blocks,
          Forward_renderer.render env parameters s = .ok s1 ∧
          s1.draw.gl = s.draw.gl ++ render_prologue env parameters s ++ blocks.flatten ++
            textures_end_calls env parameters s ∧
          List.Forall₂ is_pass_block parameters.passes blocks ∧
          List.Forall₂ (fun pass block => executed_pipelines block =
            if pass.pipeline.shader_stages.isSome then [pass.pipeline] else [])
            parameters.passes blocks ∧
          executed_pipelines (render_prologue env parameters s) = [] ∧
          executed_pipelines (textures_end_calls env parameters s) = [] ∧
          executed_pipelines (render_prologue env parameters s ++ blocks.flatten ++
              textures_end_calls env parameters s) =
            (parameters.passes.filter (fun pass => pass.pipeline.shader_stages.isSome)).map
              (fun pass => pass.pipeline)) ∨
      (¬ materials_fit env parameters s ∧
        ∃ b, Forward_renderer.render env parameters s =
          .error (Fault.fatal_material_buffer_capacity_exceeded, b))) := by
  refine ⟨?_, ?_, ?_, ?_⟩
  · unfold render_tool_meshes_parameters
    cases context.camera <;> cases context.scene_view <;> cases get_tool_scene_root <;>
      simp
  · intro h
    unfold render_tool_meshes
    rw [h]
  · intro parameters h
    refine ⟨?_, ?_, ?_⟩
    · unfold render_tool_meshes_parameters at h
      cases hc : context.camera <;> cases hv : context.scene_view <;>
        cases hr : get_tool_scene_root <;> rw [hc, hv, hr] at h <;>
        simp only [reduceCtorEq] at h
      split_ifs at h
      injection h with h
      rw [← h]
    · unfold render_tool_meshes
      rw [h]
    · have hp : parameters.passes =
          [m_rp_tool1_hidden_stencil c env.g_programs,
           m_rp_tool2_visible_stencil c env.g_programs,
           m_rp_tool3_depth_clear c env.g_programs, m_rp_tool4_depth c env.g_programs,
           m_rp_tool5_visible_color c env.g_programs,
           m_rp_tool6_hidden_color c env.g_programs] := by
        unfold render_tool_meshes_parameters at h
        cases hc : context.camera <;> cases hv : context.scene_view <;>
          cases hr : get_tool_scene_root <;> rw [hc, hv, hr] at h <;>
          simp only [reduceCtorEq] at h
        split_ifs at h
        injection h with h
        rw [← h]
      rw [hp]
      cases ht : env.g_programs.tool <;>
        simp [m_rp_tool1_hidden_stencil, m_rp_tool2_visible_stencil, m_rp_tool3_depth_clear,
          m_rp_tool4_depth, m_rp_tool5_visible_color, m_rp_tool6_hidden_color, ht]
  · intro parameters
    by_cases hfit : materials_fit env parameters s
    · left
      obtain ⟨s1, h1⟩ := (render_ok_iff env parameters s).2 hfit
      obtain ⟨_, _, blocks, k1, k2, _⟩ := render_calls env parameters s s1 h1
      have hpro : executed_pipelines (render_prologue env parameters s) = [] :=
        executed_pipelines_other _ (fun c hc => by
          unfold render_prologue at hc
          simp only [List.mem_append] at hc
          rcases hc with ((((hc | hc) | hc) | hc) | hc) | hc
          · rw [kind_viewport_calls parameters c hc]; decide
          · rw [kind_camera_calls env parameters s c hc]; decide
          · rw [kind_cache_reset_calls env c hc]; decide
          · rw [kind_material_calls env parameters s c hc]; decide
          · rw [kind_light_calls env parameters s c hc]; decide
          · rcases kind_textures_begin_calls env parameters s c hc with hk | hk <;>
              rw [hk] <;> decide)
      have hepi : executed_pipelines (textures_end_calls env parameters s) = [] :=
        executed_pipelines_other _ (fun c hc => by
          rw [kind_textures_end_calls env parameters s c hc]; decide)
      refine ⟨hfit, s1, blocks, h1, k1, k2, ?_, hpro, hepi, ?_⟩
      · exact List.Forall₂.imp (fun pass block hb => executed_pipelines_block pass block hb) k2
      · rw [executed_pipelines_append, executed_pipelines_append, hpro, hepi,
          executed_pipelines_blocks _ _ k2]
        simp
    · right
      exact ⟨hfit, render_overrun env parameters s hfit⟩

end editor

namespace editor

open erhe.toolkit erhe.graphics erhe.primitive erhe.application

/-- C19, as the spec states it, fails. With the sample configuration, the stencil reference of
tool pass 1 is 2, not 1, and that of tool pass 2 is 3, not 2, on front and back faces. -/
theorem editor_rendering_tool_stencil_references_differ :
    (m_rp_tool1_hidden_stencil sample.setup
        sample.g_programs).pipeline.depth_stencil.stencil_front.reference = 2 ∧
    (m_rp_tool1_hidden_stencil sample.setup
        sample.g_programs).pipeline.depth_stencil.stencil_back.reference = 2 ∧
    (m_rp_tool1_hidden_stencil sample.setup
        sample.g_programs).pipeline.depth_stencil.stencil_front.reference ≠ 1 ∧
    (m_rp_tool2_visible_stencil sample.setup
        sample.g_programs).pipeline.depth_stencil.stencil_front.reference = 3 ∧
    (m_rp_tool2_visible_stencil sample.setup
        sample.g_programs).pipeline.depth_stencil.stencil_back.reference = 3 ∧
    (m_rp_tool2_visible_stencil sample.setup
        sample.g_programs).pipeline.depth_stencil.stencil_front.reference ≠ 2 := by
  refine ⟨rfl, rfl, ?_, rfl, rfl, ?_⟩
  · decide
  · decide

/-- C19, amended. After `setup_renderpasses`, tool pass 1 has the stencil reference
`s_stencil_tool_mesh_hidden = 2` and tool pass 2 the stencil reference
`s_stencil_tool_mesh_visible = 3` (the value 1 is `s_stencil_edge_lines`), on front and back
faces alike, both with stencil test on, `z_pass_op = replace`, the other operations `keep`,
function `always` and masks `0xff`; both have the depth test on with depth writes off and
colour writes off; pass 1 compares depth with the configuration's `depth_function(greater)`
and pass 2 with `depth_function(lequal)`. -/
theorem editor_rendering_tool_stencil_tags (c : Setup_renderpasses_env)
    (g_programs : Programs) :
    s_stencil_edge_lines = 1 ∧ s_stencil_tool_mesh_hidden = 2 ∧
    s_stencil_tool_mesh_visible = 3 ∧
    (m_rp_tool1_hidden_stencil c g_programs).pipeline.depth_stencil =
      { depth_test_enable := true
        depth_write_enable := false
        depth_compare_op := c.depth_function Depth_function.greater
        stencil_test_enable := true
        stencil_front :=
          { stencil_fail_op := Stencil_op.keep, z_fail_op := Stencil_op.keep,
            z_pass_op := Stencil_op.replace, function := Stencil_function.always,
            reference := 2, test_mask := 0xff, write_mask := 0xff }
        stencil_back :=
          { stencil_fail_op := Stencil_op.keep, z_fail_op := Stencil_op.keep,
            z_pass_op := Stencil_op.replace, function := Stencil_function.always,
            reference := 2, test_mask := 0xff, write_mask := 0xff } } ∧
    (m_rp_tool2_visible_stencil c g_programs).pipeline.depth_stencil =
      { depth_test_enable := true
        depth_write_enable := false
        depth_compare_op := c.depth_function Depth_function.lequal
        stencil_test_enable := true
        stencil_front :=
          { stencil_fail_op := Stencil_op.keep, z_fail_op := Stencil_op.keep,
            z_pass_op := Stencil_op.replace, function := Stencil_function.always,
            reference := 3, test_mask := 0xff, write_mask := 0xff }
        stencil_back :=
          { stencil_fail_op := Stencil_op.keep, z_fail_op := Stencil_op.keep,
            z_pass_op := Stencil_op.replace, function := Stencil_function.always,
            reference := 3, test_mask := 0xff, write_mask := 0xff } } ∧
    (m_rp_tool1_hidden_stencil c g_programs).pipeline.color_blend =
      Color_blend_state.color_writes_disabled ∧
    (m_rp_tool2_visible_stencil c g_programs).pipeline.color_blend =
      Color_blend_state.color_writes_disabled :=
  ⟨rfl, rfl, rfl, rfl, rfl, rfl, rfl⟩

/-- C20. With `Item_filter::operator()` as the spec gives it, a flags value is admitted if and
only if it has all bits of `require_all_bits_set`, at least one bit of
`require_at_least_one_bit_set`, and no bit of `require_all_bits_clear`; the result is a
function of the filter and the flags value alone. For the filter of `render_content` this
means: all bits of `visible`, and a bit of `content | controller`. For the filter of
`render_tool_meshes`, which sets only `require_all_bits_set`, the at-least-one mask is zero,
so that under this formula no flags value is admitted. -/
theorem item_filter_passes_iff (filter : Item_filter) (flags : Nat) (item_flags : Item_flags) :
    (filter.passes flags = true ↔
      flags &&& filter.require_all_bits_set = filter.require_all_bits_set ∧
      flags &&& filter.require_at_least_one_bit_set ≠ 0 ∧
      flags &&& filter.require_all_bits_clear = 0) ∧
    (∀ (filter2 : Item_filter) (flags2 : Nat), filter2 = filter → flags2 = flags →
      filter2.passes flags2 = filter.passes flags) ∧
    ((render_content_filter item_flags).passes flags = true ↔
      flags &&& item_flags.visible = item_flags.visible ∧
      flags &&& (item_flags.content ||| item_flags.controller) ≠ 0) ∧
    (render_tool_meshes_filter item_flags).require_at_least_one_bit_set = 0 ∧
    (render_tool_meshes_filter item_flags).passes flags = false := by
  refine ⟨?_, ?_, ?_, rfl, ?_⟩
  · simp [Item_filter.passes, and_assoc]
  · rintro filter2 flags2 rfl rfl
    rfl
  · simp [Item_filter.passes, render_content_filter]
  · simp [Item_filter.passes, render_tool_meshes_filter]

end editor

/-! ## The buffer transfer queue -/

namespace erhe.graphics

open erhe.toolkit

theorem flush_loop (entries : List Transfer_entry) (buffers : Buffers)
    (copied : List Transfer_entry) :
    entries.foldl (fun (state : Buffers × List Transfer_entry) entry =>
        (upload state.1 entry, state.2 ++ [entry])) (buffers, copied) =
      (entries.foldl upload buffers, copied ++ entries) := by
  induction entries generalizing buffers copied with
  | nil => simp
  | cons entry rest ih => simp [ih]

theorem upload_byte (buffers : Buffers) (entry : Transfer_entry) (buffer a : Nat) :
    upload buffers entry buffer a =
      if entry.covers buffer a = true then entry.data.getD (a - entry.target_offset) 0
      else buffers buffer a := by
  unfold upload Transfer_entry.covers
  by_cases hb : entry.target = buffer
  · subst hb
    simp only [Function.update_same, memcpy, beq_self_eq_true, Bool.true_and,
      Bool.and_eq_true, decide_eq_true_eq]
  · rw [Function.update_noteq (Ne.symm hb)]
    simp [hb]

/-- After the loop, a byte holds the data of the last entry that covers it, and its old value
if there is none. -/
theorem uploads_byte (entries : List Transfer_entry) (buffers : Buffers) (buffer a : Nat) :
    entries.foldl upload buffers buffer a =
      match entries.reverse.find? (Transfer_entry.covers buffer a) with
      | some entry => entry.data.getD (a - entry.target_offset) 0
      | none => buffers buffer a := by
  induction entries generalizing buffers with
  | nil => rfl
  | cons entry rest ih =>
    rw [List.foldl_cons, ih, List.reverse_cons, List.find?_append]
    cases hr : rest.reverse.find? (Transfer_entry.covers buffer a) with
    | some e => rfl
    | none =>
      simp only [Option.none_or, List.find?_cons, List.find?_nil]
      rw [upload_byte]
      cases entry.covers buffer a <;> rfl

theorem enqueue_all_queued (calls : List (Nat × Nat × List Nat)) (q : Buffer_transfer_queue) :
    (q.enqueue_all calls).m_queued = q.m_queued ++ calls.map
      (fun call => { target := call.1, target_offset := call.2.1, data := call.2.2 }) := by
  induction calls generalizing q with
  | nil => simp [Buffer_transfer_queue.enqueue_all]
  | cons call rest ih =>
    have := ih (q.enqueue call.1 call.2.1 call.2.2)
    simp only [Buffer_transfer_queue.enqueue_all, List.foldl_cons] at this ⊢
    rw [this]
    simp [Buffer_transfer_queue.enqueue]

/-- C21. After any sequence of `enqueue` calls on a queue followed by `flush()`, the copies
made are exactly the queued entries (those already in the queue, then one per `enqueue` call),
each once and in enqueue order; every byte of every buffer holds the data of the last queued
entry whose range `[offset, offset + data.size())` of that buffer contains it, and its previous
value if no queued range contains it; the queue is empty; and a second `flush()` with no
`enqueue` in between makes no copy and leaves every buffer and the queue as they are. -/
theorem buffer_transfer_queue_flush (q : Buffer_transfer_queue)
    (calls : List (Nat × Nat × List Nat)) (buffers : Buffers) :
    (q.enqueue_all calls).m_queued = q.m_queued ++ calls.map
      (fun call => { target := call.1, target_offset := call.2.1, data := call.2.2 }) ∧
    ((q.enqueue_all calls).flush buffers).2.2 = (q.enqueue_all calls).m_queued ∧
    ((q.enqueue_all calls).flush buffers).2.1.m_queued = [] ∧
    (∀ buffer a, ((q.enqueue_all calls).flush buffers).1 buffer a =
      match (q.enqueue_all calls).m_queued.reverse.find? (Transfer_entry.covers buffer a) with
      | some entry => entry.data.getD (a - entry.target_offset) 0
      | none => buffers buffer a) ∧
    (∀ buffer a, (∀ entry ∈ (q.enqueue_all calls).m_queued, entry.covers buffer a = false) →
      ((q.enqueue_all calls).flush buffers).1 buffer a = buffers buffer a) ∧
    ((q.enqueue_all calls).flush buffers).2.1.flush ((q.enqueue_all calls).flush buffers).1 =
      (((q.enqueue_all calls).flush buffers).1, ((q.enqueue_all calls).flush buffers).2.1,
        []) := by
  have hflush : ∀ (p : Buffer_transfer_queue) (b : Buffers),
      p.flush b = (p.m_queued.foldl upload b, { m_queued := [] }, p.m_queued) := by
    intro p b
    unfold Buffer_transfer_queue.flush
    simp only [flush_loop, List.nil_append]
  refine ⟨enqueue_all_queued calls q, ?_, ?_, ?_, ?_, ?_⟩
  · rw [hflush]
  · rw [hflush]
  · intro buffer a
    rw [hflush]
    exact uploads_byte _ buffers buffer a
  · intro buffer a h
    rw [hflush]
    show (q.enqueue_all calls).m_queued.foldl upload buffers buffer a = _
    rw [uploads_byte]
    have : (q.enqueue_all calls).m_queued.reverse.find? (Transfer_entry.covers buffer a) =
        none := by
      rw [List.find?_eq_none]
      intro entry he
      rw [h entry (List.mem_reverse.1 he)]
      simp
    rw [this]
  · rw [hflush, hflush]
    rfl

section threads

/-- A step of any thread keeps the system consistent. -/
theorem step_consistent (t : Nat) (s : Queue_system) (h : s.consistent) :
    (s.step t).consistent := by
  obtain ⟨h1, h2, h3, h4⟩ := h
  have hupd : ∀ (x : Thread) (u : Nat), u ≠ t →
      (Function.update s.threads t x u) = s.threads u :=
    fun x u hu => Function.update_noteq hu _ _
  have hothers : s.m_mutex = some t → ∀ u, u ≠ t → (s.threads u).pc = Thread_pc.outside := by
    intro hm u hut
    by_contra hu
    have := h1 u hu
    rw [hm] at this
    injection this with this
    exact hut this.symm
  unfold Queue_system.consistent Queue_system.step
  cases hpc : (s.threads t).pc with
  | outside =>
    dsimp only
    cases hcalls : (s.threads t).calls with
    | nil => exact ⟨h1, h2, h3, h4⟩
    | cons call rest =>
      dsimp only
      cases hm : s.m_mutex with
      | some owner => exact ⟨h1, h2, h3, h4⟩
      | none =>
        dsimp only
        have hall : ∀ u, (s.threads u).pc = Thread_pc.outside := by
          intro u
          by_contra hu
          have := h1 u hu
          rw [hm] at this
          cases this
        refine ⟨?_, ?_, ?_, ?_⟩
        · intro u hu
          by_cases hut : u = t
          · rw [hut]
          · rw [hupd _ u hut] at hu
            exact absurd (hall u) hu
        · intro owner ho
          injection ho with ho
          subst ho
          rw [Function.update_same]
          cases call <;> simp
        · unfold Queue_system.pending at h3 ⊢
          rw [hm] at h3
          dsimp only at h3 ⊢
          rw [Function.update_same]
          cases call <;> simpa using h3
        · intro u hu
          by_cases hut : u = t
          · rw [hut, Function.update_same] at hu
            cases call <;> simp at hu
          · rw [hupd _ u hut, hall u] at hu
            cases hu
  | enqueue_locked entry =>
    dsimp only
    have hm : s.m_mutex = some t := h1 t (by rw [hpc]; simp)
    refine ⟨?_, ?_, ?_, ?_⟩
    · intro u hu
      by_cases hut : u = t
      · rw [hut]; exact hm
      · rw [hupd _ u hut] at hu
        exact h1 u hu
    · intro owner ho
      rw [hm] at ho
      injection ho with ho
      subst ho
      rw [Function.update_same]
      simp
    · unfold Queue_system.pending at h3 ⊢
      rw [hm] at h3 ⊢
      dsimp only at h3 ⊢
      rw [hpc] at h3
      rw [Function.update_same]
      dsimp only at h3 ⊢
      rw [← h3, List.append_assoc]
    · intro u hu
      by_cases hut : u = t
      · rw [hut, Function.update_same] at hu
        simp at hu
      · rw [hupd _ u hut, hothers hm u hut] at hu
        cases hu
  | enqueue_inserted =>
    dsimp only
    have hm : s.m_mutex = some t := h1 t (by rw [hpc]; simp)
    refine ⟨?_, ?_, ?_, ?_⟩
    · intro u hu
      by_cases hut : u = t
      · rw [hut, Function.update_same] at hu
        exact absurd rfl hu
      · rw [hupd _ u hut] at hu
        exact absurd (hothers hm u hut) hu
    · intro owner ho
      cases ho
    · unfold Queue_system.pending at h3 ⊢
      rw [hm] at h3
      dsimp only at h3 ⊢
      rw [hpc] at h3
      exact h3
    · intro u hu
      by_cases hut : u = t
      · rw [hut, Function.update_same] at hu
        simp at hu
      · rw [hupd _ u hut] at hu
        exact h4 u hu
  | flush_locked index =>
    dsimp only
    have hm : s.m_mutex = some t := h1 t (by rw [hpc]; simp)
    have h3a : s.copied ++ s.m_queued.drop index = s.enqueued := by
      unfold Queue_system.pending at h3
      rw [hm] at h3
      dsimp only at h3
      rw [hpc] at h3
      exact h3
    cases hget : s.m_queued.get? index with
    | some entry =>
      dsimp only
      refine ⟨?_, ?_, ?_, ?_⟩
      · intro u hu
        by_cases hut : u = t
        · rw [hut]; exact hm
        · rw [hupd _ u hut] at hu
          exact h1 u hu
      · intro owner ho
        rw [hm] at ho
        injection ho with ho
        subst ho
        rw [Function.update_same]
        simp
      · unfold Queue_system.pending
        rw [hm]
        dsimp only
        rw [Function.update_same]
        dsimp only
        rw [← h3a, List.append_assoc]
        congr 1
        have hlt : index < s.m_queued.length := (List.get?_eq_some.1 hget).1
        have hval : s.m_queued[index] = entry := by
          have := (List.get?_eq_some.1 hget).2
          simpa using this
        rw [List.drop_eq_getElem_cons hlt, hval]
        rfl
      · intro u hu
        by_cases hut : u = t
        · rw [hut, Function.update_same] at hu
          simp at hu
        · rw [hupd _ u hut] at hu
          exact h4 u hu
    | none =>
      dsimp only
      refine ⟨?_, ?_, ?_, ?_⟩
      · intro u hu
        by_cases hut : u = t
        · rw [hut]; exact hm
        · rw [hupd _ u hut] at hu
          exact h1 u hu
      · intro owner ho
        rw [hm] at ho
        injection ho with ho
        subst ho
        rw [Function.update_same]
        simp
      · unfold Queue_system.pending
        rw [hm]
        dsimp only
        rw [Function.update_same]
        dsimp only
        rw [← h3a]
        have hge : s.m_queued.length ≤ index := by
          rw [List.get?_eq_none] at hget
          exact hget
        rw [List.drop_eq_nil_of_le hge]
      · intro u _
        rfl
  | flush_cleared =>
    dsimp only
    have hm : s.m_mutex = some t := h1 t (by rw [hpc]; simp)
    have h3a : s.copied = s.enqueued := by
      unfold Queue_system.pending at h3
      rw [hm] at h3
      dsimp only at h3
      rw [hpc] at h3
      simpa using h3
    refine ⟨?_, ?_, ?_, ?_⟩
    · intro u hu
      by_cases hut : u = t
      · rw [hut, Function.update_same] at hu
        exact absurd rfl hu
      · rw [hupd _ u hut] at hu
        exact absurd (hothers hm u hut) hu
    · intro owner ho
      cases ho
    · unfold Queue_system.pending
      dsimp only
      rw [h4 t hpc, h3a]
      simp
    · intro u hu
      by_cases hut : u = t
      · rw [hut, Function.update_same] at hu
        simp at hu
      · rw [hupd _ u hut] at hu
        exact h4 u hu

theorem init_consistent (programs : Nat → List Queue_call) (queued : List Transfer_entry)
    (buffers : Buffers) : (Queue_system.init programs queued buffers).consistent := by
  refine ⟨?_, ?_, ?_, ?_⟩
  · intro u hu
    exact absurd rfl hu
  · intro owner ho
    cases ho
  · rfl
  · intro u hu
    cases hu

theorem run_consistent (schedule : List Nat) (s : Queue_system) (h : s.consistent) :
    (s.run schedule).consistent := by
  induction schedule generalizing s with
  | nil => exact h
  | cons t rest ih => exact ih (s.step t) (step_consistent t s h)

theorem pending_suffix (s : Queue_system) : s.pending <:+ s.m_queued := by
  unfold Queue_system.pending
  cases s.m_mutex with
  | none => exact List.suffix_refl _
  | some owner =>
    dsimp only
    cases (s.threads owner).pc with
    | flush_locked index => exact List.drop_suffix _ _
    | flush_cleared => exact List.nil_suffix
    | outside => exact List.suffix_refl _
    | enqueue_locked entry => exact List.suffix_refl _
    | enqueue_inserted => exact List.suffix_refl _

end threads

section calls

theorem flush_eq (q : Buffer_transfer_queue) (buffers : Buffers) :
    q.flush buffers = (q.m_queued.foldl upload buffers, { m_queued := [] }, q.m_queued) := by
  unfold Buffer_transfer_queue.flush
  simp only [flush_loop, List.nil_append]

theorem run_append (a b : List Nat) (s : Queue_system) :
    s.run (a ++ b) = (s.run a).run b := by
  unfold Queue_system.run
  rw [List.foldl_append]

/-- A thread that is outside while another one owns the mutex waits. -/
theorem step_wait (s : Queue_system) (t u : Nat) (hm : s.m_mutex = some t)
    (hu : (s.threads u).pc = Thread_pc.outside) : s.step u = s := by
  unfold Queue_system.step
  rw [hu]
  dsimp only
  cases (s.threads u).calls with
  | nil => rfl
  | cons call rest =>
    dsimp only
    rw [hm]

theorem run_wait (o : List Nat) (s : Queue_system) (t : Nat) (hm : s.m_mutex = some t)
    (hall : ∀ u, u ≠ t → (s.threads u).pc = Thread_pc.outside) (ho : t ∉ o) :
    s.run o = s := by
  induction o with
  | nil => rfl
  | cons u rest ih =>
    have hu : u ≠ t := fun e => ho (by rw [e]; exact List.mem_cons_self _ _)
    show (s.step u).run rest = s
    rw [step_wait s t u hm (hall u hu)]
    exact ih (fun h => ho (List.mem_cons_of_mem _ h))

/-- The buffers are the initial ones with the copied entries uploaded, in order. -/
theorem step_buffers (base : Buffers) (t : Nat) (s : Queue_system)
    (h : s.buffers = s.copied.foldl upload base) :
    (s.step t).buffers = (s.step t).copied.foldl upload base := by
  unfold Queue_system.step
  cases (s.threads t).pc with
  | outside =>
    dsimp only
    cases (s.threads t).calls with
    | nil => exact h
    | cons call rest =>
      dsimp only
      cases s.m_mutex with
      | some owner => exact h
      | none => exact h
  | enqueue_locked entry => exact h
  | enqueue_inserted => exact h
  | flush_locked index =>
    dsimp only
    cases s.m_queued.get? index with
    | some entry =>
      dsimp only
      rw [List.foldl_append, ← h]
      rfl
    | none => exact h
  | flush_cleared => exact h

theorem run_buffers (base : Buffers) (schedule : List Nat) (s : Queue_system)
    (h : s.buffers = s.copied.foldl upload base) :
    (s.run schedule).buffers = (s.run schedule).copied.foldl upload base := by
  induction schedule generalizing s with
  | nil => exact h
  | cons t rest ih => exact ih (s.step t) (step_buffers base t s h)

/-- The steps of an `enqueue` call of thread `t`, with steps of waiting threads in between,
amount to the call run as a whole. -/
theorem enqueue_atomic (s : Queue_system) (t : Nat) (entry : Transfer_entry)
    (rest : List Queue_call) (o1 o2 : List Nat)
    (hm : s.m_mutex = none) (hall : ∀ u, (s.threads u).pc = Thread_pc.outside)
    (hcalls : (s.threads t).calls = Queue_call.enqueue entry :: rest)
    (h1 : t ∉ o1) (h2 : t ∉ o2) :
    s.run (t :: ((o1 ++ [t]) ++ (o2 ++ [t]))) = s.atomic t := by
  have hothers : ∀ (x : Thread) (u : Nat), u ≠ t →
      ((Function.update s.threads t x) u).pc = Thread_pc.outside := by
    intro x u hu
    rw [Function.update_noteq hu]
    exact hall u
  have e1 : s.step t =
      { s with
        m_mutex := some t
        threads := Function.update s.threads t
          { pc := Thread_pc.enqueue_locked entry, calls := rest } } := by
    unfold Queue_system.step
    rw [hall t]
    dsimp only
    rw [hcalls]
    dsimp only
    rw [hm]
  have e2 : ({ s with
        m_mutex := some t
        threads := Function.update s.threads t
          { pc := Thread_pc.enqueue_locked entry, calls := rest } } : Queue_system).step t =
      { s with
        m_mutex := some t
        m_queued := s.m_queued ++ [entry]
        enqueued := s.enqueued ++ [entry]
        threads := Function.update s.threads t
          { pc := Thread_pc.enqueue_inserted, calls := rest } } := by
    unfold Queue_system.step
    simp only [Function.update_same, Function.update_idem]
  have e3 : ({ s with
        m_mutex := some t
        m_queued := s.m_queued ++ [entry]
        enqueued := s.enqueued ++ [entry]
        threads := Function.update s.threads t
          { pc := Thread_pc.enqueue_inserted, calls := rest } } : Queue_system).step t =
      s.atomic t := by
    unfold Queue_system.step Queue_system.atomic
    rw [hcalls]
    simp only [Function.update_same, Function.update_idem, Buffer_transfer_queue.enqueue]
    rw [hm]
  show (s.step t).run ((o1 ++ [t]) ++ (o2 ++ [t])) = s.atomic t
  rw [e1, run_append (o1 ++ [t]), run_append o1, run_wait o1 _ t rfl (hothers _) h1]
  show (Queue_system.run (o2 ++ [t]) (Queue_system.step t _)) = _
  rw [e2, run_append o2, run_wait o2 _ t rfl (hothers _) h2]
  exact e3

theorem flushing_wait (s : Queue_system) (t : Nat) (rest : List Queue_call) (index : Nat)
    (o : List Nat) (hall : ∀ u, (s.threads u).pc = Thread_pc.outside) (ho : t ∉ o) :
    (s.flushing t rest index).run o = s.flushing t rest index := by
  refine run_wait o _ t rfl ?_ ho
  intro u hu
  show ((Function.update s.threads t _) u).pc = Thread_pc.outside
  rw [Function.update_noteq hu]
  exact hall u

/-- One turn of the loop of `flush`: the next entry is copied. -/
theorem flushing_step (s : Queue_system) (t : Nat) (rest : List Queue_call) (index : Nat)
    (h : index < s.m_queued.length) :
    (s.flushing t rest index).step t = s.flushing t rest (index + 1) := by
  have hget : s.m_queued.get? index = some s.m_queued[index] := by
    rw [List.get?_eq_getElem?]
    exact List.getElem?_eq_getElem h
  have htake : s.m_queued.take (index + 1) = s.m_queued.take index ++ [s.m_queued[index]] := by
    rw [List.take_succ, List.getElem?_eq_getElem h]
    rfl
  unfold Queue_system.step Queue_system.flushing
  simp only [Function.update_same, Function.update_idem]
  rw [hget]
  simp only [htake, List.foldl_append, List.foldl_cons, List.foldl_nil, List.append_assoc]

/-- The turns of the loop of `flush`, with steps of waiting threads in between. -/
theorem flushing_run (s : Queue_system) (t : Nat) (rest : List Queue_call)
    (hall : ∀ u, (s.threads u).pc = Thread_pc.outside) (blocks : List (List Nat)) :
    ∀ index, index + blocks.length ≤ s.m_queued.length → (∀ o ∈ blocks, t ∉ o) →
      (s.flushing t rest index).run (blocks.flatMap (fun o => o ++ [t])) =
        s.flushing t rest (index + blocks.length) := by
  induction blocks with
  | nil =>
    intro index _ _
    rfl
  | cons o more ih =>
    intro index hlen ho
    rw [List.length_cons] at hlen
    rw [List.flatMap_cons, run_append, run_append,
      flushing_wait s t rest index o hall (ho o (List.mem_cons_self _ _))]
    show (Queue_system.run _ (Queue_system.step t _)) = _
    rw [flushing_step s t rest index (by omega),
      ih (index + 1) (by omega) (fun p hp => ho p (List.mem_cons_of_mem _ hp)),
      List.length_cons]
    congr 1
    omega

/-- The steps of a `flush` call of thread `t`, with steps of waiting threads in between,
amount to the call run as a whole. -/
theorem flush_atomic (s : Queue_system) (t : Nat) (rest : List Queue_call)
    (blocks : List (List Nat)) (o1 o2 : List Nat)
    (hm : s.m_mutex = none) (hall : ∀ u, (s.threads u).pc = Thread_pc.outside)
    (hcalls : (s.threads t).calls = Queue_call.flush :: rest)
    (hlen : blocks.length = s.m_queued.length) (ho : ∀ o ∈ blocks, t ∉ o)
    (h1 : t ∉ o1) (h2 : t ∉ o2) :
    s.run (t :: (blocks.flatMap (fun o => o ++ [t]) ++ ((o1 ++ [t]) ++ (o2 ++ [t])))) =
      s.atomic t := by
  have hothers : ∀ (x : Thread) (u : Nat), u ≠ t →
      ((Function.update s.threads t x) u).pc = Thread_pc.outside := by
    intro x u hu
    rw [Function.update_noteq hu]
    exact hall u
  have e1 : s.step t = s.flushing t rest 0 := by
    unfold Queue_system.step Queue_system.flushing
    rw [hall t]
    dsimp only
    rw [hcalls]
    dsimp only
    rw [hm]
    simp only [List.take_zero, List.foldl_nil, List.append_nil]
  have e2 : (s.flushing t rest s.m_queued.length).step t =
      { s with
        m_mutex := some t
        m_queued := []
        buffers := s.m_queued.foldl upload s.buffers
        copied := s.copied ++ s.m_queued
        threads := Function.update s.threads t
          { pc := Thread_pc.flush_cleared, calls := rest } } := by
    have hget : s.m_queued.get? s.m_queued.length = none := by
      rw [List.get?_eq_none]
    unfold Queue_system.step Queue_system.flushing
    simp only [Function.update_same, Function.update_idem]
    rw [hget]
    simp only [List.take_length]
  have e3 : ({ s with
        m_mutex := some t
        m_queued := []
        buffers := s.m_queued.foldl upload s.buffers
        copied := s.copied ++ s.m_queued
        threads := Function.update s.threads t
          { pc := Thread_pc.flush_cleared, calls := rest } } : Queue_system).step t =
      s.atomic t := by
    unfold Queue_system.step Queue_system.atomic
    rw [hcalls]
    simp only [Function.update_same, Function.update_idem, flush_eq]
    rw [hm]
  show (s.step t).run _ = s.atomic t
  rw [e1, run_append, flushing_run s t rest hall blocks 0 (by omega) ho, Nat.zero_add, hlen,
    run_append (o1 ++ [t]), run_append o1,
    flushing_wait s t rest _ o1 hall h1]
  show (Queue_system.run (o2 ++ [t]) (Queue_system.step t _)) = _
  rw [e2, run_append o2, run_wait o2 _ t rfl (hothers _) h2]
  exact e3

end calls

/-- C22. Threads call `enqueue` and `flush` on one queue, each method holding `m_mutex` from
its first to its last statement, and take their steps in any order (`schedule`; a thread that
finds the mutex locked waits). In every state `s` reached from the initial one: at most one
thread is inside either method, and it owns the mutex; while a thread is inside `flush` no
thread is inside `enqueue`, so the loop never reads a queue that an `emplace_back` is
changing; the entries inserted so far are, in insertion order, exactly the entries copied so
far followed by the entries that are still pending in the queue, so that every entry is either
copied once or pending once, none lost and none copied twice; the buffers are the initial
buffers with exactly the copied entries written by `memcpy`, in that order; and a step of a
thread other than the owner of the mutex changes nothing. When the mutex is free, a thread
`t` whose next call is `enqueue` completes it in three steps of its own, whatever steps the
other threads try in between (`o1`, `o2`), and the outcome is that of the call run alone: the
entry is appended to the queue and nothing is copied. A thread whose next call is `flush`
completes it in one step for the lock, one for every queued entry, one for `clear()` and one
for the unlock, whatever the others try in between (`blocks`, `o1`, `o2`), and the outcome is
that of `flush` run alone: every entry of the queue has been copied into its buffer, in
order, every entry inserted so far has then been copied exactly once, and the queue is
empty. -/
theorem buffer_transfer_queue_exclusive (programs : Nat → List Queue_call)
    (queued : List Transfer_entry) (buffers : Buffers) (schedule : List Nat) :
    ∃ s, s = (Queue_system.init programs queued buffers).run schedule ∧
    (∀ t u, (s.threads t).pc ≠ Thread_pc.outside → (s.threads u).pc ≠ Thread_pc.outside →
      t = u) ∧
    (∀ t, (s.threads t).pc ≠ Thread_pc.outside → s.m_mutex = some t) ∧
    (∀ t u, (s.threads t).pc.in_flush = true → (s.threads u).pc.in_enqueue = false) ∧
    s.copied ++ s.pending = s.enqueued ∧
    s.pending <:+ s.m_queued ∧
    (s.m_mutex = none → s.copied ++ s.m_queued = s.enqueued) ∧
    (∀ t, (s.threads t).pc = Thread_pc.flush_cleared →
      s.copied = s.enqueued ∧ s.m_queued = []) ∧
    (∀ entry, s.copied.count entry + s.pending.count entry = s.enqueued.count entry) ∧
    s.buffers = s.copied.foldl upload buffers ∧
    (∀ t u, s.m_mutex = some t → u ≠ t → s.step u = s) ∧
    (∀ t entry rest o1 o2, s.m_mutex = none →
      (s.threads t).calls = Queue_call.enqueue entry :: rest → t ∉ o1 → t ∉ o2 →
      s.run (t :: ((o1 ++ [t]) ++ (o2 ++ [t]))) = s.atomic t ∧
      (s.atomic t).m_mutex = none ∧
      (s.atomic t).m_queued = s.m_queued ++ [entry] ∧
      (s.atomic t).enqueued = s.enqueued ++ [entry] ∧
      (s.atomic t).copied = s.copied ∧
      (s.atomic t).buffers = s.buffers ∧
      (s.atomic t).threads t = { pc := Thread_pc.outside, calls := rest } ∧
      (∀ u, u ≠ t → (s.atomic t).threads u = s.threads u)) ∧
    (∀ t rest (blocks : List (List Nat)) o1 o2, s.m_mutex = none →
      (s.threads t).calls = Queue_call.flush :: rest →
      blocks.length = s.m_queued.length → (∀ o ∈ blocks, t ∉ o) → t ∉ o1 → t ∉ o2 →
      s.run (t :: (blocks.flatMap (fun o => o ++ [t]) ++ ((o1 ++ [t]) ++ (o2 ++ [t])))) =
        s.atomic t ∧
      (s.atomic t).m_mutex = none ∧
      (s.atomic t).m_queued = [] ∧
      (s.atomic t).enqueued = s.enqueued ∧
      (s.atomic t).copied = s.copied ++ s.m_queued ∧
      (s.atomic t).copied = s.enqueued ∧
      (s.atomic t).buffers = s.m_queued.foldl upload s.buffers ∧
      (s.atomic t).buffers = s.enqueued.foldl upload buffers ∧
      (∀ buffer a, (s.atomic t).buffers buffer a =
        match s.m_queued.reverse.find? (Transfer_entry.covers buffer a) with
        | some entry => entry.data.getD (a - entry.target_offset) 0
        | none => s.buffers buffer a) ∧
      (s.atomic t).threads t = { pc := Thread_pc.outside, calls := rest } ∧
      (∀ u, u ≠ t → (s.atomic t).threads u = s.threads u)) := by
  obtain ⟨h1, h2, h3, h4⟩ := run_consistent schedule _
    (init_consistent programs queued buffers)
  have hb := run_buffers buffers schedule (Queue_system.init programs queued buffers) rfl
  refine ⟨_, rfl, ?_⟩
  generalize (Queue_system.init programs queued buffers).run schedule = s at h1 h2 h3 h4 hb ⊢
  have hexcl : ∀ t u, (s.threads t).pc ≠ Thread_pc.outside →
      (s.threads u).pc ≠ Thread_pc.outside → t = u := by
    intro t u ht hu
    have a := h1 t ht
    have b := h1 u hu
    rw [a] at b
    injection b
  have hfree : s.m_mutex = none → s.copied ++ s.m_queued = s.enqueued := by
    intro hm
    unfold Queue_system.pending at h3
    rw [hm] at h3
    exact h3
  have hall : s.m_mutex = none → ∀ u, (s.threads u).pc = Thread_pc.outside := by
    intro hm u
    by_contra hu
    have := h1 u hu
    rw [hm] at this
    cases this
  refine ⟨hexcl, h1, ?_, h3, pending_suffix s, hfree, ?_, ?_, hb, ?_, ?_, ?_⟩
  · intro t u ht
    by_contra hu
    have e : t = u := hexcl t u
      (by intro e; rw [e] at ht; cases ht)
      (by intro e; rw [e] at hu; exact hu rfl)
    subst e
    cases hpc : (s.threads t).pc <;> rw [hpc] at ht hu <;>
      simp [Thread_pc.in_flush, Thread_pc.in_enqueue] at ht hu
  · intro t ht
    have hm := h1 t (by rw [ht]; simp)
    unfold Queue_system.pending at h3
    rw [hm] at h3
    dsimp only at h3
    rw [ht] at h3
    exact ⟨by simpa using h3, h4 t ht⟩
  · intro entry
    rw [← h3, List.count_append]
  · intro t u hm hu
    refine step_wait s t u hm ?_
    by_contra hpc
    have := h1 u hpc
    rw [hm] at this
    injection this with this
    exact hu this.symm
  · intro t entry rest o1 o2 hm hcalls ho1 ho2
    refine ⟨enqueue_atomic s t entry rest o1 o2 hm (hall hm) hcalls ho1 ho2, ?_⟩
    unfold Queue_system.atomic
    rw [hcalls]
    refine ⟨hm, rfl, rfl, rfl, rfl, Function.update_same _ _ _, ?_⟩
    intro u hu
    exact Function.update_noteq hu _ _
  · intro t rest blocks o1 o2 hm hcalls hlen ho ho1 ho2
    refine ⟨flush_atomic s t rest blocks o1 o2 hm (hall hm) hcalls hlen ho ho1 ho2, ?_⟩
    unfold Queue_system.atomic
    rw [hcalls]
    rw [flush_eq]
    refine ⟨hm, rfl, rfl, rfl, hfree hm, rfl, ?_, ?_, Function.update_same _ _ _, ?_⟩
    · rw [← hfree hm, List.foldl_append, ← hb]
    · intro buffer a
      exact uploads_byte _ s.buffers buffer a
    · intro u hu
      exact Function.update_noteq hu _ _

/-- A worker thread `0` enqueues one entry and has a second `enqueue` to make; the render thread
`1` then flushes while the worker tries to enter: the flush copies the entry into its buffer,
empties the queue, and the worker has waited. -/
theorem buffer_transfer_queue_exclusive_witness :
    (((Queue_system.init sample.queue_programs [] (fun _ _ => 0)).run [0, 1, 0, 0]).run
        (1 :: ([[0]].flatMap (fun o => o ++ [1]) ++ (([0] ++ [1]) ++ ([] ++ [1]))))).copied =
      [{ target := 5, target_offset := 2, data := [7, 8] }] ∧
    (((Queue_system.init sample.queue_programs [] (fun _ _ => 0)).run [0, 1, 0, 0]).run
        (1 :: ([[0]].flatMap (fun o => o ++ [1]) ++ (([0] ++ [1]) ++ ([] ++ [1]))))).m_queued =
      [] ∧
    (((Queue_system.init sample.queue_programs [] (fun _ _ => 0)).run [0, 1, 0, 0]).run
        (1 :: ([[0]].flatMap (fun o => o ++ [1]) ++ (([0] ++ [1]) ++ ([] ++ [1]))))).buffers
      5 3 = 8 ∧
    ((((Queue_system.init sample.queue_programs [] (fun _ _ => 0)).run [0, 1, 0, 0]).run
        (1 :: ([[0]].flatMap (fun o => o ++ [1]) ++ (([0] ++ [1]) ++ ([] ++ [1]))))).threads
      0).calls = [Queue_call.enqueue { target := 6, target_offset := 0, data := [9] }] := by
  obtain ⟨s, hs, -, -, -, -, -, -, -, -, -, -, -, hflush⟩ :=
    buffer_transfer_queue_exclusive sample.queue_programs [] (fun _ _ => 0) [0, 1, 0, 0]
  subst hs
  obtain ⟨e, -, hq, -, hc, -, hbuf, -, -, -, hu⟩ :=
    hflush 1 [] [[0]] [0] [] rfl rfl rfl (by decide) (by decide) (by decide)
  rw [e]
  refine ⟨?_, hq, ?_, ?_⟩
  · rw [hc]
    rfl
  · rw [hbuf]
    decide
  · rw [hu 0 (by decide)]
    rfl

/-- An interleaving of a worker thread `0` that enqueues one entry and a render thread `1`
that flushes: the render thread first finds the mutex locked and waits; after the worker has
left `enqueue`, the flush copies the entry, clears the queue and releases the mutex. -/
theorem queue_system_interleaving :
    ((Queue_system.init
        (fun t =>
          if t = 0 then [Queue_call.enqueue { target := 5, target_offset := 2, data := [7, 8] }]
          else if t = 1 then [Queue_call.flush] else [])
        [] (fun _ _ => 0)).run [0, 1, 0, 0, 1, 1, 1, 1]).copied =
      [{ target := 5, target_offset := 2, data := [7, 8] }] ∧
    ((Queue_system.init
        (fun t =>
          if t = 0 then [Queue_call.enqueue { target := 5, target_offset := 2, data := [7, 8] }]
          else if t = 1 then [Queue_call.flush] else [])
        [] (fun _ _ => 0)).run [0, 1, 0, 0, 1, 1, 1, 1]).m_queued = [] ∧
    ((Queue_system.init
        (fun t =>
          if t = 0 then [Queue_call.enqueue { target := 5, target_offset := 2, data := [7, 8] }]
          else if t = 1 then [Queue_call.flush] else [])
        [] (fun _ _ => 0)).run [0, 1, 0, 0, 1, 1, 1, 1]).m_mutex = none ∧
    ((Queue_system.init
        (fun t =>
          if t = 0 then [Queue_call.enqueue { target := 5, target_offset := 2, data := [7, 8] }]
          else if t = 1 then [Queue_call.flush] else [])
        [] (fun _ _ => 0)).run [0, 1, 0, 0, 1, 1, 1, 1]).buffers 5 3 = 8 := by
  refine ⟨?_, ?_, ?_, ?_⟩ <;> decide

end erhe.graphics

/-! ## The vertex writer of the line renderer -/

namespace erhe.application

open erhe.toolkit

/-- One `add_lines` call inside `begin()` ... `end()` whose lines fit into the span when
written from word `0`: the call returns, the cursor and the line count advance, and nothing
else of the renderer changes. -/
theorem add_lines_fits (stride byte_count thickness : Nat) (color : Vec4)
    (project : Vec3 → Vec3) (lines : List Line) (s : Line_renderer × (Nat → Nat))
    (hinside : s.1.m_inside_begin_end = true) (hfit : lines.length * 16 ≤ byte_count / 4) :
    ∃ s1, Line_renderer.add_lines stride byte_count thickness color project lines s = .ok s1 ∧
      s1.1.m_inside_begin_end = true ∧
      s1.1.m_vertex_writer.write_end = s.1.m_vertex_writer.write_end ∧
      s1.1.m_vertex_writer.write_offset =
        s.1.m_vertex_writer.write_offset + lines.length * 2 * stride ∧
      s1.1.m_line_count = s.1.m_line_count + lines.length := by
  have hstore : ∀ (values : List Nat) (data : Nat → Nat) (offset : Nat),
      offset + values.length ≤ byte_count / 4 →
      ∃ data1, span_store_all (byte_count / 4) values (data, offset) =
        .ok (data1, offset + values.length) := by
    intro values
    induction values with
    | nil => intro data offset _; exact ⟨data, rfl⟩
    | cons value values ih =>
      intro data offset h
      simp only [List.length_cons] at h
      obtain ⟨data1, h1⟩ := ih (Function.update data offset value) (offset + 1) (by omega)
      refine ⟨data1, ?_⟩
      rw [span_store_all, span_store, if_pos (by omega)]
      simp only [h1, List.length_cons]
      congr 2
      omega
  have hput : ∀ (lines : List Line) (data : Nat → Nat) (offset : Nat),
      offset + lines.length * 16 ≤ byte_count / 4 →
      ∃ data1, Line_renderer.put_lines thickness color project (byte_count / 4) lines
        (data, offset) = .ok (data1, offset + lines.length * 16) := by
    intro lines
    induction lines with
    | nil => intro data offset _; exact ⟨data, rfl⟩
    | cons line lines ih =>
      intro data offset h
      simp only [List.length_cons] at h
      obtain ⟨data1, h1⟩ := hstore
        [(project line.p0).x, (project line.p0).y, (project line.p0).z, thickness,
          color.r, color.g, color.b, color.a] data offset
        (by simp only [List.length_cons, List.length_nil]; omega)
      obtain ⟨data2, h2⟩ := hstore
        [(project line.p1).x, (project line.p1).y, (project line.p1).z, thickness,
          color.r, color.g, color.b, color.a] data1 (offset + 8)
        (by simp only [List.length_cons, List.length_nil]; omega)
      obtain ⟨data3, h3⟩ := ih data2 (offset + 16) (by omega)
      refine ⟨data3, ?_⟩
      simp only [List.length_cons, List.length_nil] at h1 h2
      rw [Line_renderer.put_lines, Line_renderer.put, h1]
      simp only [Line_renderer.put, h2, h3, List.length_cons]
      congr 2
      omega
  obtain ⟨data1, h1⟩ := hput lines s.2 0 (by omega)
  refine ⟨({ s.1 with
      m_vertex_writer :=
        { s.1.m_vertex_writer with
          write_offset := s.1.m_vertex_writer.write_offset + lines.length * 2 * stride }
      m_line_count := s.1.m_line_count + lines.length }, data1), ?_, hinside, rfl, rfl, rfl⟩
  rw [Line_renderer.add_lines, hinside]
  simp only [Bool.not_true, Bool.false_eq_true, if_false, h1]

/-- A sequence of `add_lines` calls inside `begin()` ... `end()`, each of which fits into the
span when written from word `0`: every call returns and the cursor has advanced by the sum
of the sizes, whatever `write_end` is. -/
theorem add_lines_calls_fit (stride byte_count thickness : Nat) (color : Vec4)
    (project : Vec3 → Vec3) (calls : List (List Line))
    (hfit : ∀ lines ∈ calls, lines.length * 16 ≤ byte_count / 4) :
    ∀ s : Line_renderer × (Nat → Nat), s.1.m_inside_begin_end = true →
    ∃ s1, Line_renderer.add_lines_calls stride byte_count thickness color project calls s =
        .ok s1 ∧
      s1.1.m_vertex_writer.write_end = s.1.m_vertex_writer.write_end ∧
      s1.1.m_vertex_writer.write_offset =
        s.1.m_vertex_writer.write_offset + (calls.map List.length).sum * 2 * stride ∧
      s1.1.m_line_count = s.1.m_line_count + (calls.map List.length).sum := by
  induction calls with
  | nil =>
    intro s _
    exact ⟨s, rfl, rfl, by simp, by simp⟩
  | cons lines calls ih =>
    intro s hinside
    obtain ⟨s1, h1, h2, h3, h4, h5⟩ := add_lines_fits stride byte_count thickness color project
      lines s hinside (hfit lines (List.mem_cons_self _ _))
    obtain ⟨s2, h6, h7, h8, h9⟩ := ih (fun l hl => hfit l (List.mem_cons_of_mem _ hl)) s1 h2
    refine ⟨s2, ?_, ?_, ?_, ?_⟩
    · rw [Line_renderer.add_lines_calls, h1]
      exact h6
    · rw [h7, h3]
    · rw [h8, h4]
      simp only [List.map_cons, List.sum_cons]
      ring
    · rw [h9, h5]
      simp only [List.map_cons, List.sum_cons]
      ring

/-- C24. With the stride `32` of the line vertex format, between `begin()` and `end()`,
`262145` calls of `add_lines` with one line each all return, every vertex is written inside
the mapped span (each call writes from word `0`), the line count is `262145`, and the cursor
`write_offset = 16777280` is past `write_end = 16777216`, the capacity of the vertex buffer of
`512 * 1024` vertices. -/
theorem line_renderer_add_lines_exceeds_write_end :
    ∃ r s1,
      Line_renderer.begin (vertex_buffer_capacity 32) sample.line_renderer = .ok r ∧
      r.m_vertex_writer.write_offset = 0 ∧
      r.m_vertex_writer.write_end = vertex_buffer_capacity 32 ∧
      Line_renderer.add_lines_calls 32 (vertex_buffer_capacity 32) 0x3f800000 sample.white id
        (List.replicate 262145 [sample.line]) (r, fun _ => 0) = .ok s1 ∧
      s1.1.m_line_count = 262145 ∧
      s1.1.m_vertex_writer.write_end = 16777216 ∧
      s1.1.m_vertex_writer.write_offset = 16777280 ∧
      ¬ s1.1.m_vertex_writer.write_offset ≤ s1.1.m_vertex_writer.write_end := by
  have hcap : vertex_buffer_capacity 32 = 16777216 := by
    simp [vertex_buffer_capacity, vertex_count]
  have hsum : ((List.replicate 262145 [sample.line]).map List.length).sum = 262145 := by
    rw [List.map_replicate, List.sum_replicate]
    rfl
  obtain ⟨s1, h1, h2, h3, h4⟩ := add_lines_calls_fit 32 (vertex_buffer_capacity 32) 0x3f800000
    sample.white id (List.replicate 262145 [sample.line])
    (by
      intro lines hlines
      rw [List.eq_of_mem_replicate hlines, hcap]
      decide)
    ({ sample.line_renderer with
        m_vertex_writer := sample.line_renderer.m_vertex_writer.begin
          (vertex_buffer_capacity 32) 0
        m_line_count := 0
        m_inside_begin_end := true }, fun _ => 0) rfl
  rw [hsum] at h3 h4
  refine ⟨_, s1, rfl, rfl, rfl, h1, ?_, ?_, ?_, ?_⟩
  · rw [h4]
  · rw [h2]
    exact hcap
  · rw [h3]
    rfl
  · rw [h3, h2]
    show ¬ (0 + 262145 * 2 * 32 ≤ vertex_buffer_capacity 32)
    rw [hcap]
    decide

end erhe.application

/-! ## The remapper -/

namespace erhe.geometry

open erhe.toolkit

theorem entry_swap_exchange (entry : Entry) (a b : Nat) (h : a ≠ b) :
    entry.swap b a =
      { primary := exchange a b entry.primary, secondary := exchange a b entry.secondary } := by
  unfold Entry.swap exchange
  congr 1
  · by_cases h1 : entry.primary = a
    · rw [if_pos h1, if_neg (by rw [h1]; exact h), if_pos h1]
    · simp only [if_neg h1]
  · by_cases h1 : entry.secondary = a
    · rw [if_pos h1, if_neg (by rw [h1]; exact h), if_pos h1]
    · simp only [if_neg h1]

theorem eliminate_swap_exchange (a b id : Nat) (h : a ≠ b) :
    (if id = b then a else if id = a then b else id) = exchange a b id := by
  unfold exchange
  by_cases h1 : id = a
  · rw [if_pos h1, if_neg (by rw [h1]; exact h), if_pos h1]
  · simp only [if_neg h1]

theorem exchange_eq_swap (a b x : Nat) : exchange a b x = Equiv.swap a b x := by
  unfold exchange
  rw [Equiv.swap_apply_def]

/-- What `swap` does, for two different ids. -/
theorem swap_eq (r : Remapper) (a b : Nat) (h : a ≠ b) :
    r.swap a b = .ok { r with
      old_from_new := fun x => r.old_from_new (exchange a b x)
      new_from_old := fun y =>
        r.new_from_old (exchange (r.old_from_new a) (r.old_from_new b) y)
      merge := r.merge.map (fun entry =>
        { primary := exchange a b entry.primary
          secondary := exchange a b entry.secondary })
      eliminate := r.eliminate.map (exchange a b) } := by
  unfold Remapper.swap
  rw [if_neg h]
  dsimp only
  congr 2
  · funext x
    unfold exchange
    by_cases hb : x = b
    · subst hb
      rw [Function.update_same, if_neg (Ne.symm h), if_pos rfl]
    · rw [Function.update_noteq hb]
      by_cases ha : x = a
      · subst ha
        rw [Function.update_same, if_pos rfl]
      · rw [Function.update_noteq ha, if_neg ha, if_neg hb]
  · funext y
    unfold exchange
    by_cases hb : y = r.old_from_new b
    · subst hb
      rw [Function.update_same]
      by_cases hab : r.old_from_new b = r.old_from_new a
      · rw [if_pos hab, hab]
      · rw [if_neg hab, if_pos rfl]
    · rw [Function.update_noteq hb]
      by_cases ha : y = r.old_from_new a
      · subst ha
        rw [Function.update_same, if_pos rfl]
      · rw [Function.update_noteq ha, if_neg ha, if_neg hb]
  · exact List.map_congr_left (fun entry _ => entry_swap_exchange entry a b h)
  · exact List.map_congr_left (fun id _ => eliminate_swap_exchange a b id h)

/-- C27. If `old_from_new` and `new_from_old` are mutually inverse permutations of `[0, n)`
and `a`, `b` are different ids below `n`, then `swap(a, b)` returns, the two maps are still
mutually inverse permutations of `[0, n)`, `old_from_new` has the entries at `a` and `b`
exchanged and all others as before, every merge entry id and every eliminate id that was `a`
is `b` and vice versa while all other ids are unchanged, and nothing else changes; with equal
ids the `ERHE_VERIFY` stops the process; and `Remapper(n)` is constructed with `old_from_new`
the identity on `[0, n)`. -/
theorem remapper_swap_bijective (r : Remapper) (n a b : Nat) (hr : r.bijective n)
    (hab : a ≠ b) (ha : a < n) (hb : b < n) :
    (∃ r1, r.swap a b = .ok r1 ∧ r1.bijective n ∧
      r1.old_from_new a = r.old_from_new b ∧ r1.old_from_new b = r.old_from_new a ∧
      (∀ x, x ≠ a → x ≠ b → r1.old_from_new x = r.old_from_new x) ∧
      r1.merge = r.merge.map (fun entry =>
        { primary := exchange a b entry.primary
          secondary := exchange a b entry.secondary }) ∧
      r1.eliminate = r.eliminate.map (exchange a b) ∧
      exchange a b a = b ∧ exchange a b b = a ∧
      (∀ x, x ≠ a → x ≠ b → exchange a b x = x) ∧
      r1.new_end = r.new_end ∧ r1.new_size = r.new_size ∧ r1.old_size = r.old_size ∧
      r1.old_used = r.old_used) ∧
    r.swap a a = .error Fault.verify_failed ∧
    (∀ x, x < n → (Remapper.make n).old_from_new x = x) := by
  have hex_a : exchange a b a = b := by simp [exchange]
  have hex_b : exchange a b b = a := by simp [exchange, Ne.symm hab]
  have hex_o : ∀ x, x ≠ a → x ≠ b → exchange a b x = x := by
    intro x h1 h2
    simp [exchange, h1, h2]
  have hinj : ∀ x y, x < n → y < n → r.old_from_new x = r.old_from_new y → x = y := by
    intro x y hx hy h
    rw [← (hr.1 x hx).2, ← (hr.1 y hy).2, h]
  have hlt : ∀ x, x < n → exchange a b x < n := by
    intro x hx
    unfold exchange
    split_ifs <;> assumption
  have hinv : ∀ x, exchange a b (exchange a b x) = x := by
    intro x
    rw [exchange_eq_swap, exchange_eq_swap, Equiv.swap_apply_self]
  refine ⟨⟨_, swap_eq r a b hab, ⟨?_, ?_⟩, ?_, ?_, ?_, rfl, rfl, hex_a, hex_b, hex_o, rfl, rfl,
    rfl, rfl⟩, ?_, ?_⟩
  · intro x hx
    refine ⟨(hr.1 _ (hlt x hx)).1, ?_⟩
    show r.new_from_old (exchange (r.old_from_new a) (r.old_from_new b)
      (r.old_from_new (exchange a b x))) = x
    by_cases h1 : x = a
    · subst h1
      rw [hex_a]
      have : exchange (r.old_from_new x) (r.old_from_new b) (r.old_from_new b) =
          r.old_from_new x := by
        unfold exchange
        by_cases h : r.old_from_new b = r.old_from_new x
        · rw [if_pos h, h]
        · rw [if_neg h, if_pos rfl]
      rw [this]
      exact (hr.1 x hx).2
    · by_cases h2 : x = b
      · subst h2
        rw [hex_b]
        have : exchange (r.old_from_new a) (r.old_from_new x) (r.old_from_new a) =
            r.old_from_new x := by
          unfold exchange
          rw [if_pos rfl]
        rw [this]
        exact (hr.1 x hx).2
      · rw [hex_o x h1 h2]
        have : exchange (r.old_from_new a) (r.old_from_new b) (r.old_from_new x) =
            r.old_from_new x := by
          unfold exchange
          rw [if_neg (fun h => h1 (hinj x a hx ha h)), if_neg (fun h => h2 (hinj x b hx hb h))]
        rw [this]
        exact (hr.1 x hx).2
  · intro y hy
    show r.new_from_old (exchange (r.old_from_new a) (r.old_from_new b) y) < n ∧
      r.old_from_new (exchange a b
        (r.new_from_old (exchange (r.old_from_new a) (r.old_from_new b) y))) = y
    by_cases h1 : y = r.old_from_new a
    · have e : exchange (r.old_from_new a) (r.old_from_new b) y = r.old_from_new b := by
        unfold exchange
        rw [if_pos h1]
      rw [e, (hr.1 b hb).2, hex_b]
      exact ⟨hb, h1.symm⟩
    · by_cases h2 : y = r.old_from_new b
      · have e : exchange (r.old_from_new a) (r.old_from_new b) y = r.old_from_new a := by
          unfold exchange
          rw [if_neg h1, if_pos h2]
        rw [e, (hr.1 a ha).2, hex_a]
        exact ⟨ha, h2.symm⟩
      · have e : exchange (r.old_from_new a) (r.old_from_new b) y = y := by
          unfold exchange
          rw [if_neg h1, if_neg h2]
        rw [e]
        have hy1 := hr.2 y hy
        have hna : r.new_from_old y ≠ a := fun h => h1 (by rw [← h, hy1.2])
        have hnb : r.new_from_old y ≠ b := fun h => h2 (by rw [← h, hy1.2])
        rw [hex_o _ hna hnb]
        exact hy1
  · show r.old_from_new (exchange a b a) = _
    rw [hex_a]
  · show r.old_from_new (exchange a b b) = _
    rw [hex_b]
  · intro x h1 h2
    show r.old_from_new (exchange a b x) = _
    rw [hex_o x h1 h2]
  · unfold Remapper.swap
    rw [if_pos rfl]
  · intro x hx
    show (if x < n then x else 0) = x
    rw [if_pos hx]

end erhe.geometry

namespace erhe.geometry

open erhe.toolkit

/-- Witness for C27: in the remapper for three elements with identity maps, `swap(0, 2)`
exchanges the old elements at the new ids `0` and `2`. -/
theorem remapper_swap_bijective_witness :
    sample.remapper.bijective 3 ∧
    ∃ r1, sample.remapper.swap 0 2 = .ok r1 ∧ r1.bijective 3 ∧ r1.old_from_new 0 = 2 ∧
      r1.old_from_new 2 = 0 ∧ r1.old_from_new 1 = 1 := by
  have hr : sample.remapper.bijective 3 := by
    unfold Remapper.bijective
    decide
  obtain ⟨⟨r1, h1, h2, h3, h4, h5, _⟩, _, _⟩ :=
    remapper_swap_bijective sample.remapper 3 0 2 hr (by decide) (by decide) (by decide)
  exact ⟨hr, r1, h1, h2, h3, h4, h5 1 (by decide) (by decide)⟩

/-- C25. Evaluated on the remapper for three elements with identity maps in which only the old
element `2` is used: `reorder_to_drop_unused()` returns with `new_end = 0` although one element
is used, and the used element has the new id `1`, which is not below `new_end`, so a used
element is dropped; the two maps are still mutually inverse permutations. -/
theorem remapper_reorder_to_drop_unused_drops_used :
    sample.remapper.bijective 3 ∧
    sample.remapper.old_used 2 = true ∧
    ∃ r1, sample.remapper.reorder_to_drop_unused = .ok r1 ∧
      r1.new_end = 0 ∧ r1.new_from_old 2 = 1 ∧ r1.old_from_new 1 = 2 ∧
      ¬ r1.new_from_old 2 < r1.new_end ∧
      ((List.range 3).filter r1.old_used).length = 1 ∧
      r1.bijective 3 := by
  refine ⟨?_, rfl, _, rfl, rfl, rfl, rfl, ?_, rfl, ?_⟩
  · unfold Remapper.bijective
    decide
  · decide
  · unfold Remapper.bijective
    decide

end erhe.geometry

namespace erhe.geometry

open erhe.toolkit

theorem perm_lt (n : Nat) (p : Equiv.Perm Nat) (hp : ∀ x, n ≤ x → p x = x) (x : Nat)
    (hx : x < n) : p x < n := by
  by_contra h
  have h2 := hp (p x) (Nat.le_of_not_lt h)
  have h3 := p.injective h2
  omega

theorem perm_symm_fixed (n : Nat) (p : Equiv.Perm Nat) (hp : ∀ x, n ≤ x → p x = x) :
    ∀ x, n ≤ x → p.symm x = x := by
  intro x hx
  rw [Equiv.symm_apply_eq]
  exact (hp x hx).symm

/-- One run of the statements that move an id behind `new_end`: the element at `s` joins the
dropped ones. -/
theorem reordered_step (n : Nat) (merge : List Entry) (eliminate dropped : List Nat)
    (r : Remapper) (s : Nat) (h : r.reordered n merge eliminate dropped) (hs : s < n)
    (hS : r.old_from_new s ∉ dropped) :
    ∃ r1, r.drop_new_id false s = .ok r1 ∧
      r1.reordered n merge eliminate (dropped ++ [r.old_from_new s]) := by
  obtain ⟨p, hp, hf, hm, he, hend, hd, hk⟩ := h
  have hps : p s = r.old_from_new s := (hf s hs).symm
  have hsk : s < r.new_end := by
    by_contra hne
    exact hS (hps ▸ hd s (Nat.le_of_not_lt hne) hs)
  obtain ⟨k, hk1⟩ : ∃ k, r.new_end = k + 1 := ⟨r.new_end - 1, by omega⟩
  have hkn : k < n := by omega
  have hnext : r.get_next_end false = .ok (k, { r with new_end := k }) := by
    unfold Remapper.get_next_end
    rw [hk1]
    simp [Remapper.get_next_end_from]
  unfold Remapper.drop_new_id
  rw [if_neg (by omega), hnext]
  dsimp only
  by_cases hsk2 : s = k
  · rw [if_pos hsk2]
    refine ⟨_, rfl, p, hp, hf, hm, he, ?_, ?_, ?_⟩
    · show k + (dropped ++ [r.old_from_new s]).length = n
      simp only [List.length_append, List.length_cons, List.length_nil]
      omega
    · intro x hx hxn
      show p x ∈ dropped ++ [r.old_from_new s]
      rw [List.mem_append]
      by_cases hxk : x = k
      · right
        rw [hxk, ← hsk2, hps]
        exact List.mem_singleton_self _
      · left
        exact hd x (by
          have : k ≤ x := hx
          omega) hxn
    · intro d hd1
      show k ≤ p.symm d
      rw [List.mem_append] at hd1
      rcases hd1 with hd1 | hd1
      · have := hk d hd1
        omega
      · rw [List.mem_singleton] at hd1
        rw [hd1, ← hps, Equiv.symm_apply_apply]
        omega
  · rw [if_neg hsk2, swap_eq _ s k hsk2]
    have hex : ∀ x, exchange s k x = Equiv.swap s k x := exchange_eq_swap s k
    refine ⟨_, rfl, (Equiv.swap s k).trans p, ?_, ?_, ?_, ?_, ?_, ?_, ?_⟩
    · intro x hx
      rw [Equiv.trans_apply, Equiv.swap_apply_of_ne_of_ne (by omega) (by omega)]
      exact hp x hx
    · intro x hx
      show r.old_from_new (exchange s k x) = _
      rw [Equiv.trans_apply, hex]
      apply hf
      rw [Equiv.swap_apply_def]
      split_ifs <;> assumption
    · show r.merge.map _ = _
      rw [hm, List.map_map]
      apply List.map_congr_left
      intro entry _
      simp only [Function.comp_apply, hex, Equiv.symm_trans_apply, Equiv.symm_swap]
    · show r.eliminate.map _ = _
      rw [he, List.map_map]
      apply List.map_congr_left
      intro id _
      simp only [Function.comp_apply, hex, Equiv.symm_trans_apply, Equiv.symm_swap]
    · show k + (dropped ++ [r.old_from_new s]).length = n
      simp only [List.length_append, List.length_cons, List.length_nil]
      omega
    · intro x hx hxn
      show ((Equiv.swap s k).trans p) x ∈ dropped ++ [r.old_from_new s]
      rw [List.mem_append, Equiv.trans_apply]
      by_cases hxk : x = k
      · right
        rw [hxk, Equiv.swap_apply_right, hps]
        exact List.mem_singleton_self _
      · left
        have hx1 : k ≤ x := hx
        rw [Equiv.swap_apply_of_ne_of_ne (by omega) hxk]
        exact hd x (by omega) hxn
    · intro d hd1
      show k ≤ ((Equiv.swap s k).trans p).symm d
      rw [Equiv.symm_trans_apply, Equiv.symm_swap]
      rw [List.mem_append] at hd1
      rcases hd1 with hd1 | hd1
      · have := hk d hd1
        rw [Equiv.swap_apply_of_ne_of_ne (by omega) (by omega)]
        omega
      · rw [List.mem_singleton] at hd1
        rw [hd1, ← hps, Equiv.symm_apply_apply, Equiv.swap_apply_left]

/-- A loop that moves the elements `ids[base]`, `ids[base + 1]`, ... behind `new_end`, reading
the new id of each from the remapper. -/
theorem drop_loop (n : Nat) (merge : List Entry) (eliminate ids : List Nat)
    (hnodup : ids.Nodup) (read : Remapper → Nat → Nat) (base limit : Nat)
    (hlimit : base + limit ≤ ids.length)
    (hread : ∀ r dropped i old, r.reordered n merge eliminate dropped → i < limit →
      ids.get? (base + i) = some old →
      read r i < n ∧ r.old_from_new (read r i) = old) :
    ∀ count i r, i + count ≤ limit →
      r.reordered n merge eliminate (ids.take (base + i)) →
      ∃ r1, for_each_index (fun i r => r.drop_new_id false (read r i)) i count r = .ok r1 ∧
        r1.reordered n merge eliminate (ids.take (base + i + count)) := by
  intro count
  induction count with
  | zero =>
    intro i r _ h
    exact ⟨r, rfl, h⟩
  | succ count ih =>
    intro i r hlen h
    have hlt : base + i < ids.length := by omega
    have hget : ids.get? (base + i) = some (ids.get ⟨base + i, hlt⟩) := List.get?_eq_get hlt
    have hget1 : ids[base + i]? = some (ids.get ⟨base + i, hlt⟩) := by
      rw [← List.get?_eq_getElem?]
      exact hget
    obtain ⟨h1, h2⟩ := hread r _ i _ h (by omega) hget
    have hnot : r.old_from_new (read r i) ∉ ids.take (base + i) := by
      rw [h2]
      intro hmem
      have hnd : (ids.take (base + i + 1)).Nodup := hnodup.sublist (List.take_sublist _ _)
      rw [List.take_succ, hget1] at hnd
      simp only [Option.toList] at hnd
      exact (List.nodup_append.1 hnd).2.2 hmem (List.mem_singleton_self _)
    obtain ⟨r1, h3, h4⟩ := reordered_step n merge eliminate _ r (read r i) h h1 hnot
    have h5 : ids.take (base + i) ++ [r.old_from_new (read r i)] =
        ids.take (base + (i + 1)) := by
      rw [show base + (i + 1) = base + i + 1 by omega, List.take_succ, hget1, h2]
      rfl
    rw [h5] at h4
    obtain ⟨r2, h6, h7⟩ := ih (i + 1) r1 (by omega) h4
    refine ⟨r2, ?_, ?_⟩
    · rw [for_each_index, h3]
      exact h6
    · rw [show base + i + (count + 1) = base + (i + 1) + count by omega]
      exact h7

end erhe.geometry

namespace erhe.geometry

open erhe.toolkit

/-- A remapper made for `n` elements, with its merge entries and eliminate list, before any
element is dropped. -/
theorem reordered_make (n : Nat) (merge : List Entry) (eliminate : List Nat) :
    ({ Remapper.make n with merge := merge, eliminate := eliminate }).reordered n merge
      eliminate [] := by
  refine ⟨Equiv.refl _, fun _ _ => rfl, ?_, ?_, ?_, rfl, ?_, ?_⟩
  · intro x hx
    show (if x < n then x else 0) = x
    rw [if_pos hx]
  · show merge = _
    simp
  · show eliminate = _
    simp
  · intro x hx hxn
    have : n ≤ x := hx
    omega
  · intro d hd
    simp at hd

/-- C26. Take a freshly constructed `Remapper(n)` with merge entries and an eliminate list
whose ids are below `n`, where the secondaries and the eliminated ids are pairwise distinct
and no primary is among them. Then `reorder_to_drop_merge_duplicates_and_elimitated()`
returns, and afterwards `old_from_new` is a permutation of `[0, n)`, `new_end` plus the number
of merge entries plus the number of eliminated ids is `n`, every entry's secondary and every
eliminated id is at least `new_end` (and below `n`), every entry's primary is below
`new_end`, and each entry and each eliminated id designates the same old element as before the
call (that is, `old_from_new` of its ids gives the ids it had at the start). -/
theorem remapper_reorder_to_drop_merge (n : Nat) (merge : List Entry) (eliminate : List Nat)
    (hmerge : ∀ entry ∈ merge, entry.primary < n ∧ entry.secondary < n)
    (heliminate : ∀ id ∈ eliminate, id < n)
    (hnodup : (merge.map (fun entry => entry.secondary) ++ eliminate).Nodup)
    (hprimary : ∀ entry ∈ merge,
      entry.primary ∉ merge.map (fun entry => entry.secondary) ++ eliminate) :
    ∃ r1,
      ({ Remapper.make n with merge := merge, eliminate := eliminate
        }).reorder_to_drop_merge_duplicates_and_elimitated = .ok r1 ∧
      (∀ x, x < n → r1.old_from_new x < n) ∧
      (∀ x y, x < n → y < n → r1.old_from_new x = r1.old_from_new y → x = y) ∧
      (∀ y, y < n → ∃ x, x < n ∧ r1.old_from_new x = y) ∧
      r1.new_end + merge.length + eliminate.length = n ∧
      r1.merge.length = merge.length ∧ r1.eliminate.length = eliminate.length ∧
      (∀ entry ∈ r1.merge,
        r1.new_end ≤ entry.secondary ∧ entry.secondary < n ∧ entry.primary < r1.new_end) ∧
      (∀ id ∈ r1.eliminate, r1.new_end ≤ id ∧ id < n) ∧
      r1.merge.map (fun entry =>
          ({ primary := r1.old_from_new entry.primary
             secondary := r1.old_from_new entry.secondary } : Entry)) = merge ∧
      r1.eliminate.map r1.old_from_new = eliminate := by
  have hlen : (merge.map (fun entry => entry.secondary) ++ eliminate).length =
      merge.length + eliminate.length := by simp
  have hread1 : ∀ (r : Remapper) (dropped : List Nat) (i old : Nat),
      r.reordered n merge eliminate dropped → i < merge.length →
      (merge.map (fun entry => entry.secondary) ++ eliminate).get? (0 + i) = some old →
      (r.merge.getD i { primary := 0, secondary := 0 }).secondary < n ∧
        r.old_from_new (r.merge.getD i { primary := 0, secondary := 0 }).secondary = old := by
    intro r dropped i old h hi hget
    obtain ⟨p, hp, hf, hm, _, _, _, _⟩ := h
    have hold : old = (merge.get ⟨i, hi⟩).secondary := by
      rw [Nat.zero_add, List.get?_eq_getElem?,
        List.getElem?_append_left (by simpa using hi)] at hget
      simpa [List.getElem?_eq_getElem hi] using hget.symm
    have hentry : r.merge.getD i { primary := 0, secondary := 0 } =
        { primary := p.symm (merge.get ⟨i, hi⟩).primary
          secondary := p.symm (merge.get ⟨i, hi⟩).secondary } := by
      rw [hm, List.getD_eq_getElem?_getD, List.getElem?_map, List.getElem?_eq_getElem hi]
      rfl
    have hsec := (hmerge _ (List.get_mem merge i hi)).2
    have hlt := perm_lt n p.symm (perm_symm_fixed n p hp) _ hsec
    rw [hentry, hold]
    refine ⟨hlt, ?_⟩
    show r.old_from_new (p.symm (merge.get ⟨i, hi⟩).secondary) = _
    rw [hf _ hlt, Equiv.apply_symm_apply]
  have hread2 : ∀ (r : Remapper) (dropped : List Nat) (i old : Nat),
      r.reordered n merge eliminate dropped → i < eliminate.length →
      (merge.map (fun entry => entry.secondary) ++ eliminate).get? (merge.length + i) =
        some old →
      r.eliminate.getD i 0 < n ∧ r.old_from_new (r.eliminate.getD i 0) = old := by
    intro r dropped i old h hi hget
    obtain ⟨p, hp, hf, _, he, _, _, _⟩ := h
    have hold : old = eliminate.get ⟨i, hi⟩ := by
      rw [List.get?_eq_getElem?, List.getElem?_append_right (by simp)] at hget
      simpa [List.getElem?_eq_getElem hi] using hget.symm
    have hid : r.eliminate.getD i 0 = p.symm (eliminate.get ⟨i, hi⟩) := by
      rw [he, List.getD_eq_getElem?_getD, List.getElem?_map, List.getElem?_eq_getElem hi]
      rfl
    have hlt := perm_lt n p.symm (perm_symm_fixed n p hp) _
      (heliminate _ (List.get_mem eliminate i hi))
    rw [hid, hold]
    refine ⟨hlt, ?_⟩
    rw [hf _ hlt, Equiv.apply_symm_apply]
  obtain ⟨r1, h1, h2⟩ := drop_loop n merge eliminate _ hnodup
    (fun r i => (r.merge.getD i { primary := 0, secondary := 0 }).secondary) 0 merge.length
    (by rw [hlen]; omega) hread1 merge.length 0
    { Remapper.make n with merge := merge, eliminate := eliminate } (by omega)
    (reordered_make n merge eliminate)
  have he1 : r1.eliminate.length = eliminate.length := by
    obtain ⟨p, _, _, _, he, _⟩ := h2
    rw [he, List.length_map]
  obtain ⟨r2, h3, h4⟩ := drop_loop n merge eliminate _ hnodup
    (fun r i => r.eliminate.getD i 0) merge.length eliminate.length
    (by rw [hlen]) hread2 eliminate.length 0 r1 (by omega)
    (by
      rw [show merge.length + 0 = 0 + 0 + merge.length by omega]
      exact h2)
  rw [show merge.length + 0 + eliminate.length =
      (merge.map (fun entry => entry.secondary) ++ eliminate).length by rw [hlen]; omega,
    List.take_length] at h4
  obtain ⟨p, hp, hf, hm, he, hend, hd, hk⟩ := h4
  have hsymm_lt : ∀ x, x < n → p.symm x < n := perm_lt n p.symm (perm_symm_fixed n p hp)
  refine ⟨r2, ?_, ?_, ?_, ?_, ?_, ?_, ?_, ?_, ?_, ?_, ?_⟩
  · unfold Remapper.reorder_to_drop_merge_duplicates_and_elimitated
    dsimp only
    rw [h1]
    dsimp only
    rw [he1]
    exact h3
  · intro x hx
    rw [hf x hx]
    exact perm_lt n p hp x hx
  · intro x y hx hy hxy
    rw [hf x hx, hf y hy] at hxy
    exact p.injective hxy
  · intro y hy
    refine ⟨p.symm y, hsymm_lt y hy, ?_⟩
    rw [hf _ (hsymm_lt y hy), Equiv.apply_symm_apply]
  · rw [hlen] at hend
    omega
  · rw [hm, List.length_map]
  · rw [he, List.length_map]
  · intro entry hentry
    rw [hm, List.mem_map] at hentry
    obtain ⟨e0, he0, rfl⟩ := hentry
    have hids := hmerge e0 he0
    refine ⟨?_, hsymm_lt _ hids.2, ?_⟩
    · exact hk _ (List.mem_append_left _ (List.mem_map_of_mem _ he0))
    · show p.symm e0.primary < r2.new_end
      by_contra hne
      have := hd (p.symm e0.primary) (Nat.le_of_not_lt hne) (hsymm_lt _ hids.1)
      rw [Equiv.apply_symm_apply] at this
      exact hprimary e0 he0 this
  · intro id hid
    rw [he, List.mem_map] at hid
    obtain ⟨id0, hid0, rfl⟩ := hid
    exact ⟨hk _ (List.mem_append_right _ hid0), hsymm_lt _ (heliminate id0 hid0)⟩
  · rw [hm, List.map_map]
    conv_rhs => rw [← List.map_id merge]
    apply List.map_congr_left
    intro e0 he0
    have hids := hmerge e0 he0
    simp only [Function.comp_apply, id_eq]
    rw [hf _ (hsymm_lt _ hids.1), hf _ (hsymm_lt _ hids.2), Equiv.apply_symm_apply,
      Equiv.apply_symm_apply]
  · rw [he, List.map_map]
    conv_rhs => rw [← List.map_id eliminate]
    apply List.map_congr_left
    intro id0 hid0
    simp only [Function.comp_apply, id_eq]
    rw [hf _ (hsymm_lt _ (heliminate id0 hid0)), Equiv.apply_symm_apply]

/-- Witness for C26: five elements, the merge entries `(0, 1)` and `(2, 3)` and the eliminate
list `[4]`; two elements are kept. -/
theorem remapper_reorder_to_drop_merge_witness :
    ∃ r1,
      ({ Remapper.make 5 with
          merge := [{ primary := 0, secondary := 1 }, { primary := 2, secondary := 3 }]
          eliminate := [4] }).reorder_to_drop_merge_duplicates_and_elimitated = .ok r1 ∧
      r1.new_end = 2 := by
  obtain ⟨r1, h1, _, _, _, h2, _⟩ := remapper_reorder_to_drop_merge 5
    [{ primary := 0, secondary := 1 }, { primary := 2, secondary := 3 }] [4]
    (by decide) (by decide) (by decide) (by decide)
  refine ⟨r1, h1, ?_⟩
  simp only [List.length_cons, List.length_nil] at h2
  omega

end erhe.geometry

/-! ## The lifecycle of a component -/

namespace erhe.components

open erhe.toolkit

theorem set_state_successor (c : Component) (state : Component_state)
    (h : c.m_state.successor = some state) :
    ∃ c1, c.set_state state = .ok c1 ∧ c1.m_state = state ∧
      c1.m_initialized_dependencies =
        (if state = Component_state.Deinitialized then []
          else c.m_initialized_dependencies) := by
  unfold Component.set_state
  cases hs : c.m_state <;> rw [hs] at h <;>
    simp only [Component_state.successor, Option.some.injEq, reduceCtorEq] at h <;>
    subst h <;> exact ⟨_, rfl, rfl, rfl⟩

theorem set_state_other (c : Component) (state : Component_state)
    (h : c.m_state.successor ≠ some state) :
    ∃ fault, c.set_state state = .error (fault, c) ∧
      (c.m_state = Component_state.Deinitialized →
        fault = Fault.fatal_invalid_state_transition) := by
  unfold Component.set_state
  cases hs : c.m_state <;> rw [hs] at h <;>
    simp only [Component_state.successor, ne_eq, Option.some.injEq] at h <;> dsimp only
  case Deinitialized => exact ⟨_, rfl, fun _ => rfl⟩
  all_goals
    rw [if_neg (fun e => h e.symm)]
    exact ⟨_, rfl, fun e => by cases e⟩

theorem stage_successor (a b : Component_state) (h : a.successor = some b) :
    b.stage = a.stage + 1 := by
  cases a <;> simp only [Component_state.successor, Option.some.injEq, reduceCtorEq] at h <;>
    subst h <;> rfl

theorem states_chain (requests : List Component_state) (c : Component) :
    List.Chain (fun a b => a.successor = some b) c.m_state (c.states requests) := by
  induction requests generalizing c with
  | nil => exact List.Chain.nil
  | cons state rest ih =>
    unfold Component.states
    by_cases h : c.m_state.successor = some state
    · obtain ⟨c1, h1, h2, _⟩ := set_state_successor c state h
      rw [h1]
      dsimp only
      refine List.Chain.cons ?_ (ih c1)
      rw [h2]
      exact h
    · obtain ⟨fault, h1, _⟩ := set_state_other c state h
      rw [h1]
      exact List.Chain.nil

/-- C29. `Component::set_state(s)` returns if and only if `s` is the immediate successor of
the current state in the chain `Constructed`, `Declaring_initialization_requirements`,
`Initialization_requirements_declared`, `Initializing`, `Initialized`, `Post_initializing`,
`Ready`, `Deinitializing`, `Deinitialized`, and then the state is `s`, one stage further; every
other request stops the process in a fault with the component unchanged, in state
`Deinitialized` the `ERHE_FATAL` of the default branch for every request. Hence in every
sequence of calls each state reached is the immediate successor of the one before: the stage
grows by exactly one per call, so no state is reached twice, none is skipped and none is left
for an earlier one. -/
theorem component_set_state_forward (c : Component) (state : Component_state)
    (requests : List Component_state) :
    ((∃ c1, c.set_state state = .ok c1) ↔ c.m_state.successor = some state) ∧
    (∀ c1, c.set_state state = .ok c1 →
      c1.m_state = state ∧ c1.m_state.stage = c.m_state.stage + 1) ∧
    (c.m_state.successor ≠ some state → ∃ fault, c.set_state state = .error (fault, c)) ∧
    (c.m_state = Component_state.Deinitialized →
      c.set_state state = .error (Fault.fatal_invalid_state_transition, c)) ∧
    List.Chain (fun a b => a.successor = some b ∧ b.stage = a.stage + 1) c.m_state
      (c.states requests) ∧
    (c.m_state :: c.states requests).Nodup ∧
    (c.m_state :: c.states requests).Sorted (fun a b => a.stage < b.stage) := by
  have hchain : List.Chain (fun a b => a.successor = some b ∧ b.stage = a.stage + 1)
      c.m_state (c.states requests) :=
    List.Chain.imp (fun a b h => ⟨h, stage_successor a b h⟩) (states_chain requests c)
  have hsorted : (c.m_state :: c.states requests).Sorted (fun a b => a.stage < b.stage) := by
    have h1 : List.Chain (fun a b => a.stage < b.stage) c.m_state (c.states requests) :=
      List.Chain.imp (fun a b h => by rw [h.2]; exact Nat.lt_succ_self _) hchain
    have : IsTrans Component_state (fun a b => a.stage < b.stage) :=
      ⟨fun a b c hab hbc => Nat.lt_trans hab hbc⟩
    exact List.chain_iff_pairwise.1 h1
  refine ⟨⟨?_, ?_⟩, ?_, ?_, ?_, hchain, ?_, hsorted⟩
  · rintro ⟨c1, h1⟩
    by_contra hn
    obtain ⟨fault, h2, _⟩ := set_state_other c state hn
    rw [h2] at h1
    cases h1
  · intro h
    obtain ⟨c1, h1, _⟩ := set_state_successor c state h
    exact ⟨c1, h1⟩
  · intro c1 h1
    by_cases h : c.m_state.successor = some state
    · obtain ⟨c2, h2, h3, _⟩ := set_state_successor c state h
      rw [h2] at h1
      injection h1 with h1
      subst h1
      exact ⟨h3, by rw [h3]; exact stage_successor _ _ h⟩
    · obtain ⟨fault, h2, _⟩ := set_state_other c state h
      rw [h2] at h1
      cases h1
  · intro h
    obtain ⟨fault, h2, _⟩ := set_state_other c state h
    exact ⟨fault, h2⟩
  · intro h
    have hn : c.m_state.successor ≠ some state := by
      rw [h]
      simp [Component_state.successor]
    obtain ⟨fault, h2, h3⟩ := set_state_other c state hn
    rw [h2, h3 h]
  · exact List.Pairwise.imp (fun h e => by rw [e] at h; exact Nat.lt_irrefl _ h) hsorted

end erhe.components

/-! ## The layout of a vertex format -/

namespace erhe.graphics

open erhe.toolkit

theorem byte_size_sum_nil (size_of_type : Nat → Nat) : byte_size_sum size_of_type [] = 0 := rfl

theorem byte_size_sum_cons (size_of_type : Nat → Nat) (a : Vertex_attribute)
    (rest : List Vertex_attribute) :
    byte_size_sum size_of_type (a :: rest) =
      a.attribute_stride size_of_type + byte_size_sum size_of_type rest := by
  simp [byte_size_sum]

theorem byte_size_sum_take_succ (size_of_type : Nat → Nat) (attributes : List Vertex_attribute)
    (i : Nat) (a : Vertex_attribute) (h : attributes.get? i = some a) :
    byte_size_sum size_of_type (attributes.take (i + 1)) =
      byte_size_sum size_of_type (attributes.take i) + a.attribute_stride size_of_type := by
  induction attributes generalizing i with
  | nil => simp at h
  | cons x rest ih =>
    cases i with
    | zero =>
      simp only [List.get?_cons_zero, Option.some.injEq] at h
      subst h
      simp [byte_size_sum]
    | succ i =>
      simp only [List.get?_cons_succ] at h
      rw [List.take_succ_cons, byte_size_sum_cons, ih i h, List.take_succ_cons,
        byte_size_sum_cons]
      omega

theorem byte_size_sum_take_le (size_of_type : Nat → Nat) (attributes : List Vertex_attribute)
    (i j : Nat) (h : i ≤ j) :
    byte_size_sum size_of_type (attributes.take i) ≤
      byte_size_sum size_of_type (attributes.take j) := by
  induction attributes generalizing i j with
  | nil => simp
  | cons x rest ih =>
    cases i with
    | zero => simp [byte_size_sum]
    | succ i =>
      cases j with
      | zero => omega
      | succ j =>
        rw [List.take_succ_cons, List.take_succ_cons, byte_size_sum_cons, byte_size_sum_cons]
        have := ih i j (by omega)
        omega

/-- The loop appends the attributes with their offsets and advances the stride. -/
theorem add_attributes_ok (size_of_type : Nat → Nat) (attributes : List Vertex_attribute)
    (f : Vertex_format) (h : ∀ a ∈ attributes, 1 ≤ a.dimension ∧ a.dimension ≤ 4) :
    ∃ f1, Vertex_format.add_attributes size_of_type f attributes = .ok f1 ∧
      f1.m_stride = f.m_stride + byte_size_sum size_of_type attributes ∧
      f1.m_attributes.length = f.m_attributes.length + attributes.length ∧
      (∀ i a, attributes.get? i = some a →
        f1.m_attributes.get? (f.m_attributes.length + i) =
          some { a with
            offset := f.m_stride + byte_size_sum size_of_type (attributes.take i) }) ∧
      (∀ i, i < f.m_attributes.length → f1.m_attributes.get? i = f.m_attributes.get? i) := by
  induction attributes generalizing f with
  | nil =>
    refine ⟨f, rfl, by simp [byte_size_sum], by simp, ?_, fun _ _ => rfl⟩
    intro i a hi
    simp at hi
  | cons x rest ih =>
    have hx := h x (List.mem_cons_self _ _)
    obtain ⟨f1, h1, h2, h3, h4, h5⟩ := ih
      { m_attributes := f.m_attributes ++ [{ x with offset := f.m_stride }]
        m_stride := f.m_stride + x.attribute_stride size_of_type }
      (fun a ha => h a (List.mem_cons_of_mem _ ha))
    refine ⟨f1, ?_, ?_, ?_, ?_, ?_⟩
    · rw [Vertex_format.add_attributes, Vertex_format.add_attribute, if_pos hx]
      exact h1
    · rw [h2, byte_size_sum_cons]
      simp only
      omega
    · rw [h3]
      simp only [List.length_append, List.length_cons, List.length_nil]
      omega
    · intro i a hi
      cases i with
      | zero =>
        simp only [List.get?_cons_zero, Option.some.injEq] at hi
        subst hi
        rw [h5 _ (by simp)]
        simp [byte_size_sum]
      | succ i =>
        simp only [List.get?_cons_succ] at hi
        have := h4 i a hi
        simp only [List.length_append, List.length_cons, List.length_nil] at this
        rw [show f.m_attributes.length + (i + 1) = f.m_attributes.length + 0 + 1 + i by omega,
          this, List.take_succ_cons, byte_size_sum_cons]
        simp only [Option.some.injEq, Vertex_attribute.mk.injEq, true_and]
        omega
    · intro i hi
      rw [h5 i (by simp; omega)]
      simp only [List.get?_eq_getElem?]
      exact List.getElem?_append_left hi

/-- C30. For attributes `a_0 .. a_(n-1)` whose dimensions are all in `1..4`, the constructor
of `Vertex_format` returns a format with `n` attributes in which attribute `i` is `a_i` with
offset equal to the sum of the byte sizes `dimension * size_of_type(type)` of `a_0 .. a_(i-1)`,
and whose stride is the sum of all `n` sizes. So the offset of attribute `i + 1` is the offset
of attribute `i` plus its size (no padding), the byte range of an attribute ends at or before
the offset of every later attribute and at or before the stride (no overlap), and the offsets
are non-decreasing. -/
theorem vertex_format_layout (size_of_type : Nat → Nat) (attributes : List Vertex_attribute)
    (h : ∀ a ∈ attributes, 1 ≤ a.dimension ∧ a.dimension ≤ 4) :
    ∃ f, Vertex_format.make size_of_type attributes = .ok f ∧
      f.m_attributes.length = attributes.length ∧
      f.m_stride = byte_size_sum size_of_type attributes ∧
      (∀ i a, attributes.get? i = some a →
        f.m_attributes.get? i =
          some { a with offset := byte_size_sum size_of_type (attributes.take i) }) ∧
      (∀ i a b, f.m_attributes.get? i = some a → f.m_attributes.get? (i + 1) = some b →
        b.offset = a.offset + a.attribute_stride size_of_type) ∧
      (∀ i j a b, i < j → f.m_attributes.get? i = some a → f.m_attributes.get? j = some b →
        a.offset + a.attribute_stride size_of_type ≤ b.offset) ∧
      (∀ i j a b, i ≤ j → f.m_attributes.get? i = some a → f.m_attributes.get? j = some b →
        a.offset ≤ b.offset) ∧
      (∀ i a, f.m_attributes.get? i = some a →
        a.offset + a.attribute_stride size_of_type ≤ f.m_stride) := by
  obtain ⟨f, h1, h2, h3, h4, _⟩ :=
    add_attributes_ok size_of_type attributes Vertex_format.empty h
  have hlen : f.m_attributes.length = attributes.length := by
    rw [h3]
    simp [Vertex_format.empty]
  have hstride : f.m_stride = byte_size_sum size_of_type attributes := by
    rw [h2]
    simp [Vertex_format.empty]
  have hget : ∀ i a, attributes.get? i = some a →
      f.m_attributes.get? i =
        some { a with offset := byte_size_sum size_of_type (attributes.take i) } := by
    intro i a hi
    have := h4 i a hi
    simpa [Vertex_format.empty] using this
  have hback : ∀ i b, f.m_attributes.get? i = some b →
      ∃ a, attributes.get? i = some a ∧
        b = { a with offset := byte_size_sum size_of_type (attributes.take i) } := by
    intro i b hb
    have hi : i < attributes.length := by
      rw [← hlen]
      exact (List.get?_eq_some.1 hb).1
    obtain ⟨a, ha⟩ : ∃ a, attributes.get? i = some a :=
      ⟨attributes.get ⟨i, hi⟩, List.get?_eq_get hi⟩
    refine ⟨a, ha, ?_⟩
    have := hget i a ha
    rw [hb] at this
    exact Option.some.inj this
  have hstep : ∀ i j a b, i < j → f.m_attributes.get? i = some a →
      f.m_attributes.get? j = some b →
      a.offset + a.attribute_stride size_of_type ≤ b.offset := by
    intro i j a b hij ha hb
    obtain ⟨a0, ha0, rfl⟩ := hback i a ha
    obtain ⟨b0, hb0, rfl⟩ := hback j b hb
    show byte_size_sum size_of_type (attributes.take i) + a0.attribute_stride size_of_type ≤
      byte_size_sum size_of_type (attributes.take j)
    rw [← byte_size_sum_take_succ size_of_type attributes i a0 ha0]
    exact byte_size_sum_take_le size_of_type attributes (i + 1) j hij
  refine ⟨f, h1, hlen, hstride, hget, ?_, hstep, ?_, ?_⟩
  · intro i a b ha hb
    obtain ⟨a0, ha0, rfl⟩ := hback i a ha
    obtain ⟨b0, hb0, rfl⟩ := hback (i + 1) b hb
    exact byte_size_sum_take_succ size_of_type attributes i a0 ha0
  · intro i j a b hij ha hb
    rcases Nat.lt_or_eq_of_le hij with hlt | heq
    · have := hstep i j a b hlt ha hb
      omega
    · subst heq
      rw [ha] at hb
      injection hb with hb
      rw [hb]
  · intro i a ha
    obtain ⟨a0, ha0, rfl⟩ := hback i a ha
    rw [hstride]
    show byte_size_sum size_of_type (attributes.take i) + a0.attribute_stride size_of_type ≤ _
    rw [← byte_size_sum_take_succ size_of_type attributes i a0 ha0]
    have := byte_size_sum_take_le size_of_type attributes (i + 1) attributes.length
      (by
        have := (List.get?_eq_some.1 ha0).1
        omega)
    rwa [List.take_length] at this

/-- Witness for C30: a position (three floats), a colour (four bytes) and a texture
coordinate (two floats) give the offsets 0, 12, 16 and the stride 24. -/
theorem vertex_format_layout_witness :
    ∃ f, Vertex_format.make (fun type => if type = 0x1401 then 1 else 4)
        [{ usage_type := 1, usage_index := 0, data_type_type := 0x1406, dimension := 3,
           offset := 0 },
         { usage_type := 4, usage_index := 0, data_type_type := 0x1401, dimension := 4,
           offset := 0 },
         { usage_type := 8, usage_index := 0, data_type_type := 0x1406, dimension := 2,
           offset := 0 }] = .ok f ∧
      f.m_attributes.map (fun a => a.offset) = [0, 12, 16] ∧ f.m_stride = 24 := by
  obtain ⟨f, h1, _, _, _⟩ := vertex_format_layout (fun type => if type = 0x1401 then 1 else 4)
    [{ usage_type := 1, usage_index := 0, data_type_type := 0x1406, dimension := 3,
       offset := 0 },
     { usage_type := 4, usage_index := 0, data_type_type := 0x1401, dimension := 4,
       offset := 0 },
     { usage_type := 8, usage_index := 0, data_type_type := 0x1406, dimension := 2,
       offset := 0 }] (by decide)
  refine ⟨f, h1, ?_⟩
  have h2 : Vertex_format.make (fun type => if type = 0x1401 then 1 else 4)
      [{ usage_type := 1, usage_index := 0, data_type_type := 0x1406, dimension := 3,
         offset := 0 },
       { usage_type := 4, usage_index := 0, data_type_type := 0x1401, dimension := 4,
         offset := 0 },
       { usage_type := 8, usage_index := 0, data_type_type := 0x1406, dimension := 2,
         offset := 0 }] = .ok
      { m_attributes :=
          [{ usage_type := 1, usage_index := 0, data_type_type := 0x1406, dimension := 3,
             offset := 0 },
           { usage_type := 4, usage_index := 0, data_type_type := 0x1401, dimension := 4,
             offset := 12 },
           { usage_type := 8, usage_index := 0, data_type_type := 0x1406, dimension := 2,
             offset := 16 }]
        m_stride := 24 } := rfl
  rw [h2] at h1
  injection h1 with h1
  subst h1
  exact ⟨rfl, rfl⟩

end erhe.graphics

/-! ## `Editor_rendering_impl::render_content` -/

namespace editor

open erhe.toolkit erhe.graphics erhe.primitive erhe.application

/-- The calls of `render` around the pass loop apply no pipeline state and draw nothing. -/
theorem render_frame_calls_kind {σ π δ κ ι : Type} (env : Render_env σ π δ κ ι)
    (parameters : Render_parameters) (s : Render_state σ π δ κ ι) :
    ∀ c ∈ render_prologue env parameters s ++ textures_end_calls env parameters s,
      c.kind ≠ Call_kind.pipeline ∧ c.kind ≠ Call_kind.draw := by
  intro c hc
  rw [List.mem_append] at hc
  rcases hc with hc | hc
  · unfold render_prologue at hc
    simp only [List.mem_append] at hc
    rcases hc with ((((hc | hc) | hc) | hc) | hc) | hc
    · rw [kind_viewport_calls parameters c hc]; exact ⟨by decide, by decide⟩
    · rw [kind_camera_calls env parameters s c hc]; exact ⟨by decide, by decide⟩
    · rw [kind_cache_reset_calls env c hc]; exact ⟨by decide, by decide⟩
    · rw [kind_material_calls env parameters s c hc]; exact ⟨by decide, by decide⟩
    · rw [kind_light_calls env parameters s c hc]; exact ⟨by decide, by decide⟩
    · rcases kind_textures_begin_calls env parameters s c hc with hk | hk <;>
        rw [hk] <;> exact ⟨by decide, by decide⟩
  · rw [kind_textures_end_calls env parameters s c hc]; exact ⟨by decide, by decide⟩

/-- The blocks of passes without shader program are empty. -/
theorem pass_blocks_no_shader (passes : List Renderpass) (blocks : List (List Gl_call))
    (h : List.Forall₂ is_pass_block passes blocks)
    (hp : ∀ pass ∈ passes, pass.pipeline.shader_stages = none) : blocks.flatten = [] := by
  induction h with
  | nil => rfl
  | @cons pass block passes blocks h1 _ ih =>
    unfold is_pass_block at h1
    rw [hp pass (List.mem_cons_self _ _)] at h1
    dsimp only at h1
    rw [List.flatten_cons, h1, ih (fun p hmem => hp p (List.mem_cons_of_mem _ hmem))]
    rfl

/-- A returning `render` none of whose passes has a shader program makes the calls around the
pass loop only: it applies no pipeline state and draws nothing. -/
theorem render_no_shader_calls {σ π δ κ ι : Type} (env : Render_env σ π δ κ ι)
    (parameters : Render_parameters) (s s1 : Render_state σ π δ κ ι)
    (h : Forward_renderer.render env parameters s = .ok s1)
    (hp : ∀ pass ∈ parameters.passes, pass.pipeline.shader_stages = none) :
    s1.draw.gl = s.draw.gl ++
        (render_prologue env parameters s ++ textures_end_calls env parameters s) ∧
      executed_pipelines
        (render_prologue env parameters s ++ textures_end_calls env parameters s) = [] ∧
      ∀ c ∈ render_prologue env parameters s ++ textures_end_calls env parameters s,
        c.is_draw = false := by
  obtain ⟨_, _, blocks, k1, k2, _⟩ := render_calls env parameters s s1 h
  rw [pass_blocks_no_shader _ _ k2 hp, List.append_nil, List.append_assoc] at k1
  refine ⟨k1, ?_, ?_⟩
  · exact executed_pipelines_other _
      (fun c hc => (render_frame_calls_kind env parameters s c hc).1)
  · intro c hc
    exact is_draw_kind c (render_frame_calls_kind env parameters s c hc).2

/-- C23, as the spec states it, fails. Evaluated on a context with camera, scene view, viewport
configuration and scene root, in the fill branch, with a blend mode that is neither `opaque`
nor `translucent` (so that the pass is `Renderpass{}`, which has no shader program), and with
override shader stages (the program `77`): the pass handed to `Forward_renderer::render` has
the shader program `77`, its pipeline state is applied, and the content meshes are drawn. -/
theorem editor_rendering_render_content_override_draws :
    (render_content_renderpass sample.content_renderpasses
      (Blend_mode.other 2)).pipeline.shader_stages = none ∧
    ∃ s1,
      render_content (sample.env false) true sample.scene_view sample.content_renderpasses
        sample.item_flags (sample.content_context (some 77)) Fill_mode.fill
        (Blend_mode.other 2) Selection_mode.any sample.content_state = .ok s1 ∧
      s1.calls.map
          (fun call =>
            match call with
            | Content_call.render parameters =>
              parameters.passes.map (fun pass => pass.pipeline.shader_stages)
            | _ => []) =
        [[], [some 77], []] ∧
      (executed_pipelines s1.renderer.draw.gl).map (fun pipeline => pipeline.shader_stages) =
        [some 77] ∧
      s1.renderer.draw.gl.countP Gl_call.is_draw = 1 := by
  refine ⟨rfl, _, rfl, ?_, ?_, ?_⟩
  · decide
  · decide
  · decide

/-- C23. `render_content` returns after logging one error, without a `render` call and with
the renderer (and with it the GL calls made) and the primitive settings unchanged, when the
forward renderer, the scene view, the camera or the viewport configuration is null, and when
they are present but the scene view has no scene root. When all inputs are present, the fill
branch is taken, the blend mode is neither `opaque` nor `translucent` and the context has no
override shader stages, the only pass handed to the renderer is the value of `Renderpass{}`;
if that has no shader program, then `render_content` returns exactly when the materials fit
into the material buffer (otherwise it stops in the capacity fault of the material update),
having called `render` once, and this call applied no pipeline state and drew nothing. -/
theorem editor_rendering_render_content_missing_input {σ π δ κ ι : Type}
    (env : Render_env σ π δ κ ι) (g_forward_renderer : Bool) (view : Scene_view_interface)
    (m : Content_renderpasses) (item_flags : Item_flags) (context : Render_context)
    (fill_mode : Fill_mode) (blend_mode : Blend_mode) (selection_mode : Selection_mode)
    (s : Content_state σ π δ κ ι) :
    ((g_forward_renderer = false ∨ context.scene_view = none ∨ context.camera = none ∨
        context.viewport_config = none) →
      render_content env g_forward_renderer view m item_flags context fill_mode blend_mode
        selection_mode s = .ok (s.record [Content_call.log_error c_missing_input])) ∧
    (∀ scene_view camera viewport_config,
      g_forward_renderer = true → context.scene_view = some scene_view →
      context.camera = some camera → context.viewport_config = some viewport_config →
      view.get_scene_root scene_view = none →
      render_content env g_forward_renderer view m item_flags context fill_mode blend_mode
        selection_mode s = .ok (s.record [Content_call.log_error c_missing_scene_root])) ∧
    (∀ message,
      (s.record [Content_call.log_error message]).renderer = s.renderer ∧
      (s.record [Content_call.log_error message]).primitive_settings = s.primitive_settings ∧
      (s.record [Content_call.log_error message]).calls =
        s.calls ++ [Content_call.log_error message]) ∧
    (∀ scene_view camera viewport_config scene_root value,
      g_forward_renderer = true → context.scene_view = some scene_view →
      context.camera = some camera → context.viewport_config = some viewport_config →
      view.get_scene_root scene_view = some scene_root →
      fill_mode = Fill_mode.fill →
      (if selection_mode = Selection_mode.selected then viewport_config.render_style_selected
        else viewport_config.render_style_not_selected).polygon_fill = true →
      blend_mode = Blend_mode.other value →
      context.override_shader_stages = none →
      m.value_initialized.pipeline.shader_stages = none →
      (render_content_fill_parameters view m item_flags context scene_view camera scene_root
        blend_mode selection_mode).passes = [m.value_initialized] ∧
      ((materials_fit env
          (render_content_fill_parameters view m item_flags context scene_view camera
            scene_root blend_mode selection_mode) s.renderer ∧
        ∃ s1,
          render_content env g_forward_renderer view m item_flags context fill_mode
            blend_mode selection_mode s = .ok s1 ∧
          s1.calls = s.calls ++
            [Content_call.scoped_debug_group_enter "Viewport content",
             Content_call.render
               (render_content_fill_parameters view m item_flags context scene_view camera
                 scene_root blend_mode selection_mode),
             Content_call.scoped_debug_group_leave] ∧
          s1.primitive_settings = s.primitive_settings ∧
          (∃ calls, s1.renderer.draw.gl = s.renderer.draw.gl ++ calls ∧
            executed_pipelines calls = [] ∧ ∀ c ∈ calls, c.is_draw = false)) ∨
       (¬ materials_fit env
          (render_content_fill_parameters view m item_flags context scene_view camera
            scene_root blend_mode selection_mode) s.renderer ∧
        ∃ b,
          render_content env g_forward_renderer view m item_flags context fill_mode
            blend_mode selection_mode s =
            .error (Fault.fatal_material_buffer_capacity_exceeded, b)))) := by
  refine ⟨?_, ?_, ?_, ?_⟩
  · intro h
    unfold render_content
    cases g_forward_renderer <;> cases hv : context.scene_view <;>
      cases hc : context.camera <;> cases hw : context.viewport_config <;>
      simp_all
  · intro scene_view camera viewport_config hg hv hc hw hr
    unfold render_content
    rw [hg, hv, hc, hw]
    dsimp only
    rw [hr]
  · intro message
    exact ⟨rfl, rfl, rfl⟩
  · intro scene_view camera viewport_config scene_root value hg hv hc hw hr hfill hstyle
      hblend hover hnone
    have hpass : (render_content_fill_parameters view m item_flags context scene_view camera
        scene_root blend_mode selection_mode).passes = [m.value_initialized] := by
      show [override_shader_stages context (render_content_renderpass m blend_mode)] = _
      rw [hblend]
      unfold override_shader_stages
      rw [hover]
      rfl
    refine ⟨hpass, ?_⟩
    have hunfold : render_content env g_forward_renderer view m item_flags context fill_mode
        blend_mode selection_mode s =
        match (s.record [Content_call.scoped_debug_group_enter "Viewport content"]).render env
            (render_content_fill_parameters view m item_flags context scene_view camera
              scene_root blend_mode selection_mode) with
        | .error e => .error e
        | .ok s1 => .ok (s1.record [Content_call.scoped_debug_group_leave]) := by
      unfold render_content
      rw [hg, hv, hc, hw]
      dsimp only
      rw [hr]
      dsimp only
      rw [hfill, hstyle]
      rfl
    rw [hunfold]
    have hrender : ∀ r,
        Forward_renderer.render env
          (render_content_fill_parameters view m item_flags context scene_view camera
            scene_root blend_mode selection_mode) s.renderer = r →
        (s.record [Content_call.scoped_debug_group_enter "Viewport content"]).render env
          (render_content_fill_parameters view m item_flags context scene_view camera
            scene_root blend_mode selection_mode) =
        match r with
        | .error e => .error e
        | .ok renderer =>
          .ok (({ s.record [Content_call.scoped_debug_group_enter "Viewport content"] with
            renderer := renderer }).record
              [Content_call.render
                (render_content_fill_parameters view m item_flags context scene_view camera
                  scene_root blend_mode selection_mode)]) := by
      intro r hr
      subst hr
      rfl
    by_cases hfit : materials_fit env
        (render_content_fill_parameters view m item_flags context scene_view camera
          scene_root blend_mode selection_mode) s.renderer
    · left
      obtain ⟨r1, h1⟩ := (render_ok_iff env _ s.renderer).2 hfit
      obtain ⟨k1, k2, k3⟩ := render_no_shader_calls env _ s.renderer r1 h1
        (by
          intro pass hmem
          rw [hpass, List.mem_singleton] at hmem
          rw [hmem]
          exact hnone)
      rw [hrender _ h1]
      refine ⟨hfit, _, rfl, ?_, rfl, _, k1, k2, k3⟩
      simp [Content_state.record]
    · right
      obtain ⟨b, hb⟩ := render_overrun env _ s.renderer hfit
      rw [hrender _ hb]
      exact ⟨hfit, b, rfl⟩

/-- Witness for C23: the sample scene in the fill branch with a blend mode that is neither
`opaque` nor `translucent` and no override shader stages; `render_content` returns, and its
`render` call applied no pipeline state and drew nothing. -/
theorem editor_rendering_render_content_missing_input_witness :
    ∃ s1,
      render_content (sample.env false) true sample.scene_view sample.content_renderpasses
        sample.item_flags (sample.content_context none) Fill_mode.fill (Blend_mode.other 2)
        Selection_mode.any sample.content_state = .ok s1 ∧
      s1.primitive_settings = sample.content_state.primitive_settings ∧
      ∃ calls, s1.renderer.draw.gl = sample.content_state.renderer.draw.gl ++ calls ∧
        executed_pipelines calls = [] ∧ ∀ c ∈ calls, c.is_draw = false := by
  rcases ((editor_rendering_render_content_missing_input (sample.env false) true
    sample.scene_view sample.content_renderpasses sample.item_flags
    (sample.content_context none) Fill_mode.fill (Blend_mode.other 2) Selection_mode.any
    sample.content_state).2.2.2 51 50 sample.viewport_config sample.content_scene_root 2
    rfl rfl rfl rfl rfl rfl rfl rfl rfl rfl).2 with h | h
  · obtain ⟨_, s1, h1, _, h3, h4⟩ := h
    exact ⟨s1, h1, h3, h4⟩
  · exact absurd (by decide) h.1

end editor

/-! ## The filters of the content passes -/

namespace editor

theorem and_or_eq_iff (flags a b : Nat) :
    flags &&& (a ||| b) = a ||| b ↔ flags &&& a = a ∧ flags &&& b = b := by
  constructor
  · intro h
    constructor
    · apply Nat.eq_of_testBit_eq
      intro i
      have := congrArg (fun x => x.testBit i) h
      simp only [Nat.testBit_and, Nat.testBit_or] at this ⊢
      cases hf : flags.testBit i <;> cases ha : a.testBit i <;> cases hb : b.testBit i <;>
        simp_all
    · apply Nat.eq_of_testBit_eq
      intro i
      have := congrArg (fun x => x.testBit i) h
      simp only [Nat.testBit_and, Nat.testBit_or] at this ⊢
      cases hf : flags.testBit i <;> cases ha : a.testBit i <;> cases hb : b.testBit i <;>
        simp_all
  · rintro ⟨h1, h2⟩
    rw [Nat.and_or_distrib_left, h1, h2]

theorem and_or_eq_zero_iff (flags a b : Nat) :
    flags &&& (a ||| b) = 0 ↔ flags &&& a = 0 ∧ flags &&& b = 0 := by
  rw [Nat.and_or_distrib_left]
  constructor
  · intro h
    constructor
    · apply Nat.eq_of_testBit_eq
      intro i
      have := congrArg (fun x => x.testBit i) h
      simp only [Nat.testBit_and, Nat.testBit_or, Nat.zero_testBit] at this ⊢
      cases hf : flags.testBit i <;> cases ha : a.testBit i <;> cases hb : b.testBit i <;>
        simp_all
    · apply Nat.eq_of_testBit_eq
      intro i
      have := congrArg (fun x => x.testBit i) h
      simp only [Nat.testBit_and, Nat.testBit_or, Nat.zero_testBit] at this ⊢
      cases hf : flags.testBit i <;> cases ha : a.testBit i <;> cases hb : b.testBit i <;>
        simp_all
  · rintro ⟨h1, h2⟩
    rw [h1, h2]
    rfl

/-- A flags value has a single bit or does not have it. -/
theorem and_two_pow_cases (flags k : Nat) :
    flags &&& 2 ^ k = 2 ^ k ∨ flags &&& 2 ^ k = 0 := by
  rw [Nat.and_two_pow]
  cases flags.testBit k
  · right
    simp
  · left
    simp

/-- What it means that a filter admits a flags value. -/
theorem passes_iff (filter : Item_filter) (flags : Nat) :
    filter.passes flags = true ↔
      flags &&& filter.require_all_bits_set = filter.require_all_bits_set ∧
      flags &&& filter.require_at_least_one_bit_set ≠ 0 ∧
      flags &&& filter.require_all_bits_clear = 0 := by
  simp [Item_filter.passes, and_assoc]

/-- C28. The two `apply_filter` overloads only OR bits into `require_all_bits_set` and
`require_all_bits_clear`, never change `require_at_least_one_bit_set`, and return the filter
unchanged for a blend mode that is neither `opaque` nor `translucent` and for the selection
mode `any`. With `Item_flags::opaque` or `Item_flags::translucent` a non-zero mask and
`Item_flags::selected` a single bit, and with admission as the spec gives it: no flags value
is admitted both by a filter of `render_content` for `Blend_mode::opaque` and by one for
`Blend_mode::translucent`, none is admitted both by one for `Selection_mode::selected` and by
one for `Selection_mode::not_selected`, and a flags value that the filter before the
selection mode is applied admits (be it the base filter or the base filter with a blend mode
applied) is admitted by exactly one of the two selection filters made from it. -/
theorem editor_rendering_apply_filter_disjoint (item_flags : Item_flags) (k : Nat)
    (hblend : item_flags.opaque_ ≠ 0 ∨ item_flags.translucent ≠ 0)
    (hselected : item_flags.selected = 2 ^ k) :
    (∀ (filter : Item_filter) (blend_mode : Blend_mode),
      (∃ set clear,
        apply_filter_blend_mode item_flags filter blend_mode =
          { require_all_bits_set := filter.require_all_bits_set ||| set
            require_at_least_one_bit_set := filter.require_at_least_one_bit_set
            require_all_bits_clear := filter.require_all_bits_clear ||| clear }) ∧
      (∀ value, blend_mode = Blend_mode.other value →
        apply_filter_blend_mode item_flags filter blend_mode = filter)) ∧
    (∀ (filter : Item_filter) (selection_mode : Selection_mode),
      (∃ set clear,
        apply_filter_selection_mode item_flags filter selection_mode =
          { require_all_bits_set := filter.require_all_bits_set ||| set
            require_at_least_one_bit_set := filter.require_at_least_one_bit_set
            require_all_bits_clear := filter.require_all_bits_clear ||| clear }) ∧
      apply_filter_selection_mode item_flags filter Selection_mode.any = filter) ∧
    (∀ (flags : Nat) (selection1 selection2 : Selection_mode),
      ¬ ((render_content_applied_filter item_flags Blend_mode.opaque_ selection1).passes
            flags = true ∧
          (render_content_applied_filter item_flags Blend_mode.translucent selection2).passes
            flags = true)) ∧
    (∀ (flags : Nat) (blend1 blend2 : Blend_mode),
      ¬ ((render_content_applied_filter item_flags blend1 Selection_mode.selected).passes
            flags = true ∧
          (render_content_applied_filter item_flags blend2 Selection_mode.not_selected).passes
            flags = true)) ∧
    (∀ (flags : Nat) (filter : Item_filter),
      (filter = render_content_filter item_flags ∨
        ∃ blend_mode, filter =
          apply_filter_blend_mode item_flags (render_content_filter item_flags) blend_mode) →
      filter.passes flags = true →
      ((apply_filter_selection_mode item_flags filter Selection_mode.selected).passes flags =
          true ∧
        (apply_filter_selection_mode item_flags filter Selection_mode.not_selected).passes
          flags = false) ∨
      ((apply_filter_selection_mode item_flags filter Selection_mode.selected).passes flags =
          false ∧
        (apply_filter_selection_mode item_flags filter Selection_mode.not_selected).passes
          flags = true)) := by
  have hsel_set : ∀ (filter : Item_filter) (flags : Nat),
      (apply_filter_selection_mode item_flags filter Selection_mode.selected).passes flags =
        true ↔ filter.passes flags = true ∧ flags &&& item_flags.selected =
          item_flags.selected := by
    intro filter flags
    rw [passes_iff, passes_iff]
    show flags &&& (filter.require_all_bits_set ||| item_flags.selected) =
        filter.require_all_bits_set ||| item_flags.selected ∧
      flags &&& filter.require_at_least_one_bit_set ≠ 0 ∧
      flags &&& filter.require_all_bits_clear = 0 ↔ _
    rw [and_or_eq_iff]
    tauto
  have hsel_clear : ∀ (filter : Item_filter) (flags : Nat),
      (apply_filter_selection_mode item_flags filter Selection_mode.not_selected).passes
        flags = true ↔ filter.passes flags = true ∧ flags &&& item_flags.selected = 0 := by
    intro filter flags
    rw [passes_iff, passes_iff]
    show flags &&& filter.require_all_bits_set = filter.require_all_bits_set ∧
      flags &&& filter.require_at_least_one_bit_set ≠ 0 ∧
      flags &&& (filter.require_all_bits_clear ||| item_flags.selected) = 0 ↔ _
    rw [and_or_eq_zero_iff]
    tauto
  have hselected_ne : item_flags.selected ≠ 0 := by
    rw [hselected]
    exact Nat.pos_iff_ne_zero.1 (Nat.two_pow_pos k)
  have hsub : ∀ (filter : Item_filter) (selection_mode : Selection_mode) (flags : Nat),
      (apply_filter_selection_mode item_flags filter selection_mode).passes flags = true →
      filter.passes flags = true := by
    intro filter selection_mode flags h
    cases selection_mode with
    | not_selected => exact ((hsel_clear filter flags).1 h).1
    | selected => exact ((hsel_set filter flags).1 h).1
    | any => exact h
    | other value => exact h
  refine ⟨?_, ?_, ?_, ?_, ?_⟩
  · intro filter blend_mode
    refine ⟨?_, ?_⟩
    · cases blend_mode with
      | opaque_ => exact ⟨item_flags.opaque_, item_flags.translucent, rfl⟩
      | translucent => exact ⟨item_flags.translucent, item_flags.opaque_, rfl⟩
      | other value =>
        refine ⟨0, 0, ?_⟩
        simp [apply_filter_blend_mode]
    · rintro value rfl
      rfl
  · intro filter selection_mode
    refine ⟨?_, rfl⟩
    cases selection_mode with
    | not_selected =>
      refine ⟨0, item_flags.selected, ?_⟩
      simp [apply_filter_selection_mode]
    | selected =>
      refine ⟨item_flags.selected, 0, ?_⟩
      simp [apply_filter_selection_mode]
    | any =>
      refine ⟨0, 0, ?_⟩
      simp [apply_filter_selection_mode]
    | other value =>
      refine ⟨0, 0, ?_⟩
      simp [apply_filter_selection_mode]
  · rintro flags selection1 selection2 ⟨h1, h2⟩
    have k1 := (passes_iff _ _).1 (hsub _ _ _ h1)
    have k2 := (passes_iff _ _).1 (hsub _ _ _ h2)
    obtain ⟨a1, _, a3⟩ := k1
    obtain ⟨b1, _, b3⟩ := k2
    have a1 : flags &&& (item_flags.visible ||| item_flags.opaque_) =
        item_flags.visible ||| item_flags.opaque_ := a1
    have a3 : flags &&& (0 ||| item_flags.translucent) = 0 := a3
    have b1 : flags &&& (item_flags.visible ||| item_flags.translucent) =
        item_flags.visible ||| item_flags.translucent := b1
    have b3 : flags &&& (0 ||| item_flags.opaque_) = 0 := b3
    rw [and_or_eq_iff] at a1 b1
    rw [and_or_eq_zero_iff] at a3 b3
    rcases hblend with h | h
    · exact h (a1.2.symm.trans b3.2)
    · exact h (b1.2.symm.trans a3.2)
  · rintro flags blend1 blend2 ⟨h1, h2⟩
    have k1 := ((hsel_set _ flags).1 h1).2
    have k2 := ((hsel_clear _ flags).1 h2).2
    exact hselected_ne (k1.symm.trans k2)
  · intro flags filter _ hbase
    rcases and_two_pow_cases flags k with h | h
    · left
      rw [← hselected] at h
      refine ⟨(hsel_set filter flags).2 ⟨hbase, h⟩, ?_⟩
      rw [← Bool.not_eq_true, hsel_clear]
      rintro ⟨_, h0⟩
      exact hselected_ne (h.symm.trans h0)
    · right
      rw [← hselected] at h
      refine ⟨?_, (hsel_clear filter flags).2 ⟨hbase, h⟩⟩
      rw [← Bool.not_eq_true, hsel_set]
      rintro ⟨_, h0⟩
      exact hselected_ne (h0.symm.trans h)

/-- Witness for C28: the flag bits `visible = 1`, `content = 2`, `controller = 4`, `tool = 8`,
`opaque = 16`, `translucent = 32`, `selected = 64`; the flags value `19` of a visible opaque
content mesh that is not selected is admitted by the opaque pass for meshes that are not
selected, and by neither the translucent nor the selected pass. -/
theorem editor_rendering_apply_filter_disjoint_witness :
    (render_content_applied_filter sample.item_flags Blend_mode.opaque_
      Selection_mode.not_selected).passes 19 = true ∧
    ¬ ((render_content_applied_filter sample.item_flags Blend_mode.opaque_
          Selection_mode.not_selected).passes 19 = true ∧
        (render_content_applied_filter sample.item_flags Blend_mode.translucent
          Selection_mode.any).passes 19 = true) :=
  ⟨by decide,
    (editor_rendering_apply_filter_disjoint sample.item_flags 6 (by decide) (by decide)).2.2.1
      19 Selection_mode.not_selected Selection_mode.any⟩

end editor
